import Mathlib

/-!
# RsRf: volumetric grid engine

A shallow embedding of the map/mask store of `RsRf.cc` and of the functions
`ReadMap`, `WriteMap`, `ReadMsk`, `MaskOut`, `Zero`, `Cut`, `MapMod`, `MapAdd`,
`MapMult`, `FindParms`, `FindRMS`, `Scale`, `Rfac`, `MaxMs`, `MinMs`, `Flip`,
`MskCopy`, `Smear`, `Rough`, `Shape`, `distance`, `Int` and the coordinate
conversions `C2C_X`, `C2C_x`, `C2C_Y`, `C2C_y`, `C2C_Z`, `C2C_z`.

Conventions of the embedding:

* a `float` is a rational number and an `int`/`long`/`char` is an integer. The
  functions are embedded with exact arithmetic; `FindParms`, `FindRMS`, the
  weight table of `Smear`, `Rough` and `C2C_x`, `C2C_y`, `C2C_z`, `C2C_Y` are
  embedded a second time with every floating-point operation rounded
  (`FindParmsF`, ..., rounding to `binary32` and `binary64`, ties to even);
* the global arrays `MAP`, `MSK`, `MAP_H`, `map_max`, ... are total functions
  of their integer index, so an access outside the allocated block is not an
  error of the model;
* the triple loop `for countz / for county / for countx` is a left fold over
  `gridLoop`, the list of the loop's coordinates in execution order;
* a file is its parsed content: a complete header record followed by the
  stream of voxel values, which may end early; its layout in bytes is the
  sequence of the items that the `fwrite` calls emit, which the `fread` calls
  take by file position (`freadHeader`, `ReadMap.raw`, `ReadMsk.raw`); the
  program closes no stream, and `onDisk` is what a file holds of the items
  written while the program runs;
* the library functions `sqrt`, `sin`, `cos` and `tan` are parameters of the
  functions that call them, and a theorem names the properties it uses;
* the header counts are the 4-byte integers that `fread` stores in the `long`
  fields of `map_header`.
-/

namespace RsRf

/-! ## Data model -/

/-- The record `struct map_header`. The arrays `CELL`, `REST`, `LAB` and `SYM`
are functions of the array index. -/
structure map_header where
  NC : Int
  NR : Int
  NS : Int
  MODE : Int
  NCSTART : Int
  NRSTART : Int
  NSSTART : Int
  NX : Int
  NY : Int
  NZ : Int
  CELL : Nat → ℚ
  MAPC : Int
  MAPR : Int
  MAPS : Int
  AMIN : ℚ
  AMAX : ℚ
  AMEAN : ℚ
  ISPG : Int
  NSY : Int
  REST : Nat → ℚ
  LAB : Nat → Int
  SYM : Nat → Int

/-- The global `LAB_LEN`. -/
def LAB_LEN : Nat := 800

/-- The zone argument of the zone-restricted functions, as `zone_find`
produces it: `0` for OUT, `1` for IN, `2` for TOTAL. (Any other integer would
leave `zone2` uninitialised; `zone_find` returns no other.) -/
inductive Zone where
  | Outside : Zone
  | Inside : Zone
  | Total : Zone
  deriving DecidableEq, Repr

/-- The integer `zone` that `zone_find` returns for a zone. -/
def Zone.code : Zone → Int
  | Zone.Outside => 0
  | Zone.Inside => 1
  | Zone.Total => 2

/-- The local `zone2`: `if (zone == 0) zone2 = 1; if (zone == 1) zone2 = 0;
if (zone == 2) zone2 = 2;`. -/
def zone2 (zone : Zone) : Int :=
  if zone.code = 0 then 1 else if zone.code = 1 then 0 else 2

/-- The global variables of the program that the grid engine uses. -/
structure State where
  MAP_H : Int → map_header
  MAP : Int → ℚ
  MSK : Int → Int
  Z_LIM : Int
  Y_LIM : Int
  X_LIM : Int
  XY_LIM : Int
  XYZ_LIM : Int
  Z_CELL : Int
  Y_CELL : Int
  X_CELL : Int
  XYZ_CELL : Int
  Z_GRID : ℚ
  Y_GRID : ℚ
  X_GRID : ℚ
  cel_vol : ℚ
  map_vol : ℚ
  vox_vol : ℚ
  map_max : Int → Int → ℚ
  map_min : Int → Int → ℚ
  map_avg : Int → Int → ℚ
  map_tot : Int → Int → ℚ
  map_num : Int → Int → Int
  map_var : Int → Int → ℚ
  map_rms : Int → Int → ℚ
  map_mem : Int
  msk_mem : Int

/-- The values `1, 2, ..., n` of a loop `for (i = 1; i <= n; i ++)`. -/
def loopRange (n : Int) : List Int :=
  List.map (fun (k : Nat) => (k : Int) + 1) (List.range n.toNat)

/-- The coordinates `(countx, county, countz)` visited by
`for countz in 1..Z / for county in 1..Y / for countx in 1..X`, in order. -/
def gridLoop (X Y Z : Int) : List (Int × Int × Int) :=
  (loopRange Z).flatMap (fun countz =>
    (loopRange Y).flatMap (fun county =>
      (loopRange X).map (fun countx => (countx, county, countz))))

/-- The loop coordinates of a state. -/
def State.grid (st : State) : List (Int × Int × Int) :=
  gridLoop st.X_LIM st.Y_LIM st.Z_LIM

/-- The offset of a voxel within its slot:
`(countx - 1) + (county - 1) * X_LIM + (countz - 1) * XY_LIM`. -/
def State.LOC (st : State) (c : Int × Int × Int) : Int :=
  (c.1 - 1) + (c.2.1 - 1) * st.X_LIM + (c.2.2 - 1) * st.XY_LIM

/-- The test `(zone2 != 2) && (MSK[LOC + (msk1 * XYZ_LIM)] == zone2)` under
which a zone-restricted loop skips a voxel. -/
def State.skip (st : State) (zone : Zone) (msk1 : Int) (c : Int × Int × Int) : Bool :=
  (zone2 zone != 2) && (st.MSK (st.LOC c + msk1 * st.XYZ_LIM) == zone2 zone)

/-! ## Zone arithmetic -/

/-- The function `Zero`: returns `total` and the new state. -/
def Zero (st : State) (map1 : Int) (zone : Zone) (msk1 : Int) : Int × State :=
  let r := st.grid.foldl
    (fun (acc : (Int → ℚ) × Int) c =>
      if st.skip zone msk1 c then acc
      else (Function.update acc.1 (st.LOC c + st.XYZ_LIM * map1) 0, acc.2 + 1))
    (st.MAP, 0)
  (r.2, { st with MAP := r.1 })

/-- The function `Cut`: returns `total` and the new state. -/
def Cut (st : State) (map1 : Int) (zone : Zone) (msk1 : Int) (min max : ℚ) : Int × State :=
  let r := st.grid.foldl
    (fun (acc : (Int → ℚ) × Int) c =>
      if st.skip zone msk1 c then acc
      else
        let a1 : (Int → ℚ) × Int :=
          if acc.1 (st.LOC c + st.XYZ_LIM * map1) < min then
            (Function.update acc.1 (st.LOC c + st.XYZ_LIM * map1) min, acc.2 + 1)
          else acc
        if a1.1 (st.LOC c + st.XYZ_LIM * map1) > max then
          (Function.update a1.1 (st.LOC c + st.XYZ_LIM * map1) max, a1.2 + 1)
        else a1)
    (st.MAP, 0)
  (r.2, { st with MAP := r.1 })

/-- The function `MapMod`. -/
def MapMod (st : State) (map1 map2 : Int) (zone : Zone) (msk1 : Int) (value : ℚ) : State :=
  let r := st.grid.foldl
    (fun (m : Int → ℚ) c =>
      if st.skip zone msk1 c then m
      else Function.update m (st.LOC c + st.XYZ_LIM * map1)
        (m (st.LOC c + st.XYZ_LIM * map1) + value * m (st.LOC c + st.XYZ_LIM * map2)))
    st.MAP
  { st with MAP := r }

/-! ## Statistics -/

/-- Assignment `a[i][j] = v` to a two-dimensional global array. -/
def set2 {α : Type} (a : Int → Int → α) (i j : Int) (v : α) : Int → Int → α :=
  Function.update a i (Function.update (a i) j v)

/-- The four cells `map_max[map1][zone]`, `map_min[map1][zone]`,
`map_tot[map1][zone]` and `map_num[map1][zone]` that the loop of `FindParms`
updates. -/
structure Parms where
  max : ℚ
  min : ℚ
  tot : ℚ
  num : Int

/-- One iteration of the loop of `FindParms` on a voxel that is not skipped,
with `val = MAP[LOC1]`. -/
def Parms.step (p : Parms) (val : ℚ) : Parms :=
  { max := if val > p.max then val else p.max
    min := if val < p.min then val else p.min
    tot := p.tot + val
    num := p.num + 1 }

/-- The loop of `FindParms`, started from `max = -1000`, `min = +1000`,
`tot = 0`, `num = 0`. -/
def FindParms.loop (st : State) (map1 : Int) (zone : Zone) (msk1 : Int) : Parms :=
  st.grid.foldl
    (fun (p : Parms) c =>
      if st.skip zone msk1 c then p
      else p.step (st.MAP (st.LOC c + map1 * st.XYZ_LIM)))
    { max := -1000, min := 1000, tot := 0, num := 0 }

/-- The function `FindParms`: returns `map_avg[map1][zone]` and the new state.
The quotient by a zero count is the rational `x / 0 = 0`; the program computes
a floating-point `0.0 / 0.0` there. -/
def FindParms (st : State) (map1 : Int) (zone : Zone) (msk1 : Int) : ℚ × State :=
  let p := FindParms.loop st map1 zone msk1
  let avg : ℚ := p.tot / ((p.num : ℚ) * 1)
  let tot : ℚ := p.tot * st.map_vol / ((st.XYZ_LIM : ℚ) * 1)
  let st1 : State :=
    { st with
      map_max := set2 st.map_max map1 zone.code p.max
      map_min := set2 st.map_min map1 zone.code p.min
      map_avg := set2 st.map_avg map1 zone.code avg
      map_tot := set2 st.map_tot map1 zone.code tot
      map_num := set2 st.map_num map1 zone.code p.num }
  let h0 : map_header := st1.MAP_H map1
  let h1 : map_header := { h0 with AMAX := p.max, AMIN := p.min, AMEAN := avg }
  let st2 : State :=
    if zone2 zone = 2 then { st1 with MAP_H := Function.update st1.MAP_H map1 h1 }
    else st1
  (avg, st2)

/-! ## Binary codec -/

/-- A map file as `ReadMap` parses it: the header fields, of which `CELL`
holds 6 values, `REST` 32 values, `LAB` `LAB_LEN` bytes and `SYM` `NSY` bytes,
followed by the voxel values of the payload (the file may end early). -/
structure MapFile where
  hdr : map_header
  data : List ℚ

/-- The header part of `ReadMap`: the `fread` calls into `MAP_H[map1]`. An
array field keeps its old content beyond the number of items read. -/
def readHeader (old : map_header) (f : map_header) : map_header :=
  { NC := f.NC
    NR := f.NR
    NS := f.NS
    MODE := f.MODE
    NCSTART := f.NCSTART
    NRSTART := f.NRSTART
    NSSTART := f.NSSTART
    NX := f.NX
    NY := f.NY
    NZ := f.NZ
    CELL := fun i => if i < 6 then f.CELL i else old.CELL i
    MAPC := f.MAPC
    MAPR := f.MAPR
    MAPS := f.MAPS
    AMIN := f.AMIN
    AMAX := f.AMAX
    AMEAN := f.AMEAN
    ISPG := f.ISPG
    NSY := f.NSY
    REST := fun i => if i < 32 then f.REST i else old.REST i
    LAB := fun i => if i < LAB_LEN then f.LAB i else old.LAB i
    SYM := fun i => if (i : Int) < f.NSY then f.SYM i else old.SYM i }

/-- The `LOAD MAP` loop of `ReadMap`: one `fread` of a voxel per coordinate,
into `MAP[LOC + map1 * XYZ_LIM]`; at the end of the file `fread` stores
nothing. -/
def loadLoop (st : State) (map1 : Int) (data : List ℚ) : (Int → ℚ) × List ℚ :=
  st.grid.foldl
    (fun (acc : (Int → ℚ) × List ℚ) c =>
      match acc.2 with
      | [] => acc
      | v :: rest => (Function.update acc.1 (st.LOC c + map1 * st.XYZ_LIM) v, rest))
    (st.MAP, data)

/-- The function `ReadMap`: returns its result code and the new state.
`file = none` is a file that cannot be opened. `cell_volume` stands for the
function of that name (a product of sines under a square root). With
`mem != 0` the store is allocated and zero-filled; the allocation succeeds, so
the result code 3 does not occur. The header is read into `MAP_H[map1]` first,
whatever the outcome of the size check that follows. -/
def ReadMap (cell_volume : ℚ → ℚ → ℚ → ℚ → ℚ → ℚ → ℚ) (st : State)
    (file : Option MapFile) (map1 : Int) (mem : Int) : Int × State :=
  match file with
  | none => (1, st)
  | some f =>
    let st1 : State :=
      { st with MAP_H := Function.update st.MAP_H map1 (readHeader (st.MAP_H map1) f.hdr) }
    let h := st1.MAP_H map1
    if mem ≠ 0 then
      let X_CELL := h.NX
      let Y_CELL := h.NY
      let Z_CELL := h.NZ
      let XYZ_LIM := h.NC * h.NR * h.NS
      let XYZ_CELL := X_CELL * Y_CELL * Z_CELL
      let frac_vol : ℚ := ((XYZ_LIM : ℚ) * 1) / ((XYZ_CELL : ℚ) * 1)
      let cel_vol := cell_volume (h.CELL 0) (h.CELL 1) (h.CELL 2) (h.CELL 3) (h.CELL 4) (h.CELL 5)
      let st2 : State :=
        { st1 with
          X_LIM := h.NC
          Y_LIM := h.NR
          Z_LIM := h.NS
          XY_LIM := h.NC * h.NR
          XYZ_LIM := XYZ_LIM
          X_CELL := X_CELL
          Y_CELL := Y_CELL
          Z_CELL := Z_CELL
          XYZ_CELL := XYZ_CELL
          X_GRID := h.CELL 0 / X_CELL
          Y_GRID := h.CELL 1 / Y_CELL
          Z_GRID := h.CELL 2 / Z_CELL
          MAP := fun _ => 0
          cel_vol := cel_vol
          map_vol := cel_vol * frac_vol
          vox_vol := cel_vol / XYZ_CELL }
      (0, { st2 with MAP := (loadLoop st2 map1 f.data).1 })
    else if st1.X_LIM ≠ h.NC ∨ st1.Y_LIM ≠ h.NR ∨ st1.Z_LIM ≠ h.NS then
      (2, st1)
    else
      (0, { st1 with MAP := (loadLoop st1 map1 f.data).1 })

/-- The header that `WriteMap` emits: the fields of `MAP_H[0]`, with 6 values
of `CELL`, 32 of `REST`, `LAB_LEN` bytes of `LAB` and `NSY` bytes of `SYM`. -/
def writeHeader (h : map_header) : map_header :=
  { h with
    CELL := fun i => if i < 6 then h.CELL i else 0
    REST := fun i => if i < 32 then h.REST i else 0
    LAB := fun i => if i < LAB_LEN then h.LAB i else 0
    SYM := fun i => if (i : Int) < h.NSY then h.SYM i else 0 }

/-- The function `WriteMap`: returns its result code and what it passes to
`fwrite`, a header and the voxel values. `canOpen = false` is a file that
cannot be opened for writing. The function returns without `fclose` or
`fflush` (the program calls neither anywhere), so that the file holds all
that was written only once the program has exited; what it holds while the
program runs is `onDisk` of the items. -/
def WriteMap (st : State) (canOpen : Bool) (map1 : Int) : Int × Option MapFile :=
  if canOpen then
    (0, some
      { hdr := writeHeader (st.MAP_H 0)
        data := st.grid.map (fun c => st.MAP (st.LOC c + map1 * st.XYZ_LIM)) })
  else (-1, none)

/-! ## Statistics: FindRMS and Scale -/

/-- The loop of `FindRMS`: the sum over the voxels that are not skipped of
`(MAP[LOC1] - map_avg[map1][zone]) * (MAP[LOC1] - map_avg[map1][zone])`. -/
def FindRMS.loop (st : State) (map1 : Int) (zone : Zone) (msk1 : Int) : ℚ :=
  st.grid.foldl
    (fun (sum : ℚ) c =>
      if st.skip zone msk1 c then sum
      else sum + (st.MAP (st.LOC c + map1 * st.XYZ_LIM) - st.map_avg map1 zone.code) *
        (st.MAP (st.LOC c + map1 * st.XYZ_LIM) - st.map_avg map1 zone.code))
    0

/-- The function `FindRMS`: returns `map_rms[map1][zone]` and the new state.
`sqrt` stands for the library function of that name. The mean and the count
are the cells `map_avg[map1][zone]` and `map_num[map1][zone]` as the state
holds them; the quotient by a zero count is the rational `x / 0 = 0`. -/
def FindRMS (sqrt : ℚ → ℚ) (st : State) (map1 : Int) (zone : Zone) (msk1 : Int) : ℚ × State :=
  let sum := FindRMS.loop st map1 zone msk1
  let var : ℚ := sum / (st.map_num map1 zone.code : ℚ)
  let rms : ℚ := sqrt var
  let st1 : State :=
    { st with
      map_var := set2 st.map_var map1 zone.code var
      map_rms := set2 st.map_rms map1 zone.code rms }
  let h0 : map_header := st1.MAP_H map1
  let h1 : map_header := { h0 with REST := Function.update h0.REST 30 rms }
  let st2 : State :=
    if zone2 zone = 2 then { st1 with MAP_H := Function.update st1.MAP_H map1 h1 }
    else st1
  (rms, st2)

/-- The function `Scale`: returns `scale` and the new state. The two calls of
`FindParms` come first; the loop multiplies every voxel of `map1`. -/
def Scale (st : State) (map1 map2 : Int) (zone : Zone) (msk1 : Int) : ℚ × State :=
  let st1 := (FindParms st map1 zone msk1).2
  let st2 := (FindParms st1 map2 zone msk1).2
  let scale : ℚ := st2.map_avg map2 zone.code / st2.map_avg map1 zone.code
  let r := st2.grid.foldl
    (fun (m : Int → ℚ) c =>
      Function.update m (st2.LOC c + map1 * st2.XYZ_LIM)
        (m (st2.LOC c + map1 * st2.XYZ_LIM) * scale))
    st2.MAP
  (scale, { st2 with MAP := r })

/-- The function `MapAdd`. -/
def MapAdd (st : State) (map1 : Int) (zone : Zone) (msk1 : Int) (value : ℚ) : State :=
  let r := st.grid.foldl
    (fun (m : Int → ℚ) c =>
      if st.skip zone msk1 c then m
      else Function.update m (st.LOC c + map1 * st.XYZ_LIM)
        (m (st.LOC c + map1 * st.XYZ_LIM) + value))
    st.MAP
  { st with MAP := r }

/-- The function `MapMult`. -/
def MapMult (st : State) (map1 : Int) (zone : Zone) (msk1 : Int) (value : ℚ) : State :=
  let r := st.grid.foldl
    (fun (m : Int → ℚ) c =>
      if st.skip zone msk1 c then m
      else Function.update m (st.LOC c + map1 * st.XYZ_LIM)
        (m (st.LOC c + map1 * st.XYZ_LIM) * value))
    st.MAP
  { st with MAP := r }

/-! ## Mask algebra -/

/-- The function `MaxMs`. A mask byte is true when it is not 0. -/
def MaxMs (st : State) (msk1 msk2 msk3 : Int) : State :=
  let r := st.grid.foldl
    (fun (m : Int → Int) c =>
      if m (st.LOC c + st.XYZ_LIM * msk2) ≠ 0 ∨ m (st.LOC c + st.XYZ_LIM * msk3) ≠ 0 then
        Function.update m (st.LOC c + st.XYZ_LIM * msk1) 1
      else Function.update m (st.LOC c + st.XYZ_LIM * msk1) 0)
    st.MSK
  { st with MSK := r }

/-- The function `MinMs`. -/
def MinMs (st : State) (msk1 msk2 msk3 : Int) : State :=
  let r := st.grid.foldl
    (fun (m : Int → Int) c =>
      if m (st.LOC c + st.XYZ_LIM * msk2) = 0 ∨ m (st.LOC c + st.XYZ_LIM * msk3) = 0 then
        Function.update m (st.LOC c + st.XYZ_LIM * msk1) 0
      else Function.update m (st.LOC c + st.XYZ_LIM * msk1) 1)
    st.MSK
  { st with MSK := r }

/-- The function `Flip`. -/
def Flip (st : State) (msk1 msk2 : Int) : State :=
  let r := st.grid.foldl
    (fun (m : Int → Int) c =>
      if m (st.LOC c + st.XYZ_LIM * msk2) ≠ 0 then
        Function.update m (st.LOC c + st.XYZ_LIM * msk1) 0
      else Function.update m (st.LOC c + st.XYZ_LIM * msk1) 1)
    st.MSK
  { st with MSK := r }

/-- The function `MskCopy`: copies mask `msk1` into mask `msk2`. -/
def MskCopy (st : State) (msk1 msk2 : Int) : State :=
  let r := st.grid.foldl
    (fun (m : Int → Int) c =>
      Function.update m (st.LOC c + st.XYZ_LIM * msk2) (m (st.LOC c + st.XYZ_LIM * msk1)))
    st.MSK
  { st with MSK := r }

/-! ## Convolution smoother -/

/-- The values `lo, lo + 1, ..., hi - 1` of a loop
`for (i = lo; i < hi; i ++)`. -/
def intRange (lo hi : Int) : List Int :=
  List.map (fun (k : Nat) => lo + (k : Int)) (List.range (hi - lo).toNat)

/-- The normalising constant `X` of `Smear`: the sum of `x2` for
`1 <= x2 < N`, times 2, plus `N`. -/
def Smear.norm (N : Int) : ℚ :=
  ((intRange 1 N).foldl (fun (X : ℚ) x2 => X + (x2 : ℚ)) 0) * 2 + (N : ℚ)

/-- The table `mod` of `Smear`: `mod[x2] = (N - x2) / X` for `0 <= x2 < N`. An
entry the loop does not set reads as 0. The table of the source has 20
entries; for `N > 20` the loop of the source writes past it, which this
function does not model. -/
def Smear.mod (N : Int) (d : Int) : ℚ :=
  if 0 ≤ d ∧ d < N then ((N - d : Int) : ℚ) / Smear.norm N else 0

/-- The wrap of a neighbour coordinate in `Smear`:
`if (x3a < 0) x3 = x3a + X_LIM; else if (x3a > X_LIM) x3 = x3a - X_LIM;
else x3 = x3a;`. -/
def Smear.wrap (x3a LIM : Int) : Int :=
  if x3a < 0 then x3a + LIM else if x3a > LIM then x3a - LIM else x3a

/-- The `SMOOTHING MAP IN X DIRECTION` loop of `Smear`. The index `dx` is
`Abs(x2 - x3a) + .01` truncated to an integer, that is `|x2 - x3a|`. -/
def Smear.passX (st : State) (map2 map3 N : Int) : State :=
  let r := st.grid.foldl
    (fun (m : Int → ℚ) c =>
      let LOC2 := (c.1 - 1) + (c.2.1 - 1) * st.X_LIM + (c.2.2 - 1) * st.XY_LIM +
        st.XYZ_LIM * map2
      let den := m LOC2
      (intRange (c.1 - N + 1) (c.1 + N)).foldl
        (fun (m : Int → ℚ) x3a =>
          let dx : Int := ((c.1 - x3a).natAbs : Int)
          let x3 := Smear.wrap x3a st.X_LIM
          let LOC3 := (x3 - 1) + (c.2.1 - 1) * st.X_LIM + (c.2.2 - 1) * st.XY_LIM +
            st.XYZ_LIM * map3
          Function.update m LOC3 (m LOC3 + den * Smear.mod N dx))
        m)
    st.MAP
  { st with MAP := r }

/-- The `SMOOTHING MAP IN Y DIRECTION` loop of `Smear`. -/
def Smear.passY (st : State) (map2 map3 N : Int) : State :=
  let r := st.grid.foldl
    (fun (m : Int → ℚ) c =>
      let LOC2 := (c.1 - 1) + (c.2.1 - 1) * st.X_LIM + (c.2.2 - 1) * st.XY_LIM +
        st.XYZ_LIM * map2
      let den := m LOC2
      (intRange (c.2.1 - N + 1) (c.2.1 + N)).foldl
        (fun (m : Int → ℚ) y3a =>
          let dy : Int := ((c.2.1 - y3a).natAbs : Int)
          let y3 := Smear.wrap y3a st.Y_LIM
          let LOC3 := (c.1 - 1) + (y3 - 1) * st.X_LIM + (c.2.2 - 1) * st.XY_LIM +
            st.XYZ_LIM * map3
          Function.update m LOC3 (m LOC3 + den * Smear.mod N dy))
        m)
    st.MAP
  { st with MAP := r }

/-- The `SMOOTHING MAP IN Z DIRECTION` loop of `Smear`. -/
def Smear.passZ (st : State) (map2 map3 N : Int) : State :=
  let r := st.grid.foldl
    (fun (m : Int → ℚ) c =>
      let LOC2 := (c.1 - 1) + (c.2.1 - 1) * st.X_LIM + (c.2.2 - 1) * st.XY_LIM +
        st.XYZ_LIM * map2
      let den := m LOC2
      (intRange (c.2.2 - N + 1) (c.2.2 + N)).foldl
        (fun (m : Int → ℚ) z3a =>
          let dz : Int := ((c.2.2 - z3a).natAbs : Int)
          let z3 := Smear.wrap z3a st.Z_LIM
          let LOC3 := (c.1 - 1) + (c.2.1 - 1) * st.X_LIM + (z3 - 1) * st.XY_LIM +
            st.XYZ_LIM * map3
          Function.update m LOC3 (m LOC3 + den * Smear.mod N dz))
        m)
    st.MAP
  { st with MAP := r }

/-- The function `Smear`: the calls `Zero(map2, 2, 0)`,
`MapMod(map2, map1 or map3, 2, 0, +1)`, `Zero(map3, 2, 0)` before each pass and
after the last one, and the three passes. -/
def Smear (st : State) (map1 map2 map3 N : Int) : State :=
  let a1 := (Zero st map2 Zone.Total 0).2
  let a2 := MapMod a1 map2 map1 Zone.Total 0 1
  let a3 := (Zero a2 map3 Zone.Total 0).2
  let a4 := Smear.passX a3 map2 map3 N
  let b1 := (Zero a4 map2 Zone.Total 0).2
  let b2 := MapMod b1 map2 map3 Zone.Total 0 1
  let b3 := (Zero b2 map3 Zone.Total 0).2
  let b4 := Smear.passY b3 map2 map3 N
  let c1 := (Zero b4 map2 Zone.Total 0).2
  let c2 := MapMod c1 map2 map3 Zone.Total 0 1
  let c3 := (Zero c2 map3 Zone.Total 0).2
  let c4 := Smear.passZ c3 map2 map3 N
  let d1 := (Zero c4 map2 Zone.Total 0).2
  let d2 := MapMod d1 map2 map3 Zone.Total 0 1
  (Zero d2 map3 Zone.Total 0).2

/-! ## Shape fitter -/

/-- The values `lo, lo + 1, ..., hi` of a loop
`for (i = lo; i <= hi; i ++)`. -/
def closedRange (lo hi : Int) : List Int := intRange lo (hi + 1)

/-- The coordinates `(x, y, z)` visited by
`for z in z0..z1 / for y in y0..y1 / for x in x0..x1`, in order. -/
def boxLoop (x0 x1 y0 y1 z0 z1 : Int) : List (Int × Int × Int) :=
  (closedRange z0 z1).flatMap (fun z =>
    (closedRange y0 y1).flatMap (fun y =>
      (closedRange x0 x1).map (fun x => (x, y, z))))

/-- The loop of `Shape` over the block `dx, dy, dz` around the voxel
`c = (x2, y2, z2)`, on the mask store `m`: returns `num`, `low` and `LOC3`,
started from `num = 0`, `low = cur`, `LOC3 = 0`. -/
def Shape.scan (st : State) (m : Int → Int) (msk2 map1 : Int) (c : Int × Int × Int) :
    Int × ℚ × Int :=
  (boxLoop (c.1 - 1) (c.1 + 1) (c.2.1 - 1) (c.2.1 + 1) (c.2.2 - 1) (c.2.2 + 1)).foldl
    (fun (acc : Int × ℚ × Int) d =>
      let LOC2 := (d.1 - 1) + (d.2.1 - 1) * st.X_LIM + (d.2.2 - 1) * st.XY_LIM
      let num := acc.1 + m (LOC2 + st.XYZ_LIM * msk2)
      if acc.2.1 > st.MAP (LOC2 + st.XYZ_LIM * map1) ∧ m (LOC2 + st.XYZ_LIM * msk2) = 0 then
        (num, st.MAP (LOC2 + st.XYZ_LIM * map1), LOC2)
      else (num, acc.2.1, acc.2.2))
    (0, st.MAP ((c.1 - 1) + (c.2.1 - 1) * st.X_LIM + (c.2.2 - 1) * st.XY_LIM +
      st.XYZ_LIM * map1), 0)

/-- One iteration of the loop of `Shape` over the interior voxels, on the mask
store `m`: the block loop, then
`if (num < N2) ConstrNum ++; else if (LOC3 && low < cur - MinDif)
MSK[LOC3 + XYZ_LIM * msk3] = 1`. The counters, which are only printed, are
left out. -/
def Shape.voxel (st : State) (msk2 msk3 map1 : Int) (MinDif : ℚ) (N2 : Int)
    (m : Int → Int) (c : Int × Int × Int) : Int → Int :=
  let r := Shape.scan st m msk2 map1 c
  let cur := st.MAP ((c.1 - 1) + (c.2.1 - 1) * st.X_LIM + (c.2.2 - 1) * st.XY_LIM +
    st.XYZ_LIM * map1)
  if r.1 < N2 then m
  else if r.2.2 ≠ 0 ∧ r.2.1 < cur - MinDif then
    Function.update m (r.2.2 + st.XYZ_LIM * msk3) 1
  else m

/-- One cycle of `Shape`: the loop over the interior voxels
`3 <= x2 <= X_LIM - 2`, `3 <= y2 <= Y_LIM - 2`, `3 <= z2 <= Z_LIM - 2`, then
`MskCopy(msk3, msk2)`. -/
def Shape.cycle (st : State) (msk2 msk3 map1 : Int) (MinDif : ℚ) (N2 : Int) : State :=
  let r := (boxLoop 3 (st.X_LIM - 2) 3 (st.Y_LIM - 2) 3 (st.Z_LIM - 2)).foldl
    (Shape.voxel st msk2 msk3 map1 MinDif N2) st.MSK
  MskCopy { st with MSK := r } msk3 msk2

/-- The function `Shape`: `MskCopy(msk1, msk2)`, `MskCopy(msk1, msk3)`, then
one cycle for each `cycle` with `0 <= cycle <= N1`. -/
def Shape (st : State) (msk1 msk2 msk3 map1 : Int) (MinDif : ℚ) (N1 N2 : Int) : State :=
  let s1 := MskCopy st msk1 msk2
  let s2 := MskCopy s1 msk1 msk3
  (closedRange 0 N1).foldl (fun s _ => Shape.cycle s msk2 msk3 map1 MinDif N2) s2

/-! ## Sphere integration -/

/-- The constant `PI = 3.1415927`. -/
def PI : ℚ := 31415927 / 10000000

/-- The function `Abs`: `sqrt(value * value)`. -/
def Abs (sqrt : ℚ → ℚ) (value : ℚ) : ℚ := sqrt (value * value)

/-- The conversion of a `float` to an `int`, which drops the fraction. -/
def toInt (q : ℚ) : Int := if 0 ≤ q then ⌊q⌋ else ⌈q⌉

/-- The function `distance`. `cos` and `sqrt` stand for the library functions
of these names. The cell lengths and angles are those of `MAP_H[0]`. -/
def distance (cos sqrt : ℚ → ℚ) (st : State) (X Y Z : Int) : ℚ :=
  let x1 : ℚ := ((X : ℚ) * 1) / (st.X_CELL : ℚ)
  let y1 : ℚ := ((Y : ℚ) * 1) / (st.Y_CELL : ℚ)
  let z1 : ℚ := ((Z : ℚ) * 1) / (st.Z_CELL : ℚ)
  let x2 := (st.MAP_H 0).CELL 0
  let y2 := (st.MAP_H 0).CELL 1
  let z2 := (st.MAP_H 0).CELL 2
  let a := (st.MAP_H 0).CELL 3
  let b := (st.MAP_H 0).CELL 4
  let c := (st.MAP_H 0).CELL 5
  let answer : ℚ :=
    x1 * x1 * x2 * x2 +
    y1 * y1 * y2 * y2 +
    z1 * z1 * z2 * z2 +
    x1 * y1 * x2 * y2 * 2 * cos (c * PI / 360) +
    x1 * z1 * x2 * z2 * 2 * cos (b * PI / 360) +
    y1 * z1 * y2 * z2 * 2 * cos (a * PI / 360)
  sqrt answer

/-- The bounds `minX, maxX` (and likewise for Y and Z) of `Int`:
`min = X - (r/X_GRID) - 1; if (min < 1) min = 1;` and
`max = X + (r/X_GRID) + 1; if (max > X_LIM) max = X_LIM;`. -/
def Int.bounds (X : Int) (r GRID : ℚ) (LIM : Int) : Int × Int :=
  let lo := toInt ((X : ℚ) - r / GRID - 1)
  let hi := toInt ((X : ℚ) + r / GRID + 1)
  (if lo < 1 then 1 else lo, if hi > LIM then LIM else hi)

/-- The coordinates that the loops of `Int` visit, in order. -/
def Int.box (st : State) (X Y Z : Int) (r : ℚ) : List (Int × Int × Int) :=
  boxLoop (Int.bounds X r st.X_GRID st.X_LIM).1 (Int.bounds X r st.X_GRID st.X_LIM).2
    (Int.bounds Y r st.Y_GRID st.Y_LIM).1 (Int.bounds Y r st.Y_GRID st.Y_LIM).2
    (Int.bounds Z r st.Z_GRID st.Z_LIM).1 (Int.bounds Z r st.Z_GRID st.Z_LIM).2

/-- The function `Int`, which integrates the density of map `map1` over the
sphere of radius `r` about the grid point `(X, Y, Z)`. The counter `num` is
not used. -/
def Int.sphere (cos sqrt : ℚ → ℚ) (st : State) (X Y Z : Int) (r : ℚ) (map1 : Int) : ℚ :=
  let value := (Int.box st X Y Z r).foldl
    (fun (value : ℚ) c =>
      let LOC := (c.1 - 1) + (c.2.1 - 1) * st.X_LIM + (c.2.2 - 1) * st.XY_LIM
      let dX := toInt (Abs sqrt ((X - c.1 : Int) : ℚ))
      let dY := toInt (Abs sqrt ((Y - c.2.1 : Int) : ℚ))
      let dZ := toInt (Abs sqrt ((Z - c.2.2 : Int) : ℚ))
      if distance cos sqrt st dX dY dZ > r then value
      else value + st.MAP (LOC + map1 * st.XYZ_LIM))
    0
  value * st.vox_vol

/-! ## R factor -/

/-- The loop of `Rfac`: the sum over the voxels that are not skipped of
`sqrt (num * num)` with `num = MAP[LOC + map1 * XYZ_LIM] - MAP[LOC + map2 * XYZ_LIM]`. -/
def Rfac.loop (sqrt : ℚ → ℚ) (st : State) (map1 map2 : Int) (zone : Zone) (msk1 : Int) : ℚ :=
  st.grid.foldl
    (fun (value : ℚ) c =>
      if st.skip zone msk1 c then value
      else value + sqrt ((st.MAP (st.LOC c + map1 * st.XYZ_LIM) -
          st.MAP (st.LOC c + map2 * st.XYZ_LIM)) *
        (st.MAP (st.LOC c + map1 * st.XYZ_LIM) - st.MAP (st.LOC c + map2 * st.XYZ_LIM))))
    0

/-- The state after the calls `FindParms(map1)`, `FindParms(map2)`,
`FindRMS(map1)`, `FindRMS(map2)` that the report of `Rfac` makes, in this
order. -/
def Rfac.report (sqrt : ℚ → ℚ) (st : State) (map1 map2 : Int) (zone : Zone) (msk1 : Int) :
    State :=
  let s1 := (FindParms st map1 zone msk1).2
  let s2 := (FindParms s1 map2 zone msk1).2
  let s3 := (FindRMS sqrt s2 map1 zone msk1).2
  (FindRMS sqrt s3 map2 zone msk1).2

/-- The function `Rfac`: returns the R factor of the chosen `type` and the new
state. After the loop come the calls of the report and the `switch` on
`type`. -/
def Rfac (sqrt : ℚ → ℚ) (st : State) (map1 map2 : Int) (zone : Zone) (msk1 : Int)
    (type : Int) : ℚ × State :=
  let value := Rfac.loop sqrt st map1 map2 zone msk1
  let s4 := Rfac.report sqrt st map1 map2 zone msk1
  let num : ℚ := (s4.map_num map1 zone.code : ℚ)
  let r : ℚ :=
    if type = 1 then (value / num) / s4.map_avg map1 zone.code
    else if type = 2 then (value / num) / s4.map_avg map2 zone.code
    else if type = 3 then
      (value / num) / ((s4.map_avg map1 zone.code + s4.map_avg map2 zone.code) / 2)
    else if type = 4 then (value / num) / s4.map_rms map1 zone.code
    else if type = 5 then (value / num) / s4.map_rms map2 zone.code
    else if type = 6 then
      (value / num) / ((s4.map_rms map1 zone.code + s4.map_rms map2 zone.code) / 2)
    else value / num
  (r, s4)

/-! ## Coordinate conversion -/

/-- The value `G` of the functions `C2C_*`. -/
def C2C.G (cos sqrt : ℚ → ℚ) (a b c : ℚ) : ℚ :=
  sqrt (1 - cos a * cos a - cos b * cos b - cos c * cos c + 2 * cos a * cos b * cos c)

/-- The value `P` of the functions `C2C_*`. -/
def C2C.P (cos sqrt : ℚ → ℚ) (a : ℚ) : ℚ := 1 / sqrt (1 + 2 * cos a)

/-- The value `Q` of the functions `C2C_*`. -/
def C2C.Q (cos sqrt : ℚ → ℚ) (a : ℚ) : ℚ := 1 / sqrt (1 - 1 * cos a)

/-- The function `C2C_X` before the conversion of its result to `int`:
`value * X_CELL`. `sin`, `cos`, `tan` and `sqrt` stand for the library
functions. -/
def C2C_X.value (sin cos tan sqrt : ℚ → ℚ) (st : State) (type : Int)
    (X1 Y1 Z1 A _B _C a b c : ℚ) : ℚ :=
  let G := C2C.G cos sqrt a b c
  let P := C2C.P cos sqrt a
  let Q := C2C.Q cos sqrt a
  let value : ℚ :=
    if type = 0 then X1 * sin a / (A * G)
    else if type = 1 then
      X1 / A - Y1 / (A * tan c) + Z1 * (cos a * cos c - cos b) / (A * G * sin c)
    else (X1 * (1 / P + 2 / Q) + Y1 * (1 / P - 1 / Q) + Z1 * (1 / P - 1 / Q)) / (3 * A)
  value * (st.X_CELL : ℚ)

/-- The function `C2C_X`. -/
def C2C_X (sin cos tan sqrt : ℚ → ℚ) (st : State) (type : Int)
    (X1 Y1 Z1 A B C a b c : ℚ) : Int :=
  toInt (C2C_X.value sin cos tan sqrt st type X1 Y1 Z1 A B C a b c)

/-- The function `C2C_x`. -/
def C2C_x (sin cos sqrt : ℚ → ℚ) (type : Int) (x1 y1 z1 A B C a b c : ℚ) : ℚ :=
  let G := C2C.G cos sqrt a b c
  let P := C2C.P cos sqrt a
  let Q := C2C.Q cos sqrt a
  if type = 0 then x1 * A * G / sin a
  else if type = 1 then x1 * A + y1 * B * cos c + z1 * C * cos b
  else (x1 * (1 * P + 2 * Q) + y1 * (1 * P - 1 * Q) + z1 * (1 * P - 1 * Q)) * (A / 3)

/-- The function `C2C_Y` before the conversion of its result to `int`:
`value * Y_CELL`. -/
def C2C_Y.value (sin cos sqrt : ℚ → ℚ) (st : State) (type : Int)
    (X1 Y1 Z1 A B _C a b c : ℚ) : ℚ :=
  let G := C2C.G cos sqrt a b c
  let P := C2C.P cos sqrt a
  let Q := C2C.Q cos sqrt a
  let value : ℚ :=
    if type = 0 then
      X1 * (cos a * cos b - cos c) / (B * G * sin a) + Y1 / (B * sin a)
    else if type = 1 then
      Y1 / (B * sin c) + Z1 * (cos b * cos c - cos a) / (B * G * sin c)
    else (X1 * (1 / P - 1 / Q) + Y1 * (1 / P + 2 / Q) + Z1 * (1 / P - 1 / Q)) / (3 * A)
  value * (st.Y_CELL : ℚ)

/-- The function `C2C_Y`. -/
def C2C_Y (sin cos sqrt : ℚ → ℚ) (st : State) (type : Int)
    (X1 Y1 Z1 A B C a b c : ℚ) : Int :=
  toInt (C2C_Y.value sin cos sqrt st type X1 Y1 Z1 A B C a b c)

/-- The function `C2C_y`. -/
def C2C_y (sin cos sqrt : ℚ → ℚ) (type : Int) (x1 y1 z1 A B C a b c : ℚ) : ℚ :=
  let P := C2C.P cos sqrt a
  let Q := C2C.Q cos sqrt a
  if type = 0 then x1 * A * (cos c - cos a * cos b) / sin a + y1 * B * sin a
  else if type = 1 then y1 * B * sin c + z1 * C * (cos a - cos b * cos c) / sin c
  else (x1 * (1 * P - 1 * Q) + y1 * (1 * P + 2 * Q) + z1 * (1 * P - 1 * Q)) * (A / 3)

/-- The function `C2C_Z` before the conversion of its result to `int`:
`value * Z_CELL`. -/
def C2C_Z.value (sin cos tan sqrt : ℚ → ℚ) (st : State) (type : Int)
    (X1 Y1 Z1 A _B C a b c : ℚ) : ℚ :=
  let G := C2C.G cos sqrt a b c
  let P := C2C.P cos sqrt a
  let Q := C2C.Q cos sqrt a
  let value : ℚ :=
    if type = 0 then
      X1 * (cos a * cos c - cos b) / (C * G * sin a) - Y1 / (C * tan a) + Z1 / C
    else if type = 1 then Z1 * sin c / (C * G)
    else (X1 * (1 / P - 1 / Q) + Y1 * (1 / P - 1 / Q) + Z1 * (1 / P + 2 / Q)) / (3 * A)
  value * (st.Z_CELL : ℚ)

/-- The function `C2C_Z`. -/
def C2C_Z (sin cos tan sqrt : ℚ → ℚ) (st : State) (type : Int)
    (X1 Y1 Z1 A B C a b c : ℚ) : Int :=
  toInt (C2C_Z.value sin cos tan sqrt st type X1 Y1 Z1 A B C a b c)

/-- The function `C2C_z`. Its last branch reads `z1` where `x1` is meant. -/
def C2C_z (sin cos sqrt : ℚ → ℚ) (type : Int) (x1 y1 z1 A B C a b c : ℚ) : ℚ :=
  let G := C2C.G cos sqrt a b c
  let P := C2C.P cos sqrt a
  let Q := C2C.Q cos sqrt a
  if type = 0 then x1 * A * cos b + y1 * B * cos a + z1 * C
  else if type = 1 then z1 * C * G / sin c
  else (z1 * (1 * P - 1 * Q) + y1 * (1 * P - 1 * Q) + z1 * (1 * P + 2 * Q)) * (A / 3)

/-! ## Mask files -/

/-- A mask file as `ReadMsk` parses it: the header fields followed by the
bytes of the payload (the file may end early). -/
structure MskFile where
  hdr : map_header
  data : List Int

/-- The variables of the `LOAD MASK` loop of `ReadMsk`: the mask store, the
rest of the file, the local `ch`, and the counters `sum` and `tot`. -/
structure MskAcc where
  MSK : Int → Int
  data : List Int
  ch : Int
  sum : Int
  tot : Int

/-- One turn of the `LOAD MASK` loop of `ReadMsk`: `fread(&ch, ...)`, which
stores nothing at the end of the file, then `MSK[...] = ch`, `sum = sum + ch`
and `tot ++`. -/
def ReadMsk.step (st : State) (msk1 : Int) (acc : MskAcc) (c : Int × Int × Int) : MskAcc :=
  let ch := match acc.data with
    | [] => acc.ch
    | v :: _ => v
  { MSK := Function.update acc.MSK (st.LOC c + msk1 * st.XYZ_LIM) ch
    data := acc.data.tail
    ch := ch
    sum := acc.sum + ch
    tot := acc.tot + 1 }

/-- The function `ReadMsk`: returns `frac`, or `-1` on failure, and the new
state. `file = none` is a file that cannot be opened; `ch0` is the value that
the uninitialised local `ch` holds. With `mem != 0` the mask store is
allocated and zero-filled (the allocation succeeds). The header is read into
`MAP_H[map_mem + msk1]` first, whatever the outcome of the size check. -/
def ReadMsk (st : State) (file : Option MskFile) (msk1 : Int) (mem : Int) (ch0 : Int) :
    ℚ × State :=
  match file with
  | none => (-1, st)
  | some f =>
    let i := st.map_mem + msk1
    let st1 : State :=
      { st with MAP_H := Function.update st.MAP_H i (readHeader (st.MAP_H i) f.hdr) }
    let h := st1.MAP_H i
    if st1.X_LIM ≠ h.NC ∨ st1.Y_LIM ≠ h.NR ∨ st1.Z_LIM ≠ h.NS then
      (-1, st1)
    else
      let st2 : State := if mem ≠ 0 then { st1 with MSK := fun _ => 0 } else st1
      let r := st2.grid.foldl (ReadMsk.step st2 msk1)
        { MSK := st2.MSK, data := f.data, ch := ch0, sum := 0, tot := 0 }
      let frac : ℚ := ((r.sum : ℚ) * 1) / ((r.tot : ℚ) * 1)
      (frac, { st2 with MSK := r.MSK })

/-- The function `MaskOut`: returns `frac` and what it passes to `fwrite`, the
header of `MAP_H[map_mem + 0]` and the mask values. `canOpen = false` is a
file that cannot be opened for writing. As `WriteMap`, the function returns
without `fclose` or `fflush`, and the file holds all that was written only
once the program has exited. -/
def MaskOut (st : State) (canOpen : Bool) (msk1 : Int) : ℚ × Option MskFile :=
  if canOpen then
    let r := st.grid.foldl
      (fun (acc : List Int × Int × Int) c =>
        let ch := st.MSK (st.LOC c + msk1 * st.XYZ_LIM)
        (acc.1 ++ [ch], acc.2.1 + ch, acc.2.2 + 1))
      ([], 0, 0)
    let frac : ℚ := ((r.2.1 : ℚ) * 1) / ((r.2.2 : ℚ) * 1)
    (frac, some { hdr := writeHeader (st.MAP_H (st.map_mem + 0)), data := r.1 })
  else (-1, none)

/-! ## File layout -/

/-- An item of a file: a 4-byte integer, a 4-byte `float` or a byte, as one
`fwrite` or `fread` of `sizeof(int)`, `sizeof(float)` or `sizeof(char)`
transfers it. -/
inductive Item where
  | word (v : Int) : Item
  | real (v : ℚ) : Item
  | byte (v : Int) : Item

/-- The number of bytes of an item: `sizeof(int) = sizeof(float) = 4` and
`sizeof(char) = 1`. -/
def Item.size : Item → Nat
  | Item.word _ => 4
  | Item.real _ => 4
  | Item.byte _ => 1

/-- The number of bytes of a sequence of items. -/
def fileBytes (l : List Item) : Nat := (l.map Item.size).sum

/-- The items of a header in the order of the `fwrite` calls of `WriteMap` and
`MaskOut`: `NC, NR, NS, MODE, NCSTART, NRSTART, NSSTART, NX, NY, NZ`, 6 values
of `CELL`, `MAPC, MAPR, MAPS, AMIN, AMAX, AMEAN, ISPG, NSY`, 32 values of
`REST`, `LAB_LEN` bytes of `LAB` and `NSY` bytes of `SYM`. -/
def headerItems (h : map_header) : List Item :=
  [Item.word h.NC, Item.word h.NR, Item.word h.NS, Item.word h.MODE, Item.word h.NCSTART,
    Item.word h.NRSTART, Item.word h.NSSTART, Item.word h.NX, Item.word h.NY, Item.word h.NZ] ++
  (List.range 6).map (fun i => Item.real (h.CELL i)) ++
  [Item.word h.MAPC, Item.word h.MAPR, Item.word h.MAPS, Item.real h.AMIN, Item.real h.AMAX,
    Item.real h.AMEAN, Item.word h.ISPG, Item.word h.NSY] ++
  (List.range 32).map (fun i => Item.real (h.REST i)) ++
  (List.range LAB_LEN).map (fun i => Item.byte (h.LAB i)) ++
  (List.range h.NSY.toNat).map (fun i => Item.byte (h.SYM i))

/-- The items of a map file in the order in which `WriteMap` writes them: the
header, then one `float` per voxel. -/
def MapFile.items (f : MapFile) : List Item := headerItems f.hdr ++ f.data.map Item.real

/-- The items of a mask file in the order in which `MaskOut` writes them: the
header, then one byte per voxel. -/
def MskFile.items (f : MskFile) : List Item := headerItems f.hdr ++ f.data.map Item.byte

/-- The item that starts at the byte offset `off` of a sequence of items, if
one starts there. -/
def itemAt : List Item → Nat → Option Item
  | [], _ => none
  | i :: _, 0 => some i
  | i :: l, off + 1 => if i.size ≤ off + 1 then itemAt l (off + 1 - i.size) else none

/-- One `fread` of an `int` at the file position `pos` of the file `s`, into
a variable that holds `old`: the value the variable holds afterwards and the
new file position. At the end of the file nothing is stored. `none` stands
for a file that has an item of another kind there, which is outside the
model. -/
def freadWord (s : List Item) (old : Int) (pos : Nat) : Option (Int × Nat) :=
  match itemAt s pos with
  | none => some (old, pos)
  | some (Item.word v) => some (v, pos + 4)
  | some _ => none

/-- One `fread` of 4 bytes into a `float` variable, as `freadWord`. -/
def freadReal (s : List Item) (old : ℚ) (pos : Nat) : Option (ℚ × Nat) :=
  match itemAt s pos with
  | none => some (old, pos)
  | some (Item.real v) => some (v, pos + 4)
  | some _ => none

/-- One `fread` of `n` items of `sizeof(float)` into the entries `k, k + 1,
...` of an array: the array and the file position afterwards. The entries
beyond the end of the file keep their content. -/
def freadReals (s : List Item) : Nat → Nat → (Nat → ℚ) → Nat → Option ((Nat → ℚ) × Nat)
  | 0, _, a, pos => some (a, pos)
  | n + 1, k, a, pos =>
    match itemAt s pos with
    | none => some (a, pos)
    | some (Item.real v) => freadReals s n (k + 1) (Function.update a k v) (pos + 4)
    | some _ => none

/-- One `fread` of `n` items of `sizeof(char)` into the entries `k, k + 1,
...` of an array, as `freadReals`. -/
def freadBytes (s : List Item) : Nat → Nat → (Nat → Int) → Nat → Option ((Nat → Int) × Nat)
  | 0, _, a, pos => some (a, pos)
  | n + 1, k, a, pos =>
    match itemAt s pos with
    | none => some (a, pos)
    | some (Item.byte v) => freadBytes s n (k + 1) (Function.update a k v) (pos + 1)
    | some _ => none

/-- The `fread` calls of the header part of `ReadMap` and `ReadMsk` on the
file `s`, from the file position 0, each into its field of the header
`MAP_H[...]`, which holds `old` before: the header and the file position
afterwards. The count of the last call is the field `NSY` as the call before
left it (a negative one is not modelled and reads nothing). -/
def freadHeader (old : map_header) (s : List Item) : Option (map_header × Nat) :=
  (some (old, 0) : Option (map_header × Nat))
    |>.bind (fun (r : map_header × Nat) =>
      (freadWord s r.1.NC r.2).map (fun (x : Int × Nat) => ({ r.1 with NC := x.1 }, x.2)))
    |>.bind (fun (r : map_header × Nat) =>
      (freadWord s r.1.NR r.2).map (fun (x : Int × Nat) => ({ r.1 with NR := x.1 }, x.2)))
    |>.bind (fun (r : map_header × Nat) =>
      (freadWord s r.1.NS r.2).map (fun (x : Int × Nat) => ({ r.1 with NS := x.1 }, x.2)))
    |>.bind (fun (r : map_header × Nat) =>
      (freadWord s r.1.MODE r.2).map (fun (x : Int × Nat) => ({ r.1 with MODE := x.1 }, x.2)))
    |>.bind (fun (r : map_header × Nat) =>
      (freadWord s r.1.NCSTART r.2).map (fun (x : Int × Nat) => ({ r.1 with NCSTART := x.1 }, x.2)))
    |>.bind (fun (r : map_header × Nat) =>
      (freadWord s r.1.NRSTART r.2).map (fun (x : Int × Nat) => ({ r.1 with NRSTART := x.1 }, x.2)))
    |>.bind (fun (r : map_header × Nat) =>
      (freadWord s r.1.NSSTART r.2).map (fun (x : Int × Nat) => ({ r.1 with NSSTART := x.1 }, x.2)))
    |>.bind (fun (r : map_header × Nat) =>
      (freadWord s r.1.NX r.2).map (fun (x : Int × Nat) => ({ r.1 with NX := x.1 }, x.2)))
    |>.bind (fun (r : map_header × Nat) =>
      (freadWord s r.1.NY r.2).map (fun (x : Int × Nat) => ({ r.1 with NY := x.1 }, x.2)))
    |>.bind (fun (r : map_header × Nat) =>
      (freadWord s r.1.NZ r.2).map (fun (x : Int × Nat) => ({ r.1 with NZ := x.1 }, x.2)))
    |>.bind (fun (r : map_header × Nat) =>
      (freadReals s 6 0 r.1.CELL r.2).map (fun (x : (Nat → ℚ) × Nat) => ({ r.1 with CELL := x.1 }, x.2)))
    |>.bind (fun (r : map_header × Nat) =>
      (freadWord s r.1.MAPC r.2).map (fun (x : Int × Nat) => ({ r.1 with MAPC := x.1 }, x.2)))
    |>.bind (fun (r : map_header × Nat) =>
      (freadWord s r.1.MAPR r.2).map (fun (x : Int × Nat) => ({ r.1 with MAPR := x.1 }, x.2)))
    |>.bind (fun (r : map_header × Nat) =>
      (freadWord s r.1.MAPS r.2).map (fun (x : Int × Nat) => ({ r.1 with MAPS := x.1 }, x.2)))
    |>.bind (fun (r : map_header × Nat) =>
      (freadReal s r.1.AMIN r.2).map (fun (x : ℚ × Nat) => ({ r.1 with AMIN := x.1 }, x.2)))
    |>.bind (fun (r : map_header × Nat) =>
      (freadReal s r.1.AMAX r.2).map (fun (x : ℚ × Nat) => ({ r.1 with AMAX := x.1 }, x.2)))
    |>.bind (fun (r : map_header × Nat) =>
      (freadReal s r.1.AMEAN r.2).map (fun (x : ℚ × Nat) => ({ r.1 with AMEAN := x.1 }, x.2)))
    |>.bind (fun (r : map_header × Nat) =>
      (freadWord s r.1.ISPG r.2).map (fun (x : Int × Nat) => ({ r.1 with ISPG := x.1 }, x.2)))
    |>.bind (fun (r : map_header × Nat) =>
      (freadWord s r.1.NSY r.2).map (fun (x : Int × Nat) => ({ r.1 with NSY := x.1 }, x.2)))
    |>.bind (fun (r : map_header × Nat) =>
      (freadReals s 32 0 r.1.REST r.2).map (fun (x : (Nat → ℚ) × Nat) => ({ r.1 with REST := x.1 }, x.2)))
    |>.bind (fun (r : map_header × Nat) =>
      (freadBytes s LAB_LEN 0 r.1.LAB r.2).map (fun (x : (Nat → Int) × Nat) => ({ r.1 with LAB := x.1 }, x.2)))
    |>.bind (fun (r : map_header × Nat) =>
      (freadBytes s r.1.NSY.toNat 0 r.1.SYM r.2).map (fun (x : (Nat → Int) × Nat) => ({ r.1 with SYM := x.1 }, x.2)))

/-- The values that successive `fread` calls of one `float` find from the
file position `pos` on, up to the end of the file, at most `fuel` of them. -/
def freadVoxels (s : List Item) : Nat → Nat → Option (List ℚ)
  | 0, _ => some []
  | fuel + 1, pos =>
    match itemAt s pos with
    | none => some []
    | some (Item.real v) => (freadVoxels s fuel (pos + 4)).map (fun l => v :: l)
    | some _ => none

/-- The values that successive `fread` calls of one byte find from the file
position `pos` on, up to the end of the file, at most `fuel` of them. -/
def freadMask (s : List Item) : Nat → Nat → Option (List Int)
  | 0, _ => some []
  | fuel + 1, pos =>
    match itemAt s pos with
    | none => some []
    | some (Item.byte v) => (freadMask s fuel (pos + 1)).map (fun l => v :: l)
    | some _ => none

/-- What the `fread` calls of `ReadMap` find in the file `s` when the header
holds `old`: the header, then the voxel values from the position that follows
the header. -/
def ReadMap.parse (old : map_header) (s : List Item) : Option MapFile :=
  (freadHeader old s).bind (fun r =>
    (freadVoxels s s.length r.2).map (fun d => { hdr := r.1, data := d }))

/-- What the `fread` calls of `ReadMsk` find in the file `s` when the header
holds `old`. -/
def ReadMsk.parse (old : map_header) (s : List Item) : Option MskFile :=
  (freadHeader old s).bind (fun r =>
    (freadMask s s.length r.2).map (fun d => { hdr := r.1, data := d }))

/-- The function `ReadMap` on a file given by its items; `file = none` is a
file that cannot be opened. The result is `none` for a file outside the model
(see `freadWord`). -/
def ReadMap.raw (cell_volume : ℚ → ℚ → ℚ → ℚ → ℚ → ℚ → ℚ) (st : State)
    (file : Option (List Item)) (map1 : Int) (mem : Int) : Option (Int × State) :=
  match file with
  | none => some (ReadMap cell_volume st none map1 mem)
  | some s =>
    (ReadMap.parse (st.MAP_H map1) s).map (fun f => ReadMap cell_volume st (some f) map1 mem)

/-- The function `ReadMsk` on a file given by its items, as `ReadMap.raw`. -/
def ReadMsk.raw (st : State) (file : Option (List Item)) (msk1 : Int) (mem : Int)
    (ch0 : Int) : Option (ℚ × State) :=
  match file with
  | none => some (ReadMsk st none msk1 mem ch0)
  | some s =>
    (ReadMsk.parse (st.MAP_H (st.map_mem + msk1)) s).map
      (fun f => ReadMsk st (some f) msk1 mem ch0)

/-- The longest run of whole items at the start of a sequence that fits into
`n` bytes. -/
def takeBytes : Nat → List Item → List Item
  | _, [] => []
  | n, i :: l => if i.size ≤ n then i :: takeBytes (n - i.size) l else []

/-- What a file holds of the items passed to `fwrite` while its stream is
open. The C library collects the bytes in a buffer of `buf` bytes and passes
a block on to the file when a byte arrives that no longer fits; `WriteMap`
and `MaskOut` return without `fclose` or `fflush`, and the program calls
neither anywhere, so the last block, complete or not, is passed on only when
the program exits. An item that the end of the blocks cuts counts as not
held. -/
def onDisk (buf : Nat) (l : List Item) : List Item :=
  takeBytes (buf * ((fileBytes l - 1) / buf)) l

/-! ## Roughness -/

/-- The wrap of `Rough`:
`if (x1a < 1) x1a = x1a + X_LIM; else if (x1a > X_LIM) x1a = x1a - X_LIM;`. -/
def Rough.wrap (x1a LIM : Int) : Int :=
  if x1a < 1 then x1a + LIM else if x1a > LIM then x1a - LIM else x1a

/-- The coordinates `(x1, y1, z1)` visited by the neighbourhood loops of
`Rough` around the voxel `c = (x2, y2, z2)`:
`for x1 in x2-N..x2+N-1 / for y1 in y2-N..y2+N-1 / for z1 in z2-N..z2+N-1`, in
order. -/
def Rough.loop (c : Int × Int × Int) (N : Int) : List (Int × Int × Int) :=
  (intRange (c.1 - N) (c.1 + N)).flatMap (fun x1 =>
    (intRange (c.2.1 - N) (c.2.1 + N)).flatMap (fun y1 =>
      (intRange (c.2.2 - N) (c.2.2 + N)).map (fun z1 => (x1, y1, z1))))

/-- The test `del > N` of `Rough` at the point `p` of the neighbourhood of `c`,
with `del = sqrt(dx*dx + dy*dy + dz*dz)`: the point is skipped when it holds. -/
def Rough.far (sqrt : ℚ → ℚ) (N : Int) (c p : Int × Int × Int) : Bool :=
  let dx := c.1 - p.1
  let dy := c.2.1 - p.2.1
  let dz := c.2.2 - p.2.2
  decide (sqrt (((dx * dx + dy * dy + dz * dz : Int) : ℚ)) > (N : ℚ))

/-- The index `LOC1` that `Rough` reads for the point `p` of a neighbourhood:
the wrapped coordinates in map slot `map1`. -/
def Rough.LOC1 (st : State) (map1 : Int) (p : Int × Int × Int) : Int :=
  let x1a := Rough.wrap p.1 st.X_LIM
  let y1a := Rough.wrap p.2.1 st.Y_LIM
  let z1a := Rough.wrap p.2.2 st.Z_LIM
  (x1a - 1) + (y1a - 1) * st.X_LIM + (z1a - 1) * st.XY_LIM + st.XYZ_LIM * map1

/-- The neighbourhood loops of `Rough` around the voxel `c` on the map store
`m`: returns the sample buffer `val` (in the order filled), the sum `avg` and
the count `num`, started from `num = 0`, `avg = 0`. -/
def Rough.collect (sqrt : ℚ → ℚ) (st : State) (m : Int → ℚ) (map1 N : Int)
    (c : Int × Int × Int) : List ℚ × ℚ × Int :=
  (Rough.loop c N).foldl
    (fun (acc : List ℚ × ℚ × Int) p =>
      if Rough.far sqrt N c p then acc
      else (acc.1 ++ [m (Rough.LOC1 st map1 p)], acc.2.1 + m (Rough.LOC1 st map1 p),
        acc.2.2 + 1))
    ([], 0, 0)

/-- One iteration of the loop of `Rough` over the grid, on the map store `m`:
the neighbourhood loops, `avg = avg / num`, the sum `rms` of
`pow(val[x1] - avg, 2.0)` over the buffer, then `MAP[LOC2] = sqrt(rms)`. -/
def Rough.voxel (sqrt : ℚ → ℚ) (st : State) (map1 map2 N : Int) (m : Int → ℚ)
    (c : Int × Int × Int) : Int → ℚ :=
  let LOC2 := (c.1 - 1) + (c.2.1 - 1) * st.X_LIM + (c.2.2 - 1) * st.XY_LIM +
    st.XYZ_LIM * map2
  let r := Rough.collect sqrt st m map1 N c
  let avg := r.2.1 / (r.2.2 : ℚ)
  let rms := r.1.foldl (fun (rms : ℚ) v => rms + (v - avg) ^ 2) 0
  Function.update m LOC2 (sqrt rms)

/-- The function `Rough`: `if (N > 10) N = 10;`, then the loop over the grid.
The extreme values `min_rough` and `max_rough`, which are only printed, are
left out. -/
def Rough (sqrt : ℚ → ℚ) (st : State) (map1 map2 N : Int) : State :=
  let N := if N > 10 then 10 else N
  { st with MAP := st.grid.foldl (Rough.voxel sqrt st map1 map2 N) st.MAP }

/-! ## Binary floating-point arithmetic -/

/-- The number of halvings that bring `n` below 2, at most `fuel` of them:
with `fuel >= n` the position of the leading bit of `n`. -/
def log2Fuel : Nat → Nat → Nat
  | 0, _ => 0
  | fuel + 1, n => if n < 2 then 0 else log2Fuel fuel (n / 2) + 1

/-- The power `2 ^ k` for an integer `k`. -/
def pow2 (k : Int) : ℚ :=
  if 0 ≤ k then ((2 ^ k.toNat : Nat) : ℚ) else 1 / ((2 ^ (-k).toNat : Nat) : ℚ)

/-- The exponent `e` with `2 ^ e <= a < 2 ^ (e + 1)` of a positive rational
`a`. -/
def ilog2 (a : ℚ) : Int :=
  let e0 : Int := (log2Fuel a.num.toNat a.num.toNat : Int) - (log2Fuel a.den a.den : Int)
  if pow2 e0 ≤ a then e0 else e0 - 1

/-- The integer nearest to a non-negative rational, a tie going to the even
one. -/
def roundEven (x : ℚ) : Int :=
  let f : Int := x.num / (x.den : Int)
  let r : ℚ := x - (f : ℚ)
  if r < 1 / 2 then f else if 1 / 2 < r then f + 1 else if f % 2 = 0 then f else f + 1

/-- Rounding to nearest, ties to even, into the binary floating-point format
with `p` significant bits and least normal exponent `emin`, subnormal numbers
included. The overflow to infinity above the largest finite number is not
modelled. -/
def fround (p : Nat) (emin : Int) (x : ℚ) : ℚ :=
  if x = 0 then 0
  else
    let a : ℚ := if x < 0 then -x else x
    let e : Int := if ilog2 a < emin then emin else ilog2 a
    let q : ℚ := pow2 (e - ((p : Int) - 1))
    let m : Int := roundEven (a / q)
    if x < 0 then -((m : ℚ) * q) else (m : ℚ) * q

/-- The rounding of an operation on the type `float` (IEEE binary32). -/
def binary32 (x : ℚ) : ℚ := fround 24 (-126) x

/-- The rounding of an operation on the type `double` (IEEE binary64). -/
def binary64 (x : ℚ) : ℚ := fround 53 (-1022) x

/-- The integer square root of `n`, built from the bit `b - 1` down to the bit
0 on top of `r`. -/
def isqrtBits (n : Nat) : Nat → Nat → Nat
  | 0, r => r
  | b + 1, r => isqrtBits n b (if (r + 2 ^ b) * (r + 2 ^ b) ≤ n then r + 2 ^ b else r)

/-- The integer square root of `n`: the largest `r` with `r * r <= n`. -/
def isqrt (n : Nat) : Nat := isqrtBits n (log2Fuel n n / 2 + 1) 0

/-- The correctly rounded square root in the format with `p` significant bits
and least normal exponent `emin`: the root of `x * 4 ^ k` is taken to an
integer `s` of more than `p + 1` bits, and `s`, or `s + 1/2` when the root is
not that integer, is rounded. The root of a negative number, a NaN, is not
modelled and reads as 0. -/
def fsqrt (p : Nat) (emin : Int) (x : ℚ) : ℚ :=
  if x ≤ 0 then 0
  else
    let k : Int := (p : Int) + 2 - ilog2 x / 2
    let y : ℚ := x * pow2 (2 * k)
    let n : Nat := (y.num / (y.den : Int)).toNat
    let s : Nat := isqrt n
    let r : ℚ := if ((s * s : Nat) : ℚ) = y then (s : ℚ) else (s : ℚ) + 1 / 2
    fround p emin (r / pow2 k)

/-- The function `sqrt` on a `float` argument: the correctly rounded binary32
root. -/
def sqrt32 (x : ℚ) : ℚ := fsqrt 24 (-126) x

/-- The function `sqrt` on an `int` or `double` argument, its `double` result
being assigned to a `float`. -/
def sqrt64to32 (x : ℚ) : ℚ := binary32 (fsqrt 53 (-1022) x)

/-! ## The floating-point operations of the source, rounded

The definitions of this section repeat functions of the sections above with
every floating-point operation followed by its rounding: `r32` rounds an
operation carried out on `float` operands, `r64` one carried out on `double`
operands (an operand that is a `double` constant such as `1.0` or `2.0` makes
the operation a `double` one), and the assignment of a `double` to a `float`
rounds with `r32`. The conversion of a `float` to a `double` changes no
value. With `r32 = binary32` and `r64 = binary64` they compute what the
program computes; with no rounding they are the functions above. -/

/-- One iteration of the loop of `FindParms` on a voxel that is not skipped,
the addition `map_tot + val` being rounded. -/
def Parms.stepF (r32 : ℚ → ℚ) (p : Parms) (val : ℚ) : Parms :=
  { max := if val > p.max then val else p.max
    min := if val < p.min then val else p.min
    tot := r32 (p.tot + val)
    num := p.num + 1 }

/-- The loop of `FindParms` with rounding. -/
def FindParms.loopF (r32 : ℚ → ℚ) (st : State) (map1 : Int) (zone : Zone) (msk1 : Int) :
    Parms :=
  st.grid.foldl
    (fun (p : Parms) c =>
      if st.skip zone msk1 c then p
      else p.stepF r32 (st.MAP (st.LOC c + map1 * st.XYZ_LIM)))
    { max := -1000, min := 1000, tot := 0, num := 0 }

/-- The function `FindParms` with rounding. `map_tot / (map_num * 1.0)` and
`map_tot * map_vol / (XYZ_LIM * 1.0)` divide in `double` and are assigned to a
`float`; `map_tot * map_vol` is a `float` product. The quotient by a zero
count, a NaN of the program, is the rational `x / 0 = 0`. -/
def FindParmsF (r32 r64 : ℚ → ℚ) (st : State) (map1 : Int) (zone : Zone) (msk1 : Int) :
    ℚ × State :=
  let p := FindParms.loopF r32 st map1 zone msk1
  let avg : ℚ := r32 (r64 (p.tot / r64 ((p.num : ℚ) * 1)))
  let tot : ℚ := r32 (r64 (r32 (p.tot * st.map_vol) / r64 ((st.XYZ_LIM : ℚ) * 1)))
  let st1 : State :=
    { st with
      map_max := set2 st.map_max map1 zone.code p.max
      map_min := set2 st.map_min map1 zone.code p.min
      map_avg := set2 st.map_avg map1 zone.code avg
      map_tot := set2 st.map_tot map1 zone.code tot
      map_num := set2 st.map_num map1 zone.code p.num }
  let h0 : map_header := st1.MAP_H map1
  let h1 : map_header := { h0 with AMAX := p.max, AMIN := p.min, AMEAN := avg }
  let st2 : State :=
    if zone2 zone = 2 then { st1 with MAP_H := Function.update st1.MAP_H map1 h1 }
    else st1
  (avg, st2)

/-- The loop of `FindRMS` with rounding: the two differences, their product
and the addition to `sum` are `float` operations. -/
def FindRMS.loopF (r32 : ℚ → ℚ) (st : State) (map1 : Int) (zone : Zone) (msk1 : Int) : ℚ :=
  st.grid.foldl
    (fun (sum : ℚ) c =>
      if st.skip zone msk1 c then sum
      else r32 (sum +
        r32 (r32 (st.MAP (st.LOC c + map1 * st.XYZ_LIM) - st.map_avg map1 zone.code) *
          r32 (st.MAP (st.LOC c + map1 * st.XYZ_LIM) - st.map_avg map1 zone.code))))
    0

/-- The function `FindRMS` with rounding: `sum / map_num` is a `float`
division by the count converted to `float`, and `sqrt` is the function of that
name on a `float`. -/
def FindRMSF (r32 sqrt : ℚ → ℚ) (st : State) (map1 : Int) (zone : Zone) (msk1 : Int) :
    ℚ × State :=
  let sum := FindRMS.loopF r32 st map1 zone msk1
  let var : ℚ := r32 (sum / r32 (st.map_num map1 zone.code : ℚ))
  let rms : ℚ := sqrt var
  let st1 : State :=
    { st with
      map_var := set2 st.map_var map1 zone.code var
      map_rms := set2 st.map_rms map1 zone.code rms }
  let h0 : map_header := st1.MAP_H map1
  let h1 : map_header := { h0 with REST := Function.update h0.REST 30 rms }
  let st2 : State :=
    if zone2 zone = 2 then { st1 with MAP_H := Function.update st1.MAP_H map1 h1 }
    else st1
  (rms, st2)

/-- The normalising constant `X` of `Smear` with rounding: `X = X + x2` for
`1 <= x2 < N`, `X = X * 2`, `X = X + N`, on the `float` `X`. -/
def Smear.normF (r32 : ℚ → ℚ) (N : Int) : ℚ :=
  r32 (r32 ((intRange 1 N).foldl (fun (X : ℚ) (x2 : Int) => r32 (X + r32 (x2 : ℚ))) 0 * 2) +
    r32 (N : ℚ))

/-- The table `mod` of `Smear` with rounding: `mod[x2] = (N - x2) / X`, a
`float` division. The table of the source has 20 entries, so that the radius
has to be at most 20. -/
def Smear.modF (r32 : ℚ → ℚ) (N : Int) (d : Int) : ℚ :=
  if 0 ≤ d ∧ d < N then r32 (r32 ((N - d : Int) : ℚ) / Smear.normF r32 N) else 0

/-- The neighbourhood loops of `Rough` with rounding: `avg = avg + val[num]`
is a `float` addition. `sqrtd` stands for `sqrt` on the `int` argument of the
distance test, whose `double` result is assigned to the `float` `del`. -/
def Rough.collectF (r32 sqrtd : ℚ → ℚ) (st : State) (m : Int → ℚ) (map1 N : Int)
    (c : Int × Int × Int) : List ℚ × ℚ × Int :=
  (Rough.loop c N).foldl
    (fun (acc : List ℚ × ℚ × Int) p =>
      if Rough.far sqrtd N c p then acc
      else (acc.1 ++ [m (Rough.LOC1 st map1 p)], r32 (acc.2.1 + m (Rough.LOC1 st map1 p)),
        acc.2.2 + 1))
    ([], 0, 0)

/-- The sum `rms` of `Rough` before its root is taken, with rounding:
`avg = avg / num` is a `float` division by the count converted to `float`;
`val[x1] - avg` is a `float` difference; `pow(..., 2.0)` and the addition to
`rms` are `double` operations, and the sum is assigned to the `float` `rms`. -/
def Rough.sumF (r32 r64 sqrtd : ℚ → ℚ) (st : State) (m : Int → ℚ) (map1 N : Int)
    (c : Int × Int × Int) : ℚ :=
  let r := Rough.collectF r32 sqrtd st m map1 N c
  let avg := r32 (r.2.1 / r32 (r.2.2 : ℚ))
  r.1.foldl (fun (rms : ℚ) v => r32 (r64 (rms + r64 (r32 (v - avg) ^ 2)))) 0

/-- One iteration of the loop of `Rough` over the grid with rounding; `sqrt`
stands for `sqrt` on the `float` `rms`. -/
def Rough.voxelF (r32 r64 sqrtd sqrt : ℚ → ℚ) (st : State) (map1 map2 N : Int)
    (m : Int → ℚ) (c : Int × Int × Int) : Int → ℚ :=
  let LOC2 := (c.1 - 1) + (c.2.1 - 1) * st.X_LIM + (c.2.2 - 1) * st.XY_LIM +
    st.XYZ_LIM * map2
  Function.update m LOC2 (sqrt (Rough.sumF r32 r64 sqrtd st m map1 N c))

/-- The function `Rough` with rounding. -/
def RoughF (r32 r64 sqrtd sqrt : ℚ → ℚ) (st : State) (map1 map2 N : Int) : State :=
  let N := if N > 10 then 10 else N
  { st with MAP := st.grid.foldl (Rough.voxelF r32 r64 sqrtd sqrt st map1 map2 N) st.MAP }

/-- The value `G` of the functions `C2C_*` with rounding; all its operations
are `float` operations, `cos` and `sqrt` being the functions on a `float`. -/
def C2C.GF (r32 cos sqrt : ℚ → ℚ) (a b c : ℚ) : ℚ :=
  sqrt (r32 (r32 (r32 (r32 (1 - r32 (cos a * cos a)) - r32 (cos b * cos b)) -
    r32 (cos c * cos c)) + r32 (r32 (r32 (2 * cos a) * cos b) * cos c)))

/-- The value `P` of the functions `C2C_*` with rounding. -/
def C2C.PF (r32 cos sqrt : ℚ → ℚ) (a : ℚ) : ℚ := r32 (1 / sqrt (r32 (1 + r32 (2 * cos a))))

/-- The value `Q` of the functions `C2C_*` with rounding. -/
def C2C.QF (r32 cos sqrt : ℚ → ℚ) (a : ℚ) : ℚ := r32 (1 / sqrt (r32 (1 - r32 (1 * cos a))))

/-- The function `C2C_x` with rounding. -/
def C2C_xF (r32 sin cos sqrt : ℚ → ℚ) (type : Int) (x1 y1 z1 A B C a b c : ℚ) : ℚ :=
  let G := C2C.GF r32 cos sqrt a b c
  let P := C2C.PF r32 cos sqrt a
  let Q := C2C.QF r32 cos sqrt a
  if type = 0 then r32 (r32 (r32 (x1 * A) * G) / sin a)
  else if type = 1 then
    r32 (r32 (r32 (x1 * A) + r32 (r32 (y1 * B) * cos c)) + r32 (r32 (z1 * C) * cos b))
  else
    r32 (r32 (r32 (r32 (x1 * r32 (r32 (1 * P) + r32 (2 * Q))) +
        r32 (y1 * r32 (r32 (1 * P) - r32 (1 * Q)))) +
      r32 (z1 * r32 (r32 (1 * P) - r32 (1 * Q)))) * r32 (A / 3))

/-- The function `C2C_y` with rounding. -/
def C2C_yF (r32 sin cos sqrt : ℚ → ℚ) (type : Int) (x1 y1 z1 A B C a b c : ℚ) : ℚ :=
  let P := C2C.PF r32 cos sqrt a
  let Q := C2C.QF r32 cos sqrt a
  if type = 0 then
    r32 (r32 (r32 (r32 (x1 * A) * r32 (cos c - r32 (cos a * cos b))) / sin a) +
      r32 (r32 (y1 * B) * sin a))
  else if type = 1 then
    r32 (r32 (r32 (y1 * B) * sin c) +
      r32 (r32 (r32 (z1 * C) * r32 (cos a - r32 (cos b * cos c))) / sin c))
  else
    r32 (r32 (r32 (r32 (x1 * r32 (r32 (1 * P) - r32 (1 * Q))) +
        r32 (y1 * r32 (r32 (1 * P) + r32 (2 * Q)))) +
      r32 (z1 * r32 (r32 (1 * P) - r32 (1 * Q)))) * r32 (A / 3))

/-- The function `C2C_z` with rounding. -/
def C2C_zF (r32 sin cos sqrt : ℚ → ℚ) (type : Int) (x1 y1 z1 A B C a b c : ℚ) : ℚ :=
  let G := C2C.GF r32 cos sqrt a b c
  let P := C2C.PF r32 cos sqrt a
  let Q := C2C.QF r32 cos sqrt a
  if type = 0 then
    r32 (r32 (r32 (r32 (x1 * A) * cos b) + r32 (r32 (y1 * B) * cos a)) + r32 (z1 * C))
  else if type = 1 then r32 (r32 (r32 (z1 * C) * G) / sin c)
  else
    r32 (r32 (r32 (r32 (z1 * r32 (r32 (1 * P) - r32 (1 * Q))) +
        r32 (y1 * r32 (r32 (1 * P) - r32 (1 * Q)))) +
      r32 (z1 * r32 (r32 (1 * P) + r32 (2 * Q)))) * r32 (A / 3))

/-- The function `C2C_Y` with rounding, before the conversion of its result to
`int`: `value * Y_CELL`, the count being converted to `float`. -/
def C2C_Y.valueF (r32 sin cos sqrt : ℚ → ℚ) (st : State) (type : Int)
    (X1 Y1 Z1 A B _C a b c : ℚ) : ℚ :=
  let G := C2C.GF r32 cos sqrt a b c
  let P := C2C.PF r32 cos sqrt a
  let Q := C2C.QF r32 cos sqrt a
  let value : ℚ :=
    if type = 0 then
      r32 (r32 (r32 (X1 * r32 (r32 (cos a * cos b) - cos c)) / r32 (r32 (B * G) * sin a)) +
        r32 (Y1 / r32 (B * sin a)))
    else if type = 1 then
      r32 (r32 (Y1 / r32 (B * sin c)) +
        r32 (r32 (Z1 * r32 (r32 (cos b * cos c) - cos a)) / r32 (r32 (B * G) * sin c)))
    else
      r32 (r32 (r32 (r32 (X1 * r32 (r32 (1 / P) - r32 (1 / Q))) +
          r32 (Y1 * r32 (r32 (1 / P) + r32 (2 / Q)))) +
        r32 (Z1 * r32 (r32 (1 / P) - r32 (1 / Q)))) / r32 (3 * A))
  r32 (value * r32 (st.Y_CELL : ℚ))

/-- The function `C2C_Y` with rounding. -/
def C2C_YF (r32 sin cos sqrt : ℚ → ℚ) (st : State) (type : Int)
    (X1 Y1 Z1 A B C a b c : ℚ) : Int :=
  toInt (C2C_Y.valueF r32 sin cos sqrt st type X1 Y1 Z1 A B C a b c)

/-! ## Loops that update one cell per voxel -/

/-- One iteration of a loop that, unless the voxel is skipped, stores at cell
`idx c` a value computed from the cells `idx c` and `idx2 c`. -/
def updStep {C : Type} (skip : C → Bool) (idx idx2 : C → Int) (g : C → ℚ → ℚ → ℚ)
    (m : Int → ℚ) (c : C) : Int → ℚ :=
  if skip c then m else Function.update m (idx c) (g c (m (idx c)) (m (idx2 c)))

/-- One iteration of such a loop that also advances a counter by an amount
depending on the value found at cell `idx c`. -/
def cntStep {C : Type} (skip : C → Bool) (idx idx2 : C → Int) (g : C → ℚ → ℚ → ℚ)
    (k : C → ℚ → Int) (acc : (Int → ℚ) × Int) (c : C) : (Int → ℚ) × Int :=
  if skip c then acc
  else (Function.update acc.1 (idx c) (g c (acc.1 (idx c)) (acc.1 (idx2 c))),
    acc.2 + k c (acc.1 (idx c)))

/-- One iteration of a loop that stores at cell `idx c` a value computed from
the cells `idx2 c` and `idx3 c`. -/
def wrStep {C α : Type} (idx idx2 idx3 : C → Int) (g : C → α → α → α)
    (m : Int → α) (c : C) : Int → α :=
  Function.update m (idx c) (g c (m (idx2 c)) (m (idx3 c)))

/-! ## Example states -/

/-- A header with the given column, row and section counts, every other field
zero. -/
def exHeader (NC NR NS : Int) : map_header :=
  { NC := NC, NR := NR, NS := NS, MODE := 0, NCSTART := 0, NRSTART := 0, NSSTART := 0,
    NX := NC, NY := NR, NZ := NS, CELL := fun _ => 0, MAPC := 0, MAPR := 0, MAPS := 0,
    AMIN := 0, AMAX := 0, AMEAN := 0, ISPG := 0, NSY := 0, REST := fun _ => 0,
    LAB := fun _ => 0, SYM := fun _ => 0 }

/-- A state with an `X * Y * Z` grid, the given map and mask stores, every
header equal to `exHeader X Y Z` and the statistics as `main` initialises
them. -/
def exState (X Y Z : Int) (MAP : Int → ℚ) (MSK : Int → Int) : State :=
  { MAP_H := fun _ => exHeader X Y Z, MAP := MAP, MSK := MSK,
    Z_LIM := Z, Y_LIM := Y, X_LIM := X, XY_LIM := X * Y, XYZ_LIM := X * Y * Z,
    Z_CELL := Z, Y_CELL := Y, X_CELL := X, XYZ_CELL := X * Y * Z,
    Z_GRID := 1, Y_GRID := 1, X_GRID := 1, cel_vol := 1, map_vol := 1, vox_vol := 1,
    map_max := fun _ _ => -1000, map_min := fun _ _ => 1000, map_avg := fun _ _ => 0,
    map_tot := fun _ _ => 0, map_num := fun _ _ => 0, map_var := fun _ _ => 0,
    map_rms := fun _ _ => 0, map_mem := 3, msk_mem := 1 }

/-- A `2 * 1 * 1` grid whose map store holds `1, 2, 3, ...` (slot 0 holds
`1, 2`, slot 1 holds `3, 4`) and whose mask slot 0 holds `1, 0`. -/
def exA : State := exState 2 1 1 (fun i => i + 1) (fun i => if i = 0 then 1 else 0)

/-- A `1 * 1 * 1` grid whose map store holds the value `v` in every cell. -/
def exOne (v : ℚ) : State := exState 1 1 1 (fun _ => v) (fun _ => 0)

/-- A `4 * 4 * 4` grid whose map store holds 1 in every cell. -/
def exOnes : State := exState 4 4 4 (fun _ => 1) (fun _ => 0)

/-- A stand-in for `cell_volume` in the example runs. -/
def exCellVolume : ℚ → ℚ → ℚ → ℚ → ℚ → ℚ → ℚ := fun _ _ _ _ _ _ => 1

/-- The globals at program start, after the initialisation loop of `main`,
with `map_mem = 3` and `msk_mem = 1`. -/
def exInit : State :=
  { MAP_H := fun _ => exHeader 0 0 0, MAP := fun _ => 0, MSK := fun _ => 0,
    Z_LIM := 0, Y_LIM := 0, X_LIM := 0, XY_LIM := 0, XYZ_LIM := 0,
    Z_CELL := 0, Y_CELL := 0, X_CELL := 0, XYZ_CELL := 0,
    Z_GRID := 0, Y_GRID := 0, X_GRID := 0, cel_vol := 0, map_vol := 0, vox_vol := 0,
    map_max := fun _ _ => -1000, map_min := fun _ _ => 1000, map_avg := fun _ _ => 0,
    map_tot := fun _ _ => 0, map_num := fun _ _ => 0, map_var := fun _ _ => 0,
    map_rms := fun _ _ => 0, map_mem := 3, msk_mem := 1 }

/-- The state after the reference load `ReadMap(argv[1], 0, 1)` of a
`2 * 1 * 1` map holding `1, 2`, followed by `MAPIN 2` of a `2 * 1 * 1` map
holding `3, 4`. -/
def exLoaded : State :=
  (ReadMap exCellVolume
    (ReadMap exCellVolume exInit (some { hdr := exHeader 2 1 1, data := [1, 2] }) 0 1).2
    (some { hdr := exHeader 2 1 1, data := [3, 4] }) 1 0).2

/-- A map file of a `3 * 1 * 1` grid. -/
def exBadFile : MapFile := { hdr := exHeader 3 1 1, data := [7, 8, 9] }

/-- The state `exLoaded` after `MAPIN 1` of the `3 * 1 * 1` file, which
`ReadMap` rejects. -/
def exRejected : State := (ReadMap exCellVolume exLoaded (some exBadFile) 0 0).2

/-- A `2 * 1 * 1` grid whose map store holds `1, 2, 3, ...` and whose mask
slot 0 holds `1, 0` and mask slot 1 holds `0, 1`. -/
def exM : State := exState 2 1 1 (fun i => i + 1) (fun i => if i = 0 ∨ i = 3 then 1 else 0)

/-- The natural number whose square is `n`, or 0 when `n` is not a square. -/
def exRoot (n : Nat) : Nat :=
  ((List.range (n + 1)).find? (fun r => r * r == n)).getD 0

/-- A stand-in for `sqrt` in the example runs: the square root of a rational
whose numerator and denominator are squares, such as 0, 1 or 9/4. -/
def exSqrt (x : ℚ) : ℚ := (exRoot x.num.toNat : ℚ) / (exRoot x.den : ℚ)

/-- The state `exA` after `FindParms` of map slot 0 over zone Total (mean 3/2,
count 2) followed by `Zero` of that slot over zone Total. -/
def exStale : State := (Zero (FindParms exA 0 Zone.Total 0).2 0 Zone.Total 0).2

/-- A `2 * 2 * 2` grid whose map slot 0 holds 1 in every voxel; the other
map slots hold 0. -/
def exUniform : State := exState 2 2 2 (fun i => if 0 ≤ i ∧ i < 8 then 1 else 0) (fun _ => 0)

/-- A `5 * 5 * 5` grid whose mask slot 0 holds only the centre voxel `(3,3,3)`
and whose map slot 0 holds 10 in every voxel but `(2,3,3)`, which holds 1, and
`(4,3,3)`, which holds 2. -/
def exShape : State :=
  exState 5 5 5 (fun i => if i = 61 then 1 else if i = 63 then 2 else 10)
    (fun i => if i = 62 then 1 else 0)

/-- A `5 * 5 * 5` grid whose mask slot 0 holds only the centre voxel `(3,3,3)`
and whose map slot 0 holds 10 for `x <= 3`, 11 for `x = 4` and 12 for `x = 5`,
but 1 at the voxel `(2,3,3)`. -/
def exSeed : State :=
  exState 5 5 5
    (fun i => if i = 61 then 1 else if i % 5 = 3 then 11 else if i % 5 = 4 then 12 else 10)
    (fun i => if i = 62 then 1 else 0)

/-- A `3 * 2 * 1` grid whose map slot 1 holds 1 in the voxel `(1,2,1)` and 0
elsewhere; the other map slots hold 0. -/
def exWrap : State := exState 3 2 1 (fun i => if i = 9 then 1 else 0) (fun _ => 0)

/-- A stand-in for `sqrt` in the example runs: the root of the square of a
rational, and a bound above the root of any other rational. -/
def exSqrtUp (x : ℚ) : ℚ :=
  if Rat.sqrt x * Rat.sqrt x = x then Rat.sqrt x else x + 1

/-- A stand-in for `cos` in the example runs: the polynomial
`1 - t^2/2 + t^4/24`. -/
def exCos (t : ℚ) : ℚ := 1 - t * t / 2 + t * t * t * t / 24

/-- A `3 * 3 * 3` grid of a cubic cell with edges 3 and angles 90 (grid
spacing 1), whose map slot 0 holds 1 in every voxel. -/
def exCube : State :=
  let s := exState 3 3 3 (fun i => if 0 ≤ i ∧ i < 27 then 1 else 0) (fun _ => 0)
  let h : map_header :=
    { exHeader 3 3 3 with CELL := fun i => if i < 3 then 3 else if i < 6 then 90 else 0 }
  { s with MAP_H := fun _ => h }

/-- A mask file of a `2 * 1 * 1` grid whose header has `MODE = 1` and whose
payload is `1, 0`. -/
def exMaskFile : MskFile := { hdr := { exHeader 2 1 1 with MODE := 1 }, data := [1, 0] }

/-- The state `exM` after `MASKI 1` of the file `exMaskFile`. -/
def exMasked : State := (ReadMsk exM (some exMaskFile) 0 0 0).2

/-- A mask file of a `2 * 1 * 1` grid whose payload is `3, 3`. -/
def exBadMask : MskFile := { hdr := exHeader 2 1 1, data := [3, 3] }

/-- The map file that `WriteMap` writes for map slot 1 of `exMasked`. -/
def exMapOut : MapFile :=
  { hdr := writeHeader (exMasked.MAP_H 0)
    data := exMasked.grid.map (fun c => exMasked.MAP (exMasked.LOC c + 1 * exMasked.XYZ_LIM)) }

/-- The mask file that `MaskOut` writes for mask slot 0 of `exMasked`. -/
def exMskOut : MskFile :=
  { hdr := writeHeader (exMasked.MAP_H (exMasked.map_mem + 0)), data := [1, 0] }

/-- A `5 * 5 * 5` grid every mask slot of which holds only the voxel `(2,3,3)`
and whose map slot 0 holds 10 in every voxel but `(4,3,3)`, which holds 1. -/
def exFar : State :=
  exState 5 5 5 (fun i => if i = 63 then 1 else 10) (fun i => if i % 125 = 61 then 1 else 0)

/-- A `5 * 5 * 5` grid whose mask slot 0 holds only the centre voxel `(3,3,3)`
and whose map holds 10 in every voxel. -/
def exFlat : State := exState 5 5 5 (fun _ => 10) (fun i => if i = 62 then 1 else 0)

/-- A stand-in for `sqrt` in the example runs: the least natural number whose
square is at least `x` (the root rounded up), 0 for `x <= 0`. -/
def exRootUp (x : ℚ) : ℚ :=
  let n : Nat := ((List.range (x.num.toNat + 1)).find?
    (fun (r : Nat) => decide (x ≤ (r : ℚ) * (r : ℚ)))).getD 0
  (n : ℚ)

/-- A `3 * 3 * 3` grid every map slot of which holds the coordinate `x` of the
voxel: 1, 2 or 3. -/
def exRamp : State := exState 3 3 3 (fun i => ((i % 3 + 1 : Int) : ℚ)) (fun _ => 0)

/-- A `1 * 1 * 1` grid whose map slot 0 holds 5 and whose other map slots hold
1. -/
def exDot : State := exState 1 1 1 (fun i => if i = 0 then 5 else 1) (fun _ => 0)

/-- The `float` nearest to `0.3`: `5033165 / 2^24`. -/
def exTenths : ℚ := 5033165 / 16777216

/-- The `float` nearest to a quarter turn in radians, `13176795 / 2^23`. -/
def exQuarter : ℚ := 13176795 / 8388608

/-- A stand-in for `sin` on a `float`: the value 1 that the C library returns
at `exQuarter`. -/
def exSinF : ℚ → ℚ := fun _ => 1

/-- A stand-in for `cos` on a `float`: the value `-6151831 / 2^47` (about
`-4.37e-8`) that the C library returns at `exQuarter`. -/
def exCosF : ℚ → ℚ := fun _ => -(6151831 / 2 ^ 47)

/-- A `1 * 7 * 1` grid, with `Y_CELL = 7`. -/
def exSeven : State := exState 1 7 1 (fun _ => 0) (fun _ => 0)

/-- A `6 * 1 * 1` grid whose map slot 0 holds the `float` nearest to `0.3` in
every voxel; the other map slots hold 0. -/
def exSix : State := exState 6 1 1 (fun i => if 0 ≤ i ∧ i < 6 then exTenths else 0) (fun _ => 0)

/-- A `2 * 2 * 2` grid whose map slot 0 holds the `float` nearest to `0.3` in
every voxel; the other map slots hold 0. -/
def exEight : State :=
  exState 2 2 2 (fun i => if 0 ≤ i ∧ i < 8 then exTenths else 0) (fun _ => 0)

/-- The state after the reference load `ReadMap(argv[1], 0, 1)` of a
`2 * 1 * 1` map holding `1, 2`. -/
def exRef : State :=
  (ReadMap exCellVolume exInit (some { hdr := exHeader 2 1 1, data := [1, 2] }) 0 1).2

/-- What `WriteMap` writes for map slot 0 of `exRef`. -/
def exWritten : MapFile :=
  { hdr := writeHeader (exRef.MAP_H 0)
    data := exRef.grid.map (fun c => exRef.MAP (exRef.LOC c + 0 * exRef.XYZ_LIM)) }

/-! ## Specification predicates -/

/-- The derived sizes are those that the first `ReadMap` computes:
`XY_LIM = X_LIM * Y_LIM` and `XYZ_LIM = X_LIM * Y_LIM * Z_LIM`. -/
def State.WF (st : State) : Prop :=
  st.XY_LIM = st.X_LIM * st.Y_LIM ∧ st.XYZ_LIM = st.X_LIM * st.Y_LIM * st.Z_LIM

/-- The voxel of map slot `s` at grid coordinate `c`. -/
def State.voxel (st : State) (s : Int) (c : Int × Int × Int) : ℚ :=
  st.MAP (st.LOC c + s * st.XYZ_LIM)

/-- The voxel of mask slot `k` at grid coordinate `c`. -/
def State.mvoxel (st : State) (k : Int) (c : Int × Int × Int) : Int :=
  st.MSK (st.LOC c + k * st.XYZ_LIM)

/-- Every voxel of mask slot `k` is 0 or 1. -/
def State.Mask01 (st : State) (k : Int) : Prop :=
  ∀ c ∈ st.grid, st.mvoxel k c = 0 ∨ st.mvoxel k c = 1

/-- The voxels a zone selects: Inside is mask value 1, Outside is mask value
0, Total is every voxel. -/
def State.Selected (st : State) (zone : Zone) (k : Int) (c : Int × Int × Int) : Prop :=
  match zone with
  | Zone.Inside => st.mvoxel k c = 1
  | Zone.Outside => st.mvoxel k c = 0
  | Zone.Total => True

instance (st : State) (zone : Zone) (k : Int) : DecidablePred (st.Selected zone k) := by
  intro c
  unfold State.Selected
  cases zone <;> infer_instance

/-- The mask of a zone is a 0/1 mask; zone Total reads no mask. -/
def State.ZoneOK (st : State) (zone : Zone) (k : Int) : Prop :=
  zone ≠ Zone.Total → st.Mask01 k

/-- The number of voxels a zone selects. -/
def State.selectedCount (st : State) (zone : Zone) (k : Int) : Nat :=
  (st.grid.filter (fun c => decide (st.Selected zone k c))).length

/-- The number of voxels of map slot `s` whose value in `st1` differs from
their value in `st`. -/
def State.changedCount (st st1 : State) (s : Int) : Nat :=
  (st.grid.filter (fun c => decide (st1.voxel s c ≠ st.voxel s c))).length

/-- The value `Cut` leaves in a voxel that held `v`: the two tests
`if (v < min) v = min; if (v > max) v = max;` in sequence. -/
def cutVal (min max v : ℚ) : ℚ :=
  let v1 := if v < min then min else v
  if v1 > max then max else v1

/-- The number of times `Cut` increments `total` on a voxel that held `v`. -/
def cutCnt (min max v : ℚ) : Int :=
  let v1 := if v < min then min else v
  (if v < min then 1 else 0) + (if v1 > max then 1 else 0)

/-- The sum of the values of the voxels of map slot `s` that a zone
selects. -/
def State.selectedSum (st : State) (s : Int) (zone : Zone) (k : Int) : ℚ :=
  ((st.grid.filter (fun c => decide (st.Selected zone k c))).map (fun c => st.voxel s c)).sum

/-- The value `M` is the greatest value of a selected voxel of map slot `s`. -/
def State.IsGreatest (st : State) (s : Int) (zone : Zone) (k : Int) (M : ℚ) : Prop :=
  (∃ c ∈ st.grid, st.Selected zone k c ∧ st.voxel s c = M) ∧
    ∀ c ∈ st.grid, st.Selected zone k c → st.voxel s c ≤ M

/-- The value `M` is the least value of a selected voxel of map slot `s`. -/
def State.IsLeast (st : State) (s : Int) (zone : Zone) (k : Int) (M : ℚ) : Prop :=
  (∃ c ∈ st.grid, st.Selected zone k c ∧ st.voxel s c = M) ∧
    ∀ c ∈ st.grid, st.Selected zone k c → M ≤ st.voxel s c

/-- Two states have the same grid sizes and the same mask store. -/
def State.SameGrid (a b : State) : Prop :=
  a.X_LIM = b.X_LIM ∧ a.Y_LIM = b.Y_LIM ∧ a.Z_LIM = b.Z_LIM ∧ a.XY_LIM = b.XY_LIM ∧
    a.XYZ_LIM = b.XYZ_LIM ∧ a.MSK = b.MSK

/-- The sum over the voxels of map slot `s` that a zone selects of the squared
deviation `(v - m) ^ 2` from the value `m`. -/
def State.selectedSqDev (st : State) (s : Int) (zone : Zone) (k : Int) (m : ℚ) : ℚ :=
  ((st.grid.filter (fun c => decide (st.Selected zone k c))).map
    (fun c => (st.voxel s c - m) ^ 2)).sum

/-- The cell of a state is well formed for `distance` and `Int`: the unit-cell
grid counts and the cell edges of `MAP_H[0]` are positive and the grid steps
are the quotients that the reference load computes. -/
structure State.CellOK (st : State) : Prop where
  hX : 0 < st.X_CELL
  hY : 0 < st.Y_CELL
  hZ : 0 < st.Z_CELL
  hA : 0 < (st.MAP_H 0).CELL 0
  hB : 0 < (st.MAP_H 0).CELL 1
  hC : 0 < (st.MAP_H 0).CELL 2
  gX : st.X_GRID = (st.MAP_H 0).CELL 0 / (st.X_CELL : ℚ)
  gY : st.Y_GRID = (st.MAP_H 0).CELL 1 / (st.Y_CELL : ℚ)
  gZ : st.Z_GRID = (st.MAP_H 0).CELL 2 / (st.Z_CELL : ℚ)

/-- The voxel `c` lies within the distance `r` of the grid point `(X, Y, Z)`:
`distance` of the absolute grid offsets is at most `r`. -/
def State.Within (cos sqrt : ℚ → ℚ) (st : State) (X Y Z : Int) (r : ℚ)
    (c : Int × Int × Int) : Prop :=
  distance cos sqrt st |X - c.1| |Y - c.2.1| |Z - c.2.2| ≤ r

instance (cos sqrt : ℚ → ℚ) (st : State) (X Y Z : Int) (r : ℚ) :
    DecidablePred (st.Within cos sqrt X Y Z r) := by
  intro c
  unfold State.Within
  infer_instance

/-- The sum over the voxels a zone selects of `|map s - map t|`. -/
def State.selectedAbsDiff (st : State) (s t : Int) (zone : Zone) (k : Int) : ℚ :=
  ((st.grid.filter (fun c => decide (st.Selected zone k c))).map
    (fun c => |st.voxel s c - st.voxel t c|)).sum

/-- The mean of map slot `s` over the voxels a zone selects. -/
def State.mean (st : State) (s : Int) (zone : Zone) (k : Int) : ℚ :=
  st.selectedSum s zone k / (st.selectedCount zone k : ℚ)

/-- The rms of map slot `s` over a zone: the root of the mean squared
deviation from the mean. -/
def State.rms (sqrt : ℚ → ℚ) (st : State) (s : Int) (zone : Zone) (k : Int) : ℚ :=
  sqrt (st.selectedSqDev s zone k (st.mean s zone k) / (st.selectedCount zone k : ℚ))

/-- The normaliser of the R factor of a type: 1 the mean of `map1`, 2 the mean
of `map2`, 3 the average of the two means, 4 the rms of `map1`, 5 the rms of
`map2`, 6 the average of the two rms values, any other type 1. -/
def State.normaliser (sqrt : ℚ → ℚ) (st : State) (map1 map2 : Int) (zone : Zone) (k : Int)
    (type : Int) : ℚ :=
  if type = 1 then st.mean map1 zone k
  else if type = 2 then st.mean map2 zone k
  else if type = 3 then (st.mean map1 zone k + st.mean map2 zone k) / 2
  else if type = 4 then st.rms sqrt map1 zone k
  else if type = 5 then st.rms sqrt map2 zone k
  else if type = 6 then (st.rms sqrt map1 zone k + st.rms sqrt map2 zone k) / 2
  else 1

/-- Every voxel of every mask slot is 0 or 1. -/
def State.AllMask01 (st : State) : Prop := ∀ k, st.Mask01 k

/-- Every cell of the mask store `m` that is a voxel of a mask slot of the
grid of `st` holds 0 or 1. -/
def State.Grid01 (st : State) (m : Int → Int) : Prop :=
  ∀ k, ∀ c ∈ st.grid, m (st.LOC c + st.XYZ_LIM * k) = 0 ∨ m (st.LOC c + st.XYZ_LIM * k) = 1

/-- The `3 * 3 * 3` block around the voxel `c`, in the order in which the
block loop of `Shape` visits it. -/
def Shape.block (c : Int × Int × Int) : List (Int × Int × Int) :=
  boxLoop (c.1 - 1) (c.1 + 1) (c.2.1 - 1) (c.2.1 + 1) (c.2.2 - 1) (c.2.2 + 1)

/-- The interior voxels of the grid, those that a cycle of `Shape` examines,
in order. -/
def State.interior (st : State) : List (Int × Int × Int) :=
  boxLoop 3 (st.X_LIM - 2) 3 (st.Y_LIM - 2) 3 (st.Z_LIM - 2)

/-- The number of voxels of the block around `c` that are set in mask `k` of
the mask store `m`. -/
def Shape.count (st : State) (m : Int → Int) (k : Int) (c : Int × Int × Int) : Int :=
  ((Shape.block c).filter (fun d => m (st.LOC d + st.XYZ_LIM * k) ≠ 0)).length

/-- Every cell of a map store is at least 0. -/
def NonnegStore (m : Int → ℚ) : Prop := ∀ i, 0 ≤ m i

/-- A step on map stores that keeps a store without negative cells so and
lowers none of its cells. -/
def Grows (f : (Int → ℚ) → (Int → ℚ)) : Prop :=
  ∀ m, NonnegStore m → NonnegStore (f m) ∧ ∀ i, m i ≤ f m i

/-- The layout of a header in the file `s`: every field of `h` is the item
that starts at its byte offset, the fields following one another in the order
`NC, NR, NS, MODE, NCSTART, NRSTART, NSSTART, NX, NY, NZ` (offsets 0 to 36),
`CELL[0..5]` (from 40), `MAPC, MAPR, MAPS` (64 to 72), `AMIN, AMAX, AMEAN` (76
to 84), `ISPG` (88), `NSY` (92), `REST[0..31]` (from 96), the `LAB_LEN` bytes
of `LAB` (from 224) and the `NSY` bytes of `SYM` (from 1024). -/
def HeaderLayout (s : List Item) (h : map_header) : Prop :=
  itemAt s 0 = some (Item.word h.NC) ∧ itemAt s 4 = some (Item.word h.NR) ∧
  itemAt s 8 = some (Item.word h.NS) ∧ itemAt s 12 = some (Item.word h.MODE) ∧
  itemAt s 16 = some (Item.word h.NCSTART) ∧ itemAt s 20 = some (Item.word h.NRSTART) ∧
  itemAt s 24 = some (Item.word h.NSSTART) ∧ itemAt s 28 = some (Item.word h.NX) ∧
  itemAt s 32 = some (Item.word h.NY) ∧ itemAt s 36 = some (Item.word h.NZ) ∧
  (∀ i, i < 6 → itemAt s (40 + 4 * i) = some (Item.real (h.CELL i))) ∧
  itemAt s 64 = some (Item.word h.MAPC) ∧ itemAt s 68 = some (Item.word h.MAPR) ∧
  itemAt s 72 = some (Item.word h.MAPS) ∧ itemAt s 76 = some (Item.real h.AMIN) ∧
  itemAt s 80 = some (Item.real h.AMAX) ∧ itemAt s 84 = some (Item.real h.AMEAN) ∧
  itemAt s 88 = some (Item.word h.ISPG) ∧ itemAt s 92 = some (Item.word h.NSY) ∧
  (∀ i, i < 32 → itemAt s (96 + 4 * i) = some (Item.real (h.REST i))) ∧
  (∀ i, i < LAB_LEN → itemAt s (224 + i) = some (Item.byte (h.LAB i))) ∧
  (∀ i, i < h.NSY.toNat → itemAt s (1024 + i) = some (Item.byte (h.SYM i)))

/-! ## The example states are well formed -/

theorem exA_WF : exA.WF := ⟨rfl, rfl⟩

theorem exA_ZoneOK : exA.ZoneOK Zone.Inside 0 := fun _ => by
  unfold State.Mask01
  decide

theorem exOne_WF (v : ℚ) : (exOne v).WF := ⟨rfl, rfl⟩

theorem zoneOK_Total (st : State) (k : Int) : st.ZoneOK Zone.Total k :=
  fun h => absurd rfl h

/-! ## The loop coordinates and the linear index -/

theorem mem_loopRange (n i : Int) : i ∈ loopRange n ↔ 1 ≤ i ∧ i ≤ n := by
  unfold loopRange
  simp only [List.mem_map, List.mem_range]
  constructor
  · rintro ⟨k, hk, rfl⟩
    omega
  · rintro ⟨h1, h2⟩
    exact ⟨(i - 1).toNat, by omega, by omega⟩

theorem loopRange_nodup (n : Int) : (loopRange n).Nodup := by
  unfold loopRange
  refine List.Nodup.map ?_ (List.nodup_range _)
  intro a b h
  simp only at h
  omega

theorem loopRange_length (n : Int) : (loopRange n).length = n.toNat := by
  simp [loopRange]

theorem mem_gridLoop (X Y Z : Int) (c : Int × Int × Int) :
    c ∈ gridLoop X Y Z ↔
      (1 ≤ c.1 ∧ c.1 ≤ X) ∧ (1 ≤ c.2.1 ∧ c.2.1 ≤ Y) ∧ (1 ≤ c.2.2 ∧ c.2.2 ≤ Z) := by
  obtain ⟨x, y, z⟩ := c
  simp only [gridLoop, List.mem_flatMap, List.mem_map, mem_loopRange, Prod.mk.injEq]
  constructor
  · rintro ⟨z1, hz, y1, hy, x1, hx, rfl, rfl, rfl⟩
    exact ⟨hx, hy, hz⟩
  · rintro ⟨hx, hy, hz⟩
    exact ⟨z, hz, y, hy, x, hx, rfl, rfl, rfl⟩

theorem gridLoop_nodup (X Y Z : Int) : (gridLoop X Y Z).Nodup := by
  unfold gridLoop
  rw [List.nodup_flatMap]
  refine ⟨?_, ?_⟩
  · intro z _
    rw [List.nodup_flatMap]
    refine ⟨?_, ?_⟩
    · intro y _
      refine List.Nodup.map ?_ (loopRange_nodup X)
      intro a b h
      simpa using h
    · refine List.Nodup.pairwise_of_forall_ne (loopRange_nodup Y) ?_
      intro a _ b _ hab
      simp only [Function.onFun, List.disjoint_left, List.mem_map]
      rintro c ⟨x1, _, rfl⟩ ⟨x2, _, h⟩
      simp only [Prod.mk.injEq] at h
      exact hab h.2.1.symm
  · refine List.Nodup.pairwise_of_forall_ne (loopRange_nodup Z) ?_
    intro a _ b _ hab
    simp only [Function.onFun, List.disjoint_left, List.mem_flatMap, List.mem_map]
    rintro c ⟨y1, _, x1, _, rfl⟩ ⟨y2, _, x2, _, h⟩
    simp only [Prod.mk.injEq] at h
    exact hab h.2.2.symm

theorem gridLoop_length (X Y Z : Int) :
    (gridLoop X Y Z).length = Z.toNat * (Y.toNat * X.toNat) := by
  simp [gridLoop, List.length_flatMap, loopRange_length, Function.comp_def]


theorem digit_unique (X a b a1 b1 : Int) (ha : 0 ≤ a) (haX : a < X) (ha1 : 0 ≤ a1)
    (ha1X : a1 < X) (h : a + b * X = a1 + b1 * X) : a = a1 ∧ b = b1 := by
  have hb : b = b1 := by
    rcases lt_trichotomy b b1 with hlt | heq | hgt
    · exfalso
      have h1 : (b + 1) * X ≤ b1 * X := mul_le_mul_of_nonneg_right (by omega) (by omega)
      nlinarith
    · exact heq
    · exfalso
      have h1 : (b1 + 1) * X ≤ b * X := mul_le_mul_of_nonneg_right (by omega) (by omega)
      nlinarith
  subst hb
  exact ⟨by linarith, rfl⟩

theorem State.mem_grid (st : State) (c : Int × Int × Int) :
    c ∈ st.grid ↔
      (1 ≤ c.1 ∧ c.1 ≤ st.X_LIM) ∧ (1 ≤ c.2.1 ∧ c.2.1 ≤ st.Y_LIM) ∧
        (1 ≤ c.2.2 ∧ c.2.2 ≤ st.Z_LIM) :=
  mem_gridLoop _ _ _ c

theorem State.LOC_range (st : State) (hwf : st.WF) (c : Int × Int × Int) (hc : c ∈ st.grid) :
    0 ≤ st.LOC c ∧ st.LOC c < st.XYZ_LIM := by
  obtain ⟨⟨hx1, hx2⟩, ⟨hy1, hy2⟩, ⟨hz1, hz2⟩⟩ := (st.mem_grid c).1 hc
  obtain ⟨hxy, hxyz⟩ := hwf
  unfold State.LOC
  rw [hxy, hxyz]
  have hX : 0 ≤ st.X_LIM := by omega
  have hY : 0 ≤ st.Y_LIM := by omega
  have hXY : 0 ≤ st.X_LIM * st.Y_LIM := mul_nonneg hX hY
  have h1 : 0 ≤ (c.2.1 - 1) * st.X_LIM := mul_nonneg (by omega) hX
  have h2 : 0 ≤ (c.2.2 - 1) * (st.X_LIM * st.Y_LIM) := mul_nonneg (by omega) hXY
  have h3 : (c.2.1 - 1) * st.X_LIM ≤ (st.Y_LIM - 1) * st.X_LIM :=
    mul_le_mul_of_nonneg_right (by omega) hX
  have h4 : (c.2.2 - 1) * (st.X_LIM * st.Y_LIM) ≤ (st.Z_LIM - 1) * (st.X_LIM * st.Y_LIM) :=
    mul_le_mul_of_nonneg_right (by omega) hXY
  constructor
  · omega
  · nlinarith

theorem State.LOC_inj (st : State) (hwf : st.WF) (c d : Int × Int × Int) (hc : c ∈ st.grid)
    (hd : d ∈ st.grid) (h : st.LOC c = st.LOC d) : c = d := by
  obtain ⟨⟨hx1, hx2⟩, ⟨hy1, hy2⟩, ⟨hz1, hz2⟩⟩ := (st.mem_grid c).1 hc
  obtain ⟨⟨kx1, kx2⟩, ⟨ky1, ky2⟩, ⟨kz1, kz2⟩⟩ := (st.mem_grid d).1 hd
  obtain ⟨hxy, _⟩ := hwf
  unfold State.LOC at h
  rw [hxy] at h
  have e1 := digit_unique st.X_LIM (c.1 - 1) ((c.2.1 - 1) + (c.2.2 - 1) * st.Y_LIM)
    (d.1 - 1) ((d.2.1 - 1) + (d.2.2 - 1) * st.Y_LIM) (by omega) (by omega) (by omega)
    (by omega) (by linarith)
  have e2 := digit_unique st.Y_LIM (c.2.1 - 1) (c.2.2 - 1) (d.2.1 - 1) (d.2.2 - 1)
    (by omega) (by omega) (by omega) (by omega) e1.2
  obtain ⟨x, y, z⟩ := c
  obtain ⟨x1, y1, z1⟩ := d
  simp only [Prod.mk.injEq]
  simp only at e1 e2
  omega

/-- Two voxels of two slots share a cell of the store only if they are the
same voxel of the same slot. -/
theorem State.index_inj (st : State) (hwf : st.WF) (c d : Int × Int × Int) (s t : Int)
    (hc : c ∈ st.grid) (hd : d ∈ st.grid)
    (h : st.LOC c + s * st.XYZ_LIM = st.LOC d + t * st.XYZ_LIM) : c = d ∧ s = t := by
  have rc := st.LOC_range hwf c hc
  have rd := st.LOC_range hwf d hd
  have e := digit_unique st.XYZ_LIM (st.LOC c) s (st.LOC d) t rc.1 rc.2 rd.1 rd.2 h
  exact ⟨st.LOC_inj hwf c d hc hd e.1, e.2⟩


/-! ## Loops that update one cell per voxel: lemmas -/

section Loops

variable {C : Type} (skip : C → Bool) (idx idx2 : C → Int) (g : C → ℚ → ℚ → ℚ)

theorem updLoop_frame (L : List C) (m : Int → ℚ) (j : Int)
    (hj : ∀ c ∈ L, skip c = false → idx c ≠ j) :
    (L.foldl (updStep skip idx idx2 g) m) j = m j := by
  induction L generalizing m with
  | nil => rfl
  | cons a L ih =>
    rw [List.foldl_cons, ih _ (fun c hc => hj c (List.mem_cons_of_mem _ hc))]
    unfold updStep
    cases hs : skip a with
    | true => simp
    | false =>
      have := hj a (List.mem_cons_self _ _) hs
      simp [Function.update_noteq (Ne.symm this)]

theorem updLoop_at (L : List C) (hnd : L.Nodup)
    (hinj : ∀ c ∈ L, ∀ d ∈ L, idx c = idx d → c = d)
    (hrd : ∀ c ∈ L, ∀ d ∈ L, idx d = idx2 c → d = c)
    (m : Int → ℚ) (c : C) (hc : c ∈ L) :
    (L.foldl (updStep skip idx idx2 g) m) (idx c) =
      if skip c then m (idx c) else g c (m (idx c)) (m (idx2 c)) := by
  induction L generalizing m with
  | nil => cases hc
  | cons a L ih =>
    rw [List.foldl_cons]
    have hnd2 := List.nodup_cons.1 hnd
    have hinj2 : ∀ c ∈ L, ∀ d ∈ L, idx c = idx d → c = d := fun c hc d hd =>
      hinj c (List.mem_cons_of_mem _ hc) d (List.mem_cons_of_mem _ hd)
    have hrd2 : ∀ c ∈ L, ∀ d ∈ L, idx d = idx2 c → d = c := fun c hc d hd =>
      hrd c (List.mem_cons_of_mem _ hc) d (List.mem_cons_of_mem _ hd)
    rcases List.mem_cons.1 hc with rfl | hcL
    · rw [updLoop_frame]
      · unfold updStep
        cases hs : skip c <;> simp
      · intro d hd _ hdc
        have := hinj d (List.mem_cons_of_mem _ hd) c (List.mem_cons_self _ _) hdc
        exact hnd2.1 (this ▸ hd)
    · rw [ih hnd2.2 hinj2 hrd2 _ hcL]
      have hca : c ≠ a := fun h => hnd2.1 (h ▸ hcL)
      have h1 : idx c ≠ idx a := fun h =>
        hca (hinj c hc a (List.mem_cons_self _ _) h)
      have h2 : idx2 c ≠ idx a := fun h =>
        hca (hrd c hc a (List.mem_cons_self _ _) h.symm).symm
      unfold updStep
      cases hs : skip a with
      | true => simp
      | false => simp [Function.update_noteq h1, Function.update_noteq h2]

theorem cntLoop_eq (k : C → ℚ → Int) (L : List C) (hnd : L.Nodup)
    (hinj : ∀ c ∈ L, ∀ d ∈ L, idx c = idx d → c = d)
    (m : Int → ℚ) (n : Int) :
    L.foldl (cntStep skip idx idx2 g k) (m, n) =
      (L.foldl (updStep skip idx idx2 g) m,
        n + (L.map (fun c => if skip c then 0 else k c (m (idx c)))).sum) := by
  induction L generalizing m n with
  | nil => simp
  | cons a L ih =>
    have hnd2 := List.nodup_cons.1 hnd
    have hinj2 : ∀ c ∈ L, ∀ d ∈ L, idx c = idx d → c = d := fun c hc d hd =>
      hinj c (List.mem_cons_of_mem _ hc) d (List.mem_cons_of_mem _ hd)
    rw [List.foldl_cons, List.foldl_cons, List.map_cons, List.sum_cons]
    cases hs : skip a with
    | true =>
      have e1 : cntStep skip idx idx2 g k (m, n) a = (m, n) := by simp [cntStep, hs]
      have e2 : updStep skip idx idx2 g m a = m := by simp [updStep, hs]
      rw [e1, e2, ih hnd2.2 hinj2]
      simp
    | false =>
      have e1 : cntStep skip idx idx2 g k (m, n) a =
          (updStep skip idx idx2 g m a, n + k a (m (idx a))) := by
        simp [cntStep, updStep, hs]
      rw [e1, ih hnd2.2 hinj2]
      have e3 : L.map (fun c => if skip c then 0
            else k c (updStep skip idx idx2 g m a (idx c))) =
          L.map (fun c => if skip c then 0 else k c (m (idx c))) := by
        apply List.map_congr_left
        intro c hc
        have hca : c ≠ a := fun h => hnd2.1 (h ▸ hc)
        have h1 : idx c ≠ idx a := fun h =>
          hca (hinj c (List.mem_cons_of_mem _ hc) a (List.mem_cons_self _ _) h)
        simp [updStep, hs, Function.update_noteq h1]
      rw [e3]
      simp [add_assoc]

end Loops


/-! ## Zones -/

theorem State.index_inj2 (st : State) (hwf : st.WF) (c d : Int × Int × Int) (s t : Int)
    (hc : c ∈ st.grid) (hd : d ∈ st.grid)
    (h : st.LOC c + st.XYZ_LIM * s = st.LOC d + st.XYZ_LIM * t) : c = d ∧ s = t := by
  rw [mul_comm st.XYZ_LIM s, mul_comm st.XYZ_LIM t] at h
  exact st.index_inj hwf c d s t hc hd h

theorem State.skip_eq_false_iff (st : State) (zone : Zone) (k : Int) (c : Int × Int × Int)
    (hz : st.ZoneOK zone k) (hc : c ∈ st.grid) :
    st.skip zone k c = false ↔ st.Selected zone k c := by
  cases zone with
  | Total => simp [State.skip, State.Selected, zone2, Zone.code]
  | Inside =>
    have h := hz (by decide) c hc
    simp only [State.mvoxel] at h
    simp only [State.skip, State.Selected, State.mvoxel, zone2, Zone.code]
    rcases h with h | h <;> simp [h]
  | Outside =>
    have h := hz (by decide) c hc
    simp only [State.mvoxel] at h
    simp only [State.skip, State.Selected, State.mvoxel, zone2, Zone.code]
    rcases h with h | h <;> simp [h]

theorem State.skip_eq_true_iff (st : State) (zone : Zone) (k : Int) (c : Int × Int × Int)
    (hz : st.ZoneOK zone k) (hc : c ∈ st.grid) :
    st.skip zone k c = true ↔ ¬ st.Selected zone k c := by
  rw [← st.skip_eq_false_iff zone k c hz hc]
  simp

theorem sum_indicator (L : List (Int × Int × Int)) (p : Int × Int × Int → Bool) :
    (L.map (fun c => if p c then (1 : Int) else 0)).sum = ((L.filter p).length : Int) := by
  induction L with
  | nil => simp
  | cons a L ih =>
    rw [List.map_cons, List.sum_cons, ih, List.filter_cons]
    cases hp : p a
    · simp
    · simp
      ring

theorem filter_length_congr (L : List (Int × Int × Int)) (p q : Int × Int × Int → Bool)
    (h : ∀ c ∈ L, p c = q c) : (L.filter p).length = (L.filter q).length := by
  rw [List.filter_congr h]


/-! ## Zero -/

theorem Zero_fold (st : State) (hwf : st.WF) (map1 : Int) (zone : Zone) (msk1 : Int) :
    (Zero st map1 zone msk1).1 =
        (st.grid.map (fun c => if st.skip zone msk1 c then (0 : Int) else 1)).sum ∧
      (Zero st map1 zone msk1).2.MAP =
        st.grid.foldl (updStep (st.skip zone msk1) (fun c => st.LOC c + st.XYZ_LIM * map1)
          (fun c => st.LOC c + st.XYZ_LIM * map1) (fun _ _ _ => 0)) st.MAP := by
  have h := cntLoop_eq (st.skip zone msk1) (fun c => st.LOC c + st.XYZ_LIM * map1)
    (fun c => st.LOC c + st.XYZ_LIM * map1) (fun _ _ _ => 0) (fun _ _ => 1) st.grid
    (gridLoop_nodup _ _ _) (fun c hc d hd e => (st.index_inj2 hwf c d map1 map1 hc hd e).1)
    st.MAP 0
  constructor
  · have e : (Zero st map1 zone msk1).1 = (st.grid.foldl (cntStep (st.skip zone msk1)
        (fun c => st.LOC c + st.XYZ_LIM * map1) (fun c => st.LOC c + st.XYZ_LIM * map1)
        (fun _ _ _ => 0) (fun _ _ => 1)) (st.MAP, 0)).2 := rfl
    rw [e, h]
    simp
  · have e : (Zero st map1 zone msk1).2.MAP = (st.grid.foldl (cntStep (st.skip zone msk1)
        (fun c => st.LOC c + st.XYZ_LIM * map1) (fun c => st.LOC c + st.XYZ_LIM * map1)
        (fun _ _ _ => 0) (fun _ _ => 1)) (st.MAP, 0)).1 := rfl
    rw [e, h]

/-- Value of every voxel of the target slot after `Zero`, by the skip test. -/
theorem Zero_voxel (st : State) (hwf : st.WF) (map1 : Int) (zone : Zone) (msk1 : Int)
    (c : Int × Int × Int) (hc : c ∈ st.grid) :
    (Zero st map1 zone msk1).2.voxel map1 c =
      if st.skip zone msk1 c then st.voxel map1 c else 0 := by
  have e : (Zero st map1 zone msk1).2.voxel map1 c =
      (Zero st map1 zone msk1).2.MAP (st.LOC c + st.XYZ_LIM * map1) := by
    rw [mul_comm]; rfl
  rw [e, (Zero_fold st hwf map1 zone msk1).2]
  have e2 : st.voxel map1 c = st.MAP (st.LOC c + st.XYZ_LIM * map1) := by
    rw [mul_comm]; rfl
  rw [e2]
  exact updLoop_at (st.skip zone msk1) (fun c => st.LOC c + st.XYZ_LIM * map1)
    (fun c => st.LOC c + st.XYZ_LIM * map1) (fun _ _ _ => 0) st.grid (gridLoop_nodup _ _ _)
    (fun c hc d hd e => (st.index_inj2 hwf c d map1 map1 hc hd e).1)
    (fun c hc d hd e => (st.index_inj2 hwf d c map1 map1 hd hc e).1) st.MAP c hc

/-- Cells of the store that are not a voxel of the target slot keep their
value under `Zero`. -/
theorem Zero_frame (st : State) (hwf : st.WF) (map1 : Int) (zone : Zone) (msk1 : Int)
    (j : Int) (hj : ∀ c ∈ st.grid, st.LOC c + st.XYZ_LIM * map1 ≠ j) :
    (Zero st map1 zone msk1).2.MAP j = st.MAP j := by
  rw [(Zero_fold st hwf map1 zone msk1).2]
  exact updLoop_frame _ _ _ _ _ _ _ (fun c hc _ => hj c hc)

/-- C4. `Zero`, with a 0/1 mask for the zones Inside and Outside: afterwards
every selected voxel of the slot is 0, every unselected voxel of the slot keeps
its value, and every voxel of every other slot keeps its value. -/
theorem Zero_selected_zero_rest_kept (st : State) (hwf : st.WF) (map1 : Int) (zone : Zone)
    (msk1 : Int) (hz : st.ZoneOK zone msk1) :
    (∀ c ∈ st.grid, st.Selected zone msk1 c → (Zero st map1 zone msk1).2.voxel map1 c = 0) ∧
    (∀ c ∈ st.grid, ¬ st.Selected zone msk1 c →
      (Zero st map1 zone msk1).2.voxel map1 c = st.voxel map1 c) ∧
    (∀ s, s ≠ map1 → ∀ c ∈ st.grid, (Zero st map1 zone msk1).2.voxel s c = st.voxel s c) := by
  refine ⟨?_, ?_, ?_⟩
  · intro c hc hs
    rw [Zero_voxel st hwf map1 zone msk1 c hc,
      (st.skip_eq_false_iff zone msk1 c hz hc).2 hs]
    simp
  · intro c hc hs
    rw [Zero_voxel st hwf map1 zone msk1 c hc,
      (st.skip_eq_true_iff zone msk1 c hz hc).2 hs]
    simp
  · intro s hs c hc
    apply Zero_frame st hwf
    intro d hd e
    rw [mul_comm st.XYZ_LIM map1] at e
    exact hs (st.index_inj hwf d c map1 s hd hc e).2.symm

theorem Zero_selected_zero_rest_kept_witness :
    exA.WF ∧ exA.ZoneOK Zone.Inside 0 ∧
    ((∀ c ∈ exA.grid, exA.Selected Zone.Inside 0 c →
        (Zero exA 1 Zone.Inside 0).2.voxel 1 c = 0) ∧
    (∀ c ∈ exA.grid, ¬ exA.Selected Zone.Inside 0 c →
        (Zero exA 1 Zone.Inside 0).2.voxel 1 c = exA.voxel 1 c) ∧
    (∀ s, s ≠ 1 → ∀ c ∈ exA.grid,
        (Zero exA 1 Zone.Inside 0).2.voxel s c = exA.voxel s c)) :=
  ⟨exA_WF, exA_ZoneOK, Zero_selected_zero_rest_kept exA exA_WF 1 Zone.Inside 0 exA_ZoneOK⟩


theorem filter_split (L : List (Int × Int × Int)) (p q : Int × Int × Int → Bool) :
    (L.filter p).length =
      (L.filter (fun c => p c && !q c)).length + (L.filter (fun c => p c && q c)).length := by
  induction L with
  | nil => rfl
  | cons a L ih =>
    simp only [List.filter_cons]
    cases hp : p a <;> cases hq : q a <;> simp [ih] <;> omega

/-- The integer `Zero` returns is the number of voxels it does not skip. -/
theorem Zero_total (st : State) (hwf : st.WF) (map1 : Int) (zone : Zone) (msk1 : Int)
    (hz : st.ZoneOK zone msk1) :
    (Zero st map1 zone msk1).1 = (st.selectedCount zone msk1 : Int) := by
  rw [(Zero_fold st hwf map1 zone msk1).1]
  have e : (fun c => if st.skip zone msk1 c then (0 : Int) else 1) =
      fun c => if (!st.skip zone msk1 c) = true then (1 : Int) else 0 := by
    funext c
    cases st.skip zone msk1 c <;> simp
  rw [e, sum_indicator st.grid (fun c => !st.skip zone msk1 c)]
  unfold State.selectedCount
  congr 1
  apply filter_length_congr
  intro c hc
  by_cases hs : st.Selected zone msk1 c
  · simp [hs, (st.skip_eq_false_iff zone msk1 c hz hc).2 hs]
  · simp [hs, (st.skip_eq_true_iff zone msk1 c hz hc).2 hs]

/-- C5 as stated fails: on a `1 * 1 * 1` map that already holds 0, `Zero` over
zone Total returns 1 although no voxel has a different value afterwards. -/
theorem Zero_count_counterexample :
    (Zero (exOne 0) 0 Zone.Total 0).1 = 1 ∧
    (exOne 0).changedCount (Zero (exOne 0) 0 Zone.Total 0).2 0 = 0 ∧
    (Zero (exOne 0) 0 Zone.Total 0).1 ≠
      (((exOne 0).changedCount (Zero (exOne 0) 0 Zone.Total 0).2 0 : Nat) : Int) := by
  decide

/-- C5, amended. With a 0/1 mask for the zones Inside and Outside, the integer
`Zero` returns is the number of selected voxels, which is the number of voxels
of the slot whose value differs afterwards plus the number of selected voxels
that already held 0. -/
theorem Zero_returns_selected_count (st : State) (hwf : st.WF) (map1 : Int) (zone : Zone)
    (msk1 : Int) (hz : st.ZoneOK zone msk1) :
    (Zero st map1 zone msk1).1 = (st.selectedCount zone msk1 : Int) ∧
    st.selectedCount zone msk1 =
      st.changedCount (Zero st map1 zone msk1).2 map1 +
        (st.grid.filter (fun c =>
          decide (st.Selected zone msk1 c) && decide (st.voxel map1 c = 0))).length := by
  refine ⟨Zero_total st hwf map1 zone msk1 hz, ?_⟩
  unfold State.selectedCount State.changedCount
  rw [filter_split st.grid (fun c => decide (st.Selected zone msk1 c))
    (fun c => decide (st.voxel map1 c = 0))]
  congr 1
  apply filter_length_congr
  intro c hc
  rw [Zero_voxel st hwf map1 zone msk1 c hc]
  by_cases hs : st.Selected zone msk1 c
  · rw [(st.skip_eq_false_iff zone msk1 c hz hc).2 hs]
    by_cases h0 : st.voxel map1 c = 0
    · simp [hs, h0]
    · have h1 : ¬ (0 : ℚ) = st.voxel map1 c := fun h => h0 h.symm
      simp [hs, h0, h1]
  · rw [(st.skip_eq_true_iff zone msk1 c hz hc).2 hs]
    simp [hs]

theorem Zero_returns_selected_count_witness :
    exA.WF ∧ exA.ZoneOK Zone.Inside 0 ∧
    ((Zero exA 1 Zone.Inside 0).1 = (exA.selectedCount Zone.Inside 0 : Int) ∧
    exA.selectedCount Zone.Inside 0 =
      exA.changedCount (Zero exA 1 Zone.Inside 0).2 1 +
        (exA.grid.filter (fun c =>
          decide (exA.Selected Zone.Inside 0 c) && decide (exA.voxel 1 c = 0))).length) :=
  ⟨exA_WF, exA_ZoneOK, Zero_returns_selected_count exA exA_WF 1 Zone.Inside 0 exA_ZoneOK⟩


/-! ## Cut -/

theorem Cut_step_eq (st : State) (map1 : Int) (zone : Zone) (msk1 : Int) (min max : ℚ) :
    (fun (acc : (Int → ℚ) × Int) (c : Int × Int × Int) =>
      if st.skip zone msk1 c then acc
      else
        let a1 : (Int → ℚ) × Int :=
          if acc.1 (st.LOC c + st.XYZ_LIM * map1) < min then
            (Function.update acc.1 (st.LOC c + st.XYZ_LIM * map1) min, acc.2 + 1)
          else acc
        if a1.1 (st.LOC c + st.XYZ_LIM * map1) > max then
          (Function.update a1.1 (st.LOC c + st.XYZ_LIM * map1) max, a1.2 + 1)
        else a1) =
    cntStep (st.skip zone msk1) (fun c => st.LOC c + st.XYZ_LIM * map1)
      (fun c => st.LOC c + st.XYZ_LIM * map1) (fun _ v _ => cutVal min max v)
      (fun _ v => cutCnt min max v) := by
  funext acc c
  obtain ⟨m, n⟩ := acc
  unfold cntStep cutVal cutCnt
  cases hs : st.skip zone msk1 c with
  | true => simp
  | false =>
    simp only [Bool.false_eq_true, if_false]
    by_cases h1 : m (st.LOC c + st.XYZ_LIM * map1) < min
    · by_cases h2 : min > max
      · simp [h1, h2, add_assoc]
      · simp [h1, h2]
    · by_cases h2 : m (st.LOC c + st.XYZ_LIM * map1) > max
      · simp [h1, h2]
      · simp [h1, h2]

theorem Cut_fold (st : State) (hwf : st.WF) (map1 : Int) (zone : Zone) (msk1 : Int)
    (min max : ℚ) :
    (Cut st map1 zone msk1 min max).1 =
        (st.grid.map (fun c => if st.skip zone msk1 c then (0 : Int)
          else cutCnt min max (st.MAP (st.LOC c + st.XYZ_LIM * map1)))).sum ∧
      (Cut st map1 zone msk1 min max).2.MAP =
        st.grid.foldl (updStep (st.skip zone msk1) (fun c => st.LOC c + st.XYZ_LIM * map1)
          (fun c => st.LOC c + st.XYZ_LIM * map1) (fun _ v _ => cutVal min max v)) st.MAP := by
  have h := cntLoop_eq (st.skip zone msk1) (fun c => st.LOC c + st.XYZ_LIM * map1)
    (fun c => st.LOC c + st.XYZ_LIM * map1) (fun _ v _ => cutVal min max v)
    (fun _ v => cutCnt min max v) st.grid
    (gridLoop_nodup _ _ _) (fun c hc d hd e => (st.index_inj2 hwf c d map1 map1 hc hd e).1)
    st.MAP 0
  rw [← Cut_step_eq] at h
  constructor
  · show (st.grid.foldl _ (st.MAP, 0)).2 = _
    rw [h]
    simp
  · show (st.grid.foldl _ (st.MAP, 0)).1 = _
    rw [h]

/-- Value of every voxel of the target slot after `Cut`, by the skip test. -/
theorem Cut_voxel (st : State) (hwf : st.WF) (map1 : Int) (zone : Zone) (msk1 : Int)
    (min max : ℚ) (c : Int × Int × Int) (hc : c ∈ st.grid) :
    (Cut st map1 zone msk1 min max).2.voxel map1 c =
      if st.skip zone msk1 c then st.voxel map1 c else cutVal min max (st.voxel map1 c) := by
  have e : (Cut st map1 zone msk1 min max).2.voxel map1 c =
      (Cut st map1 zone msk1 min max).2.MAP (st.LOC c + st.XYZ_LIM * map1) := by
    rw [mul_comm]; rfl
  rw [e, (Cut_fold st hwf map1 zone msk1 min max).2]
  have e2 : st.voxel map1 c = st.MAP (st.LOC c + st.XYZ_LIM * map1) := by
    rw [mul_comm]; rfl
  rw [e2]
  exact updLoop_at (st.skip zone msk1) (fun c => st.LOC c + st.XYZ_LIM * map1)
    (fun c => st.LOC c + st.XYZ_LIM * map1) (fun _ v _ => cutVal min max v) st.grid
    (gridLoop_nodup _ _ _)
    (fun c hc d hd e => (st.index_inj2 hwf c d map1 map1 hc hd e).1)
    (fun c hc d hd e => (st.index_inj2 hwf d c map1 map1 hd hc e).1) st.MAP c hc

theorem cutVal_ordered (min max v : ℚ) (h : min ≤ max) :
    cutVal min max v = if v < min then min else if v > max then max else v := by
  unfold cutVal
  by_cases h1 : v < min
  · have h2 : ¬ min > max := not_lt.2 h
    simp [h1, h2]
  · simp [h1]

/-- C6. `Cut` with `min <= max` and a 0/1 mask for the zones Inside and
Outside: a selected voxel `v` becomes `min` when `v < min`, `max` when
`v > max` and keeps its value otherwise; an unselected voxel keeps its
value. -/
theorem Cut_clamps (st : State) (hwf : st.WF) (map1 : Int) (zone : Zone) (msk1 : Int)
    (min max : ℚ) (hz : st.ZoneOK zone msk1) (hmm : min ≤ max) :
    (∀ c ∈ st.grid, st.Selected zone msk1 c →
      (Cut st map1 zone msk1 min max).2.voxel map1 c =
        if st.voxel map1 c < min then min
        else if st.voxel map1 c > max then max else st.voxel map1 c) ∧
    (∀ c ∈ st.grid, ¬ st.Selected zone msk1 c →
      (Cut st map1 zone msk1 min max).2.voxel map1 c = st.voxel map1 c) := by
  refine ⟨?_, ?_⟩
  · intro c hc hs
    rw [Cut_voxel st hwf map1 zone msk1 min max c hc,
      (st.skip_eq_false_iff zone msk1 c hz hc).2 hs, cutVal_ordered min max _ hmm]
    simp
  · intro c hc hs
    rw [Cut_voxel st hwf map1 zone msk1 min max c hc,
      (st.skip_eq_true_iff zone msk1 c hz hc).2 hs]
    simp

theorem Cut_clamps_witness :
    exA.WF ∧ exA.ZoneOK Zone.Inside 0 ∧ (2 : ℚ) ≤ 3 ∧
    ((∀ c ∈ exA.grid, exA.Selected Zone.Inside 0 c →
      (Cut exA 0 Zone.Inside 0 2 3).2.voxel 0 c =
        if exA.voxel 0 c < 2 then 2
        else if exA.voxel 0 c > 3 then 3 else exA.voxel 0 c) ∧
    (∀ c ∈ exA.grid, ¬ exA.Selected Zone.Inside 0 c →
      (Cut exA 0 Zone.Inside 0 2 3).2.voxel 0 c = exA.voxel 0 c)) :=
  ⟨exA_WF, exA_ZoneOK, by norm_num,
    Cut_clamps exA exA_WF 0 Zone.Inside 0 2 3 exA_ZoneOK (by norm_num)⟩

/-- C7. `Cut` with `min > max` counts a voxel twice: on a `1 * 1 * 1` map
holding 0, `Cut` over zone Total with `min = 5`, `max = 1` returns 2, while one
voxel is selected and one voxel has a different value afterwards (it holds
1). -/
theorem Cut_count_exceeds_voxels :
    (Cut (exOne 0) 0 Zone.Total 0 5 1).1 = 2 ∧
    (exOne 0).changedCount (Cut (exOne 0) 0 Zone.Total 0 5 1).2 0 = 1 ∧
    (exOne 0).selectedCount Zone.Total 0 = 1 ∧
    (Cut (exOne 0) 0 Zone.Total 0 5 1).2.voxel 0 (1, 1, 1) = 1 := by
  decide


theorem cutCnt_ordered (min max v : ℚ) (h : min ≤ max) :
    cutCnt min max v = if cutVal min max v ≠ v then 1 else 0 := by
  unfold cutCnt cutVal
  have h2 : ¬ min > max := not_lt.2 h
  by_cases h1 : v < min
  · have h3 : ¬ min = v := fun e => by rw [e] at h1; exact lt_irrefl _ h1
    simp [h1, h2, h3]
  · by_cases h4 : v > max
    · have h5 : ¬ max = v := fun e => by rw [e] at h4; exact lt_irrefl _ h4
      simp [h1, h4, h5]
    · simp [h1, h4]

/-- With `min <= max` the integer `Cut` returns is the number of voxels of the
slot whose value differs afterwards, and it is at most the number of selected
voxels. -/
theorem Cut_total_ordered (st : State) (hwf : st.WF) (map1 : Int) (zone : Zone) (msk1 : Int)
    (min max : ℚ) (hz : st.ZoneOK zone msk1) (hmm : min ≤ max) :
    (Cut st map1 zone msk1 min max).1 =
        (st.changedCount (Cut st map1 zone msk1 min max).2 map1 : Int) ∧
      st.changedCount (Cut st map1 zone msk1 min max).2 map1 ≤ st.selectedCount zone msk1 := by
  have hch : ∀ c ∈ st.grid,
      decide ((Cut st map1 zone msk1 min max).2.voxel map1 c ≠ st.voxel map1 c) =
        (!st.skip zone msk1 c && decide (cutVal min max (st.voxel map1 c) ≠ st.voxel map1 c)) := by
    intro c hc
    rw [Cut_voxel st hwf map1 zone msk1 min max c hc]
    cases st.skip zone msk1 c <;> simp
  constructor
  · rw [(Cut_fold st hwf map1 zone msk1 min max).1]
    unfold State.changedCount
    rw [filter_length_congr _ _ _ hch, ← sum_indicator]
    congr 1
    apply List.map_congr_left
    intro c _
    have e2 : st.voxel map1 c = st.MAP (st.LOC c + st.XYZ_LIM * map1) := by
      rw [mul_comm]; rfl
    rw [cutCnt_ordered min max _ hmm, ← e2]
    cases st.skip zone msk1 c <;> simp
  · unfold State.changedCount State.selectedCount
    rw [filter_length_congr _ _ _ hch,
      filter_split st.grid (fun c => decide (st.Selected zone msk1 c))
        (fun c => decide (cutVal min max (st.voxel map1 c) ≠ st.voxel map1 c))]
    have e : (st.grid.filter (fun c => !st.skip zone msk1 c &&
          decide (cutVal min max (st.voxel map1 c) ≠ st.voxel map1 c))).length =
        (st.grid.filter (fun c => decide (st.Selected zone msk1 c) &&
          decide (cutVal min max (st.voxel map1 c) ≠ st.voxel map1 c))).length := by
      apply filter_length_congr
      intro c hc
      by_cases hs : st.Selected zone msk1 c
      · simp [hs, (st.skip_eq_false_iff zone msk1 c hz hc).2 hs]
      · simp [hs, (st.skip_eq_true_iff zone msk1 c hz hc).2 hs]
    rw [e]
    omega

/-! ## MapMod -/

theorem MapMod_MAP (st : State) (map1 map2 : Int) (zone : Zone) (msk1 : Int) (value : ℚ) :
    (MapMod st map1 map2 zone msk1 value).MAP =
      st.grid.foldl (updStep (st.skip zone msk1) (fun c => st.LOC c + st.XYZ_LIM * map1)
        (fun c => st.LOC c + st.XYZ_LIM * map2) (fun _ v w => v + value * w)) st.MAP :=
  rfl

/-- Value of every voxel of the target slot after `MapMod`, by the skip
test. -/
theorem MapMod_voxel (st : State) (hwf : st.WF) (map1 map2 : Int) (zone : Zone) (msk1 : Int)
    (value : ℚ) (c : Int × Int × Int) (hc : c ∈ st.grid) :
    (MapMod st map1 map2 zone msk1 value).voxel map1 c =
      if st.skip zone msk1 c then st.voxel map1 c
      else st.voxel map1 c + value * st.voxel map2 c := by
  have e : (MapMod st map1 map2 zone msk1 value).voxel map1 c =
      (MapMod st map1 map2 zone msk1 value).MAP (st.LOC c + st.XYZ_LIM * map1) := by
    rw [mul_comm]; rfl
  rw [e, MapMod_MAP]
  have e1 : st.voxel map1 c = st.MAP (st.LOC c + st.XYZ_LIM * map1) := by
    rw [mul_comm]; rfl
  have e2 : st.voxel map2 c = st.MAP (st.LOC c + st.XYZ_LIM * map2) := by
    rw [mul_comm]; rfl
  rw [e1, e2]
  exact updLoop_at (st.skip zone msk1) (fun c => st.LOC c + st.XYZ_LIM * map1)
    (fun c => st.LOC c + st.XYZ_LIM * map2) (fun _ v w => v + value * w) st.grid
    (gridLoop_nodup _ _ _)
    (fun c hc d hd e => (st.index_inj2 hwf c d map1 map1 hc hd e).1)
    (fun c hc d hd e => (st.index_inj2 hwf d c map1 map2 hd hc e).1) st.MAP c hc

/-- C3. `MapMod`, with a 0/1 mask for the zones Inside and Outside: every
selected voxel of `map1` becomes its old value plus `value` times the old
voxel of `map2`, every unselected voxel of `map1` keeps its value, and when
`map2` differs from `map1` every voxel of `map2` keeps its value. -/
theorem MapMod_combines (st : State) (hwf : st.WF) (map1 map2 : Int) (zone : Zone)
    (msk1 : Int) (value : ℚ) (hz : st.ZoneOK zone msk1) :
    (∀ c ∈ st.grid, st.Selected zone msk1 c →
      (MapMod st map1 map2 zone msk1 value).voxel map1 c =
        st.voxel map1 c + value * st.voxel map2 c) ∧
    (∀ c ∈ st.grid, ¬ st.Selected zone msk1 c →
      (MapMod st map1 map2 zone msk1 value).voxel map1 c = st.voxel map1 c) ∧
    (map2 ≠ map1 → ∀ c ∈ st.grid,
      (MapMod st map1 map2 zone msk1 value).voxel map2 c = st.voxel map2 c) := by
  refine ⟨?_, ?_, ?_⟩
  · intro c hc hs
    rw [MapMod_voxel st hwf map1 map2 zone msk1 value c hc,
      (st.skip_eq_false_iff zone msk1 c hz hc).2 hs]
    simp
  · intro c hc hs
    rw [MapMod_voxel st hwf map1 map2 zone msk1 value c hc,
      (st.skip_eq_true_iff zone msk1 c hz hc).2 hs]
    simp
  · intro hne c hc
    have e : (MapMod st map1 map2 zone msk1 value).voxel map2 c =
        (MapMod st map1 map2 zone msk1 value).MAP (st.LOC c + map2 * st.XYZ_LIM) := rfl
    rw [e, MapMod_MAP]
    apply updLoop_frame
    intro d hd _ h
    rw [mul_comm st.XYZ_LIM map1] at h
    exact hne (st.index_inj hwf d c map1 map2 hd hc h).2.symm

theorem MapMod_combines_witness :
    exA.WF ∧ exA.ZoneOK Zone.Inside 0 ∧
    ((∀ c ∈ exA.grid, exA.Selected Zone.Inside 0 c →
      (MapMod exA 0 1 Zone.Inside 0 (1 / 4)).voxel 0 c =
        exA.voxel 0 c + (1 / 4) * exA.voxel 1 c) ∧
    (∀ c ∈ exA.grid, ¬ exA.Selected Zone.Inside 0 c →
      (MapMod exA 0 1 Zone.Inside 0 (1 / 4)).voxel 0 c = exA.voxel 0 c) ∧
    ((1 : Int) ≠ 0 → ∀ c ∈ exA.grid,
      (MapMod exA 0 1 Zone.Inside 0 (1 / 4)).voxel 1 c = exA.voxel 1 c)) :=
  ⟨exA_WF, exA_ZoneOK, MapMod_combines exA exA_WF 0 1 Zone.Inside 0 (1 / 4) exA_ZoneOK⟩


/-! ## FindParms -/

theorem parms_fold {C : Type} (L : List C) (skip : C → Bool) (val : C → ℚ) (p0 : Parms) :
    (L.foldl (fun p c => if skip c then p else p.step (val c)) p0).num =
        p0.num + ((L.filter (fun c => !skip c)).length : Int) ∧
      (L.foldl (fun p c => if skip c then p else p.step (val c)) p0).tot =
        p0.tot + ((L.filter (fun c => !skip c)).map val).sum ∧
      (L.foldl (fun p c => if skip c then p else p.step (val c)) p0).max =
        ((L.filter (fun c => !skip c)).map val).foldl max p0.max ∧
      (L.foldl (fun p c => if skip c then p else p.step (val c)) p0).min =
        ((L.filter (fun c => !skip c)).map val).foldl min p0.min := by
  induction L generalizing p0 with
  | nil => simp
  | cons a L ih =>
    rw [List.foldl_cons]
    cases hs : skip a with
    | true =>
      simp only [if_true, List.filter_cons, hs, Bool.not_true, Bool.false_eq_true, if_false]
      exact ih p0
    | false =>
      simp only [Bool.false_eq_true, if_false, List.filter_cons, hs, Bool.not_false, if_true,
        List.length_cons, List.map_cons, List.sum_cons, List.foldl_cons]
      obtain ⟨h1, h2, h3, h4⟩ := ih (p0.step (val a))
      refine ⟨?_, ?_, ?_, ?_⟩
      · rw [h1]
        simp only [Parms.step]
        push_cast
        ring
      · rw [h2]
        simp only [Parms.step]
        ring
      · rw [h3]
        congr 1
        simp only [Parms.step]
        by_cases h : val a > p0.max
        · simp [h, max_eq_right (le_of_lt h)]
        · simp [h, max_eq_left (not_lt.1 h)]
      · rw [h4]
        congr 1
        simp only [Parms.step]
        by_cases h : val a < p0.min
        · simp [h, min_eq_right (le_of_lt h)]
        · simp [h, min_eq_left (not_lt.1 h)]

theorem filter_selected (st : State) (zone : Zone) (k : Int) (hz : st.ZoneOK zone k) :
    st.grid.filter (fun c => !st.skip zone k c) =
      st.grid.filter (fun c => decide (st.Selected zone k c)) := by
  apply List.filter_congr
  intro c hc
  by_cases hs : st.Selected zone k c
  · simp [hs, (st.skip_eq_false_iff zone k c hz hc).2 hs]
  · simp [hs, (st.skip_eq_true_iff zone k c hz hc).2 hs]

theorem FindParms_loop (st : State) (map1 : Int) (zone : Zone) (msk1 : Int)
    (hz : st.ZoneOK zone msk1) :
    (FindParms.loop st map1 zone msk1).num = (st.selectedCount zone msk1 : Int) ∧
      (FindParms.loop st map1 zone msk1).tot = st.selectedSum map1 zone msk1 ∧
      (FindParms.loop st map1 zone msk1).max =
        ((st.grid.filter (fun c => decide (st.Selected zone msk1 c))).map
          (fun c => st.voxel map1 c)).foldl max (-1000) ∧
      (FindParms.loop st map1 zone msk1).min =
        ((st.grid.filter (fun c => decide (st.Selected zone msk1 c))).map
          (fun c => st.voxel map1 c)).foldl min 1000 := by
  have h := parms_fold st.grid (st.skip zone msk1)
    (fun c => st.MAP (st.LOC c + map1 * st.XYZ_LIM))
    { max := -1000, min := 1000, tot := 0, num := 0 }
  rw [filter_selected st zone msk1 hz] at h
  obtain ⟨h1, h2, h3, h4⟩ := h
  refine ⟨?_, ?_, ?_, ?_⟩
  · unfold FindParms.loop State.selectedCount
    rw [h1]
    simp
  · unfold FindParms.loop State.selectedSum
    rw [h2]
    simp [State.voxel]
  · unfold FindParms.loop
    rw [h3]
    rfl
  · unfold FindParms.loop
    rw [h4]
    rfl

theorem FindParms_records (st : State) (map1 : Int) (zone : Zone) (msk1 : Int) :
    (FindParms st map1 zone msk1).2.map_num map1 zone.code =
        (FindParms.loop st map1 zone msk1).num ∧
      (FindParms st map1 zone msk1).2.map_avg map1 zone.code =
        (FindParms.loop st map1 zone msk1).tot / (FindParms.loop st map1 zone msk1).num ∧
      (FindParms st map1 zone msk1).1 =
        (FindParms st map1 zone msk1).2.map_avg map1 zone.code ∧
      (FindParms st map1 zone msk1).2.map_tot map1 zone.code =
        (FindParms.loop st map1 zone msk1).tot * st.map_vol / st.XYZ_LIM ∧
      (FindParms st map1 zone msk1).2.map_max map1 zone.code =
        (FindParms.loop st map1 zone msk1).max ∧
      (FindParms st map1 zone msk1).2.map_min map1 zone.code =
        (FindParms.loop st map1 zone msk1).min := by
  unfold FindParms
  simp only [set2, mul_one]
  split_ifs <;> simp


theorem selectedCount_complement (st : State) (k : Int) (h01 : st.Mask01 k) :
    st.selectedCount Zone.Inside k + st.selectedCount Zone.Outside k = st.grid.length := by
  unfold State.selectedCount
  have h := filter_split st.grid (fun _ => true) (fun c => decide (st.Selected Zone.Inside k c))
  have e0 : (st.grid.filter (fun _ => true)).length = st.grid.length := by simp
  have e1 : (st.grid.filter (fun c => true && !decide (st.Selected Zone.Inside k c))).length =
      (st.grid.filter (fun c => decide (st.Selected Zone.Outside k c))).length := by
    apply filter_length_congr
    intro c hc
    rcases h01 c hc with h | h <;> simp [State.Selected, h]
  have e2 : (st.grid.filter (fun c => true && decide (st.Selected Zone.Inside k c))).length =
      (st.grid.filter (fun c => decide (st.Selected Zone.Inside k c))).length := by
    apply filter_length_congr
    intro c _
    simp
  omega

/-- C8. Zone complement: for a mask slot whose voxels are all 0 or 1 (and
grid dimensions that are not negative), running `FindParms` on a map slot for
zone Inside and then for zone Outside leaves two recorded voxel counts whose
sum is `X_LIM * Y_LIM * Z_LIM`; the same holds for the counts of two separate
runs from the same state. -/
theorem FindParms_zone_complement (st : State) (map1 msk1 : Int) (h01 : st.Mask01 msk1)
    (hX : 0 ≤ st.X_LIM) (hY : 0 ≤ st.Y_LIM) (hZ : 0 ≤ st.Z_LIM) :
    (FindParms (FindParms st map1 Zone.Inside msk1).2 map1 Zone.Outside msk1).2.map_num
          map1 Zone.Inside.code +
        (FindParms (FindParms st map1 Zone.Inside msk1).2 map1 Zone.Outside msk1).2.map_num
          map1 Zone.Outside.code = st.X_LIM * st.Y_LIM * st.Z_LIM ∧
      (FindParms st map1 Zone.Inside msk1).2.map_num map1 Zone.Inside.code +
        (FindParms st map1 Zone.Outside msk1).2.map_num map1 Zone.Outside.code =
          st.X_LIM * st.Y_LIM * st.Z_LIM := by
  have hin := (FindParms_loop st map1 Zone.Inside msk1 (fun _ => h01)).1
  have hout := (FindParms_loop st map1 Zone.Outside msk1 (fun _ => h01)).1
  have hc := selectedCount_complement st msk1 h01
  have hlen : (st.grid.length : Int) = st.X_LIM * st.Y_LIM * st.Z_LIM := by
    rw [State.grid, gridLoop_length]
    push_cast
    rw [Int.toNat_of_nonneg hX, Int.toNat_of_nonneg hY, Int.toNat_of_nonneg hZ]
    ring
  have e1 : (FindParms st map1 Zone.Inside msk1).2.map_num map1 Zone.Inside.code =
      (FindParms.loop st map1 Zone.Inside msk1).num :=
    (FindParms_records st map1 Zone.Inside msk1).1
  have e2 : (FindParms st map1 Zone.Outside msk1).2.map_num map1 Zone.Outside.code =
      (FindParms.loop st map1 Zone.Outside msk1).num :=
    (FindParms_records st map1 Zone.Outside msk1).1
  have e3 : (FindParms (FindParms st map1 Zone.Inside msk1).2 map1 Zone.Outside msk1).2.map_num
      map1 Zone.Outside.code = (FindParms.loop st map1 Zone.Outside msk1).num := by
    rw [(FindParms_records _ map1 Zone.Outside msk1).1]
    rfl
  have e4 : (FindParms (FindParms st map1 Zone.Inside msk1).2 map1 Zone.Outside msk1).2.map_num
      map1 Zone.Inside.code = (FindParms.loop st map1 Zone.Inside msk1).num := by
    rw [← e1]
    simp [FindParms, set2, Zone.code, zone2]
  rw [e3, e4, e1, e2, hin, hout, ← hlen]
  have : ((st.selectedCount Zone.Inside msk1 : Int) + st.selectedCount Zone.Outside msk1) =
      (st.grid.length : Int) := by
    exact_mod_cast hc
  exact ⟨this, this⟩

theorem FindParms_zone_complement_witness :
    exA.Mask01 0 ∧ 0 ≤ exA.X_LIM ∧ 0 ≤ exA.Y_LIM ∧ 0 ≤ exA.Z_LIM ∧
    ((FindParms (FindParms exA 1 Zone.Inside 0).2 1 Zone.Outside 0).2.map_num
          1 Zone.Inside.code +
        (FindParms (FindParms exA 1 Zone.Inside 0).2 1 Zone.Outside 0).2.map_num
          1 Zone.Outside.code = exA.X_LIM * exA.Y_LIM * exA.Z_LIM ∧
      (FindParms exA 1 Zone.Inside 0).2.map_num 1 Zone.Inside.code +
        (FindParms exA 1 Zone.Outside 0).2.map_num 1 Zone.Outside.code =
          exA.X_LIM * exA.Y_LIM * exA.Z_LIM) :=
  ⟨exA_ZoneOK (by decide), by decide, by decide, by decide,
    FindParms_zone_complement exA 1 0 (exA_ZoneOK (by decide)) (by decide) (by decide)
      (by decide)⟩

theorem foldl_max_spec (l : List ℚ) (a : ℚ) :
    a ≤ l.foldl max a ∧ (∀ x ∈ l, x ≤ l.foldl max a) ∧
      (l.foldl max a = a ∨ l.foldl max a ∈ l) := by
  induction l generalizing a with
  | nil => simp
  | cons b l ih =>
    obtain ⟨h1, h2, h3⟩ := ih (max a b)
    rw [List.foldl_cons]
    refine ⟨le_trans (le_max_left a b) h1, ?_, ?_⟩
    · intro x hx
      rcases List.mem_cons.1 hx with rfl | hx
      · exact le_trans (le_max_right a x) h1
      · exact h2 x hx
    · rcases h3 with h | h
      · rcases max_choice a b with e | e
        · left
          rw [h, e]
        · right
          rw [h, e]
          exact List.mem_cons_self _ _
      · right
        exact List.mem_cons_of_mem _ h

theorem foldl_min_spec (l : List ℚ) (a : ℚ) :
    l.foldl min a ≤ a ∧ (∀ x ∈ l, l.foldl min a ≤ x) ∧
      (l.foldl min a = a ∨ l.foldl min a ∈ l) := by
  induction l generalizing a with
  | nil => simp
  | cons b l ih =>
    obtain ⟨h1, h2, h3⟩ := ih (min a b)
    rw [List.foldl_cons]
    refine ⟨le_trans h1 (min_le_left a b), ?_, ?_⟩
    · intro x hx
      rcases List.mem_cons.1 hx with rfl | hx
      · exact le_trans h1 (min_le_right a x)
      · exact h2 x hx
    · rcases h3 with h | h
      · rcases min_choice a b with e | e
        · left
          rw [h, e]
        · right
          rw [h, e]
          exact List.mem_cons_self _ _
      · right
        exact List.mem_cons_of_mem _ h

/-- The maximum `FindParms` records is the greater of `-1000` and the selected
values: it is the greatest selected value as soon as one selected value is at
least `-1000`. -/
theorem FindParms_max_in_range (st : State) (map1 : Int) (zone : Zone) (msk1 : Int)
    (hz : st.ZoneOK zone msk1)
    (h : ∃ c ∈ st.grid, st.Selected zone msk1 c ∧ -1000 ≤ st.voxel map1 c) :
    st.IsGreatest map1 zone msk1 ((FindParms st map1 zone msk1).2.map_max map1 zone.code) := by
  rw [(FindParms_records st map1 zone msk1).2.2.2.2.1, (FindParms_loop st map1 zone msk1 hz).2.2.1]
  obtain ⟨h1, h2, h3⟩ := foldl_max_spec
    ((st.grid.filter (fun c => decide (st.Selected zone msk1 c))).map
      (fun c => st.voxel map1 c)) (-1000)
  have hub : ∀ c ∈ st.grid, st.Selected zone msk1 c → st.voxel map1 c ≤
      ((st.grid.filter (fun c => decide (st.Selected zone msk1 c))).map
        (fun c => st.voxel map1 c)).foldl max (-1000) := by
    intro c hc hs
    apply h2
    exact List.mem_map.2 ⟨c, List.mem_filter.2 ⟨hc, by simpa using hs⟩, rfl⟩
  refine ⟨?_, hub⟩
  rcases h3 with e | e
  · obtain ⟨c, hc, hs, hv⟩ := h
    refine ⟨c, hc, hs, ?_⟩
    have := hub c hc hs
    rw [e] at this ⊢
    exact le_antisymm this hv
  · obtain ⟨c, hc, hv⟩ := List.mem_map.1 e
    obtain ⟨hc1, hc2⟩ := List.mem_filter.1 hc
    exact ⟨c, hc1, by simpa using hc2, hv⟩

/-- The minimum `FindParms` records is the lesser of `+1000` and the selected
values: it is the least selected value as soon as one selected value is at
most `1000`. -/
theorem FindParms_min_in_range (st : State) (map1 : Int) (zone : Zone) (msk1 : Int)
    (hz : st.ZoneOK zone msk1)
    (h : ∃ c ∈ st.grid, st.Selected zone msk1 c ∧ st.voxel map1 c ≤ 1000) :
    st.IsLeast map1 zone msk1 ((FindParms st map1 zone msk1).2.map_min map1 zone.code) := by
  rw [(FindParms_records st map1 zone msk1).2.2.2.2.2, (FindParms_loop st map1 zone msk1 hz).2.2.2]
  obtain ⟨h1, h2, h3⟩ := foldl_min_spec
    ((st.grid.filter (fun c => decide (st.Selected zone msk1 c))).map
      (fun c => st.voxel map1 c)) 1000
  have hlb : ∀ c ∈ st.grid, st.Selected zone msk1 c →
      ((st.grid.filter (fun c => decide (st.Selected zone msk1 c))).map
        (fun c => st.voxel map1 c)).foldl min 1000 ≤ st.voxel map1 c := by
    intro c hc hs
    apply h2
    exact List.mem_map.2 ⟨c, List.mem_filter.2 ⟨hc, by simpa using hs⟩, rfl⟩
  refine ⟨?_, hlb⟩
  rcases h3 with e | e
  · obtain ⟨c, hc, hs, hv⟩ := h
    refine ⟨c, hc, hs, ?_⟩
    have := hlb c hc hs
    rw [e] at this ⊢
    exact le_antisymm hv this
  · obtain ⟨c, hc, hv⟩ := List.mem_map.1 e
    obtain ⟨hc1, hc2⟩ := List.mem_filter.1 hc
    exact ⟨c, hc1, by simpa using hc2, hv⟩

/-- The scenario of the all-ones `4 * 4 * 4` map over zone Total: `FindParms`
records `max = 1`, `min = 1` and the count 64, and returns the mean 1. -/
theorem FindParms_all_ones :
    (FindParms exOnes 0 Zone.Total 0).2.map_max 0 Zone.Total.code = 1 ∧
      (FindParms exOnes 0 Zone.Total 0).2.map_min 0 Zone.Total.code = 1 ∧
      (FindParms exOnes 0 Zone.Total 0).2.map_num 0 Zone.Total.code = 64 ∧
      (FindParms exOnes 0 Zone.Total 0).1 = 1 := by
  have hin : (1, 1, 1) ∈ exOnes.grid := by decide
  have hmax := FindParms_max_in_range exOnes 0 Zone.Total 0 (zoneOK_Total _ _)
    ⟨(1, 1, 1), hin, trivial, by norm_num [State.voxel, exOnes, exState]⟩
  have hmin := FindParms_min_in_range exOnes 0 Zone.Total 0 (zoneOK_Total _ _)
    ⟨(1, 1, 1), hin, trivial, by norm_num [State.voxel, exOnes, exState]⟩
  obtain ⟨⟨c, _, _, e1⟩, _⟩ := hmax
  obtain ⟨⟨d, _, _, e2⟩, _⟩ := hmin
  have hn : exOnes.selectedCount Zone.Total 0 = 64 := by decide
  have hsum : exOnes.selectedSum 0 Zone.Total 0 = (exOnes.selectedCount Zone.Total 0 : ℚ) := by
    unfold State.selectedSum State.selectedCount
    simp [State.voxel, exOnes, exState]
  obtain ⟨r1, r2, r3, _⟩ := FindParms_records exOnes 0 Zone.Total 0
  obtain ⟨l1, l2, _⟩ := FindParms_loop exOnes 0 Zone.Total 0 (zoneOK_Total _ _)
  refine ⟨e1.symm, e2.symm, ?_, ?_⟩
  · rw [r1, l1, hn]
    rfl
  · rw [r3, r2, l1, l2, hsum, hn]
    norm_num

/-- C10. The sentinels `-1000` and `+1000` of `FindParms` are recorded when
every selected value lies beyond them: on a `1 * 1 * 1` map holding `-2000`
the recorded maximum over zone Total is `-1000`, which is not the greatest
selected value, and on a `1 * 1 * 1` map holding `2000` the recorded minimum
is `1000`, which is not the least selected value. -/
theorem FindParms_extrema_sentinel :
    (exOne (-2000)).voxel 0 (1, 1, 1) = -2000 ∧
      (FindParms (exOne (-2000)) 0 Zone.Total 0).2.map_max 0 Zone.Total.code = -1000 ∧
      ¬ (exOne (-2000)).IsGreatest 0 Zone.Total 0
        ((FindParms (exOne (-2000)) 0 Zone.Total 0).2.map_max 0 Zone.Total.code) ∧
      (exOne 2000).voxel 0 (1, 1, 1) = 2000 ∧
      (FindParms (exOne 2000) 0 Zone.Total 0).2.map_min 0 Zone.Total.code = 1000 ∧
      ¬ (exOne 2000).IsLeast 0 Zone.Total 0
        ((FindParms (exOne 2000) 0 Zone.Total 0).2.map_min 0 Zone.Total.code) := by
  unfold State.IsGreatest State.IsLeast
  decide


/-! ## ReadMap and WriteMap -/

/-- A non-reference `ReadMap` of a file whose counts differ from the grid
returns 2 and changes nothing but the header entry of the target slot, which
holds the header of the rejected file. -/
theorem ReadMap_reject (cv : ℚ → ℚ → ℚ → ℚ → ℚ → ℚ → ℚ) (st : State) (f : MapFile)
    (map1 : Int)
    (h : st.X_LIM ≠ f.hdr.NC ∨ st.Y_LIM ≠ f.hdr.NR ∨ st.Z_LIM ≠ f.hdr.NS) :
    (ReadMap cv st (some f) map1 0).1 = 2 ∧
      (ReadMap cv st (some f) map1 0).2.MAP = st.MAP ∧
      (ReadMap cv st (some f) map1 0).2.MSK = st.MSK ∧
      (∀ s, s ≠ map1 → (ReadMap cv st (some f) map1 0).2.MAP_H s = st.MAP_H s) ∧
      (ReadMap cv st (some f) map1 0).2.MAP_H map1 = readHeader (st.MAP_H map1) f.hdr := by
  have hc : (st.X_LIM ≠ (readHeader (st.MAP_H map1) f.hdr).NC ∨
      st.Y_LIM ≠ (readHeader (st.MAP_H map1) f.hdr).NR ∨
      st.Z_LIM ≠ (readHeader (st.MAP_H map1) f.hdr).NS) := h
  simp only [ReadMap, ne_eq, not_true_eq_false, if_false, Function.update_same, hc, if_true]
  refine ⟨trivial, trivial, trivial, ?_, trivial⟩
  intro s hs
  exact Function.update_noteq hs _ _


theorem load_fold {C : Type} (L : List C) (idx : C → Int) (g : C → ℚ) (m : Int → ℚ)
    (extra : List ℚ) :
    L.foldl (fun (acc : (Int → ℚ) × List ℚ) c =>
        match acc.2 with
        | [] => acc
        | v :: rest => (Function.update acc.1 (idx c) v, rest)) (m, L.map g ++ extra) =
      (L.foldl (updStep (fun _ => false) idx idx (fun c _ _ => g c)) m, extra) := by
  induction L generalizing m with
  | nil => rfl
  | cons a L ih =>
    simp only [List.foldl_cons, List.map_cons, List.cons_append]
    rw [ih]
    rfl

/-- Reading back all that `WriteMap` wrote, as the file holds it once the
program has exited, when the header of slot 0 carries the grid's column, row
and section counts: `WriteMap` of slot `s` succeeds, and a non-reference
`ReadMap` of what it wrote into any slot `t` returns 0, makes every voxel of
`t` equal to the voxel of `s`, and loads into the header of `t` the geometry
fields that were written (those of slot 0's header). -/
theorem WriteMap_ReadMap_flushed (cv : ℚ → ℚ → ℚ → ℚ → ℚ → ℚ → ℚ) (st : State)
    (hwf : st.WF) (s t : Int)
    (h0 : (st.MAP_H 0).NC = st.X_LIM ∧ (st.MAP_H 0).NR = st.Y_LIM ∧
      (st.MAP_H 0).NS = st.Z_LIM) :
    ∃ f, WriteMap st true s = (0, some f) ∧
      (ReadMap cv st (some f) t 0).1 = 0 ∧
      (∀ c ∈ st.grid, (ReadMap cv st (some f) t 0).2.voxel t c = st.voxel s c) ∧
      ((ReadMap cv st (some f) t 0).2.MAP_H t).NC = (st.MAP_H 0).NC ∧
      ((ReadMap cv st (some f) t 0).2.MAP_H t).NR = (st.MAP_H 0).NR ∧
      ((ReadMap cv st (some f) t 0).2.MAP_H t).NS = (st.MAP_H 0).NS ∧
      ((ReadMap cv st (some f) t 0).2.MAP_H t).NX = (st.MAP_H 0).NX ∧
      ((ReadMap cv st (some f) t 0).2.MAP_H t).NY = (st.MAP_H 0).NY ∧
      ((ReadMap cv st (some f) t 0).2.MAP_H t).NZ = (st.MAP_H 0).NZ ∧
      (∀ i, i < 6 →
        ((ReadMap cv st (some f) t 0).2.MAP_H t).CELL i = (st.MAP_H 0).CELL i) := by
  refine ⟨_, rfl, ?_⟩
  obtain ⟨hx, hy, hz⟩ := h0
  have hc : ¬ (st.X_LIM ≠ (st.MAP_H 0).NC ∨ st.Y_LIM ≠ (st.MAP_H 0).NR ∨
      st.Z_LIM ≠ (st.MAP_H 0).NS) := by
    rw [hx, hy, hz]
    simp
  simp only [ReadMap, ne_eq, not_true_eq_false, if_false, Function.update_same, readHeader,
    writeHeader, hc]
  refine ⟨trivial, ?_, trivial, trivial, trivial, trivial, trivial, trivial, ?_⟩
  · intro c hc
    simp only [State.voxel, loadLoop, State.LOC, State.grid]
    have h := load_fold st.grid (fun c => st.LOC c + t * st.XYZ_LIM)
      (fun c => st.MAP (st.LOC c + s * st.XYZ_LIM)) st.MAP []
    rw [List.append_nil] at h
    have e := congrArg Prod.fst h
    simp only [State.grid, State.LOC] at e
    rw [e]
    have h2 := updLoop_at (fun _ => false) (fun c => st.LOC c + t * st.XYZ_LIM)
      (fun c => st.LOC c + t * st.XYZ_LIM) (fun c _ _ => st.MAP (st.LOC c + s * st.XYZ_LIM))
      st.grid (gridLoop_nodup _ _ _)
      (fun c hc d hd e => (st.index_inj hwf c d t t hc hd e).1)
      (fun c hc d hd e => (st.index_inj hwf d c t t hd hc e).1) st.MAP c hc
    simpa [State.grid, State.LOC] using h2
  · intro i hi
    simp [hi]

theorem WriteMap_ReadMap_flushed_witness :
    exLoaded.WF ∧
    ((exLoaded.MAP_H 0).NC = exLoaded.X_LIM ∧ (exLoaded.MAP_H 0).NR = exLoaded.Y_LIM ∧
      (exLoaded.MAP_H 0).NS = exLoaded.Z_LIM) ∧
    (∃ f, WriteMap exLoaded true 1 = (0, some f) ∧
      (ReadMap exCellVolume exLoaded (some f) 2 0).1 = 0 ∧
      (∀ c ∈ exLoaded.grid,
        (ReadMap exCellVolume exLoaded (some f) 2 0).2.voxel 2 c = exLoaded.voxel 1 c) ∧
      ((ReadMap exCellVolume exLoaded (some f) 2 0).2.MAP_H 2).NC = (exLoaded.MAP_H 0).NC ∧
      ((ReadMap exCellVolume exLoaded (some f) 2 0).2.MAP_H 2).NR = (exLoaded.MAP_H 0).NR ∧
      ((ReadMap exCellVolume exLoaded (some f) 2 0).2.MAP_H 2).NS = (exLoaded.MAP_H 0).NS ∧
      ((ReadMap exCellVolume exLoaded (some f) 2 0).2.MAP_H 2).NX = (exLoaded.MAP_H 0).NX ∧
      ((ReadMap exCellVolume exLoaded (some f) 2 0).2.MAP_H 2).NY = (exLoaded.MAP_H 0).NY ∧
      ((ReadMap exCellVolume exLoaded (some f) 2 0).2.MAP_H 2).NZ = (exLoaded.MAP_H 0).NZ ∧
      (∀ i, i < 6 →
        ((ReadMap exCellVolume exLoaded (some f) 2 0).2.MAP_H 2).CELL i =
          (exLoaded.MAP_H 0).CELL i)) :=
  ⟨⟨rfl, rfl⟩, by decide,
    WriteMap_ReadMap_flushed exCellVolume exLoaded ⟨rfl, rfl⟩ 1 2 (by decide)⟩

/-- The reference load establishes the derived sizes. -/
theorem ReadMap_reference_WF (cv : ℚ → ℚ → ℚ → ℚ → ℚ → ℚ → ℚ) (st : State) (f : MapFile)
    (map1 mem : Int) (hmem : mem ≠ 0) : (ReadMap cv st (some f) map1 mem).2.WF := by
  simp only [ReadMap, hmem, ne_eq, not_false_eq_true, if_true]
  exact ⟨rfl, rfl⟩

/-- C2. A rejected load overwrites the header of its target slot. In the state
`exLoaded` (grid `2 * 1 * 1`) a non-reference `ReadMap` of a `3 * 1 * 1` file
into slot 1 returns 2 and leaves the voxels of slot 1 as they were, but the
column count of `MAP_H[1]`, 2 before the call, is 3 after it. -/
theorem ReadMap_reject_overwrites_header :
    (ReadMap exCellVolume exLoaded (some exBadFile) 1 0).1 = 2 ∧
      (∀ c ∈ exLoaded.grid,
        (ReadMap exCellVolume exLoaded (some exBadFile) 1 0).2.voxel 1 c =
          exLoaded.voxel 1 c) ∧
      (exLoaded.MAP_H 1).NC = 2 ∧
      ((ReadMap exCellVolume exLoaded (some exBadFile) 1 0).2.MAP_H 1).NC = 3 := by
  decide

/-- After a rejected load into slot 0 the round trip fails on a complete file
as well. In the state
`exRejected` the grid is `2 * 1 * 1` and slot 1 holds `3, 4`, but `MAP_H[0]`
holds the counts of the rejected `3 * 1 * 1` file; `WriteMap` of slot 1
succeeds and emits that header, and the non-reference `ReadMap` of the file
into slot 2 returns 2 and leaves slot 2 at `0, 0`. -/
theorem WriteMap_ReadMap_after_reject :
    (ReadMap exCellVolume exLoaded (some exBadFile) 0 0).1 = 2 ∧
      (exRejected.X_LIM, exRejected.Y_LIM, exRejected.Z_LIM) = (2, 1, 1) ∧
      (exRejected.MAP_H 0).NC = 3 ∧
      (WriteMap exRejected true 1).1 = 0 ∧
      (ReadMap exCellVolume exRejected (WriteMap exRejected true 1).2 2 0).1 = 2 ∧
      exRejected.voxel 1 (1, 1, 1) = 3 ∧
      (ReadMap exCellVolume exRejected (WriteMap exRejected true 1).2 2 0).2.voxel 2
        (1, 1, 1) = 0 := by
  decide


/-! ## Loops that store one cell per voxel: lemmas -/

section WrLoops

variable {C α : Type} (idx idx2 idx3 : C → Int) (g : C → α → α → α)

theorem wrLoop_frame (L : List C) (m : Int → α) (j : Int) (hj : ∀ c ∈ L, idx c ≠ j) :
    (L.foldl (wrStep idx idx2 idx3 g) m) j = m j := by
  induction L generalizing m with
  | nil => rfl
  | cons a L ih =>
    rw [List.foldl_cons, ih _ (fun c hc => hj c (List.mem_cons_of_mem _ hc))]
    unfold wrStep
    exact Function.update_noteq (Ne.symm (hj a (List.mem_cons_self _ _))) _ _

theorem wrLoop_at (L : List C) (hnd : L.Nodup)
    (hinj : ∀ c ∈ L, ∀ d ∈ L, idx c = idx d → c = d)
    (hrd2 : ∀ c ∈ L, ∀ d ∈ L, idx d = idx2 c → d = c)
    (hrd3 : ∀ c ∈ L, ∀ d ∈ L, idx d = idx3 c → d = c)
    (m : Int → α) (c : C) (hc : c ∈ L) :
    (L.foldl (wrStep idx idx2 idx3 g) m) (idx c) = g c (m (idx2 c)) (m (idx3 c)) := by
  induction L generalizing m with
  | nil => cases hc
  | cons a L ih =>
    rw [List.foldl_cons]
    have hnd2 := List.nodup_cons.1 hnd
    have hinj1 : ∀ c ∈ L, ∀ d ∈ L, idx c = idx d → c = d := fun c hc d hd =>
      hinj c (List.mem_cons_of_mem _ hc) d (List.mem_cons_of_mem _ hd)
    have hr2 : ∀ c ∈ L, ∀ d ∈ L, idx d = idx2 c → d = c := fun c hc d hd =>
      hrd2 c (List.mem_cons_of_mem _ hc) d (List.mem_cons_of_mem _ hd)
    have hr3 : ∀ c ∈ L, ∀ d ∈ L, idx d = idx3 c → d = c := fun c hc d hd =>
      hrd3 c (List.mem_cons_of_mem _ hc) d (List.mem_cons_of_mem _ hd)
    rcases List.mem_cons.1 hc with rfl | hcL
    · rw [wrLoop_frame]
      · unfold wrStep
        exact Function.update_same _ _ _
      · intro d hd hdc
        have := hinj d (List.mem_cons_of_mem _ hd) c (List.mem_cons_self _ _) hdc
        exact hnd2.1 (this ▸ hd)
    · rw [ih hnd2.2 hinj1 hr2 hr3 _ hcL]
      have hca : c ≠ a := fun h => hnd2.1 (h ▸ hcL)
      have h2 : idx2 c ≠ idx a := fun h =>
        hca (hrd2 c hc a (List.mem_cons_self _ _) h.symm).symm
      have h3 : idx3 c ≠ idx a := fun h =>
        hca (hrd3 c hc a (List.mem_cons_self _ _) h.symm).symm
      unfold wrStep
      rw [Function.update_noteq h2, Function.update_noteq h3]

end WrLoops

/-- A loop that stores, for every voxel, a value computed from the voxels of
the slots `a` and `b` into the voxel of slot `d` leaves in `d` the value
computed from the old voxels of `a` and `b`, whatever slots coincide. -/
theorem slotLoop_at {α : Type} (st : State) (hwf : st.WF) (d a b : Int) (g : α → α → α)
    (m : Int → α) (c : Int × Int × Int) (hc : c ∈ st.grid) :
    (st.grid.foldl (wrStep (fun c => st.LOC c + st.XYZ_LIM * d)
        (fun c => st.LOC c + st.XYZ_LIM * a) (fun c => st.LOC c + st.XYZ_LIM * b)
        (fun _ => g)) m) (st.LOC c + st.XYZ_LIM * d) =
      g (m (st.LOC c + st.XYZ_LIM * a)) (m (st.LOC c + st.XYZ_LIM * b)) :=
  wrLoop_at (fun c => st.LOC c + st.XYZ_LIM * d) (fun c => st.LOC c + st.XYZ_LIM * a)
    (fun c => st.LOC c + st.XYZ_LIM * b) (fun _ => g) st.grid (gridLoop_nodup _ _ _)
    (fun c hc e he h => (st.index_inj2 hwf c e d d hc he h).1)
    (fun c hc e he h => (st.index_inj2 hwf e c d a he hc h).1)
    (fun c hc e he h => (st.index_inj2 hwf e c d b he hc h).1) m c hc

/-- Such a loop changes no voxel of a slot other than `d`. -/
theorem slotLoop_frame {α : Type} (st : State) (hwf : st.WF) (d a b s : Int) (g : α → α → α)
    (m : Int → α) (c : Int × Int × Int) (hc : c ∈ st.grid) (hs : s ≠ d) :
    (st.grid.foldl (wrStep (fun c => st.LOC c + st.XYZ_LIM * d)
        (fun c => st.LOC c + st.XYZ_LIM * a) (fun c => st.LOC c + st.XYZ_LIM * b)
        (fun _ => g)) m) (st.LOC c + st.XYZ_LIM * s) = m (st.LOC c + st.XYZ_LIM * s) := by
  apply wrLoop_frame
  intro e he h
  exact hs (st.index_inj2 hwf e c d s he hc h).2.symm

/-! ## MaxMs, MinMs, Flip, MskCopy -/

theorem State.mvoxel_eq (st : State) (k : Int) (c : Int × Int × Int) :
    st.mvoxel k c = st.MSK (st.LOC c + st.XYZ_LIM * k) := by
  rw [mul_comm]; rfl

theorem MaxMs_MSK (st : State) (msk1 msk2 msk3 : Int) :
    (MaxMs st msk1 msk2 msk3).MSK =
      st.grid.foldl (wrStep (fun c => st.LOC c + st.XYZ_LIM * msk1)
        (fun c => st.LOC c + st.XYZ_LIM * msk2) (fun c => st.LOC c + st.XYZ_LIM * msk3)
        (fun _ a b => if a ≠ 0 ∨ b ≠ 0 then 1 else 0)) st.MSK := by
  unfold MaxMs wrStep
  simp only
  congr 1
  funext m c
  split_ifs <;> rfl

theorem MinMs_MSK (st : State) (msk1 msk2 msk3 : Int) :
    (MinMs st msk1 msk2 msk3).MSK =
      st.grid.foldl (wrStep (fun c => st.LOC c + st.XYZ_LIM * msk1)
        (fun c => st.LOC c + st.XYZ_LIM * msk2) (fun c => st.LOC c + st.XYZ_LIM * msk3)
        (fun _ a b => if a = 0 ∨ b = 0 then 0 else 1)) st.MSK := by
  unfold MinMs wrStep
  simp only
  congr 1
  funext m c
  split_ifs <;> rfl

theorem Flip_MSK (st : State) (msk1 msk2 : Int) :
    (Flip st msk1 msk2).MSK =
      st.grid.foldl (wrStep (fun c => st.LOC c + st.XYZ_LIM * msk1)
        (fun c => st.LOC c + st.XYZ_LIM * msk2) (fun c => st.LOC c + st.XYZ_LIM * msk2)
        (fun _ a _ => if a ≠ 0 then 0 else 1)) st.MSK := by
  unfold Flip wrStep
  simp only
  congr 1
  funext m c
  split_ifs <;> rfl

theorem MskCopy_MSK (st : State) (msk1 msk2 : Int) :
    (MskCopy st msk1 msk2).MSK =
      st.grid.foldl (wrStep (fun c => st.LOC c + st.XYZ_LIM * msk2)
        (fun c => st.LOC c + st.XYZ_LIM * msk1) (fun c => st.LOC c + st.XYZ_LIM * msk1)
        (fun _ a _ => a)) st.MSK :=
  rfl

/-- Value of every voxel of the target mask after `MaxMs`. -/
theorem MaxMs_mvoxel (st : State) (hwf : st.WF) (msk1 msk2 msk3 : Int)
    (c : Int × Int × Int) (hc : c ∈ st.grid) :
    (MaxMs st msk1 msk2 msk3).mvoxel msk1 c =
      if st.mvoxel msk2 c ≠ 0 ∨ st.mvoxel msk3 c ≠ 0 then 1 else 0 := by
  have e : (MaxMs st msk1 msk2 msk3).mvoxel msk1 c =
      (MaxMs st msk1 msk2 msk3).MSK (st.LOC c + st.XYZ_LIM * msk1) := by
    rw [mul_comm]; rfl
  rw [e, MaxMs_MSK, st.mvoxel_eq, st.mvoxel_eq]
  exact slotLoop_at st hwf msk1 msk2 msk3 _ st.MSK c hc

/-- Value of every voxel of the target mask after `MinMs`. -/
theorem MinMs_mvoxel (st : State) (hwf : st.WF) (msk1 msk2 msk3 : Int)
    (c : Int × Int × Int) (hc : c ∈ st.grid) :
    (MinMs st msk1 msk2 msk3).mvoxel msk1 c =
      if st.mvoxel msk2 c = 0 ∨ st.mvoxel msk3 c = 0 then 0 else 1 := by
  have e : (MinMs st msk1 msk2 msk3).mvoxel msk1 c =
      (MinMs st msk1 msk2 msk3).MSK (st.LOC c + st.XYZ_LIM * msk1) := by
    rw [mul_comm]; rfl
  rw [e, MinMs_MSK, st.mvoxel_eq, st.mvoxel_eq]
  exact slotLoop_at st hwf msk1 msk2 msk3 _ st.MSK c hc

/-- Value of every voxel of the target mask after `Flip`. -/
theorem Flip_mvoxel (st : State) (hwf : st.WF) (msk1 msk2 : Int)
    (c : Int × Int × Int) (hc : c ∈ st.grid) :
    (Flip st msk1 msk2).mvoxel msk1 c = if st.mvoxel msk2 c ≠ 0 then 0 else 1 := by
  have e : (Flip st msk1 msk2).mvoxel msk1 c =
      (Flip st msk1 msk2).MSK (st.LOC c + st.XYZ_LIM * msk1) := by
    rw [mul_comm]; rfl
  rw [e, Flip_MSK, st.mvoxel_eq]
  exact slotLoop_at st hwf msk1 msk2 msk2 (fun a _ => if a ≠ 0 then 0 else 1) st.MSK c hc

/-- Value of every voxel of the target mask after `MskCopy`. -/
theorem MskCopy_mvoxel (st : State) (hwf : st.WF) (msk1 msk2 : Int)
    (c : Int × Int × Int) (hc : c ∈ st.grid) :
    (MskCopy st msk1 msk2).mvoxel msk2 c = st.mvoxel msk1 c := by
  have e : (MskCopy st msk1 msk2).mvoxel msk2 c =
      (MskCopy st msk1 msk2).MSK (st.LOC c + st.XYZ_LIM * msk2) := by
    rw [mul_comm]; rfl
  rw [e, MskCopy_MSK, st.mvoxel_eq]
  exact slotLoop_at st hwf msk2 msk1 msk1 (fun a _ => a) st.MSK c hc

/-- `MskCopy` changes no voxel of a mask other than its target. -/
theorem MskCopy_mvoxel_other (st : State) (hwf : st.WF) (msk1 msk2 s : Int)
    (c : Int × Int × Int) (hc : c ∈ st.grid) (hs : s ≠ msk2) :
    (MskCopy st msk1 msk2).mvoxel s c = st.mvoxel s c := by
  have e : (MskCopy st msk1 msk2).mvoxel s c =
      (MskCopy st msk1 msk2).MSK (st.LOC c + st.XYZ_LIM * s) := by
    rw [mul_comm]; rfl
  rw [e, MskCopy_MSK, st.mvoxel_eq]
  exact slotLoop_frame st hwf msk2 msk1 msk1 s (fun a _ => a) st.MSK c hc hs


theorem exM_WF : exM.WF := ⟨rfl, rfl⟩

theorem exM_Mask01 (k : Int) : exM.Mask01 k := by
  intro c _
  unfold State.mvoxel exM exState
  simp only
  split_ifs <;> simp

/-- C15. `MaxMs` is the voxelwise OR: when the masks `msk2` and `msk3` hold
only 0 and 1, after `MaxMs(msk1, msk2, msk3)` a voxel of `msk1` is 1 exactly
when the voxel of `msk2` or of `msk3` was 1 before the call, and it is 0
otherwise; `msk1` may be the same slot as `msk2` or `msk3`. -/
theorem MaxMs_is_or (st : State) (hwf : st.WF) (msk1 msk2 msk3 : Int)
    (h2 : st.Mask01 msk2) (h3 : st.Mask01 msk3) :
    ∀ c ∈ st.grid,
      ((MaxMs st msk1 msk2 msk3).mvoxel msk1 c = 1 ↔
        (st.mvoxel msk2 c = 1 ∨ st.mvoxel msk3 c = 1)) ∧
      (¬ (st.mvoxel msk2 c = 1 ∨ st.mvoxel msk3 c = 1) →
        (MaxMs st msk1 msk2 msk3).mvoxel msk1 c = 0) := by
  intro c hc
  rw [MaxMs_mvoxel st hwf msk1 msk2 msk3 c hc]
  rcases h2 c hc with a | a <;> rcases h3 c hc with b | b <;> simp [a, b]

theorem MaxMs_is_or_witness :
    exM.WF ∧ exM.Mask01 0 ∧ exM.Mask01 1 ∧
    (∀ c ∈ exM.grid,
      ((MaxMs exM 0 0 1).mvoxel 0 c = 1 ↔ (exM.mvoxel 0 c = 1 ∨ exM.mvoxel 1 c = 1)) ∧
      (¬ (exM.mvoxel 0 c = 1 ∨ exM.mvoxel 1 c = 1) → (MaxMs exM 0 0 1).mvoxel 0 c = 0)) :=
  ⟨exM_WF, exM_Mask01 0, exM_Mask01 1,
    MaxMs_is_or exM exM_WF 0 0 1 (exM_Mask01 0) (exM_Mask01 1)⟩

/-- C16. `MinMs` is the voxelwise AND: when the masks `msk2` and `msk3` hold
only 0 and 1, after `MinMs(msk1, msk2, msk3)` a voxel of `msk1` is 0 exactly
when the voxel of `msk2` or of `msk3` was 0 before the call, and it is 1
otherwise; `msk1` may be the same slot as `msk2` or `msk3`. -/
theorem MinMs_is_and (st : State) (hwf : st.WF) (msk1 msk2 msk3 : Int)
    (h2 : st.Mask01 msk2) (h3 : st.Mask01 msk3) :
    ∀ c ∈ st.grid,
      ((MinMs st msk1 msk2 msk3).mvoxel msk1 c = 0 ↔
        (st.mvoxel msk2 c = 0 ∨ st.mvoxel msk3 c = 0)) ∧
      (¬ (st.mvoxel msk2 c = 0 ∨ st.mvoxel msk3 c = 0) →
        (MinMs st msk1 msk2 msk3).mvoxel msk1 c = 1) := by
  intro c hc
  rw [MinMs_mvoxel st hwf msk1 msk2 msk3 c hc]
  rcases h2 c hc with a | a <;> rcases h3 c hc with b | b <;> simp [a, b]

theorem MinMs_is_and_witness :
    exM.WF ∧ exM.Mask01 0 ∧ exM.Mask01 1 ∧
    (∀ c ∈ exM.grid,
      ((MinMs exM 1 0 1).mvoxel 1 c = 0 ↔ (exM.mvoxel 0 c = 0 ∨ exM.mvoxel 1 c = 0)) ∧
      (¬ (exM.mvoxel 0 c = 0 ∨ exM.mvoxel 1 c = 0) → (MinMs exM 1 0 1).mvoxel 1 c = 1)) :=
  ⟨exM_WF, exM_Mask01 0, exM_Mask01 1,
    MinMs_is_and exM exM_WF 1 0 1 (exM_Mask01 0) (exM_Mask01 1)⟩

/-- C17. `Flip` is the complement: when the mask `msk2` holds only 0 and 1,
after `Flip(msk1, msk2)` every voxel of `msk1` is 1 minus the old voxel of
`msk2`, and a second `Flip(msk3, msk1)` leaves in `msk3` the original voxels of
`msk2`; the slots may coincide, so flipping a mask in place twice returns
it. -/
theorem Flip_is_complement (st : State) (hwf : st.WF) (msk1 msk2 msk3 : Int)
    (h2 : st.Mask01 msk2) :
    ∀ c ∈ st.grid,
      (Flip st msk1 msk2).mvoxel msk1 c = 1 - st.mvoxel msk2 c ∧
      (Flip (Flip st msk1 msk2) msk3 msk1).mvoxel msk3 c = st.mvoxel msk2 c := by
  intro c hc
  have hwf1 : (Flip st msk1 msk2).WF := hwf
  have hc1 : c ∈ (Flip st msk1 msk2).grid := hc
  have e1 := Flip_mvoxel st hwf msk1 msk2 c hc
  refine ⟨?_, ?_⟩
  · rw [e1]
    rcases h2 c hc with a | a <;> simp [a]
  · rw [Flip_mvoxel (Flip st msk1 msk2) hwf1 msk3 msk1 c hc1, e1]
    rcases h2 c hc with a | a <;> simp [a]

theorem Flip_is_complement_witness :
    exM.WF ∧ exM.Mask01 0 ∧
    (∀ c ∈ exM.grid,
      (Flip exM 0 0).mvoxel 0 c = 1 - exM.mvoxel 0 c ∧
      (Flip (Flip exM 0 0) 0 0).mvoxel 0 c = exM.mvoxel 0 c) :=
  ⟨exM_WF, exM_Mask01 0, Flip_is_complement exM exM_WF 0 0 0 (exM_Mask01 0)⟩


/-! ## States with the same grid -/

theorem State.SameGrid.grid {a b : State} (h : a.SameGrid b) : a.grid = b.grid := by
  obtain ⟨hx, hy, hz, _, _, _⟩ := h
  unfold State.grid
  rw [hx, hy, hz]

theorem State.SameGrid.LOC {a b : State} (h : a.SameGrid b) (c : Int × Int × Int) :
    a.LOC c = b.LOC c := by
  obtain ⟨hx, _, _, hxy, _, _⟩ := h
  unfold State.LOC
  rw [hx, hxy]

theorem State.SameGrid.WF {a b : State} (h : a.SameGrid b) (hwf : b.WF) : a.WF := by
  obtain ⟨hx, hy, hz, hxy, hxyz, _⟩ := h
  unfold State.WF
  rw [hx, hy, hz, hxy, hxyz]
  exact hwf

theorem State.SameGrid.mvoxel {a b : State} (h : a.SameGrid b) (k : Int)
    (c : Int × Int × Int) : a.mvoxel k c = b.mvoxel k c := by
  unfold State.mvoxel
  rw [h.LOC c, h.2.2.2.2.1, h.2.2.2.2.2]

theorem State.SameGrid.skip {a b : State} (h : a.SameGrid b) (zone : Zone) (k : Int)
    (c : Int × Int × Int) : a.skip zone k c = b.skip zone k c := by
  unfold State.skip
  rw [h.LOC c, h.2.2.2.2.1, h.2.2.2.2.2]

theorem State.SameGrid.Selected {a b : State} (h : a.SameGrid b) (zone : Zone) (k : Int)
    (c : Int × Int × Int) : a.Selected zone k c ↔ b.Selected zone k c := by
  unfold State.Selected
  rw [h.mvoxel k c]

theorem State.SameGrid.ZoneOK {a b : State} (h : a.SameGrid b) (zone : Zone) (k : Int)
    (hz : b.ZoneOK zone k) : a.ZoneOK zone k := by
  intro hT c hc
  rw [h.mvoxel k c]
  exact hz hT c (h.grid ▸ hc)

theorem State.SameGrid.selectedCount {a b : State} (h : a.SameGrid b) (zone : Zone)
    (k : Int) : a.selectedCount zone k = b.selectedCount zone k := by
  unfold State.selectedCount
  rw [h.grid]
  congr 1
  apply List.filter_congr
  intro c _
  simp only [decide_eq_decide]
  exact h.Selected zone k c

theorem State.SameGrid.voxel {a b : State} (h : a.SameGrid b) (hm : a.MAP = b.MAP) (s : Int)
    (c : Int × Int × Int) : a.voxel s c = b.voxel s c := by
  unfold State.voxel
  rw [h.LOC c, h.2.2.2.2.1, hm]

/-- The sum of a slot over a zone, when every selected voxel of the slot is
`k` times the voxel of a state with the same grid. -/
theorem State.SameGrid.selectedSum_mul {a b : State} (h : a.SameGrid b) (s : Int)
    (zone : Zone) (k : Int) (q : ℚ)
    (hv : ∀ c ∈ b.grid, a.voxel s c = b.voxel s c * q) :
    a.selectedSum s zone k = b.selectedSum s zone k * q := by
  unfold State.selectedSum
  rw [h.grid, ← List.sum_map_mul_right]
  have e : List.filter (fun c => decide (a.Selected zone k c)) b.grid =
      List.filter (fun c => decide (b.Selected zone k c)) b.grid := by
    apply List.filter_congr
    intro c _
    simp only [decide_eq_decide]
    exact h.Selected zone k c
  rw [e]
  congr 1
  apply List.map_congr_left
  intro c hc
  exact hv c (List.mem_filter.1 hc).1

theorem FindParms_SameGrid (st : State) (map1 : Int) (zone : Zone) (msk1 : Int) :
    (FindParms st map1 zone msk1).2.SameGrid st ∧
      (FindParms st map1 zone msk1).2.MAP = st.MAP := by
  unfold FindParms State.SameGrid
  simp only
  split_ifs <;> exact ⟨⟨rfl, rfl, rfl, rfl, rfl, rfl⟩, rfl⟩

/-- The mean `FindParms` returns is the sum of the selected voxels divided by
their number. -/
theorem FindParms_mean (st : State) (map1 : Int) (zone : Zone) (msk1 : Int)
    (hz : st.ZoneOK zone msk1) :
    (FindParms st map1 zone msk1).1 =
      st.selectedSum map1 zone msk1 / (st.selectedCount zone msk1 : ℚ) := by
  obtain ⟨_, r2, r3, _⟩ := FindParms_records st map1 zone msk1
  obtain ⟨l1, l2, _⟩ := FindParms_loop st map1 zone msk1 hz
  rw [r3, r2, l1, l2]
  simp

/-- The statistics of other slots and zones are kept by `FindParms`. -/
theorem FindParms_other (st : State) (map1 : Int) (zone : Zone) (msk1 : Int) (s : Int)
    (hs : s ≠ map1) (j : Int) :
    (FindParms st map1 zone msk1).2.map_avg s j = st.map_avg s j ∧
      (FindParms st map1 zone msk1).2.map_num s j = st.map_num s j := by
  unfold FindParms
  simp only [set2]
  split_ifs <;> simp [Function.update_noteq hs]


/-! ## Scale -/

theorem Scale_SameGrid (st : State) (map1 map2 : Int) (zone : Zone) (msk1 : Int) :
    (Scale st map1 map2 zone msk1).2.SameGrid st := by
  obtain ⟨h1, _⟩ := FindParms_SameGrid st map1 zone msk1
  obtain ⟨h2, _⟩ := FindParms_SameGrid (FindParms st map1 zone msk1).2 map2 zone msk1
  obtain ⟨a1, a2, a3, a4, a5, a6⟩ := h1
  obtain ⟨b1, b2, b3, b4, b5, b6⟩ := h2
  exact ⟨b1.trans a1, b2.trans a2, b3.trans a3, b4.trans a4, b5.trans a5, b6.trans a6⟩

/-- The factor `Scale` returns is the mean of `map2` over the zone divided by
the mean of `map1` over the zone. -/
theorem Scale_factor (st : State) (map1 map2 : Int) (zone : Zone) (msk1 : Int)
    (hz : st.ZoneOK zone msk1) :
    (Scale st map1 map2 zone msk1).1 =
      (st.selectedSum map2 zone msk1 / (st.selectedCount zone msk1 : ℚ)) /
        (st.selectedSum map1 zone msk1 / (st.selectedCount zone msk1 : ℚ)) := by
  obtain ⟨g1, m1⟩ := FindParms_SameGrid st map1 zone msk1
  have hz1 := g1.ZoneOK zone msk1 hz
  have e2 : (FindParms (FindParms st map1 zone msk1).2 map2 zone msk1).2.map_avg map2
      zone.code = st.selectedSum map2 zone msk1 / (st.selectedCount zone msk1 : ℚ) := by
    rw [← (FindParms_records _ map2 zone msk1).2.2.1, FindParms_mean _ map2 zone msk1 hz1,
      g1.selectedCount, g1.selectedSum_mul map2 zone msk1 1 (fun c _ => by
        rw [g1.voxel m1, mul_one]), mul_one]
  have e1 : (FindParms (FindParms st map1 zone msk1).2 map2 zone msk1).2.map_avg map1
      zone.code = st.selectedSum map1 zone msk1 / (st.selectedCount zone msk1 : ℚ) := by
    by_cases h : map1 = map2
    · subst h
      exact e2
    · rw [(FindParms_other _ map2 zone msk1 map1 h zone.code).1,
        ← (FindParms_records st map1 zone msk1).2.2.1, FindParms_mean st map1 zone msk1 hz]
  show (FindParms (FindParms st map1 zone msk1).2 map2 zone msk1).2.map_avg map2 zone.code /
    (FindParms (FindParms st map1 zone msk1).2 map2 zone msk1).2.map_avg map1 zone.code = _
  rw [e1, e2]

/-- `Scale` multiplies every voxel of `map1` by the factor it returns. -/
theorem Scale_voxel (st : State) (hwf : st.WF) (map1 map2 : Int) (zone : Zone) (msk1 : Int)
    (c : Int × Int × Int) (hc : c ∈ st.grid) :
    (Scale st map1 map2 zone msk1).2.voxel map1 c =
      st.voxel map1 c * (Scale st map1 map2 zone msk1).1 := by
  obtain ⟨g1, m1⟩ := FindParms_SameGrid st map1 zone msk1
  obtain ⟨g2, m2⟩ := FindParms_SameGrid (FindParms st map1 zone msk1).2 map2 zone msk1
  have hwf2 : (FindParms (FindParms st map1 zone msk1).2 map2 zone msk1).2.WF :=
    g2.WF (g1.WF hwf)
  have hc2 : c ∈ (FindParms (FindParms st map1 zone msk1).2 map2 zone msk1).2.grid := by
    rw [g2.grid, g1.grid]
    exact hc
  have key := wrLoop_at
    (fun c => (FindParms (FindParms st map1 zone msk1).2 map2 zone msk1).2.LOC c +
      map1 * (FindParms (FindParms st map1 zone msk1).2 map2 zone msk1).2.XYZ_LIM)
    (fun c => (FindParms (FindParms st map1 zone msk1).2 map2 zone msk1).2.LOC c +
      map1 * (FindParms (FindParms st map1 zone msk1).2 map2 zone msk1).2.XYZ_LIM)
    (fun c => (FindParms (FindParms st map1 zone msk1).2 map2 zone msk1).2.LOC c +
      map1 * (FindParms (FindParms st map1 zone msk1).2 map2 zone msk1).2.XYZ_LIM)
    (fun _ v _ => v * (Scale st map1 map2 zone msk1).1)
    (FindParms (FindParms st map1 zone msk1).2 map2 zone msk1).2.grid (gridLoop_nodup _ _ _)
    (fun c hc e he h => (State.index_inj _ hwf2 c e map1 map1 hc he h).1)
    (fun c hc e he h => (State.index_inj _ hwf2 e c map1 map1 he hc h).1)
    (fun c hc e he h => (State.index_inj _ hwf2 e c map1 map1 he hc h).1)
    (FindParms (FindParms st map1 zone msk1).2 map2 zone msk1).2.MAP c hc2
  have e : st.voxel map1 c =
      (FindParms (FindParms st map1 zone msk1).2 map2 zone msk1).2.MAP
        ((FindParms (FindParms st map1 zone msk1).2 map2 zone msk1).2.LOC c +
          map1 * (FindParms (FindParms st map1 zone msk1).2 map2 zone msk1).2.XYZ_LIM) := by
    rw [← g1.voxel m1 map1 c, ← g2.voxel m2 map1 c]
    rfl
  rw [e]
  exact key

/-- `Scale` changes no voxel of a slot other than `map1`. -/
theorem Scale_voxel_other (st : State) (hwf : st.WF) (map1 map2 : Int) (zone : Zone)
    (msk1 : Int) (s : Int) (hs : s ≠ map1) (c : Int × Int × Int) (hc : c ∈ st.grid) :
    (Scale st map1 map2 zone msk1).2.voxel s c = st.voxel s c := by
  obtain ⟨g1, m1⟩ := FindParms_SameGrid st map1 zone msk1
  obtain ⟨g2, m2⟩ := FindParms_SameGrid (FindParms st map1 zone msk1).2 map2 zone msk1
  have hwf2 : (FindParms (FindParms st map1 zone msk1).2 map2 zone msk1).2.WF :=
    g2.WF (g1.WF hwf)
  have hc2 : c ∈ (FindParms (FindParms st map1 zone msk1).2 map2 zone msk1).2.grid := by
    rw [g2.grid, g1.grid]
    exact hc
  have key := wrLoop_frame
    (fun c => (FindParms (FindParms st map1 zone msk1).2 map2 zone msk1).2.LOC c +
      map1 * (FindParms (FindParms st map1 zone msk1).2 map2 zone msk1).2.XYZ_LIM)
    (fun c => (FindParms (FindParms st map1 zone msk1).2 map2 zone msk1).2.LOC c +
      map1 * (FindParms (FindParms st map1 zone msk1).2 map2 zone msk1).2.XYZ_LIM)
    (fun c => (FindParms (FindParms st map1 zone msk1).2 map2 zone msk1).2.LOC c +
      map1 * (FindParms (FindParms st map1 zone msk1).2 map2 zone msk1).2.XYZ_LIM)
    (fun _ v _ => v * (Scale st map1 map2 zone msk1).1)
    (FindParms (FindParms st map1 zone msk1).2 map2 zone msk1).2.grid
    (FindParms (FindParms st map1 zone msk1).2 map2 zone msk1).2.MAP
    ((FindParms (FindParms st map1 zone msk1).2 map2 zone msk1).2.LOC c +
      s * (FindParms (FindParms st map1 zone msk1).2 map2 zone msk1).2.XYZ_LIM)
    (fun e he h => hs (State.index_inj _ hwf2 e c map1 s he hc2 h).2.symm)
  have e : st.voxel s c =
      (FindParms (FindParms st map1 zone msk1).2 map2 zone msk1).2.MAP
        ((FindParms (FindParms st map1 zone msk1).2 map2 zone msk1).2.LOC c +
          s * (FindParms (FindParms st map1 zone msk1).2 map2 zone msk1).2.XYZ_LIM) := by
    rw [← g1.voxel m1 s c, ← g2.voxel m2 s c]
    rfl
  rw [e]
  exact key

/-- C14. Scale invariant: for distinct map slots `map1` and `map2` and a zone
that selects at least one voxel (0/1 mask for Inside and Outside) over which
the mean of `map1` is not 0, after `Scale(map1, map2, zone, msk1)` the mean of
`map1` over the zone that `FindParms` recomputes equals the mean of `map2` over
the zone, before and after the call, and no voxel of `map2` has changed. -/
theorem Scale_matches_mean (st : State) (hwf : st.WF) (map1 map2 : Int) (zone : Zone)
    (msk1 : Int) (hne : map1 ≠ map2) (hz : st.ZoneOK zone msk1)
    (hsel : 0 < st.selectedCount zone msk1)
    (hmean : (FindParms st map1 zone msk1).1 ≠ 0) :
    (FindParms (Scale st map1 map2 zone msk1).2 map1 zone msk1).1 =
        (FindParms st map2 zone msk1).1 ∧
      (FindParms (Scale st map1 map2 zone msk1).2 map1 zone msk1).1 =
        (FindParms (Scale st map1 map2 zone msk1).2 map2 zone msk1).1 ∧
      (∀ c ∈ st.grid, (Scale st map1 map2 zone msk1).2.voxel map2 c = st.voxel map2 c) := by
  have g := Scale_SameGrid st map1 map2 zone msk1
  have hz2 := g.ZoneOK zone msk1 hz
  have hother : ∀ c ∈ st.grid, (Scale st map1 map2 zone msk1).2.voxel map2 c =
      st.voxel map2 c :=
    fun c hc => Scale_voxel_other st hwf map1 map2 zone msk1 map2 (Ne.symm hne) c hc
  have hm1 := FindParms_mean st map1 zone msk1 hz
  rw [hm1] at hmean
  have hN : (st.selectedCount zone msk1 : ℚ) ≠ 0 := by
    have : st.selectedCount zone msk1 ≠ 0 := by omega
    exact_mod_cast this
  have hS : st.selectedSum map1 zone msk1 ≠ 0 := fun h => hmean (by rw [h, zero_div])
  have e1 : (FindParms (Scale st map1 map2 zone msk1).2 map1 zone msk1).1 =
      (FindParms st map2 zone msk1).1 := by
    rw [FindParms_mean _ map1 zone msk1 hz2, FindParms_mean st map2 zone msk1 hz,
      g.selectedCount, g.selectedSum_mul map1 zone msk1 (Scale st map1 map2 zone msk1).1
        (fun c hc => Scale_voxel st hwf map1 map2 zone msk1 c hc),
      Scale_factor st map1 map2 zone msk1 hz]
    field_simp
  have e2 : (FindParms (Scale st map1 map2 zone msk1).2 map2 zone msk1).1 =
      (FindParms st map2 zone msk1).1 := by
    rw [FindParms_mean _ map2 zone msk1 hz2, FindParms_mean st map2 zone msk1 hz,
      g.selectedCount, g.selectedSum_mul map2 zone msk1 1 (fun c hc => by
        rw [hother c hc, mul_one]), mul_one]
  exact ⟨e1, e1.trans e2.symm, hother⟩

unseal Rat.mul Rat.inv Rat.add Rat.sub in
theorem Scale_matches_mean_witness :
    exA.WF ∧ (0 : Int) ≠ 1 ∧ exA.ZoneOK Zone.Total 0 ∧ 0 < exA.selectedCount Zone.Total 0 ∧
    (FindParms exA 0 Zone.Total 0).1 ≠ 0 ∧
    ((FindParms (Scale exA 0 1 Zone.Total 0).2 0 Zone.Total 0).1 =
        (FindParms exA 1 Zone.Total 0).1 ∧
      (FindParms (Scale exA 0 1 Zone.Total 0).2 0 Zone.Total 0).1 =
        (FindParms (Scale exA 0 1 Zone.Total 0).2 1 Zone.Total 0).1 ∧
      (∀ c ∈ exA.grid, (Scale exA 0 1 Zone.Total 0).2.voxel 1 c = exA.voxel 1 c)) :=
  ⟨exA_WF, by decide, zoneOK_Total exA 0, by decide, by decide,
    Scale_matches_mean exA exA_WF 0 1 Zone.Total 0 (by decide) (zoneOK_Total exA 0)
      (by decide) (by decide)⟩


/-! ## FindRMS -/

theorem sum_fold {C : Type} (L : List C) (skip : C → Bool) (f : C → ℚ) (s0 : ℚ) :
    L.foldl (fun sum c => if skip c then sum else sum + f c) s0 =
      s0 + ((L.filter (fun c => !skip c)).map f).sum := by
  induction L generalizing s0 with
  | nil => simp
  | cons a L ih =>
    rw [List.foldl_cons, ih, List.filter_cons]
    cases hs : skip a with
    | true => simp
    | false => simp [add_assoc]

/-- The sum `FindRMS` accumulates is the sum over the selected voxels of the
squared deviation from the cell `map_avg[map1][zone]`. -/
theorem FindRMS_loop (st : State) (map1 : Int) (zone : Zone) (msk1 : Int)
    (hz : st.ZoneOK zone msk1) :
    FindRMS.loop st map1 zone msk1 =
      st.selectedSqDev map1 zone msk1 (st.map_avg map1 zone.code) := by
  unfold FindRMS.loop State.selectedSqDev
  rw [sum_fold st.grid (st.skip zone msk1)
    (fun c => (st.MAP (st.LOC c + map1 * st.XYZ_LIM) - st.map_avg map1 zone.code) *
      (st.MAP (st.LOC c + map1 * st.XYZ_LIM) - st.map_avg map1 zone.code)) 0,
    filter_selected st zone msk1 hz, zero_add]
  congr 1
  apply List.map_congr_left
  intro c _
  simp only [State.voxel]
  ring

theorem FindRMS_records (sqrt : ℚ → ℚ) (st : State) (map1 : Int) (zone : Zone) (msk1 : Int) :
    (FindRMS sqrt st map1 zone msk1).2.map_var map1 zone.code =
        FindRMS.loop st map1 zone msk1 / (st.map_num map1 zone.code : ℚ) ∧
      (FindRMS sqrt st map1 zone msk1).1 =
        sqrt ((FindRMS sqrt st map1 zone msk1).2.map_var map1 zone.code) ∧
      (FindRMS sqrt st map1 zone msk1).2.map_rms map1 zone.code =
        (FindRMS sqrt st map1 zone msk1).1 := by
  unfold FindRMS
  simp only [set2]
  split_ifs <;> simp

theorem State.SameGrid.selectedSqDev {a b : State} (h : a.SameGrid b) (hm : a.MAP = b.MAP)
    (s : Int) (zone : Zone) (k : Int) (m : ℚ) :
    a.selectedSqDev s zone k m = b.selectedSqDev s zone k m := by
  unfold State.selectedSqDev
  rw [h.grid]
  have e : List.filter (fun c => decide (a.Selected zone k c)) b.grid =
      List.filter (fun c => decide (b.Selected zone k c)) b.grid := by
    apply List.filter_congr
    intro c _
    simp only [decide_eq_decide]
    exact h.Selected zone k c
  rw [e]
  congr 1
  apply List.map_congr_left
  intro c _
  rw [h.voxel hm s c]

/-- The sum of a slot over a zone on which every selected voxel is `k`. -/
theorem selectedSum_const (st : State) (s : Int) (zone : Zone) (k : Int) (v : ℚ)
    (hv : ∀ c ∈ st.grid, st.Selected zone k c → st.voxel s c = v) :
    st.selectedSum s zone k = (st.selectedCount zone k : ℚ) * v := by
  unfold State.selectedSum State.selectedCount
  have e : (st.grid.filter (fun c => decide (st.Selected zone k c))).map
      (fun c => st.voxel s c) =
      (st.grid.filter (fun c => decide (st.Selected zone k c))).map (fun _ => v) := by
    apply List.map_congr_left
    intro c hc
    obtain ⟨h1, h2⟩ := List.mem_filter.1 hc
    exact hv c h1 (by simpa using h2)
  rw [e]
  simp

theorem selectedSqDev_const (st : State) (s : Int) (zone : Zone) (k : Int) (v : ℚ)
    (hv : ∀ c ∈ st.grid, st.Selected zone k c → st.voxel s c = v) :
    st.selectedSqDev s zone k v = 0 := by
  unfold State.selectedSqDev
  have e : (st.grid.filter (fun c => decide (st.Selected zone k c))).map
      (fun c => (st.voxel s c - v) ^ 2) =
      (st.grid.filter (fun c => decide (st.Selected zone k c))).map (fun _ => (0 : ℚ)) := by
    apply List.map_congr_left
    intro c hc
    obtain ⟨h1, h2⟩ := List.mem_filter.1 hc
    rw [hv c h1 (by simpa using h2)]
    simp
  rw [e]
  simp

/-- In arithmetic without rounding, `FindRMS` run after `FindParms` for the same
slot and zone, when the zone selects `N >= 1` voxels (0/1 mask for Inside and
Outside): the variance recorded is `(1/N)` times the sum over the selected
voxels of `(v - mean) ^ 2`, with `mean` the sum of the selected voxels divided
by `N`; the value returned is `sqrt` of that variance and is recorded as the
rms. -/
theorem FindRMS_variance_exact (sqrt : ℚ → ℚ) (st : State) (map1 : Int) (zone : Zone)
    (msk1 : Int) (hz : st.ZoneOK zone msk1) (hsel : 0 < st.selectedCount zone msk1) :
    (FindRMS sqrt (FindParms st map1 zone msk1).2 map1 zone msk1).2.map_var map1 zone.code =
        (1 / (st.selectedCount zone msk1 : ℚ)) *
          st.selectedSqDev map1 zone msk1
            (st.selectedSum map1 zone msk1 / (st.selectedCount zone msk1 : ℚ)) ∧
      (FindRMS sqrt (FindParms st map1 zone msk1).2 map1 zone msk1).1 =
        sqrt ((FindRMS sqrt (FindParms st map1 zone msk1).2 map1 zone msk1).2.map_var
          map1 zone.code) ∧
      (FindRMS sqrt (FindParms st map1 zone msk1).2 map1 zone msk1).2.map_rms map1 zone.code =
        (FindRMS sqrt (FindParms st map1 zone msk1).2 map1 zone msk1).1 := by
  obtain ⟨g, hm⟩ := FindParms_SameGrid st map1 zone msk1
  obtain ⟨r1, r2, r3, _⟩ := FindParms_records st map1 zone msk1
  obtain ⟨l1, l2, _⟩ := FindParms_loop st map1 zone msk1 hz
  obtain ⟨f1, f2, f3⟩ := FindRMS_records sqrt (FindParms st map1 zone msk1).2 map1 zone msk1
  have hN : (st.selectedCount zone msk1 : ℚ) ≠ 0 := by
    have : st.selectedCount zone msk1 ≠ 0 := by omega
    exact_mod_cast this
  have hvar : (FindRMS sqrt (FindParms st map1 zone msk1).2 map1 zone msk1).2.map_var
      map1 zone.code = (1 / (st.selectedCount zone msk1 : ℚ)) *
        st.selectedSqDev map1 zone msk1
          (st.selectedSum map1 zone msk1 / (st.selectedCount zone msk1 : ℚ)) := by
    rw [f1, FindRMS_loop _ map1 zone msk1 (g.ZoneOK zone msk1 hz), g.selectedSqDev hm, r1, r2,
      l1, l2]
    simp only [Int.cast_natCast]
    ring
  exact ⟨hvar, f2, f3⟩

/-- The statistics `Scale` leaves for `map1` and the zone are those of before
the scaling. -/
theorem Scale_cache (st : State) (map1 map2 : Int) (zone : Zone) (msk1 : Int)
    (hz : st.ZoneOK zone msk1) :
    (Scale st map1 map2 zone msk1).2.map_avg map1 zone.code =
        st.selectedSum map1 zone msk1 / (st.selectedCount zone msk1 : ℚ) ∧
      (Scale st map1 map2 zone msk1).2.map_num map1 zone.code =
        (st.selectedCount zone msk1 : Int) := by
  obtain ⟨g1, m1⟩ := FindParms_SameGrid st map1 zone msk1
  have hz1 := g1.ZoneOK zone msk1 hz
  constructor
  · show (FindParms (FindParms st map1 zone msk1).2 map2 zone msk1).2.map_avg map1
      zone.code = _
    by_cases h : map1 = map2
    · subst h
      rw [← (FindParms_records _ map1 zone msk1).2.2.1, FindParms_mean _ map1 zone msk1 hz1,
        g1.selectedCount, g1.selectedSum_mul map1 zone msk1 1 (fun c _ => by
          rw [g1.voxel m1, mul_one]), mul_one]
    · rw [(FindParms_other _ map2 zone msk1 map1 h zone.code).1,
        ← (FindParms_records st map1 zone msk1).2.2.1, FindParms_mean st map1 zone msk1 hz]
  · show (FindParms (FindParms st map1 zone msk1).2 map2 zone msk1).2.map_num map1
      zone.code = _
    by_cases h : map1 = map2
    · subst h
      rw [(FindParms_records _ map1 zone msk1).1, (FindParms_loop _ map1 zone msk1 hz1).1,
        g1.selectedCount]
    · rw [(FindParms_other _ map2 zone msk1 map1 h zone.code).2,
        (FindParms_records st map1 zone msk1).1, (FindParms_loop st map1 zone msk1 hz).1]

unseal Rat.mul Rat.inv Rat.add Rat.sub in
/-- C12. `FindRMS` does not follow a mutation. In `exStale` the slot 0 of `exA`
(holding `1, 2`) has been zeroed after `FindParms` cached its mean 3/2 and
count 2 for zone Total: the cache still holds 3/2, every voxel of the slot is
0, and `FindRMS` records the variance 9/4 and returns its root 3/2, whereas
the root of the variance of the current contents about their current mean is
0. -/
theorem FindRMS_stale_after_Zero :
    exStale.map_avg 0 Zone.Total.code = 3 / 2 ∧
      (∀ c ∈ exStale.grid, exStale.voxel 0 c = 0) ∧
      (FindRMS exSqrt exStale 0 Zone.Total 0).2.map_var 0 Zone.Total.code = 9 / 4 ∧
      (FindRMS exSqrt exStale 0 Zone.Total 0).1 = 3 / 2 ∧
      exSqrt ((1 / (exStale.selectedCount Zone.Total 0 : ℚ)) *
        exStale.selectedSqDev 0 Zone.Total 0
          (exStale.selectedSum 0 Zone.Total 0 / (exStale.selectedCount Zone.Total 0 : ℚ))) =
        0 := by
  decide

/-- What `FindRMS` computes on any state, from the cached statistics: with a
0/1 mask for the zones Inside and Outside, the variance it records is the sum over the
currently selected voxels of `(v - m) ^ 2` divided by `N`, with `m` and `N`
the cells `map_avg[map1][zone]` and `map_num[map1][zone]` as the state holds
them, and it returns `sqrt` of that variance. `Zero`, `Cut`, `MapMod`, `MapAdd`
and `MapMult` leave `map_avg` and `map_num` as they were, and `Scale` leaves in
them, for `map1` and its zone, the mean and count of before the scaling. -/
theorem FindRMS_uses_cached_statistics (sqrt : ℚ → ℚ) (st : State) (map1 : Int)
    (zone : Zone) (msk1 : Int) (hz : st.ZoneOK zone msk1) :
    (FindRMS sqrt st map1 zone msk1).2.map_var map1 zone.code =
        st.selectedSqDev map1 zone msk1 (st.map_avg map1 zone.code) /
          (st.map_num map1 zone.code : ℚ) ∧
      (FindRMS sqrt st map1 zone msk1).1 =
        sqrt ((FindRMS sqrt st map1 zone msk1).2.map_var map1 zone.code) ∧
      (∀ s z k, (Zero st s z k).2.map_avg = st.map_avg ∧
        (Zero st s z k).2.map_num = st.map_num) ∧
      (∀ s z k a b, (Cut st s z k a b).2.map_avg = st.map_avg ∧
        (Cut st s z k a b).2.map_num = st.map_num) ∧
      (∀ s t z k v, (MapMod st s t z k v).map_avg = st.map_avg ∧
        (MapMod st s t z k v).map_num = st.map_num) ∧
      (∀ s z k v, (MapAdd st s z k v).map_avg = st.map_avg ∧
        (MapAdd st s z k v).map_num = st.map_num) ∧
      (∀ s z k v, (MapMult st s z k v).map_avg = st.map_avg ∧
        (MapMult st s z k v).map_num = st.map_num) ∧
      (∀ t, (Scale st map1 t zone msk1).2.map_avg map1 zone.code =
          st.selectedSum map1 zone msk1 / (st.selectedCount zone msk1 : ℚ) ∧
        (Scale st map1 t zone msk1).2.map_num map1 zone.code =
          (st.selectedCount zone msk1 : Int)) := by
  obtain ⟨f1, f2, _⟩ := FindRMS_records sqrt st map1 zone msk1
  refine ⟨?_, f2, fun _ _ _ => ⟨rfl, rfl⟩, fun _ _ _ _ _ => ⟨rfl, rfl⟩,
    fun _ _ _ _ _ => ⟨rfl, rfl⟩, fun _ _ _ _ => ⟨rfl, rfl⟩, fun _ _ _ _ => ⟨rfl, rfl⟩,
    fun t => Scale_cache st map1 t zone msk1 hz⟩
  rw [f1, FindRMS_loop st map1 zone msk1 hz]

theorem FindRMS_uses_cached_statistics_witness :
    exStale.ZoneOK Zone.Total 0 ∧
    ((FindRMS exSqrt exStale 0 Zone.Total 0).2.map_var 0 Zone.Total.code =
        exStale.selectedSqDev 0 Zone.Total 0 (exStale.map_avg 0 Zone.Total.code) /
          (exStale.map_num 0 Zone.Total.code : ℚ) ∧
      (FindRMS exSqrt exStale 0 Zone.Total 0).1 =
        exSqrt ((FindRMS exSqrt exStale 0 Zone.Total 0).2.map_var 0 Zone.Total.code) ∧
      (∀ s z k, (Zero exStale s z k).2.map_avg = exStale.map_avg ∧
        (Zero exStale s z k).2.map_num = exStale.map_num) ∧
      (∀ s z k a b, (Cut exStale s z k a b).2.map_avg = exStale.map_avg ∧
        (Cut exStale s z k a b).2.map_num = exStale.map_num) ∧
      (∀ s t z k v, (MapMod exStale s t z k v).map_avg = exStale.map_avg ∧
        (MapMod exStale s t z k v).map_num = exStale.map_num) ∧
      (∀ s z k v, (MapAdd exStale s z k v).map_avg = exStale.map_avg ∧
        (MapAdd exStale s z k v).map_num = exStale.map_num) ∧
      (∀ s z k v, (MapMult exStale s z k v).map_avg = exStale.map_avg ∧
        (MapMult exStale s z k v).map_num = exStale.map_num) ∧
      (∀ t, (Scale exStale 0 t Zone.Total 0).2.map_avg 0 Zone.Total.code =
          exStale.selectedSum 0 Zone.Total 0 / (exStale.selectedCount Zone.Total 0 : ℚ) ∧
        (Scale exStale 0 t Zone.Total 0).2.map_num 0 Zone.Total.code =
          (exStale.selectedCount Zone.Total 0 : Int))) :=
  ⟨zoneOK_Total exStale 0,
    FindRMS_uses_cached_statistics exSqrt exStale 0 Zone.Total 0 (zoneOK_Total exStale 0)⟩


theorem selectedSum_empty (st : State) (s : Int) (zone : Zone) (k : Int)
    (h0 : st.selectedCount zone k = 0) : st.selectedSum s zone k = 0 := by
  unfold State.selectedCount at h0
  unfold State.selectedSum
  rw [List.length_eq_zero.1 h0]
  rfl

theorem selectedSqDev_empty (st : State) (s : Int) (zone : Zone) (k : Int) (m : ℚ)
    (h0 : st.selectedCount zone k = 0) : st.selectedSqDev s zone k m = 0 := by
  unfold State.selectedCount at h0
  unfold State.selectedSqDev
  rw [List.length_eq_zero.1 h0]
  rfl

unseal Rat.mul Rat.inv Rat.add Rat.sub in
/-- C13 as stated fails. Zone Inside of mask slot 1 of `exA`, which is all 0,
selects no voxel: `FindParms` of map slot 0 records the count 0 and returns,
as the mean, the quotient of the sum by that count, and `FindRMS` then returns
the root of the quotient of its sum by that count; neither reports a
failure. -/
theorem FindParms_degenerate_no_failure :
    exA.selectedCount Zone.Inside 1 = 0 ∧
      (FindParms exA 0 Zone.Inside 1).2.map_num 0 Zone.Inside.code = 0 ∧
      (FindParms exA 0 Zone.Inside 1).1 =
        (FindParms.loop exA 0 Zone.Inside 1).tot /
          (((FindParms exA 0 Zone.Inside 1).2.map_num 0 Zone.Inside.code : ℚ) * 1) ∧
      (FindRMS exSqrt (FindParms exA 0 Zone.Inside 1).2 0 Zone.Inside 1).1 =
        exSqrt (FindRMS.loop (FindParms exA 0 Zone.Inside 1).2 0 Zone.Inside 1 /
          ((FindParms exA 0 Zone.Inside 1).2.map_num 0 Zone.Inside.code : ℚ)) := by
  decide

/-- C13, amended. On a zone that selects no voxel (0/1 mask for Inside and
Outside) `FindParms` and `FindRMS` report no failure: `FindParms` records the
count 0, the maximum `-1000`, the minimum `+1000` and, as the mean it also
returns, the quotient of the sum 0 by the count 0; `FindRMS` run after it
records as variance the quotient of its sum 0 by that count 0 and returns
`sqrt` of it. -/
theorem FindParms_FindRMS_degenerate (sqrt : ℚ → ℚ) (st : State) (map1 : Int) (zone : Zone)
    (msk1 : Int) (hz : st.ZoneOK zone msk1) (h0 : st.selectedCount zone msk1 = 0) :
    (FindParms st map1 zone msk1).2.map_num map1 zone.code = 0 ∧
      (FindParms st map1 zone msk1).2.map_max map1 zone.code = -1000 ∧
      (FindParms st map1 zone msk1).2.map_min map1 zone.code = 1000 ∧
      (FindParms.loop st map1 zone msk1).tot = 0 ∧
      (FindParms st map1 zone msk1).1 =
        (FindParms.loop st map1 zone msk1).tot /
          ((FindParms st map1 zone msk1).2.map_num map1 zone.code : ℚ) ∧
      (FindParms st map1 zone msk1).2.map_avg map1 zone.code =
        (FindParms st map1 zone msk1).1 ∧
      FindRMS.loop (FindParms st map1 zone msk1).2 map1 zone msk1 = 0 ∧
      (FindRMS sqrt (FindParms st map1 zone msk1).2 map1 zone msk1).2.map_var map1 zone.code =
        FindRMS.loop (FindParms st map1 zone msk1).2 map1 zone msk1 /
          ((FindParms st map1 zone msk1).2.map_num map1 zone.code : ℚ) ∧
      (FindRMS sqrt (FindParms st map1 zone msk1).2 map1 zone msk1).1 =
        sqrt ((FindRMS sqrt (FindParms st map1 zone msk1).2 map1 zone msk1).2.map_var
          map1 zone.code) := by
  obtain ⟨g, hm⟩ := FindParms_SameGrid st map1 zone msk1
  obtain ⟨r1, r2, r3, _, r5, r6⟩ := FindParms_records st map1 zone msk1
  obtain ⟨l1, l2, l3, l4⟩ := FindParms_loop st map1 zone msk1 hz
  obtain ⟨f1, f2, _⟩ := FindRMS_records sqrt (FindParms st map1 zone msk1).2 map1 zone msk1
  have hfil : st.grid.filter (fun c => decide (st.Selected zone msk1 c)) = [] :=
    List.length_eq_zero.1 h0
  refine ⟨?_, ?_, ?_, ?_, ?_, r3.symm, ?_, f1, f2⟩
  · rw [r1, l1, h0]
    rfl
  · rw [r5, l3, hfil]
    rfl
  · rw [r6, l4, hfil]
    rfl
  · rw [l2, selectedSum_empty st map1 zone msk1 h0]
  · rw [r3, r2, r1]
  · rw [FindRMS_loop _ map1 zone msk1 (g.ZoneOK zone msk1 hz),
      selectedSqDev_empty _ map1 zone msk1 _ (by rw [g.selectedCount]; exact h0)]

theorem FindParms_FindRMS_degenerate_witness :
    exA.ZoneOK Zone.Inside 1 ∧ exA.selectedCount Zone.Inside 1 = 0 ∧
    ((FindParms exA 0 Zone.Inside 1).2.map_num 0 Zone.Inside.code = 0 ∧
      (FindParms exA 0 Zone.Inside 1).2.map_max 0 Zone.Inside.code = -1000 ∧
      (FindParms exA 0 Zone.Inside 1).2.map_min 0 Zone.Inside.code = 1000 ∧
      (FindParms.loop exA 0 Zone.Inside 1).tot = 0 ∧
      (FindParms exA 0 Zone.Inside 1).1 =
        (FindParms.loop exA 0 Zone.Inside 1).tot /
          ((FindParms exA 0 Zone.Inside 1).2.map_num 0 Zone.Inside.code : ℚ) ∧
      (FindParms exA 0 Zone.Inside 1).2.map_avg 0 Zone.Inside.code =
        (FindParms exA 0 Zone.Inside 1).1 ∧
      FindRMS.loop (FindParms exA 0 Zone.Inside 1).2 0 Zone.Inside 1 = 0 ∧
      (FindRMS exSqrt (FindParms exA 0 Zone.Inside 1).2 0 Zone.Inside 1).2.map_var 0
          Zone.Inside.code =
        FindRMS.loop (FindParms exA 0 Zone.Inside 1).2 0 Zone.Inside 1 /
          ((FindParms exA 0 Zone.Inside 1).2.map_num 0 Zone.Inside.code : ℚ) ∧
      (FindRMS exSqrt (FindParms exA 0 Zone.Inside 1).2 0 Zone.Inside 1).1 =
        exSqrt ((FindRMS exSqrt (FindParms exA 0 Zone.Inside 1).2 0 Zone.Inside 1).2.map_var
          0 Zone.Inside.code)) :=
  ⟨fun _ => by unfold State.Mask01; decide, by decide,
    FindParms_FindRMS_degenerate exSqrt exA 0 Zone.Inside 1
      (fun _ => by unfold State.Mask01; decide) (by decide)⟩


/-! ## Smear -/

set_option maxRecDepth 100000 in
set_option maxHeartbeats 4000000 in
unseal Rat.mul Rat.inv Rat.add Rat.sub in
/-- C18. `Smear` does not preserve a uniform field for `N = 2`. On the
`2 * 2 * 2` grid `exUniform`, whose map slot 0 holds 1 in every voxel,
`Smear(0, 1, 2, 2)` leaves 39/32 in the voxel `(1,1,1)` of the destination
slot 1 and 25/32 in its voxel `(2,2,2)`. -/
theorem Smear_uniform_not_preserved :
    (∀ c ∈ exUniform.grid, exUniform.voxel 0 c = 1) ∧
      (Smear exUniform 0 1 2 2).voxel 1 (1, 1, 1) = 39 / 32 ∧
      (Smear exUniform 0 1 2 2).voxel 1 (2, 2, 2) = 25 / 32 := by
  refine ⟨by decide, by decide, by decide⟩

/-- The neighbour coordinate 0 is not wrapped by `Smear`: it is kept, where
the periodic neighbour is `X_LIM`. -/
theorem Smear_wrap_zero (LIM : Int) (h : 0 ≤ LIM) : Smear.wrap 0 LIM = 0 := by
  unfold Smear.wrap
  have h1 : ¬ (0 : Int) > LIM := by omega
  simp [h1]

/-! ## Shape -/

theorem intRange_length (lo hi : Int) : (intRange lo hi).length = (hi - lo).toNat := by
  simp [intRange]

theorem foldl_const_iterate {σ β : Type} (f : σ → σ) (L : List β) (s : σ) :
    L.foldl (fun s _ => f s) s = f^[L.length] s := by
  induction L generalizing s with
  | nil => rfl
  | cons a L ih =>
    rw [List.foldl_cons, ih, List.length_cons, Function.iterate_succ_apply]

/-- `Shape` with `N1 >= 0` runs `N1 + 1` cycles on the state that its two
calls of `MskCopy` produce. -/
theorem Shape_cycle_count (st : State) (msk1 msk2 msk3 map1 : Int) (MinDif : ℚ)
    (N1 N2 : Int) (h : 0 ≤ N1) :
    Shape st msk1 msk2 msk3 map1 MinDif N1 N2 =
      (fun s => Shape.cycle s msk2 msk3 map1 MinDif N2)^[N1.toNat + 1]
        (MskCopy (MskCopy st msk1 msk2) msk1 msk3) := by
  unfold Shape
  simp only
  rw [foldl_const_iterate, closedRange, intRange_length]
  congr 1
  omega

set_option maxRecDepth 100000 in
set_option maxHeartbeats 4000000 in
unseal Rat.mul Rat.inv Rat.add Rat.sub in
/-- C19. `Shape` with `N1 = 1` runs two cycles. On `exShape` (seed mask 0
holding the centre `(3,3,3)`, two block voxels below the centre's map value)
with `MinDif = 0`, `N2 = 1`, one cycle applied to the state after the two mask
copies sets `(2,3,3)` in the output mask 1 and leaves `(4,3,3)` at 0, whereas
`Shape` with `N1 = 1` returns with `(4,3,3)` set as well. -/
theorem Shape_runs_extra_cycle :
    (Shape.cycle (MskCopy (MskCopy exShape 0 1) 0 2) 1 2 0 0 1).mvoxel 1 (2, 3, 3) = 1 ∧
      (Shape.cycle (MskCopy (MskCopy exShape 0 1) 0 2) 1 2 0 0 1).mvoxel 1 (4, 3, 3) = 0 ∧
      (Shape exShape 0 1 2 0 0 1 1).mvoxel 1 (4, 3, 3) = 1 := by
  decide


theorem mem_intRange (lo hi i : Int) : i ∈ intRange lo hi ↔ lo ≤ i ∧ i < hi := by
  unfold intRange
  simp only [List.mem_map, List.mem_range]
  constructor
  · rintro ⟨k, hk, rfl⟩
    omega
  · rintro ⟨h1, h2⟩
    exact ⟨(i - lo).toNat, by omega, by omega⟩

theorem intRange_nodup (lo hi : Int) : (intRange lo hi).Nodup := by
  unfold intRange
  refine List.Nodup.map ?_ (List.nodup_range _)
  intro a b h
  simp only at h
  omega

theorem mem_closedRange (lo hi i : Int) : i ∈ closedRange lo hi ↔ lo ≤ i ∧ i ≤ hi := by
  unfold closedRange
  rw [mem_intRange]
  omega

theorem mem_boxLoop (x0 x1 y0 y1 z0 z1 : Int) (c : Int × Int × Int) :
    c ∈ boxLoop x0 x1 y0 y1 z0 z1 ↔
      (x0 ≤ c.1 ∧ c.1 ≤ x1) ∧ (y0 ≤ c.2.1 ∧ c.2.1 ≤ y1) ∧ (z0 ≤ c.2.2 ∧ c.2.2 ≤ z1) := by
  obtain ⟨x, y, z⟩ := c
  simp only [boxLoop, List.mem_flatMap, List.mem_map, mem_closedRange, Prod.mk.injEq]
  constructor
  · rintro ⟨z2, hz, y2, hy, x2, hx, rfl, rfl, rfl⟩
    exact ⟨hx, hy, hz⟩
  · rintro ⟨hx, hy, hz⟩
    exact ⟨z, hz, y, hy, x, hx, rfl, rfl, rfl⟩

theorem boxLoop_nodup (x0 x1 y0 y1 z0 z1 : Int) : (boxLoop x0 x1 y0 y1 z0 z1).Nodup := by
  unfold boxLoop closedRange
  rw [List.nodup_flatMap]
  refine ⟨?_, ?_⟩
  · intro z _
    rw [List.nodup_flatMap]
    refine ⟨?_, ?_⟩
    · intro y _
      refine List.Nodup.map ?_ (intRange_nodup _ _)
      intro a b h
      simpa using h
    · refine List.Nodup.pairwise_of_forall_ne (intRange_nodup _ _) ?_
      intro a _ b _ hab
      simp only [Function.onFun, List.disjoint_left, List.mem_map]
      rintro c ⟨x2, _, rfl⟩ ⟨x3, _, h⟩
      simp only [Prod.mk.injEq] at h
      exact hab h.2.1.symm
  · refine List.Nodup.pairwise_of_forall_ne (intRange_nodup _ _) ?_
    intro a _ b _ hab
    simp only [Function.onFun, List.disjoint_left, List.mem_flatMap, List.mem_map]
    rintro c ⟨y2, _, x2, _, rfl⟩ ⟨y3, _, x3, _, h⟩
    simp only [Prod.mk.injEq] at h
    exact hab h.2.2.symm

/-! ### The block loop of `Shape` -/

section Scan

variable {C : Type} (mk : C → Int) (val : C → ℚ) (loc : C → Int)

/-- The count `num` that the block loop of `Shape` returns is the count it
started from plus the sum of the mask values it read. -/
theorem scan_num (L : List C) (acc : Int × ℚ × Int) :
    (L.foldl (fun (acc : Int × ℚ × Int) d =>
        if acc.2.1 > val d ∧ mk d = 0 then (acc.1 + mk d, val d, loc d)
        else (acc.1 + mk d, acc.2.1, acc.2.2)) acc).1 = acc.1 + (L.map mk).sum := by
  induction L generalizing acc with
  | nil => simp
  | cons a L ih =>
    rw [List.foldl_cons, ih, List.map_cons, List.sum_cons]
    split_ifs <;> simp [add_assoc]

/-- The block loop of `Shape` keeps `low` and `LOC3` when no voxel of the block
is both below `low` and outside the mask. -/
theorem scan_keep (L : List C) (acc : Int × ℚ × Int)
    (h : ∀ d ∈ L, ¬ (acc.2.1 > val d ∧ mk d = 0)) :
    (L.foldl (fun (acc : Int × ℚ × Int) d =>
        if acc.2.1 > val d ∧ mk d = 0 then (acc.1 + mk d, val d, loc d)
        else (acc.1 + mk d, acc.2.1, acc.2.2)) acc).2 = acc.2 := by
  induction L generalizing acc with
  | nil => rfl
  | cons a L ih =>
    rw [List.foldl_cons]
    have ha := h a (List.mem_cons_self _ _)
    rw [if_neg ha]
    exact ih _ (fun d hd => h d (List.mem_cons_of_mem _ hd))

/-- The block loop of `Shape` ends with `low` and `LOC3` those of `u` when `u`
is the only voxel of the block below the starting `low` and is outside the
mask. -/
theorem scan_pick (L : List C) (hnd : L.Nodup) (acc : Int × ℚ × Int) (u : C) (hu : u ∈ L)
    (hmk : mk u = 0) (hlow : val u < acc.2.1)
    (huniq : ∀ d ∈ L, d ≠ u → acc.2.1 ≤ val d) :
    (L.foldl (fun (acc : Int × ℚ × Int) d =>
        if acc.2.1 > val d ∧ mk d = 0 then (acc.1 + mk d, val d, loc d)
        else (acc.1 + mk d, acc.2.1, acc.2.2)) acc).2 = (val u, loc u) := by
  induction L generalizing acc with
  | nil => cases hu
  | cons a L ih =>
    rw [List.foldl_cons]
    have hnd2 := List.nodup_cons.1 hnd
    rcases List.mem_cons.1 hu with rfl | huL
    · rw [if_pos ⟨hlow, hmk⟩, scan_keep]
      intro d hd hc
      have hdu : d ≠ u := fun e => hnd2.1 (e ▸ hd)
      have := huniq d (List.mem_cons_of_mem _ hd) hdu
      exact absurd (lt_of_lt_of_le hlow this) (not_lt.2 (le_of_lt hc.1))
    · have hau : a ≠ u := fun e => hnd2.1 (e ▸ huL)
      have ha := huniq a (List.mem_cons_self _ _) hau
      rw [if_neg (fun hc => absurd hc.1 (not_lt.2 ha))]
      exact ih hnd2.2 _ huL hlow (fun d hd => huniq d (List.mem_cons_of_mem _ hd))

theorem sum_ge_of_mem (L : List C) (h0 : ∀ d ∈ L, 0 ≤ mk d) (c : C) (hc : c ∈ L) :
    mk c ≤ (L.map mk).sum := by
  induction L with
  | nil => cases hc
  | cons a L ih =>
    rw [List.map_cons, List.sum_cons]
    have hrest : 0 ≤ (L.map mk).sum := by
      apply List.sum_nonneg
      intro x hx
      obtain ⟨d, hd, rfl⟩ := List.mem_map.1 hx
      exact h0 d (List.mem_cons_of_mem _ hd)
    rcases List.mem_cons.1 hc with rfl | hcL
    · omega
    · have := ih (fun d hd => h0 d (List.mem_cons_of_mem _ hd)) hcL
      have := h0 a (List.mem_cons_self _ _)
      omega

end Scan


/-- The block loop of `Shape` around the centre of a grid, as a fold over the
block `2..4` in each direction. -/
theorem Shape_scan_centre (st : State) (m : Int → Int) (msk2 map1 : Int) :
    Shape.scan st m msk2 map1 (3, 3, 3) =
      (boxLoop 2 4 2 4 2 4).foldl (fun (acc : Int × ℚ × Int) d =>
        if acc.2.1 > st.MAP (st.LOC d + st.XYZ_LIM * map1) ∧ m (st.LOC d + st.XYZ_LIM * msk2) = 0
        then (acc.1 + m (st.LOC d + st.XYZ_LIM * msk2), st.MAP (st.LOC d + st.XYZ_LIM * map1),
          st.LOC d)
        else (acc.1 + m (st.LOC d + st.XYZ_LIM * msk2), acc.2.1, acc.2.2))
        (0, st.MAP (st.LOC (3, 3, 3) + st.XYZ_LIM * map1), 0) :=
  rfl

theorem State.voxel_eq (st : State) (s : Int) (c : Int × Int × Int) :
    st.voxel s c = st.MAP (st.LOC c + st.XYZ_LIM * s) := by
  unfold State.voxel
  rw [mul_comm]

/-- The decision of `Shape` at the centre of a `5 * 5 * 5` grid whose working
mask holds the centre, when exactly one voxel `u` of the block lies below the
centre: `u` is set in the temporary mask unless it is in the working mask. -/
theorem Shape_voxel_centre (st : State) (hX : st.X_LIM = 5) (hY : st.Y_LIM = 5)
    (hZ : st.Z_LIM = 5) (hwf : st.WF) (msk2 msk3 map1 : Int) (m : Int → Int)
    (f : Int × Int × Int → Int)
    (hm : ∀ d ∈ st.grid, m (st.LOC d + st.XYZ_LIM * msk2) = f d)
    (hf0 : ∀ d, 0 ≤ f d) (hfc : f (3, 3, 3) = 1)
    (u : Int × Int × Int) (hu : u ∈ boxLoop 2 4 2 4 2 4)
    (hlow : st.voxel map1 u < st.voxel map1 (3, 3, 3))
    (huniq : ∀ v ∈ boxLoop 2 4 2 4 2 4, v ≠ u → st.voxel map1 (3, 3, 3) ≤ st.voxel map1 v) :
    Shape.voxel st msk2 msk3 map1 0 1 m (3, 3, 3) =
      if f u = 0 then Function.update m (st.LOC u + st.XYZ_LIM * msk3) 1 else m := by
  have hB : ∀ d ∈ boxLoop 2 4 2 4 2 4, d ∈ st.grid := by
    intro d hd
    rw [mem_boxLoop] at hd
    rw [st.mem_grid, hX, hY, hZ]
    omega
  have hcB : ((3, 3, 3) : Int × Int × Int) ∈ boxLoop 2 4 2 4 2 4 := by
    rw [mem_boxLoop]
    simp
  have hnum : 1 ≤ (Shape.scan st m msk2 map1 (3, 3, 3)).1 := by
    rw [Shape_scan_centre]
    have e := scan_num (fun d => m (st.LOC d + st.XYZ_LIM * msk2))
      (fun d => st.MAP (st.LOC d + st.XYZ_LIM * map1)) (fun d => st.LOC d)
      (boxLoop 2 4 2 4 2 4) (0, st.MAP (st.LOC (3, 3, 3) + st.XYZ_LIM * map1), 0)
    have e2 := e.trans (zero_add _)
    have g := sum_ge_of_mem (fun d => m (st.LOC d + st.XYZ_LIM * msk2)) (boxLoop 2 4 2 4 2 4)
      (fun d hd => by
        show 0 ≤ m (st.LOC d + st.XYZ_LIM * msk2)
        rw [hm d (hB d hd)]
        exact hf0 d) (3, 3, 3) hcB
    have g2 : m (st.LOC (3, 3, 3) + st.XYZ_LIM * msk2) ≤
        (List.map (fun d => m (st.LOC d + st.XYZ_LIM * msk2)) (boxLoop 2 4 2 4 2 4)).sum := g
    rw [hm _ (hB _ hcB), hfc] at g2
    rw [e2]
    exact g2
  have hLu : st.LOC u ≠ 0 := by
    rw [mem_boxLoop] at hu
    unfold State.LOC
    rw [hwf.1, hX, hY]
    omega
  unfold Shape.voxel
  simp only
  rw [if_neg (not_lt.2 hnum)]
  by_cases hfu : f u = 0
  · have hp : (Shape.scan st m msk2 map1 (3, 3, 3)).2 =
        (st.MAP (st.LOC u + st.XYZ_LIM * map1), st.LOC u) := by
      rw [Shape_scan_centre]
      refine scan_pick (fun d => m (st.LOC d + st.XYZ_LIM * msk2))
        (fun d => st.MAP (st.LOC d + st.XYZ_LIM * map1)) (fun d => st.LOC d)
        (boxLoop 2 4 2 4 2 4) (boxLoop_nodup _ _ _ _ _ _) _ u hu ?_ ?_ ?_
      · exact (hm u (hB u hu)).trans hfu
      · rw [st.voxel_eq, st.voxel_eq] at hlow
        exact hlow
      · intro d hd hdu
        have := huniq d hd hdu
        rw [st.voxel_eq, st.voxel_eq] at this
        exact this
    rw [if_pos hfu, hp]
    simp only
    rw [if_pos]
    refine ⟨hLu, ?_⟩
    rw [st.voxel_eq, st.voxel_eq] at hlow
    rw [sub_zero]
    exact hlow
  · have hk : (Shape.scan st m msk2 map1 (3, 3, 3)).2 =
        (st.MAP (st.LOC (3, 3, 3) + st.XYZ_LIM * map1), 0) := by
      rw [Shape_scan_centre]
      refine scan_keep (fun d => m (st.LOC d + st.XYZ_LIM * msk2))
        (fun d => st.MAP (st.LOC d + st.XYZ_LIM * map1)) (fun d => st.LOC d)
        (boxLoop 2 4 2 4 2 4) _ ?_
      intro d hd hc
      by_cases hdu : d = u
      · subst hdu
        exact hfu ((hm d (hB d hd)).symm.trans hc.2)
      · have := huniq d hd hdu
        rw [st.voxel_eq, st.voxel_eq] at this
        exact absurd hc.1 (not_lt.2 this)
    rw [if_neg hfu, hk]
    simp


/-- On a `5 * 5 * 5` grid the interior loop of a cycle of `Shape` visits the
centre voxel only. -/
theorem Shape_cycle_MSK (st : State) (hX : st.X_LIM = 5) (hY : st.Y_LIM = 5)
    (hZ : st.Z_LIM = 5) (msk2 msk3 map1 : Int) (MinDif : ℚ) (N2 : Int) :
    Shape.cycle st msk2 msk3 map1 MinDif N2 =
      MskCopy { st with MSK := Shape.voxel st msk2 msk3 map1 MinDif N2 st.MSK (3, 3, 3) }
        msk3 msk2 := by
  have hL : boxLoop 3 (st.X_LIM - 2) 3 (st.Y_LIM - 2) 3 (st.Z_LIM - 2) = [(3, 3, 3)] := by
    rw [hX, hY, hZ]
    rfl
  show MskCopy { st with MSK := (boxLoop 3 (st.X_LIM - 2) 3 (st.Y_LIM - 2) 3
    (st.Z_LIM - 2)).foldl (Shape.voxel st msk2 msk3 map1 MinDif N2) st.MSK } msk3 msk2 = _
  rw [hL]
  rfl

/-- One cycle of `Shape` on a `5 * 5 * 5` grid whose working and temporary
masks both hold `f`, with the centre in `f` and exactly one voxel `u` of the
block below the centre: both masks hold `f` with `u` added. -/
theorem Shape_cycle_centre (st : State) (hX : st.X_LIM = 5) (hY : st.Y_LIM = 5)
    (hZ : st.Z_LIM = 5) (hwf : st.WF) (msk2 msk3 map1 : Int) (f : Int × Int × Int → Int)
    (hI2 : ∀ d ∈ st.grid, st.mvoxel msk2 d = f d)
    (hI3 : ∀ d ∈ st.grid, st.mvoxel msk3 d = f d)
    (hf0 : ∀ d, 0 ≤ f d) (hfc : f (3, 3, 3) = 1)
    (u : Int × Int × Int) (hu : u ∈ boxLoop 2 4 2 4 2 4)
    (hlow : st.voxel map1 u < st.voxel map1 (3, 3, 3))
    (huniq : ∀ v ∈ boxLoop 2 4 2 4 2 4, v ≠ u → st.voxel map1 (3, 3, 3) ≤ st.voxel map1 v)
    (hfu : f u = 0 ∨ f u = 1) (d : Int × Int × Int) (hd : d ∈ st.grid) :
    (Shape.cycle st msk2 msk3 map1 0 1).mvoxel msk2 d = (if d = u then 1 else f d) ∧
      (Shape.cycle st msk2 msk3 map1 0 1).mvoxel msk3 d = (if d = u then 1 else f d) := by
  have huG : u ∈ st.grid := by
    rw [mem_boxLoop] at hu
    rw [st.mem_grid, hX, hY, hZ]
    omega
  have hr := Shape_voxel_centre st hX hY hZ hwf msk2 msk3 map1 st.MSK f
    (fun d hd => by rw [← st.mvoxel_eq]; exact hI2 d hd) hf0 hfc u hu hlow huniq
  have hs3 : ∀ d ∈ st.grid,
      State.mvoxel { st with MSK := Shape.voxel st msk2 msk3 map1 0 1 st.MSK (3, 3, 3) } msk3 d =
        if d = u then 1 else f d := by
    intro d hd
    show (Shape.voxel st msk2 msk3 map1 0 1 st.MSK (3, 3, 3)) (st.LOC d + msk3 * st.XYZ_LIM) = _
    rw [hr, mul_comm msk3]
    by_cases hfu0 : f u = 0
    · rw [if_pos hfu0]
      by_cases hdu : d = u
      · subst hdu
        rw [if_pos rfl, Function.update_same]
      · rw [if_neg hdu, Function.update_noteq, ← st.mvoxel_eq]
        · exact hI3 d hd
        · intro h
          exact hdu (st.index_inj2 hwf d u msk3 msk3 hd huG h).1
    · rw [if_neg hfu0, ← st.mvoxel_eq, hI3 d hd]
      by_cases hdu : d = u
      · subst hdu
        rw [if_pos rfl]
        exact hfu.resolve_left hfu0
      · rw [if_neg hdu]
  rw [Shape_cycle_MSK st hX hY hZ]
  have h2 := MskCopy_mvoxel
    { st with MSK := Shape.voxel st msk2 msk3 map1 0 1 st.MSK (3, 3, 3) } hwf msk3 msk2 d hd
  refine ⟨h2.trans (hs3 d hd), ?_⟩
  by_cases e : msk3 = msk2
  · subst e
    exact h2.trans (hs3 d hd)
  · exact (MskCopy_mvoxel_other
      { st with MSK := Shape.voxel st msk2 msk3 map1 0 1 st.MSK (3, 3, 3) } hwf msk3 msk2 msk3
      d hd e).trans (hs3 d hd)

/-- After the two copies that open `Shape`, the working and the temporary mask
both hold the seed. -/
theorem Shape_start (st : State) (hwf : st.WF) (msk1 msk2 msk3 : Int)
    (d : Int × Int × Int) (hd : d ∈ st.grid) :
    (MskCopy (MskCopy st msk1 msk2) msk1 msk3).mvoxel msk2 d = st.mvoxel msk1 d ∧
      (MskCopy (MskCopy st msk1 msk2) msk1 msk3).mvoxel msk3 d = st.mvoxel msk1 d := by
  have hwf1 : (MskCopy st msk1 msk2).WF := hwf
  have hd1 : d ∈ (MskCopy st msk1 msk2).grid := hd
  have a2 : (MskCopy st msk1 msk2).mvoxel msk2 d = st.mvoxel msk1 d :=
    MskCopy_mvoxel st hwf msk1 msk2 d hd
  have a1 : (MskCopy st msk1 msk2).mvoxel msk1 d = st.mvoxel msk1 d := by
    by_cases e : msk1 = msk2
    · rw [e] at a2 ⊢
      exact a2
    · exact MskCopy_mvoxel_other st hwf msk1 msk2 msk1 d hd e
  have b3 : (MskCopy (MskCopy st msk1 msk2) msk1 msk3).mvoxel msk3 d = st.mvoxel msk1 d :=
    (MskCopy_mvoxel _ hwf1 msk1 msk3 d hd1).trans a1
  refine ⟨?_, b3⟩
  by_cases e : msk2 = msk3
  · subst e
    exact b3
  · exact (MskCopy_mvoxel_other _ hwf1 msk1 msk3 msk2 d hd1 e).trans a2

/-- C20. `Shape` on a `5 * 5 * 5` grid, seed mask `msk1` holding only the
centre `(3,3,3)`, `MinDif = 0`, `N2 = 1`, `N1 = 1`: for every map in which
exactly one voxel `u` of the block `2..4` around the centre lies strictly
below the centre, the output mask `msk2` (and the temporary mask `msk3`) holds
1 at the centre and at `u` and 0 at every other voxel of the grid. -/
theorem Shape_single_seed (st : State) (hX : st.X_LIM = 5) (hY : st.Y_LIM = 5)
    (hZ : st.Z_LIM = 5) (hwf : st.WF) (msk1 msk2 msk3 map1 : Int)
    (hseed : ∀ c ∈ st.grid, st.mvoxel msk1 c = if c = (3, 3, 3) then 1 else 0)
    (u : Int × Int × Int) (hu : u ∈ boxLoop 2 4 2 4 2 4)
    (hlow : st.voxel map1 u < st.voxel map1 (3, 3, 3))
    (huniq : ∀ v ∈ boxLoop 2 4 2 4 2 4, v ≠ u → st.voxel map1 (3, 3, 3) ≤ st.voxel map1 v) :
    ∀ c ∈ st.grid,
      (Shape st msk1 msk2 msk3 map1 0 1 1).mvoxel msk2 c =
          (if c = (3, 3, 3) ∨ c = u then 1 else 0) ∧
        (Shape st msk1 msk2 msk3 map1 0 1 1).mvoxel msk3 c =
          (if c = (3, 3, 3) ∨ c = u then 1 else 0) := by
  intro c hc
  have huc : u ≠ (3, 3, 3) := by
    intro e
    rw [e] at hlow
    exact lt_irrefl _ hlow
  have e : Shape st msk1 msk2 msk3 map1 0 1 1 =
      Shape.cycle (Shape.cycle (MskCopy (MskCopy st msk1 msk2) msk1 msk3) msk2 msk3 map1 0 1)
        msk2 msk3 map1 0 1 := rfl
  rw [e]
  have h1 := fun d hd => Shape_cycle_centre (MskCopy (MskCopy st msk1 msk2) msk1 msk3)
    hX hY hZ hwf msk2 msk3 map1 (fun d => if d = (3, 3, 3) then 1 else 0)
    (fun d hd => ((Shape_start st hwf msk1 msk2 msk3 d hd).1).trans (hseed d hd))
    (fun d hd => ((Shape_start st hwf msk1 msk2 msk3 d hd).2).trans (hseed d hd))
    (fun d => by dsimp only; split_ifs <;> decide) (if_pos rfl) u hu hlow huniq
    (Or.inl (if_neg huc)) d hd
  have h2 := Shape_cycle_centre
    (Shape.cycle (MskCopy (MskCopy st msk1 msk2) msk1 msk3) msk2 msk3 map1 0 1)
    hX hY hZ hwf msk2 msk3 map1
    (fun d => if d = u then 1 else if d = (3, 3, 3) then 1 else 0)
    (fun d hd => (h1 d hd).1) (fun d hd => (h1 d hd).2)
    (fun d => by dsimp only; split_ifs <;> decide) (by simp) u hu hlow huniq
    (Or.inr (if_pos rfl)) c hc
  have hf : (if c = u then (1 : Int) else if c = u then 1 else if c = (3, 3, 3) then 1 else 0) =
      if c = (3, 3, 3) ∨ c = u then 1 else 0 := by
    by_cases a : c = u
    · simp [a]
    · by_cases b : c = (3, 3, 3)
      · simp [b]
      · simp [a, b]
  exact ⟨h2.1.trans hf, h2.2.trans hf⟩

set_option maxRecDepth 100000 in
set_option maxHeartbeats 4000000 in
theorem Shape_single_seed_witness :
    exSeed.WF ∧ exSeed.voxel 0 (2, 3, 3) < exSeed.voxel 0 (3, 3, 3) ∧
    (∀ c ∈ exSeed.grid,
      (Shape exSeed 0 1 2 0 0 1 1).mvoxel 1 c = (if c = (3, 3, 3) ∨ c = (2, 3, 3) then 1 else 0) ∧
        (Shape exSeed 0 1 2 0 0 1 1).mvoxel 2 c =
          (if c = (3, 3, 3) ∨ c = (2, 3, 3) then 1 else 0)) :=
  ⟨⟨rfl, rfl⟩, by decide,
    Shape_single_seed exSeed rfl rfl rfl ⟨rfl, rfl⟩ 0 1 2 0 (by decide) (2, 3, 3) (by decide)
      (by decide) (by decide)⟩


/-! ## The linear index is a bijection -/

/-- Every offset below `XYZ_LIM` is the offset of a voxel of the grid. -/
theorem State.LOC_surj (st : State) (hwf : st.WF) (hX : 0 < st.X_LIM) (hY : 0 < st.Y_LIM)
    (r : Int) (h0 : 0 ≤ r) (h1 : r < st.XYZ_LIM) : ∃ c ∈ st.grid, st.LOC c = r := by
  obtain ⟨hxy, hxyz⟩ := hwf
  have e1 := Int.emod_add_ediv r st.X_LIM
  have e2 := Int.emod_add_ediv (r / st.X_LIM) st.Y_LIM
  have b1 := Int.emod_nonneg r (ne_of_gt hX)
  have b2 := Int.emod_lt_of_pos r hX
  have b3 := Int.emod_nonneg (r / st.X_LIM) (ne_of_gt hY)
  have b4 := Int.emod_lt_of_pos (r / st.X_LIM) hY
  have q1 : 0 ≤ r / st.X_LIM := Int.ediv_nonneg h0 (le_of_lt hX)
  have q2 : 0 ≤ r / st.X_LIM / st.Y_LIM := Int.ediv_nonneg q1 (le_of_lt hY)
  have q3 : r / st.X_LIM < st.Z_LIM * st.Y_LIM := by
    apply Int.ediv_lt_of_lt_mul hX
    rw [hxyz] at h1
    calc r < st.X_LIM * st.Y_LIM * st.Z_LIM := h1
      _ = st.Z_LIM * st.Y_LIM * st.X_LIM := by ring
  have q4 : r / st.X_LIM / st.Y_LIM < st.Z_LIM := Int.ediv_lt_of_lt_mul hY q3
  refine ⟨(r % st.X_LIM + 1, r / st.X_LIM % st.Y_LIM + 1, r / st.X_LIM / st.Y_LIM + 1), ?_, ?_⟩
  · rw [st.mem_grid]
    simp only
    omega
  · unfold State.LOC
    simp only
    rw [hxy]
    have e3 : st.Y_LIM * (r / st.X_LIM / st.Y_LIM) =
        r / st.X_LIM - r / st.X_LIM % st.Y_LIM := by linarith
    calc r % st.X_LIM + 1 - 1 + (r / st.X_LIM % st.Y_LIM + 1 - 1) * st.X_LIM +
          (r / st.X_LIM / st.Y_LIM + 1 - 1) * (st.X_LIM * st.Y_LIM)
        = r % st.X_LIM + st.X_LIM * (r / st.X_LIM % st.Y_LIM +
            st.Y_LIM * (r / st.X_LIM / st.Y_LIM)) := by ring
      _ = r % st.X_LIM + st.X_LIM * (r / st.X_LIM) := by rw [e2]
      _ = r := e1

/-- C28. Linear index is a bijection: for positive `X_LIM`, `Y_LIM`, `Z_LIM`
(with `XY_LIM` and `XYZ_LIM` their products) and a slot capacity `C`, the
index `LOC + s * XYZ_LIM` of the voxel `c` of slot `s` is one-to-one on the
grid voxels of all slots, takes the voxels of the slots `0 .. C - 1` into
`0 .. C * XYZ_LIM - 1`, reaches every index of that range, and lies in the
range `[s * XYZ_LIM, (s + 1) * XYZ_LIM)` of its own slot. -/
theorem index_bijection (st : State) (hwf : st.WF) (hX : 0 < st.X_LIM) (hY : 0 < st.Y_LIM)
    (hZ : 0 < st.Z_LIM) (C : Int) :
    (∀ c ∈ st.grid, ∀ d ∈ st.grid, ∀ s t : Int,
        st.LOC c + s * st.XYZ_LIM = st.LOC d + t * st.XYZ_LIM → c = d ∧ s = t) ∧
      (∀ c ∈ st.grid, ∀ s : Int, 0 ≤ s → s < C →
        0 ≤ st.LOC c + s * st.XYZ_LIM ∧ st.LOC c + s * st.XYZ_LIM < C * st.XYZ_LIM) ∧
      (∀ i : Int, 0 ≤ i → i < C * st.XYZ_LIM →
        ∃ c ∈ st.grid, ∃ s : Int, 0 ≤ s ∧ s < C ∧ st.LOC c + s * st.XYZ_LIM = i) ∧
      (∀ c ∈ st.grid, ∀ s : Int,
        s * st.XYZ_LIM ≤ st.LOC c + s * st.XYZ_LIM ∧
          st.LOC c + s * st.XYZ_LIM < (s + 1) * st.XYZ_LIM) := by
  have hN : 0 < st.XYZ_LIM := by
    rw [hwf.2]
    exact mul_pos (mul_pos hX hY) hZ
  refine ⟨?_, ?_, ?_, ?_⟩
  · intro c hc d hd s t h
    exact st.index_inj hwf c d s t hc hd h
  · intro c hc s hs0 hsC
    obtain ⟨r0, r1⟩ := st.LOC_range hwf c hc
    have h1 : 0 ≤ s * st.XYZ_LIM := mul_nonneg hs0 (le_of_lt hN)
    have h2 : (s + 1) * st.XYZ_LIM ≤ C * st.XYZ_LIM :=
      mul_le_mul_of_nonneg_right (by omega) (le_of_lt hN)
    constructor
    · omega
    · nlinarith
  · intro i hi0 hiC
    have m0 := Int.emod_nonneg i (ne_of_gt hN)
    have m1 := Int.emod_lt_of_pos i hN
    obtain ⟨c, hc, hL⟩ := st.LOC_surj hwf hX hY (i % st.XYZ_LIM) m0 m1
    refine ⟨c, hc, i / st.XYZ_LIM, Int.ediv_nonneg hi0 (le_of_lt hN),
      Int.ediv_lt_of_lt_mul hN hiC, ?_⟩
    rw [hL, mul_comm]
    exact Int.emod_add_ediv i st.XYZ_LIM
  · intro c hc s
    obtain ⟨r0, r1⟩ := st.LOC_range hwf c hc
    constructor
    · omega
    · linarith

theorem index_bijection_witness :
    exA.WF ∧
      (∀ c ∈ exA.grid, ∀ d ∈ exA.grid, ∀ s t : Int,
        exA.LOC c + s * exA.XYZ_LIM = exA.LOC d + t * exA.XYZ_LIM → c = d ∧ s = t) ∧
      (∀ c ∈ exA.grid, ∀ s : Int, 0 ≤ s → s < 3 →
        0 ≤ exA.LOC c + s * exA.XYZ_LIM ∧ exA.LOC c + s * exA.XYZ_LIM < 3 * exA.XYZ_LIM) ∧
      (∀ i : Int, 0 ≤ i → i < 3 * exA.XYZ_LIM →
        ∃ c ∈ exA.grid, ∃ s : Int, 0 ≤ s ∧ s < 3 ∧ exA.LOC c + s * exA.XYZ_LIM = i) ∧
      (∀ c ∈ exA.grid, ∀ s : Int,
        s * exA.XYZ_LIM ≤ exA.LOC c + s * exA.XYZ_LIM ∧
          exA.LOC c + s * exA.XYZ_LIM < (s + 1) * exA.XYZ_LIM) :=
  ⟨exA_WF, index_bijection exA exA_WF (by decide) (by decide) (by decide) 3⟩


/-! ## The wrap of `Smear` -/

/-- Away from the neighbour coordinate 0, the wrap of `Smear` is the periodic
one: for `-LIM < x3a <= 2 * LIM`, `x3a != 0`, it gives
`((x3a - 1) mod LIM) + 1`. -/
theorem Smear_wrap_periodic (x3a LIM : Int) (h1 : -LIM < x3a)
    (h2 : x3a ≤ 2 * LIM) (hx : x3a ≠ 0) : Smear.wrap x3a LIM = (x3a - 1) % LIM + 1 := by
  unfold Smear.wrap
  by_cases a : x3a < 0
  · rw [if_pos a]
    have e : (x3a - 1) % LIM = x3a - 1 + LIM := by
      have := Int.add_mul_emod_self (a := x3a - 1) (b := 1) (c := LIM)
      rw [one_mul] at this
      rw [← this]
      exact Int.emod_eq_of_lt (by omega) (by omega)
    omega
  · rw [if_neg a]
    by_cases b : x3a > LIM
    · rw [if_pos b]
      have e : (x3a - 1) % LIM = x3a - 1 - LIM := by
        have := Int.add_mul_emod_self (a := x3a - 1 - LIM) (b := 1) (c := LIM)
        rw [one_mul, sub_add_cancel] at this
        rw [this]
        exact Int.emod_eq_of_lt (by omega) (by omega)
      omega
    · rw [if_neg b]
      have e : (x3a - 1) % LIM = x3a - 1 := Int.emod_eq_of_lt (by omega) (by omega)
      omega

set_option maxRecDepth 100000 in
set_option maxHeartbeats 4000000 in
unseal Rat.mul Rat.inv Rat.add Rat.sub in
/-- C30. The X pass of `Smear` does not wrap the neighbour coordinate 0. On
the `3 * 2 * 1` grid `exWrap`, source slot 1 holds 1 at `(1,2,1)`; with
`N = 2` the offset `-1` has the weight 1/4 and the periodic neighbour is
`((1 - 1 - 1) mod 3) + 1 = 3` on the same line. The pass into slot 2 leaves 0
in the voxel `(3,2,1)` and puts 1/4 in the voxel `(3,1,1)` of another line. -/
theorem Smear_wrap_not_periodic :
    exWrap.voxel 1 (1, 2, 1) = 1 ∧ Smear.mod 2 1 = 1 / 4 ∧
      Smear.wrap (1 + -1) 3 = 0 ∧ (1 + -1 - 1) % 3 + 1 = (3 : Int) ∧
      (Smear.passX exWrap 1 2 2).voxel 2 (3, 2, 1) = 0 ∧
      (Smear.passX exWrap 1 2 2).voxel 2 (3, 1, 1) = 1 / 4 ∧
      (Smear.passX exWrap 1 2 2).voxel 2 (1, 2, 1) = 1 / 2 ∧
      (Smear.passX exWrap 1 2 2).voxel 2 (2, 2, 1) = 1 / 4 := by
  refine ⟨by decide, by decide, by decide, by decide, by decide, by decide, by decide,
    by decide⟩


/-! ## distance and Int -/

/-- C22. `distance` takes the cosine of half the cell angle. On the cubic
cell `exCube` (edges 3, angles 90, 3 grid points per edge, so a grid step is
1 Angstrom) the offset `(1, 1, 0)` has the metric length `sqrt (1 + 1)`;
`distance` returns `sqrt (2 + 2 * cos (90 * PI / 360))`, the argument of `cos`
being 45 degrees in radians, where the cosine is above 69/100 (the bound
`1 - t^2/2`). -/
theorem distance_half_angle (cos sqrt : ℚ → ℚ) :
    distance cos sqrt exCube 1 1 0 = sqrt (2 + 2 * cos (90 * PI / 360)) ∧
      90 * PI / 360 = PI / 4 ∧
      (69 : ℚ) / 100 < 1 - (90 * PI / 360) * (90 * PI / 360) / 2 := by
  refine ⟨?_, by ring, by norm_num [PI]⟩
  unfold distance
  simp only [exCube, exState, exHeader]
  norm_num

theorem toInt_intCast (n : Int) : toInt (n : ℚ) = n := by
  unfold toInt
  split_ifs <;> simp

/-- With `sqrt (x * x) = |x|`, the offset `Abs(X - countx)` stored in an `int`
is the absolute value of the difference. -/
theorem toInt_Abs (sqrt : ℚ → ℚ) (hsq : ∀ x, sqrt (x * x) = |x|) (n : Int) :
    toInt (Abs sqrt ((n : Int) : ℚ)) = |n| := by
  unfold Abs
  rw [hsq, ← Int.cast_abs, toInt_intCast]

/-- The bounds of `Int` stay inside `1 .. LIM`. -/
theorem Int.bounds_range (X : Int) (r GRID : ℚ) (LIM c : Int)
    (h1 : (Int.bounds X r GRID LIM).1 ≤ c) (h2 : c ≤ (Int.bounds X r GRID LIM).2) :
    1 ≤ c ∧ c ≤ LIM := by
  unfold Int.bounds at h1 h2
  simp only at h1 h2
  constructor
  · split_ifs at h1 <;> omega
  · split_ifs at h2 <;> omega

/-- The bounds of `Int` leave out no coordinate of `1 .. LIM` whose offset
from `X` is at most `r / GRID`. -/
theorem Int.bounds_mem (X : Int) (r GRID : ℚ) (LIM c : Int) (hc1 : 1 ≤ c) (hc2 : c ≤ LIM)
    (h : |((X - c : Int) : ℚ)| ≤ r / GRID) :
    (Int.bounds X r GRID LIM).1 ≤ c ∧ c ≤ (Int.bounds X r GRID LIM).2 := by
  obtain ⟨ha, hb⟩ := abs_le.1 h
  push_cast at ha hb
  unfold Int.bounds toInt
  simp only
  constructor
  · split_ifs with p q q
    · exact hc1
    · have f := Int.floor_le ((X : ℚ) - r / GRID - 1)
      have : ((⌊(X : ℚ) - r / GRID - 1⌋ : Int) : ℚ) ≤ (c : ℚ) := by linarith
      exact_mod_cast this
    · exact hc1
    · have f : (⌈(X : ℚ) - r / GRID - 1⌉ : Int) ≤ 0 := by
        apply Int.ceil_le.2
        push_cast
        linarith
      omega
  · split_ifs with p q q
    · exact hc2
    · have f := Int.lt_floor_add_one ((X : ℚ) + r / GRID + 1)
      have : (c : ℚ) < ((⌊(X : ℚ) + r / GRID + 1⌋ : Int) : ℚ) := by linarith
      have : c < ⌊(X : ℚ) + r / GRID + 1⌋ := by exact_mod_cast this
      omega
    · exact hc2
    · have f := Int.le_ceil ((X : ℚ) + r / GRID + 1)
      have : (c : ℚ) ≤ ((⌈(X : ℚ) + r / GRID + 1⌉ : Int) : ℚ) := by linarith
      exact_mod_cast this

theorem Int.box_subset (st : State) (X Y Z : Int) (r : ℚ) (c : Int × Int × Int)
    (hc : c ∈ Int.box st X Y Z r) : c ∈ st.grid := by
  unfold Int.box at hc
  rw [mem_boxLoop] at hc
  obtain ⟨⟨x1, x2⟩, ⟨y1, y2⟩, ⟨z1, z2⟩⟩ := hc
  rw [st.mem_grid]
  exact ⟨Int.bounds_range X r st.X_GRID st.X_LIM c.1 x1 x2,
    Int.bounds_range Y r st.Y_GRID st.Y_LIM c.2.1 y1 y2,
    Int.bounds_range Z r st.Z_GRID st.Z_LIM c.2.2 z1 z2⟩


/-- The quadratic form of `distance` is at least the square of each axis
term when the three cosine factors and all lengths are not negative. -/
theorem metric_ge (x1 y1 z1 x2 y2 z2 ca cb cc : ℚ) (hx1 : 0 ≤ x1) (hy1 : 0 ≤ y1)
    (hz1 : 0 ≤ z1) (hx2 : 0 ≤ x2) (hy2 : 0 ≤ y2) (hz2 : 0 ≤ z2) (hca : 0 ≤ ca) (hcb : 0 ≤ cb)
    (hcc : 0 ≤ cc) :
    (x1 * x2) * (x1 * x2) ≤ x1 * x1 * x2 * x2 + y1 * y1 * y2 * y2 + z1 * z1 * z2 * z2 +
        x1 * y1 * x2 * y2 * 2 * cc + x1 * z1 * x2 * z2 * 2 * cb + y1 * z1 * y2 * z2 * 2 * ca ∧
      (y1 * y2) * (y1 * y2) ≤ x1 * x1 * x2 * x2 + y1 * y1 * y2 * y2 + z1 * z1 * z2 * z2 +
        x1 * y1 * x2 * y2 * 2 * cc + x1 * z1 * x2 * z2 * 2 * cb + y1 * z1 * y2 * z2 * 2 * ca ∧
      (z1 * z2) * (z1 * z2) ≤ x1 * x1 * x2 * x2 + y1 * y1 * y2 * y2 + z1 * z1 * z2 * z2 +
        x1 * y1 * x2 * y2 * 2 * cc + x1 * z1 * x2 * z2 * 2 * cb + y1 * z1 * y2 * z2 * 2 * ca := by
  have a1 : 0 ≤ x1 * x1 * x2 * x2 := by positivity
  have a2 : 0 ≤ y1 * y1 * y2 * y2 := by positivity
  have a3 : 0 ≤ z1 * z1 * z2 * z2 := by positivity
  have a4 : 0 ≤ x1 * y1 * x2 * y2 * 2 * cc := by positivity
  have a5 : 0 ≤ x1 * z1 * x2 * z2 * 2 * cb := by positivity
  have a6 : 0 ≤ y1 * z1 * y2 * z2 * 2 * ca := by positivity
  refine ⟨?_, ?_, ?_⟩
  · have e : (x1 * x2) * (x1 * x2) = x1 * x1 * x2 * x2 := by ring
    rw [e]
    linarith
  · have e : (y1 * y2) * (y1 * y2) = y1 * y1 * y2 * y2 := by ring
    rw [e]
    linarith
  · have e : (z1 * z2) * (z1 * z2) = z1 * z1 * z2 * z2 := by ring
    rw [e]
    linarith


/-- With non-negative cosine factors, `distance` of non-negative offsets is at
least each axis offset times its grid step. -/
theorem distance_ge (cos sqrt : ℚ → ℚ) (st : State) (hc : st.CellOK)
    (hle : ∀ x y : ℚ, 0 ≤ y → y * y ≤ x → y ≤ sqrt x)
    (hca : 0 ≤ cos ((st.MAP_H 0).CELL 3 * PI / 360))
    (hcb : 0 ≤ cos ((st.MAP_H 0).CELL 4 * PI / 360))
    (hcc : 0 ≤ cos ((st.MAP_H 0).CELL 5 * PI / 360))
    (dX dY dZ : Int) (hx : 0 ≤ dX) (hy : 0 ≤ dY) (hz : 0 ≤ dZ) :
    (dX : ℚ) * st.X_GRID ≤ distance cos sqrt st dX dY dZ ∧
      (dY : ℚ) * st.Y_GRID ≤ distance cos sqrt st dX dY dZ ∧
      (dZ : ℚ) * st.Z_GRID ≤ distance cos sqrt st dX dY dZ := by
  have pX : (0 : ℚ) < st.X_CELL := by exact_mod_cast hc.hX
  have pY : (0 : ℚ) < st.Y_CELL := by exact_mod_cast hc.hY
  have pZ : (0 : ℚ) < st.Z_CELL := by exact_mod_cast hc.hZ
  have qx : (0 : ℚ) ≤ dX := by exact_mod_cast hx
  have qy : (0 : ℚ) ≤ dY := by exact_mod_cast hy
  have qz : (0 : ℚ) ≤ dZ := by exact_mod_cast hz
  have m := metric_ge ((dX : ℚ) * 1 / st.X_CELL) ((dY : ℚ) * 1 / st.Y_CELL)
    ((dZ : ℚ) * 1 / st.Z_CELL) ((st.MAP_H 0).CELL 0) ((st.MAP_H 0).CELL 1)
    ((st.MAP_H 0).CELL 2) _ _ _ (by positivity) (by positivity) (by positivity)
    (le_of_lt hc.hA) (le_of_lt hc.hB) (le_of_lt hc.hC) hca hcb hcc
  have eX : (dX : ℚ) * st.X_GRID = (dX : ℚ) * 1 / st.X_CELL * (st.MAP_H 0).CELL 0 := by
    rw [hc.gX]
    ring
  have eY : (dY : ℚ) * st.Y_GRID = (dY : ℚ) * 1 / st.Y_CELL * (st.MAP_H 0).CELL 1 := by
    rw [hc.gY]
    ring
  have eZ : (dZ : ℚ) * st.Z_GRID = (dZ : ℚ) * 1 / st.Z_CELL * (st.MAP_H 0).CELL 2 := by
    rw [hc.gZ]
    ring
  have nA := le_of_lt hc.hA
  have nB := le_of_lt hc.hB
  have nC := le_of_lt hc.hC
  unfold distance
  simp only
  refine ⟨?_, ?_, ?_⟩
  · rw [eX]
    exact hle _ _ (by positivity) m.1
  · rw [eY]
    exact hle _ _ (by positivity) m.2.1
  · rw [eZ]
    exact hle _ _ (by positivity) m.2.2

/-- A voxel of the grid within the distance `r` of the centre is visited by
the loops of `Int`. -/
theorem Int.box_complete (cos sqrt : ℚ → ℚ) (st : State) (hc : st.CellOK)
    (hle : ∀ x y : ℚ, 0 ≤ y → y * y ≤ x → y ≤ sqrt x)
    (hca : 0 ≤ cos ((st.MAP_H 0).CELL 3 * PI / 360))
    (hcb : 0 ≤ cos ((st.MAP_H 0).CELL 4 * PI / 360))
    (hcc : 0 ≤ cos ((st.MAP_H 0).CELL 5 * PI / 360))
    (X Y Z : Int) (r : ℚ) (c : Int × Int × Int) (hg : c ∈ st.grid)
    (hw : st.Within cos sqrt X Y Z r c) : c ∈ Int.box st X Y Z r := by
  obtain ⟨⟨x1, x2⟩, ⟨y1, y2⟩, ⟨z1, z2⟩⟩ := (st.mem_grid c).1 hg
  obtain ⟨dx, dy, dz⟩ := distance_ge cos sqrt st hc hle hca hcb hcc |X - c.1| |Y - c.2.1|
    |Z - c.2.2| (abs_nonneg _) (abs_nonneg _) (abs_nonneg _)
  unfold State.Within at hw
  have gx : (0 : ℚ) < st.X_GRID := by
    rw [hc.gX]
    exact div_pos hc.hA (by exact_mod_cast hc.hX)
  have gy : (0 : ℚ) < st.Y_GRID := by
    rw [hc.gY]
    exact div_pos hc.hB (by exact_mod_cast hc.hY)
  have gz : (0 : ℚ) < st.Z_GRID := by
    rw [hc.gZ]
    exact div_pos hc.hC (by exact_mod_cast hc.hZ)
  have bx : |((X - c.1 : Int) : ℚ)| ≤ r / st.X_GRID := by
    rw [le_div_iff₀ gx, ← Int.cast_abs]
    exact le_trans dx hw
  have by1 : |((Y - c.2.1 : Int) : ℚ)| ≤ r / st.Y_GRID := by
    rw [le_div_iff₀ gy, ← Int.cast_abs]
    exact le_trans dy hw
  have bz : |((Z - c.2.2 : Int) : ℚ)| ≤ r / st.Z_GRID := by
    rw [le_div_iff₀ gz, ← Int.cast_abs]
    exact le_trans dz hw
  unfold Int.box
  rw [mem_boxLoop]
  exact ⟨Int.bounds_mem X r st.X_GRID st.X_LIM c.1 x1 x2 bx,
    Int.bounds_mem Y r st.Y_GRID st.Y_LIM c.2.1 y1 y2 by1,
    Int.bounds_mem Z r st.Z_GRID st.Z_LIM c.2.2 z1 z2 bz⟩


theorem sum_fold_prop {C : Type} (L : List C) (P : C → Prop) [DecidablePred P] (f : C → ℚ)
    (s0 : ℚ) :
    L.foldl (fun sum c => if P c then sum else sum + f c) s0 =
      s0 + ((L.filter (fun c => decide (¬ P c))).map f).sum := by
  induction L generalizing s0 with
  | nil => simp
  | cons a L ih =>
    rw [List.foldl_cons, ih, List.filter_cons]
    by_cases h : P a
    · simp [h]
    · simp [h, add_assoc]

/-- The stand-in `exSqrtUp` is exact on squares. -/
theorem exSqrtUp_sq (x : ℚ) : exSqrtUp (x * x) = |x| := by
  unfold exSqrtUp
  rw [Rat.sqrt_eq, abs_mul_abs_self, if_pos rfl]

/-- The stand-in `exSqrtUp` is at least every non-negative number whose square
is at most its argument. -/
theorem exSqrtUp_le (x y : ℚ) (_hy : 0 ≤ y) (h : y * y ≤ x) : y ≤ exSqrtUp x := by
  unfold exSqrtUp
  split_ifs with e
  · have hr := Rat.sqrt_nonneg x
    by_contra hlt
    push_neg at hlt
    have : Rat.sqrt x * Rat.sqrt x < y * y := by nlinarith
    linarith
  · nlinarith [sq_nonneg (2 * y - 1)]

theorem exCube_CellOK : exCube.CellOK :=
  { hX := by decide
    hY := by decide
    hZ := by decide
    hA := by norm_num [exCube, exState, exHeader]
    hB := by norm_num [exCube, exState, exHeader]
    hC := by norm_num [exCube, exState, exHeader]
    gX := by norm_num [exCube, exState, exHeader]
    gY := by norm_num [exCube, exState, exHeader]
    gZ := by norm_num [exCube, exState, exHeader] }

theorem exCube_cos (i : Nat) (h3 : 3 ≤ i) (h6 : i < 6) :
    0 ≤ exCos ((exCube.MAP_H 0).CELL i * PI / 360) := by
  have e : (exCube.MAP_H 0).CELL i = 90 := by
    have a : ¬ i < 3 := by omega
    simp [exCube, exState, exHeader, a, h6]
  rw [e]
  norm_num [exCos, PI]

/-- C21. `Int` integrates the sphere: in a state whose cell is well formed
(positive grid counts and cell edges, grid steps as the reference load
computes them), with `sqrt` exact on squares and not below the root, and with
cosine factors that are not negative (cell angles between 0 and 180 degrees),
for every centre `(X, Y, Z)`, inside the grid or not, every radius `r` and
every map slot, `Int` returns `vox_vol` times the sum of the map values of the
grid voxels whose `distance` of the absolute grid offsets from the centre is at
most `r`; the loops leave out no such voxel, and every voxel they visit has
its coordinates in `1..X_LIM`, `1..Y_LIM`, `1..Z_LIM`. -/
theorem Int_integrates_sphere (cos sqrt : ℚ → ℚ) (st : State) (hc : st.CellOK)
    (hsq : ∀ x : ℚ, sqrt (x * x) = |x|)
    (hle : ∀ x y : ℚ, 0 ≤ y → y * y ≤ x → y ≤ sqrt x)
    (hca : 0 ≤ cos ((st.MAP_H 0).CELL 3 * PI / 360))
    (hcb : 0 ≤ cos ((st.MAP_H 0).CELL 4 * PI / 360))
    (hcc : 0 ≤ cos ((st.MAP_H 0).CELL 5 * PI / 360))
    (X Y Z : Int) (r : ℚ) (map1 : Int) :
    Int.sphere cos sqrt st X Y Z r map1 =
        st.vox_vol * ((st.grid.filter (fun c => decide (st.Within cos sqrt X Y Z r c))).map
          (fun c => st.voxel map1 c)).sum ∧
      (∀ c ∈ st.grid, st.Within cos sqrt X Y Z r c → c ∈ Int.box st X Y Z r) ∧
      (∀ c ∈ Int.box st X Y Z r, c ∈ st.grid) := by
  refine ⟨?_, fun c hg hw => Int.box_complete cos sqrt st hc hle hca hcb hcc X Y Z r c hg hw,
    fun c hb => Int.box_subset st X Y Z r c hb⟩
  have e := sum_fold_prop (Int.box st X Y Z r)
    (fun c => distance cos sqrt st (toInt (Abs sqrt ((X - c.1 : Int) : ℚ)))
      (toInt (Abs sqrt ((Y - c.2.1 : Int) : ℚ))) (toInt (Abs sqrt ((Z - c.2.2 : Int) : ℚ))) > r)
    (fun c => st.MAP ((c.1 - 1) + (c.2.1 - 1) * st.X_LIM + (c.2.2 - 1) * st.XY_LIM +
      map1 * st.XYZ_LIM)) 0
  unfold Int.sphere
  simp only
  rw [e, zero_add, mul_comm]
  congr 1
  have e1 : (Int.box st X Y Z r).filter (fun c => decide (¬ distance cos sqrt st
      (toInt (Abs sqrt ((X - c.1 : Int) : ℚ))) (toInt (Abs sqrt ((Y - c.2.1 : Int) : ℚ)))
      (toInt (Abs sqrt ((Z - c.2.2 : Int) : ℚ))) > r)) =
      (Int.box st X Y Z r).filter (fun c => decide (st.Within cos sqrt X Y Z r c)) := by
    apply List.filter_congr
    intro c _
    rw [toInt_Abs sqrt hsq, toInt_Abs sqrt hsq, toInt_Abs sqrt hsq]
    unfold State.Within
    simp only [gt_iff_lt, not_lt]
  rw [e1]
  apply List.Perm.sum_eq
  apply List.Perm.map
  have n1 : (Int.box st X Y Z r).Nodup := boxLoop_nodup _ _ _ _ _ _
  have n2 : st.grid.Nodup := gridLoop_nodup _ _ _
  refine (List.perm_ext_iff_of_nodup (n1.filter _) (n2.filter _)).2 ?_
  intro c
  simp only [List.mem_filter, decide_eq_true_eq]
  constructor
  · rintro ⟨hb, hw⟩
    exact ⟨Int.box_subset st X Y Z r c hb, hw⟩
  · rintro ⟨hg, hw⟩
    exact ⟨Int.box_complete cos sqrt st hc hle hca hcb hcc X Y Z r c hg hw, hw⟩

theorem Int_integrates_sphere_witness :
    exCube.CellOK ∧
      Int.sphere exCos exSqrtUp exCube 2 2 2 1 0 =
        exCube.vox_vol * ((exCube.grid.filter
          (fun c => decide (exCube.Within exCos exSqrtUp 2 2 2 1 c))).map
          (fun c => exCube.voxel 0 c)).sum ∧
      (∀ c ∈ exCube.grid, exCube.Within exCos exSqrtUp 2 2 2 1 c →
        c ∈ Int.box exCube 2 2 2 1) ∧
      (∀ c ∈ Int.box exCube 2 2 2 1, c ∈ exCube.grid) :=
  ⟨exCube_CellOK, Int_integrates_sphere exCos exSqrtUp exCube exCube_CellOK exSqrtUp_sq
    exSqrtUp_le (exCube_cos 3 (by decide) (by decide)) (exCube_cos 4 (by decide) (by decide))
    (exCube_cos 5 (by decide) (by decide)) 2 2 2 1 0⟩


/-! ## Rfac -/

/-- The sum `Rfac` accumulates is the sum over the selected voxels of the
absolute difference of the two maps. -/
theorem Rfac_loop (sqrt : ℚ → ℚ) (hsq : ∀ x : ℚ, sqrt (x * x) = |x|) (st : State)
    (map1 map2 : Int) (zone : Zone) (msk1 : Int) (hz : st.ZoneOK zone msk1) :
    Rfac.loop sqrt st map1 map2 zone msk1 = st.selectedAbsDiff map1 map2 zone msk1 := by
  unfold Rfac.loop State.selectedAbsDiff
  rw [sum_fold st.grid (st.skip zone msk1)
    (fun c => sqrt ((st.MAP (st.LOC c + map1 * st.XYZ_LIM) -
        st.MAP (st.LOC c + map2 * st.XYZ_LIM)) *
      (st.MAP (st.LOC c + map1 * st.XYZ_LIM) - st.MAP (st.LOC c + map2 * st.XYZ_LIM)))) 0,
    filter_selected st zone msk1 hz, zero_add]
  congr 1
  apply List.map_congr_left
  intro c _
  simp only [State.voxel]
  exact hsq _

/-- The statistics `FindParms` records, on a state with the grid, masks and
maps of `st`, are the mean and the count of `st`. -/
theorem FindParms_stats (a st : State) (g : a.SameGrid st) (hm : a.MAP = st.MAP) (m : Int)
    (zone : Zone) (k : Int) (hz : st.ZoneOK zone k) :
    (FindParms a m zone k).2.map_avg m zone.code = st.mean m zone k ∧
      (FindParms a m zone k).2.map_num m zone.code = (st.selectedCount zone k : Int) := by
  obtain ⟨r1, r2, _⟩ := FindParms_records a m zone k
  obtain ⟨l1, l2, _⟩ := FindParms_loop a m zone k (g.ZoneOK zone k hz)
  have e : a.selectedSum m zone k = st.selectedSum m zone k := by
    have := g.selectedSum_mul m zone k 1 (fun c _ => by rw [g.voxel hm m c, mul_one])
    rw [this, mul_one]
  unfold State.mean
  rw [r1, r2, l1, l2, e, g.selectedCount]
  exact ⟨by simp, rfl⟩

/-- What `FindRMS` keeps: the grid, the masks, the maps, the cached means and
counts, and the rms cells of the other map slots. -/
theorem FindRMS_frame (sqrt : ℚ → ℚ) (a : State) (m : Int) (zone : Zone) (k : Int) :
    (FindRMS sqrt a m zone k).2.SameGrid a ∧ (FindRMS sqrt a m zone k).2.MAP = a.MAP ∧
      (FindRMS sqrt a m zone k).2.map_avg = a.map_avg ∧
      (FindRMS sqrt a m zone k).2.map_num = a.map_num ∧
      (∀ s j, s ≠ m → (FindRMS sqrt a m zone k).2.map_rms s j = a.map_rms s j) := by
  unfold FindRMS State.SameGrid
  simp only [set2]
  split_ifs <;>
    exact ⟨⟨rfl, rfl, rfl, rfl, rfl, rfl⟩, rfl, rfl, rfl,
      fun s j hs => by simp [Function.update_noteq hs]⟩

/-- The rms `FindRMS` records, on a state with the grid, masks and maps of
`st` whose cache holds the mean and the count of `st`. -/
theorem FindRMS_stats (sqrt : ℚ → ℚ) (a st : State) (g : a.SameGrid st) (hm : a.MAP = st.MAP)
    (m : Int) (zone : Zone) (k : Int) (hz : st.ZoneOK zone k)
    (h1 : a.map_avg m zone.code = st.mean m zone k)
    (h2 : a.map_num m zone.code = (st.selectedCount zone k : Int)) :
    (FindRMS sqrt a m zone k).2.map_rms m zone.code = st.rms sqrt m zone k := by
  obtain ⟨f1, f2, f3⟩ := FindRMS_records sqrt a m zone k
  unfold State.rms
  rw [f3, f2, f1, FindRMS_loop a m zone k (g.ZoneOK zone k hz), h1, h2,
    g.selectedSqDev hm]
  simp


theorem State.SameGrid.refl (a : State) : a.SameGrid a := ⟨rfl, rfl, rfl, rfl, rfl, rfl⟩

theorem State.SameGrid.trans {a b c : State} (h1 : a.SameGrid b) (h2 : b.SameGrid c) :
    a.SameGrid c :=
  ⟨h1.1.trans h2.1, h1.2.1.trans h2.2.1, h1.2.2.1.trans h2.2.2.1,
    h1.2.2.2.1.trans h2.2.2.2.1, h1.2.2.2.2.1.trans h2.2.2.2.2.1,
    h1.2.2.2.2.2.trans h2.2.2.2.2.2⟩

/-- The cells that `Rfac` reads after its report: the count, the two means and
the two rms values of the zone. -/
theorem Rfac_report (sqrt : ℚ → ℚ) (st : State) (map1 map2 : Int) (zone : Zone) (msk1 : Int)
    (hz : st.ZoneOK zone msk1) :
    (Rfac.report sqrt st map1 map2 zone msk1).map_num map1 zone.code =
        (st.selectedCount zone msk1 : Int) ∧
      (Rfac.report sqrt st map1 map2 zone msk1).map_avg map1 zone.code =
        st.mean map1 zone msk1 ∧
      (Rfac.report sqrt st map1 map2 zone msk1).map_avg map2 zone.code =
        st.mean map2 zone msk1 ∧
      (Rfac.report sqrt st map1 map2 zone msk1).map_rms map1 zone.code =
        st.rms sqrt map1 zone msk1 ∧
      (Rfac.report sqrt st map1 map2 zone msk1).map_rms map2 zone.code =
        st.rms sqrt map2 zone msk1 := by
  obtain ⟨g1, m1⟩ := FindParms_SameGrid st map1 zone msk1
  obtain ⟨g2a, m2a⟩ := FindParms_SameGrid (FindParms st map1 zone msk1).2 map2 zone msk1
  have g2 := g2a.trans g1
  have m2 := m2a.trans m1
  have A2 := FindParms_stats (FindParms st map1 zone msk1).2 st g1 m1 map2 zone msk1 hz
  have A1 : (FindParms (FindParms st map1 zone msk1).2 map2 zone msk1).2.map_avg map1
        zone.code = st.mean map1 zone msk1 ∧
      (FindParms (FindParms st map1 zone msk1).2 map2 zone msk1).2.map_num map1 zone.code =
        (st.selectedCount zone msk1 : Int) := by
    by_cases h : map1 = map2
    · subst h
      exact A2
    · obtain ⟨o1, o2⟩ := FindParms_other (FindParms st map1 zone msk1).2 map2 zone msk1 map1 h
        zone.code
      rw [o1, o2]
      exact FindParms_stats st st (State.SameGrid.refl st) rfl map1 zone msk1 hz
  obtain ⟨g3a, m3a, a3, n3, r3⟩ := FindRMS_frame sqrt
    (FindParms (FindParms st map1 zone msk1).2 map2 zone msk1).2 map1 zone msk1
  have g3 := g3a.trans g2
  have m3 := m3a.trans m2
  have R1 := FindRMS_stats sqrt (FindParms (FindParms st map1 zone msk1).2 map2 zone msk1).2
    st g2 m2 map1 zone msk1 hz A1.1 A1.2
  obtain ⟨_, _, a4, n4, r4⟩ := FindRMS_frame sqrt
    (FindRMS sqrt (FindParms (FindParms st map1 zone msk1).2 map2 zone msk1).2 map1 zone
      msk1).2 map2 zone msk1
  have R2 := FindRMS_stats sqrt
    (FindRMS sqrt (FindParms (FindParms st map1 zone msk1).2 map2 zone msk1).2 map1 zone
      msk1).2 st g3 m3 map2 zone msk1 hz (by rw [a3]; exact A2.1) (by rw [n3]; exact A2.2)
  unfold Rfac.report
  simp only
  refine ⟨?_, ?_, ?_, ?_, R2⟩
  · rw [n4, n3]
    exact A1.2
  · rw [a4, a3]
    exact A1.1
  · rw [a4, a3]
    exact A2.1
  · by_cases h : map1 = map2
    · subst h
      exact R2
    · rw [r4 map1 zone.code h]
      exact R1

theorem selectedAbsDiff_agree (st : State) (s t : Int) (zone : Zone) (k : Int)
    (hv : ∀ c ∈ st.grid, st.Selected zone k c → st.voxel s c = st.voxel t c) :
    st.selectedAbsDiff s t zone k = 0 := by
  unfold State.selectedAbsDiff
  have e : (st.grid.filter (fun c => decide (st.Selected zone k c))).map
      (fun c => |st.voxel s c - st.voxel t c|) =
      (st.grid.filter (fun c => decide (st.Selected zone k c))).map (fun _ => (0 : ℚ)) := by
    apply List.map_congr_left
    intro c hc
    obtain ⟨h1, h2⟩ := List.mem_filter.1 hc
    rw [hv c h1 (by simpa using h2)]
    simp
  rw [e]
  simp

/-- C23. R factor: with `sqrt (x * x) = |x|` and a zone that selects at least
one voxel (0/1 mask for Inside and Outside), for every pair of map slots and
every type, `Rfac` returns `D / n`, where `D` is the sum over the selected
voxels of `|map1 - map2|` divided by their number and `n` is the normaliser
of the type (1 mean of `map1`, 2 mean of `map2`, 3 the average of the means,
4 rms of `map1`, 5 rms of `map2`, 6 the average of the rms values, otherwise
1), all over the same zone; and with a non-zero normaliser the result is 0
when the two maps agree on the zone. -/
theorem Rfac_is_mean_difference_over_normaliser (sqrt : ℚ → ℚ)
    (hsq : ∀ x : ℚ, sqrt (x * x) = |x|) (st : State) (map1 map2 : Int) (zone : Zone)
    (msk1 : Int) (hz : st.ZoneOK zone msk1) (_hsel : 0 < st.selectedCount zone msk1)
    (type : Int) :
    (Rfac sqrt st map1 map2 zone msk1 type).1 =
        (st.selectedAbsDiff map1 map2 zone msk1 / (st.selectedCount zone msk1 : ℚ)) /
          st.normaliser sqrt map1 map2 zone msk1 type ∧
      (st.normaliser sqrt map1 map2 zone msk1 type ≠ 0 →
        (∀ c ∈ st.grid, st.Selected zone msk1 c → st.voxel map1 c = st.voxel map2 c) →
        (Rfac sqrt st map1 map2 zone msk1 type).1 = 0) := by
  obtain ⟨n, a1, a2, r1, r2⟩ := Rfac_report sqrt st map1 map2 zone msk1 hz
  have key : (Rfac sqrt st map1 map2 zone msk1 type).1 =
      (st.selectedAbsDiff map1 map2 zone msk1 / (st.selectedCount zone msk1 : ℚ)) /
        st.normaliser sqrt map1 map2 zone msk1 type := by
    unfold Rfac State.normaliser
    simp only
    rw [Rfac_loop sqrt hsq st map1 map2 zone msk1 hz, n, a1, a2, r1, r2, Int.cast_natCast]
    split_ifs
    · rfl
    · rfl
    · rfl
    · rfl
    · rfl
    · rfl
    · exact (div_one _).symm
  refine ⟨key, ?_⟩
  intro _ hv
  rw [key, selectedAbsDiff_agree st map1 map2 zone msk1 hv]
  simp

theorem Rfac_is_mean_difference_over_normaliser_witness :
    exA.ZoneOK Zone.Total 0 ∧ 0 < exA.selectedCount Zone.Total 0 ∧
      (Rfac exSqrtUp exA 0 1 Zone.Total 0 1).1 =
        (exA.selectedAbsDiff 0 1 Zone.Total 0 / (exA.selectedCount Zone.Total 0 : ℚ)) /
          exA.normaliser exSqrtUp 0 1 Zone.Total 0 1 ∧
      (exA.normaliser exSqrtUp 0 1 Zone.Total 0 1 ≠ 0 →
        (∀ c ∈ exA.grid, exA.Selected Zone.Total 0 c → exA.voxel 0 c = exA.voxel 1 c) →
        (Rfac exSqrtUp exA 0 1 Zone.Total 0 1).1 = 0) :=
  ⟨zoneOK_Total exA 0, by decide,
    Rfac_is_mean_difference_over_normaliser exSqrtUp exSqrtUp_sq exA 0 1 Zone.Total 0
      (zoneOK_Total exA 0) (by decide) 1⟩


/-! ## Coordinate conversion -/

/-- C29, amended. Coordinate round trip of the type-1 convention in
arithmetic without rounding: for non-zero cell edges, `sin c != 0`, `G != 0`,
`sin c ^ 2 + cos c ^ 2 = 1` and `1 / tan c = cos c / sin c`, converting a
fractional coordinate `(x, y, z)` to Cartesian with `C2C_x`, `C2C_y`, `C2C_z`
and that triple back with `C2C_X`, `C2C_Y`, `C2C_Z` gives `x * X_CELL`,
`y * Y_CELL`, `z * Z_CELL` before the conversion to `int`. -/
theorem C2C_roundtrip (sin cos tan sqrt : ℚ → ℚ) (st : State) (A B C a b c : ℚ)
    (hA : A ≠ 0) (hB : B ≠ 0) (hC : C ≠ 0) (hs : sin c ≠ 0)
    (hG : C2C.G cos sqrt a b c ≠ 0) (hsc : sin c * sin c + cos c * cos c = 1)
    (hcot : 1 / tan c = cos c / sin c) (x y z : ℚ) :
    C2C_X.value sin cos tan sqrt st 1 (C2C_x sin cos sqrt 1 x y z A B C a b c)
        (C2C_y sin cos sqrt 1 x y z A B C a b c) (C2C_z sin cos sqrt 1 x y z A B C a b c)
        A B C a b c = x * (st.X_CELL : ℚ) ∧
      C2C_Y.value sin cos sqrt st 1 (C2C_x sin cos sqrt 1 x y z A B C a b c)
        (C2C_y sin cos sqrt 1 x y z A B C a b c) (C2C_z sin cos sqrt 1 x y z A B C a b c)
        A B C a b c = y * (st.Y_CELL : ℚ) ∧
      C2C_Z.value sin cos tan sqrt st 1 (C2C_x sin cos sqrt 1 x y z A B C a b c)
        (C2C_y sin cos sqrt 1 x y z A B C a b c) (C2C_z sin cos sqrt 1 x y z A B C a b c)
        A B C a b c = z * (st.Z_CELL : ℚ) := by
  have h10 : ¬ ((1 : Int) = 0) := by decide
  unfold C2C_X.value C2C_Y.value C2C_Z.value C2C_x C2C_y C2C_z
  simp only [h10, if_false, if_true]
  generalize C2C.G cos sqrt a b c = G at hG
  generalize sin c = S at hs hsc hcot
  generalize cos c = K at hsc hcot
  generalize cos a = Ka
  generalize cos b = Kb
  have hY : ∀ Y1 : ℚ, Y1 / (A * tan c) = Y1 / A * (K / S) := by
    intro Y1
    rw [← hcot]
    field_simp
  refine ⟨?_, ?_, ?_⟩
  · rw [hY]
    congr 1
    field_simp
    linear_combination (z * C * Kb * G * A ^ 2 * S ^ 2) * hsc
  · congr 1
    field_simp
    ring
  · congr 1
    field_simp
    ring

theorem C2C_roundtrip_witness :
    C2C.G (fun _ => 4 / 5) (fun _ => 1) 0 0 0 ≠ 0 ∧
      C2C_X.value (fun _ => 3 / 5) (fun _ => 4 / 5) (fun _ => 3 / 4) (fun _ => 1) exCube 1
        (C2C_x (fun _ => 3 / 5) (fun _ => 4 / 5) (fun _ => 1) 1 1 2 3 3 4 5 0 0 0)
        (C2C_y (fun _ => 3 / 5) (fun _ => 4 / 5) (fun _ => 1) 1 1 2 3 3 4 5 0 0 0)
        (C2C_z (fun _ => 3 / 5) (fun _ => 4 / 5) (fun _ => 1) 1 1 2 3 3 4 5 0 0 0)
        3 4 5 0 0 0 = 1 * (exCube.X_CELL : ℚ) ∧
      C2C_Y.value (fun _ => 3 / 5) (fun _ => 4 / 5) (fun _ => 1) exCube 1
        (C2C_x (fun _ => 3 / 5) (fun _ => 4 / 5) (fun _ => 1) 1 1 2 3 3 4 5 0 0 0)
        (C2C_y (fun _ => 3 / 5) (fun _ => 4 / 5) (fun _ => 1) 1 1 2 3 3 4 5 0 0 0)
        (C2C_z (fun _ => 3 / 5) (fun _ => 4 / 5) (fun _ => 1) 1 1 2 3 3 4 5 0 0 0)
        3 4 5 0 0 0 = 2 * (exCube.Y_CELL : ℚ) ∧
      C2C_Z.value (fun _ => 3 / 5) (fun _ => 4 / 5) (fun _ => 3 / 4) (fun _ => 1) exCube 1
        (C2C_x (fun _ => 3 / 5) (fun _ => 4 / 5) (fun _ => 1) 1 1 2 3 3 4 5 0 0 0)
        (C2C_y (fun _ => 3 / 5) (fun _ => 4 / 5) (fun _ => 1) 1 1 2 3 3 4 5 0 0 0)
        (C2C_z (fun _ => 3 / 5) (fun _ => 4 / 5) (fun _ => 1) 1 1 2 3 3 4 5 0 0 0)
        3 4 5 0 0 0 = 3 * (exCube.Z_CELL : ℚ) :=
  ⟨by norm_num [C2C.G],
    C2C_roundtrip (fun _ => 3 / 5) (fun _ => 4 / 5) (fun _ => 3 / 4) (fun _ => 1) exCube
      3 4 5 0 0 0 (by norm_num) (by norm_num) (by norm_num) (by norm_num)
      (by norm_num [C2C.G]) (by norm_num) (by norm_num) 1 2 3⟩


/-! ## Headers written by WriteMap and MaskOut -/

/-- C25 as stated fails for `MaskOut`. In `exMasked`, the state after loading
into mask slot 0 a mask file whose header has `MODE = 1`, the header of map
slot 0 has `MODE = 0`; `WriteMap` of map slot 1 emits `MODE = 0` and `MaskOut`
of mask slot 0 emits `MODE = 1`. -/
theorem MaskOut_header_not_reference :
    (exMasked.MAP_H 0).MODE = 0 ∧
      (WriteMap exMasked true 1).2.map (fun f => f.hdr.MODE) = some 0 ∧
      (MaskOut exMasked true 0).2.map (fun f => f.hdr.MODE) = some 1 := by
  decide

/-- C25, amended. The header that `WriteMap` emits is that of `MAP_H[0]`,
whatever map slot is written, and the header that `MaskOut` emits is that of
`MAP_H[map_mem + 0]`, the header of mask slot 0, whatever mask slot is
written; neither depends on the header of another slot. -/
theorem written_header_is_slot_zero (st : State) (map1 msk1 : Int) :
    (WriteMap st true map1).2.map (fun f => f.hdr) = some (writeHeader (st.MAP_H 0)) ∧
      (MaskOut st true msk1).2.map (fun f => f.hdr) =
        some (writeHeader (st.MAP_H (st.map_mem + 0))) ∧
      (∀ (s : Int) (h : map_header), s ≠ 0 →
        (WriteMap { st with MAP_H := Function.update st.MAP_H s h } true map1).2.map
          (fun f => f.hdr) = (WriteMap st true map1).2.map (fun f => f.hdr)) ∧
      (∀ (s : Int) (h : map_header), s ≠ st.map_mem + 0 →
        (MaskOut { st with MAP_H := Function.update st.MAP_H s h } true msk1).2.map
          (fun f => f.hdr) = (MaskOut st true msk1).2.map (fun f => f.hdr)) := by
  refine ⟨rfl, rfl, ?_, ?_⟩
  · intro s h hs
    simp [WriteMap, Function.update_noteq (Ne.symm hs)]
  · intro s h hs
    simp [MaskOut, Function.update_noteq (Ne.symm hs)]

theorem written_header_is_slot_zero_witness :
    (WriteMap exMasked true 1).2.map (fun f => f.hdr) = some (writeHeader (exMasked.MAP_H 0)) ∧
      (MaskOut exMasked true 0).2.map (fun f => f.hdr) =
        some (writeHeader (exMasked.MAP_H (exMasked.map_mem + 0))) ∧
      (∀ (s : Int) (h : map_header), s ≠ 0 →
        (WriteMap { exMasked with MAP_H := Function.update exMasked.MAP_H s h } true 1).2.map
          (fun f => f.hdr) = (WriteMap exMasked true 1).2.map (fun f => f.hdr)) ∧
      (∀ (s : Int) (h : map_header), s ≠ exMasked.map_mem + 0 →
        (MaskOut { exMasked with MAP_H := Function.update exMasked.MAP_H s h } true 0).2.map
          (fun f => f.hdr) = (MaskOut exMasked true 0).2.map (fun f => f.hdr)) :=
  written_header_is_slot_zero exMasked 1 0


/-! ## ReadMsk -/

/-- The `LOAD MASK` loop on a payload that does not end early: `sum` grows by
the sum of the bytes read, `tot` by their number, and every cell of the mask
store keeps its value or takes one of the bytes read. -/
theorem ReadMsk_fold (st : State) (msk1 : Int) (L : List (Int × Int × Int)) (acc : MskAcc)
    (hlen : L.length ≤ acc.data.length) :
    (L.foldl (ReadMsk.step st msk1) acc).sum = acc.sum + (acc.data.take L.length).sum ∧
      (L.foldl (ReadMsk.step st msk1) acc).tot = acc.tot + (L.length : Int) ∧
      (∀ i, (L.foldl (ReadMsk.step st msk1) acc).MSK i = acc.MSK i ∨
        (L.foldl (ReadMsk.step st msk1) acc).MSK i ∈ acc.data.take L.length) := by
  induction L generalizing acc with
  | nil => simp
  | cons a L ih =>
    obtain ⟨MSK, data, ch, sum, tot⟩ := acc
    cases data with
    | nil => simp at hlen
    | cons v rest =>
      simp only [List.length_cons, Nat.add_le_add_iff_right] at hlen
      rw [List.foldl_cons]
      obtain ⟨h1, h2, h3⟩ := ih (ReadMsk.step st msk1 ⟨MSK, v :: rest, ch, sum, tot⟩ a) hlen
      simp only [ReadMsk.step, List.tail_cons] at h1 h2 h3 ⊢
      refine ⟨?_, ?_, ?_⟩
      · rw [h1, List.length_cons, List.take_succ_cons, List.sum_cons]
        ring
      · rw [h2, List.length_cons]
        push_cast
        ring
      · intro i
        rw [List.length_cons, List.take_succ_cons]
        rcases h3 i with h | h
        · rw [h]
          by_cases e : i = st.LOC a + msk1 * st.XYZ_LIM
          · right
            rw [e, Function.update_same]
            exact List.mem_cons_self _ _
          · left
            exact Function.update_noteq e _ _
        · right
          exact List.mem_cons_of_mem _ h

/-- The sum of a list of zeros and ones is the number of its ones. -/
theorem sum_eq_count_one (l : List Int) (h : ∀ b ∈ l, b = 0 ∨ b = 1) :
    l.sum = (l.count 1 : Int) := by
  induction l with
  | nil => rfl
  | cons a l ih =>
    have ha := h a (List.mem_cons_self _ _)
    have hl := ih (fun b hb => h b (List.mem_cons_of_mem _ hb))
    rw [List.sum_cons, hl, List.count_cons]
    rcases ha with rfl | rfl
    · simp
    · simp
      ring

/-- The outcome of `ReadMsk` on a file whose counts match the grid: the
quotient `sum / tot` of its loop and the mask store the loop leaves; the grid
sizes are kept. -/
theorem ReadMsk_accept (st : State) (f : MskFile) (msk1 mem ch0 : Int)
    (hX : st.X_LIM = f.hdr.NC) (hY : st.Y_LIM = f.hdr.NR) (hZ : st.Z_LIM = f.hdr.NS) :
    (ReadMsk st (some f) msk1 mem ch0).1 =
        (((st.grid.foldl (ReadMsk.step st msk1)
          { MSK := if mem ≠ 0 then fun _ => 0 else st.MSK, data := f.data, ch := ch0,
            sum := 0, tot := 0 }).sum : ℚ) * 1) /
        (((st.grid.foldl (ReadMsk.step st msk1)
          { MSK := if mem ≠ 0 then fun _ => 0 else st.MSK, data := f.data, ch := ch0,
            sum := 0, tot := 0 }).tot : ℚ) * 1) ∧
      (ReadMsk st (some f) msk1 mem ch0).2.MSK =
        (st.grid.foldl (ReadMsk.step st msk1)
          { MSK := if mem ≠ 0 then fun _ => 0 else st.MSK, data := f.data, ch := ch0,
            sum := 0, tot := 0 }).MSK ∧
      (ReadMsk st (some f) msk1 mem ch0).2.X_LIM = st.X_LIM ∧
      (ReadMsk st (some f) msk1 mem ch0).2.Y_LIM = st.Y_LIM ∧
      (ReadMsk st (some f) msk1 mem ch0).2.Z_LIM = st.Z_LIM ∧
      (ReadMsk st (some f) msk1 mem ch0).2.XY_LIM = st.XY_LIM ∧
      (ReadMsk st (some f) msk1 mem ch0).2.XYZ_LIM = st.XYZ_LIM := by
  have hc : ¬ (st.X_LIM ≠ f.hdr.NC ∨ st.Y_LIM ≠ f.hdr.NR ∨ st.Z_LIM ≠ f.hdr.NS) := by
    simp [hX, hY, hZ]
  unfold ReadMsk
  simp only [Function.update_same, readHeader]
  rw [if_neg hc]
  by_cases hm : mem ≠ 0
  · simp only [if_pos hm]
    refine ⟨?_, ?_, ?_, ?_, ?_, ?_, ?_⟩ <;> first | rfl | trivial
  · simp only [if_neg hm]
    refine ⟨?_, ?_, ?_, ?_, ?_, ?_, ?_⟩ <;> first | rfl | trivial


theorem State.grid_length (st : State) (hX : 0 ≤ st.X_LIM) (hY : 0 ≤ st.Y_LIM)
    (hZ : 0 ≤ st.Z_LIM) : (st.grid.length : Int) = st.X_LIM * st.Y_LIM * st.Z_LIM := by
  rw [State.grid, gridLoop_length]
  push_cast
  rw [Int.toNat_of_nonneg hX, Int.toNat_of_nonneg hY, Int.toNat_of_nonneg hZ]
  ring

unseal Rat.mul Rat.inv Rat.add Rat.sub in
/-- C26 as stated fails. The mask file `exBadMask` has the counts `2 * 1 * 1`
of the grid of `exM` and the payload `3, 3`, in which no byte equals 1:
`ReadMsk` returns `(3 + 3) / 2 = 3`, which is neither `0 / 2` nor a value of
`[0, 1]`. -/
theorem ReadMsk_sum_not_fraction :
    exM.X_LIM = exBadMask.hdr.NC ∧ exM.Y_LIM = exBadMask.hdr.NR ∧
      exM.Z_LIM = exBadMask.hdr.NS ∧ exBadMask.data.count 1 = 0 ∧
      (ReadMsk exM (some exBadMask) 0 0 0).1 = 3 := by
  decide

/-- C26, amended. `ReadMsk` returns the sum of the payload bytes it reads
divided by their number; for a mask file whose counts match a non-empty grid
and whose payload holds at least `X_LIM * Y_LIM * Z_LIM` bytes, each 0 or 1,
this is the number of bytes equal to 1 among the first
`X_LIM * Y_LIM * Z_LIM` of the payload divided by `X_LIM * Y_LIM * Z_LIM`, a
value of `[0, 1]`. -/
theorem ReadMsk_fraction_of_ones (st : State) (f : MskFile) (msk1 mem ch0 : Int)
    (hX : st.X_LIM = f.hdr.NC) (hY : st.Y_LIM = f.hdr.NR) (hZ : st.Z_LIM = f.hdr.NS)
    (pX : 0 < st.X_LIM) (pY : 0 < st.Y_LIM) (pZ : 0 < st.Z_LIM)
    (hlen : st.X_LIM * st.Y_LIM * st.Z_LIM ≤ (f.data.length : Int))
    (h01 : ∀ b ∈ f.data, b = 0 ∨ b = 1) :
    (ReadMsk st (some f) msk1 mem ch0).1 =
        (((f.data.take (st.X_LIM * st.Y_LIM * st.Z_LIM).toNat).count 1 : Nat) : ℚ) /
          ((st.X_LIM * st.Y_LIM * st.Z_LIM : Int) : ℚ) ∧
      0 ≤ (ReadMsk st (some f) msk1 mem ch0).1 ∧ (ReadMsk st (some f) msk1 mem ch0).1 ≤ 1 := by
  have hg := st.grid_length (le_of_lt pX) (le_of_lt pY) (le_of_lt pZ)
  have hn : (st.X_LIM * st.Y_LIM * st.Z_LIM).toNat = st.grid.length := by
    rw [← hg, Int.toNat_natCast]
  have hl : st.grid.length ≤ f.data.length := by
    rw [← hg] at hlen
    exact_mod_cast hlen
  obtain ⟨e1, _⟩ := ReadMsk_accept st f msk1 mem ch0 hX hY hZ
  obtain ⟨s1, t1, _⟩ := ReadMsk_fold st msk1 st.grid
    { MSK := if mem ≠ 0 then fun _ => 0 else st.MSK, data := f.data, ch := ch0,
      sum := 0, tot := 0 } hl
  simp only at s1 t1
  have hc := sum_eq_count_one (f.data.take st.grid.length)
    (fun b hb => h01 b (List.mem_of_mem_take hb))
  have key : (ReadMsk st (some f) msk1 mem ch0).1 =
      (((f.data.take (st.X_LIM * st.Y_LIM * st.Z_LIM).toNat).count 1 : Nat) : ℚ) /
        ((st.X_LIM * st.Y_LIM * st.Z_LIM : Int) : ℚ) := by
    rw [e1, s1, t1, hc, hn, ← hg]
    simp
  have hpos : (0 : ℚ) < ((st.X_LIM * st.Y_LIM * st.Z_LIM : Int) : ℚ) := by
    have : 0 < st.X_LIM * st.Y_LIM * st.Z_LIM := mul_pos (mul_pos pX pY) pZ
    exact_mod_cast this
  have hle : (((f.data.take (st.X_LIM * st.Y_LIM * st.Z_LIM).toNat).count 1 : Nat) : ℚ) ≤
      ((st.X_LIM * st.Y_LIM * st.Z_LIM : Int) : ℚ) := by
    have a : (f.data.take st.grid.length).count 1 ≤ st.grid.length :=
      le_trans (List.count_le_length _ _) (List.length_take_le _ _)
    rw [hn, ← hg]
    exact_mod_cast a
  refine ⟨key, ?_, ?_⟩
  · rw [key]
    exact div_nonneg (Nat.cast_nonneg _) (le_of_lt hpos)
  · rw [key]
    exact (div_le_one hpos).2 hle

theorem ReadMsk_fraction_of_ones_witness :
    (∀ b ∈ exMaskFile.data, b = 0 ∨ b = 1) ∧
      (ReadMsk exM (some exMaskFile) 0 0 0).1 =
        (((exMaskFile.data.take (exM.X_LIM * exM.Y_LIM * exM.Z_LIM).toNat).count 1 : Nat) : ℚ) /
          ((exM.X_LIM * exM.Y_LIM * exM.Z_LIM : Int) : ℚ) ∧
      0 ≤ (ReadMsk exM (some exMaskFile) 0 0 0).1 ∧
      (ReadMsk exM (some exMaskFile) 0 0 0).1 ≤ 1 :=
  ⟨by decide, ReadMsk_fraction_of_ones exM exMaskFile 0 0 0 rfl rfl rfl (by decide) (by decide)
    (by decide) (by decide) (by decide)⟩


/-! ## Mask values stay 0 or 1 -/

theorem State.AllMask01.grid01 {st : State} (h : st.AllMask01) : st.Grid01 st.MSK := by
  intro k c hc
  have := h k c hc
  rw [st.mvoxel_eq] at this
  exact this

theorem State.AllMask01_of (a st : State) (hx : a.X_LIM = st.X_LIM) (hy : a.Y_LIM = st.Y_LIM)
    (hz : a.Z_LIM = st.Z_LIM) (hxy : a.XY_LIM = st.XY_LIM) (hxyz : a.XYZ_LIM = st.XYZ_LIM)
    (h : st.Grid01 a.MSK) : a.AllMask01 := by
  intro k c hc
  have hg : c ∈ st.grid := by
    unfold State.grid at hc ⊢
    rw [← hx, ← hy, ← hz]
    exact hc
  have e : a.mvoxel k c = a.MSK (st.LOC c + st.XYZ_LIM * k) := by
    rw [a.mvoxel_eq]
    unfold State.LOC
    rw [hx, hxy, hxyz]
  rw [e]
  exact h k c hg

/-- A loop that stores in each voxel of a slot a 0/1 value computed from two
0/1 voxels keeps every mask voxel 0 or 1. -/
theorem wrLoop_01 (st : State) (d a b : Int) (g : Int → Int → Int)
    (hg : ∀ x y, (x = 0 ∨ x = 1) → (y = 0 ∨ y = 1) → (g x y = 0 ∨ g x y = 1))
    (L : List (Int × Int × Int)) (hL : ∀ c ∈ L, c ∈ st.grid) (m : Int → Int)
    (hm : st.Grid01 m) :
    st.Grid01 (L.foldl (wrStep (fun c => st.LOC c + st.XYZ_LIM * d)
      (fun c => st.LOC c + st.XYZ_LIM * a) (fun c => st.LOC c + st.XYZ_LIM * b)
      (fun _ => g)) m) := by
  induction L generalizing m with
  | nil => exact hm
  | cons e L ih =>
    rw [List.foldl_cons]
    apply ih (fun c hc => hL c (List.mem_cons_of_mem _ hc))
    intro k c hc
    have he := hL e (List.mem_cons_self _ _)
    unfold wrStep
    by_cases q : st.LOC c + st.XYZ_LIM * k = st.LOC e + st.XYZ_LIM * d
    · rw [q, Function.update_same]
      exact hg _ _ (hm a e he) (hm b e he)
    · rw [Function.update_noteq q]
      exact hm k c hc

theorem MaxMs_AllMask01 (st : State) (h : st.AllMask01) (msk1 msk2 msk3 : Int) :
    (MaxMs st msk1 msk2 msk3).AllMask01 := by
  refine State.AllMask01_of (MaxMs st msk1 msk2 msk3) st rfl rfl rfl rfl rfl ?_
  rw [MaxMs_MSK]
  apply wrLoop_01 st msk1 msk2 msk3 _ _ st.grid (fun c hc => hc) st.MSK h.grid01
  intro x y _ _
  split_ifs <;> simp

theorem MinMs_AllMask01 (st : State) (h : st.AllMask01) (msk1 msk2 msk3 : Int) :
    (MinMs st msk1 msk2 msk3).AllMask01 := by
  refine State.AllMask01_of (MinMs st msk1 msk2 msk3) st rfl rfl rfl rfl rfl ?_
  rw [MinMs_MSK]
  apply wrLoop_01 st msk1 msk2 msk3 _ _ st.grid (fun c hc => hc) st.MSK h.grid01
  intro x y _ _
  split_ifs <;> simp

theorem Flip_AllMask01 (st : State) (h : st.AllMask01) (msk1 msk2 : Int) :
    (Flip st msk1 msk2).AllMask01 := by
  refine State.AllMask01_of (Flip st msk1 msk2) st rfl rfl rfl rfl rfl ?_
  rw [Flip_MSK]
  apply wrLoop_01 st msk1 msk2 msk2 _ _ st.grid (fun c hc => hc) st.MSK h.grid01
  intro x y _ _
  split_ifs <;> simp

theorem MskCopy_AllMask01 (st : State) (h : st.AllMask01) (msk1 msk2 : Int) :
    (MskCopy st msk1 msk2).AllMask01 := by
  refine State.AllMask01_of (MskCopy st msk1 msk2) st rfl rfl rfl rfl rfl ?_
  rw [MskCopy_MSK]
  apply wrLoop_01 st msk2 msk1 msk1 _ _ st.grid (fun c hc => hc) st.MSK h.grid01
  intro x y hx _
  exact hx

/-- The decision of `Shape` at a voxel stores at most a 1. -/
theorem Shape_voxel_01 (st : State) (msk2 msk3 map1 : Int) (MinDif : ℚ) (N2 : Int)
    (m : Int → Int) (c : Int × Int × Int) (hm : st.Grid01 m) :
    st.Grid01 (Shape.voxel st msk2 msk3 map1 MinDif N2 m c) := by
  unfold Shape.voxel
  simp only
  split_ifs
  · exact hm
  · intro k d hd
    by_cases q : st.LOC d + st.XYZ_LIM * k =
        (Shape.scan st m msk2 map1 c).2.2 + st.XYZ_LIM * msk3
    · rw [q, Function.update_same]
      exact Or.inr rfl
    · rw [Function.update_noteq q]
      exact hm k d hd
  · exact hm

theorem Shape_cycle_AllMask01 (st : State) (h : st.AllMask01) (msk2 msk3 map1 : Int)
    (MinDif : ℚ) (N2 : Int) : (Shape.cycle st msk2 msk3 map1 MinDif N2).AllMask01 := by
  have key : ∀ (L : List (Int × Int × Int)) (m : Int → Int), st.Grid01 m →
      st.Grid01 (L.foldl (Shape.voxel st msk2 msk3 map1 MinDif N2) m) := by
    intro L
    induction L with
    | nil => exact fun m hm => hm
    | cons e L ih =>
      intro m hm
      rw [List.foldl_cons]
      exact ih _ (Shape_voxel_01 st msk2 msk3 map1 MinDif N2 m e hm)
  unfold Shape.cycle
  simp only
  apply MskCopy_AllMask01
  refine State.AllMask01_of _ st ?_ ?_ ?_ ?_ ?_ ?_
  · rfl
  · rfl
  · rfl
  · rfl
  · rfl
  · exact key _ st.MSK h.grid01

theorem Shape_AllMask01 (st : State) (h : st.AllMask01) (msk1 msk2 msk3 map1 : Int)
    (MinDif : ℚ) (N1 N2 : Int) : (Shape st msk1 msk2 msk3 map1 MinDif N1 N2).AllMask01 := by
  have key : ∀ (L : List Int) (s : State), s.AllMask01 →
      (L.foldl (fun s _ => Shape.cycle s msk2 msk3 map1 MinDif N2) s).AllMask01 := by
    intro L
    induction L with
    | nil => exact fun s hs => hs
    | cons e L ih =>
      intro s hs
      rw [List.foldl_cons]
      exact ih _ (Shape_cycle_AllMask01 s hs msk2 msk3 map1 MinDif N2)
  unfold Shape
  simp only
  exact key _ _ (MskCopy_AllMask01 _ (MskCopy_AllMask01 st h msk1 msk2) msk1 msk3)


/-- `ReadMsk` keeps every mask voxel 0 or 1 for a file that cannot be opened,
for a file that it rejects, whatever its payload, and for a file that it
accepts when the payload consists of zeros and ones and does not end early. -/
theorem ReadMsk_AllMask01 (st : State) (h : st.AllMask01) (file : Option MskFile)
    (msk1 mem ch0 : Int)
    (hf : ∀ f, file = some f →
      st.X_LIM = f.hdr.NC → st.Y_LIM = f.hdr.NR → st.Z_LIM = f.hdr.NS →
      (∀ b ∈ f.data, b = 0 ∨ b = 1) ∧ st.grid.length ≤ f.data.length) :
    (ReadMsk st file msk1 mem ch0).2.AllMask01 := by
  cases file with
  | none => exact h
  | some f =>
    by_cases hc : st.X_LIM ≠ f.hdr.NC ∨ st.Y_LIM ≠ f.hdr.NR ∨ st.Z_LIM ≠ f.hdr.NS
    · refine State.AllMask01_of _ st ?_ ?_ ?_ ?_ ?_ ?_
      all_goals
        unfold ReadMsk
        simp only [Function.update_same, readHeader]
        rw [if_pos hc]
      exact h.grid01
    · push_neg at hc
      obtain ⟨h01, hl⟩ := hf f rfl hc.1 hc.2.1 hc.2.2
      obtain ⟨_, e2, ex, ey, ez, exy, exyz⟩ :=
        ReadMsk_accept st f msk1 mem ch0 hc.1 hc.2.1 hc.2.2
      obtain ⟨_, _, m3⟩ := ReadMsk_fold st msk1 st.grid
        { MSK := if mem ≠ 0 then fun _ => 0 else st.MSK, data := f.data, ch := ch0,
          sum := 0, tot := 0 } hl
      refine State.AllMask01_of _ st ex ey ez exy exyz ?_
      rw [e2]
      intro k c hcg
      rcases m3 (st.LOC c + st.XYZ_LIM * k) with q | q
      · rw [q]
        simp only
        split_ifs
        · exact Or.inl rfl
        · exact h.grid01 k c hcg
      · exact h01 _ (List.mem_of_mem_take q)

theorem exM_AllMask01 : exM.AllMask01 := fun k => exM_Mask01 k

/-- C27 as stated fails for `ReadMsk`. Every mask voxel of `exM` is 0 or 1;
after `ReadMsk` of the file `exBadMask`, whose counts match the grid and whose
payload is `3, 3`, the voxel `(1,1,1)` of mask slot 0 holds 3. -/
theorem ReadMsk_stores_raw_byte :
    exM.AllMask01 ∧ (ReadMsk exM (some exBadMask) 0 0 0).2.mvoxel 0 (1, 1, 1) = 3 :=
  ⟨exM_AllMask01, by decide⟩

/-- C27, amended. Mask values stay in `{0, 1}`: when every voxel of every
mask slot is 0 or 1, it is so after `MaxMs`, `MinMs`, `Flip`, `MskCopy` and
`Shape`, for all their arguments, and after `ReadMsk` of a file that cannot be
opened, of a file that is rejected (its counts differ from the grid), whatever
its payload, and of an accepted file whose payload consists of zeros and ones
and holds a byte for every voxel of the grid; a rejected file leaves the mask
store as it was. `ReadMsk` stores the bytes as the file holds them. -/
theorem mask_values_stay_01 (st : State) (h : st.AllMask01) :
    (∀ msk1 msk2 msk3, (MaxMs st msk1 msk2 msk3).AllMask01) ∧
      (∀ msk1 msk2 msk3, (MinMs st msk1 msk2 msk3).AllMask01) ∧
      (∀ msk1 msk2, (Flip st msk1 msk2).AllMask01) ∧
      (∀ msk1 msk2, (MskCopy st msk1 msk2).AllMask01) ∧
      (∀ msk1 msk2 msk3 map1 MinDif N1 N2,
        (Shape st msk1 msk2 msk3 map1 MinDif N1 N2).AllMask01) ∧
      (∀ msk1 mem ch0, (ReadMsk st none msk1 mem ch0).2.AllMask01) ∧
      (∀ (f : MskFile) msk1 mem ch0,
        (st.X_LIM ≠ f.hdr.NC ∨ st.Y_LIM ≠ f.hdr.NR ∨ st.Z_LIM ≠ f.hdr.NS) →
        (ReadMsk st (some f) msk1 mem ch0).2.MSK = st.MSK ∧
          (ReadMsk st (some f) msk1 mem ch0).2.AllMask01) ∧
      (∀ (f : MskFile) msk1 mem ch0,
        st.X_LIM = f.hdr.NC → st.Y_LIM = f.hdr.NR → st.Z_LIM = f.hdr.NS →
        (∀ b ∈ f.data, b = 0 ∨ b = 1) → st.grid.length ≤ f.data.length →
        (ReadMsk st (some f) msk1 mem ch0).2.AllMask01) := by
  refine ⟨fun a b c => MaxMs_AllMask01 st h a b c, fun a b c => MinMs_AllMask01 st h a b c,
    fun a b => Flip_AllMask01 st h a b, fun a b => MskCopy_AllMask01 st h a b,
    fun a b c d e f g => Shape_AllMask01 st h a b c d e f g,
    fun a b c => ReadMsk_AllMask01 st h none a b c (fun f hf => by cases hf), ?_, ?_⟩
  · intro f a b c hrej
    refine ⟨?_, ReadMsk_AllMask01 st h (some f) a b c (fun g hg e1 e2 e3 => ?_)⟩
    · unfold ReadMsk
      simp only [Function.update_same, readHeader]
      rw [if_pos hrej]
    · cases hg
      rcases hrej with q | q | q
      · exact absurd e1 q
      · exact absurd e2 q
      · exact absurd e3 q
  · intro f a b c e1 e2 e3 h01 hl
    exact ReadMsk_AllMask01 st h (some f) a b c (fun g hg _ _ _ => by
      cases hg
      exact ⟨h01, hl⟩)

theorem mask_values_stay_01_witness :
    exM.AllMask01 ∧
      ((∀ msk1 msk2 msk3, (MaxMs exM msk1 msk2 msk3).AllMask01) ∧
      (∀ msk1 msk2 msk3, (MinMs exM msk1 msk2 msk3).AllMask01) ∧
      (∀ msk1 msk2, (Flip exM msk1 msk2).AllMask01) ∧
      (∀ msk1 msk2, (MskCopy exM msk1 msk2).AllMask01) ∧
      (∀ msk1 msk2 msk3 map1 MinDif N1 N2,
        (Shape exM msk1 msk2 msk3 map1 MinDif N1 N2).AllMask01) ∧
      (∀ msk1 mem ch0, (ReadMsk exM none msk1 mem ch0).2.AllMask01) ∧
      (∀ (f : MskFile) msk1 mem ch0,
        (exM.X_LIM ≠ f.hdr.NC ∨ exM.Y_LIM ≠ f.hdr.NR ∨ exM.Z_LIM ≠ f.hdr.NS) →
        (ReadMsk exM (some f) msk1 mem ch0).2.MSK = exM.MSK ∧
          (ReadMsk exM (some f) msk1 mem ch0).2.AllMask01) ∧
      (∀ (f : MskFile) msk1 mem ch0,
        exM.X_LIM = f.hdr.NC → exM.Y_LIM = f.hdr.NR → exM.Z_LIM = f.hdr.NS →
        (∀ b ∈ f.data, b = 0 ∨ b = 1) → exM.grid.length ≤ f.data.length →
        (ReadMsk exM (some f) msk1 mem ch0).2.AllMask01)) :=
  ⟨exM_AllMask01, mask_values_stay_01 exM exM_AllMask01⟩


/-! ## File layout -/

/-- The loop `1 .. n` passes through `1 .. i - 1` before it reaches `i`. -/
theorem loopRange_split (n i : Int) (h1 : 1 ≤ i) (h2 : i ≤ n) :
    ∃ l2, loopRange n = loopRange (i - 1) ++ i :: l2 := by
  have en : n.toNat = (i - 1).toNat + ((n - i).toNat + 1) := by omega
  have hi : (((i - 1).toNat + 0 : Nat) : Int) + 1 = i := by omega
  unfold loopRange
  rw [en, List.range_add, List.map_append, List.range_succ_eq_map]
  simp only [List.map_cons]
  rw [hi]
  exact ⟨_, rfl⟩

theorem length_flatMap_const {α β : Type} (L : List α) (f : α → List β) (m : Nat)
    (h : ∀ a ∈ L, (f a).length = m) : (L.flatMap f).length = L.length * m := by
  induction L with
  | nil => simp
  | cons a L ih =>
    rw [List.flatMap_cons, List.length_append, h a (List.mem_cons_self _ _),
      ih (fun b hb => h b (List.mem_cons_of_mem _ hb)), List.length_cons]
    ring

/-- The position of a coordinate in the loop order is its offset `LOC`. -/
theorem gridLoop_split (X Y Z : Int) (c : Int × Int × Int) (hc : c ∈ gridLoop X Y Z) :
    ∃ l1 l2, gridLoop X Y Z = l1 ++ c :: l2 ∧
      (l1.length : Int) = (c.1 - 1) + (c.2.1 - 1) * X + (c.2.2 - 1) * (X * Y) := by
  obtain ⟨⟨x1, x2⟩, ⟨y1, y2⟩, ⟨z1, z2⟩⟩ := (mem_gridLoop X Y Z c).1 hc
  obtain ⟨x, y, z⟩ := c
  simp only at x1 x2 y1 y2 z1 z2 ⊢
  obtain ⟨lx, ex⟩ := loopRange_split X x x1 x2
  obtain ⟨ly, ey⟩ := loopRange_split Y y y1 y2
  obtain ⟨lz, ez⟩ := loopRange_split Z z z1 z2
  refine ⟨(loopRange (z - 1)).flatMap (fun countz =>
      (loopRange Y).flatMap (fun county =>
        (loopRange X).map (fun countx => (countx, county, countz)))) ++
    ((loopRange (y - 1)).flatMap (fun county =>
        (loopRange X).map (fun countx => (countx, county, z))) ++
      (loopRange (x - 1)).map (fun countx => (countx, y, z))),
    lx.map (fun countx => (countx, y, z)) ++
      (ly.flatMap (fun county => (loopRange X).map (fun countx => (countx, county, z))) ++
        lz.flatMap (fun countz =>
          (loopRange Y).flatMap (fun county =>
            (loopRange X).map (fun countx => (countx, county, countz))))), ?_, ?_⟩
  · unfold gridLoop
    rw [ez, List.flatMap_append, List.flatMap_cons]
    nth_rewrite 2 [ey]
    rw [List.flatMap_append, List.flatMap_cons]
    nth_rewrite 3 [ex]
    rw [List.map_append, List.map_cons]
    simp only [List.append_assoc, List.cons_append]
  · rw [List.length_append, List.length_append, List.length_map, loopRange_length,
      length_flatMap_const _ _ (Y.toNat * X.toNat), length_flatMap_const _ _ X.toNat,
      loopRange_length, loopRange_length]
    · push_cast
      rw [Int.toNat_of_nonneg (by omega : 0 ≤ z - 1), Int.toNat_of_nonneg (by omega : 0 ≤ y - 1),
        Int.toNat_of_nonneg (by omega : 0 ≤ x - 1), Int.toNat_of_nonneg (by omega : 0 ≤ X),
        Int.toNat_of_nonneg (by omega : 0 ≤ Y)]
      ring
    · intro a _
      rw [List.length_map, loopRange_length]
    · intro a _
      rw [length_flatMap_const _ _ X.toNat, loopRange_length]
      intro b _
      rw [List.length_map, loopRange_length]


/-- The widths of the items of a header: 56 items of 4 bytes, `LAB_LEN = 800`
bytes and `NSY` bytes. -/
theorem headerItems_sizes (h : map_header) :
    (headerItems h).map Item.size =
      List.replicate 56 4 ++ List.replicate 800 1 ++ List.replicate h.NSY.toNat 1 := by
  unfold headerItems
  simp only [List.map_append, List.map_map]
  have e1 : (Item.size ∘ fun i => Item.byte (h.SYM i)) = fun _ => 1 := rfl
  have e2 : (Item.size ∘ fun i => Item.byte (h.LAB i)) = fun _ => 1 := rfl
  have e3 : (Item.size ∘ fun i => Item.real (h.REST i)) = fun _ => 4 := rfl
  have e4 : (Item.size ∘ fun i => Item.real (h.CELL i)) = fun _ => 4 := rfl
  rw [e1, e2, e3, e4]
  simp only [List.map_const', List.length_range, LAB_LEN]
  rfl

theorem headerItems_bytes (h : map_header) (h0 : 0 ≤ h.NSY) :
    (fileBytes (headerItems h) : Int) = 1024 + h.NSY := by
  unfold fileBytes
  rw [headerItems_sizes]
  simp only [List.sum_append, List.sum_replicate, smul_eq_mul]
  push_cast
  rw [Int.toNat_of_nonneg h0]
  ring

theorem fileBytes_append (a b : List Item) : fileBytes (a ++ b) = fileBytes a + fileBytes b := by
  unfold fileBytes
  rw [List.map_append, List.sum_append]

theorem fileBytes_real (l : List ℚ) : fileBytes (l.map Item.real) = 4 * l.length := by
  unfold fileBytes
  induction l with
  | nil => rfl
  | cons a l ih =>
    simp only [List.map_cons, List.sum_cons, List.length_cons, Item.size] at ih ⊢
    omega

theorem fileBytes_byte (l : List Int) : fileBytes (l.map Item.byte) = l.length := by
  unfold fileBytes
  induction l with
  | nil => rfl
  | cons a l ih =>
    simp only [List.map_cons, List.sum_cons, List.length_cons, Item.size] at ih ⊢
    omega

/-- The payload that the loop of `MaskOut` writes: the voxels of the slot in
loop order. -/
theorem MaskOut_data (st : State) (msk1 : Int) (L : List (Int × Int × Int))
    (acc : List Int × Int × Int) :
    (L.foldl
      (fun (acc : List Int × Int × Int) c =>
        (acc.1 ++ [st.MSK (st.LOC c + msk1 * st.XYZ_LIM)],
          acc.2.1 + st.MSK (st.LOC c + msk1 * st.XYZ_LIM), acc.2.2 + 1)) acc).1 =
      acc.1 ++ L.map (fun c => st.MSK (st.LOC c + msk1 * st.XYZ_LIM)) := by
  induction L generalizing acc with
  | nil => simp
  | cons a L ih =>
    rw [List.foldl_cons, ih]
    simp

/-- The position of a voxel in a payload written in loop order. -/
theorem payload_split {α : Type} (st : State) (hwf : st.WF) (g : Int × Int × Int → α)
    (c : Int × Int × Int) (hc : c ∈ st.grid) :
    ∃ l1 l2, st.grid.map g = l1 ++ g c :: l2 ∧ (l1.length : Int) = st.LOC c := by
  obtain ⟨l1, l2, e, hl⟩ := gridLoop_split st.X_LIM st.Y_LIM st.Z_LIM c hc
  refine ⟨l1.map g, l2.map g, ?_, ?_⟩
  · unfold State.grid
    rw [e, List.map_append, List.map_cons]
  · rw [List.length_map, hl]
    unfold State.LOC
    rw [hwf.1]


/-! ## Items at byte offsets -/

theorem Item.size_pos (i : Item) : 0 < i.size := by
  cases i <;> simp [Item.size]

theorem itemAt_cons_pos (i : Item) (l : List Item) (n : Nat) (h : 0 < n) :
    itemAt (i :: l) n = if i.size ≤ n then itemAt l (n - i.size) else none := by
  cases n with
  | zero => omega
  | succ n => rfl

/-- The offsets of the items of `B` in `A ++ B` are those in `B` moved by the
number of bytes of `A`. -/
theorem itemAt_append_right (A B : List Item) (off : Nat) :
    itemAt (A ++ B) (fileBytes A + off) = itemAt B off := by
  induction A with
  | nil => simp [fileBytes]
  | cons i A ih =>
    have hp := Item.size_pos i
    have e : fileBytes (i :: A) = i.size + fileBytes A := by simp [fileBytes]
    rw [List.cons_append, itemAt_cons_pos _ _ _ (by omega), if_pos (by omega), e]
    have e2 : i.size + fileBytes A + off - i.size = fileBytes A + off := by omega
    rw [e2, ih]

theorem itemAt_skip (A B : List Item) (n off : Nat) (hA : fileBytes A = n) :
    itemAt (A ++ B) (n + off) = itemAt B off := by
  rw [← hA, itemAt_append_right]

/-- An item of `A` is at the same offset in `A ++ B`. -/
theorem itemAt_here (A B : List Item) (off : Nat) (i : Item) (h : itemAt A off = some i) :
    itemAt (A ++ B) off = some i := by
  induction A generalizing off with
  | nil => simp [itemAt] at h
  | cons a A ih =>
    cases off with
    | zero => simpa [itemAt] using h
    | succ n =>
      rw [itemAt_cons_pos _ _ _ (by omega)] at h
      rw [List.cons_append, itemAt_cons_pos _ _ _ (by omega)]
      by_cases hs : a.size ≤ n + 1
      · rw [if_pos hs] at h ⊢
        exact ih _ h
      · rw [if_neg hs] at h
        cases h

/-- In a sequence of items of one width `sz` the item number `k` starts at the
offset `sz * k`. -/
theorem itemAt_uniform (l : List Item) (sz : Nat) (hs : 0 < sz) (hall : ∀ i ∈ l, i.size = sz)
    (k : Nat) : itemAt l (sz * k) = l[k]? := by
  induction l generalizing k with
  | nil => simp [itemAt]
  | cons a l ih =>
    cases k with
    | zero => simp [itemAt]
    | succ k =>
      have ha : a.size = sz := hall a (List.mem_cons_self _ _)
      rw [itemAt_cons_pos _ _ _ (by rw [Nat.mul_succ]; omega), if_pos (by rw [ha, Nat.mul_succ]; omega),
        ha]
      have e : sz * (k + 1) - sz = sz * k := by rw [Nat.mul_succ]; omega
      rw [e, ih (fun i hi => hall i (List.mem_cons_of_mem _ hi)), List.getElem?_cons_succ]

theorem itemAt_map_range (f : Nat → Item) (sz : Nat) (hs : 0 < sz) (hf : ∀ j, (f j).size = sz)
    (n k : Nat) (hk : k < n) : itemAt ((List.range n).map f) (sz * k) = some (f k) := by
  rw [itemAt_uniform _ sz hs (fun i hi => by
    obtain ⟨j, _, rfl⟩ := List.mem_map.1 hi
    exact hf j)]
  simp [hk]

theorem itemAt_of_split (s pre post : List Item) (i : Item) (off : Nat)
    (e : s = pre ++ i :: post) (hb : fileBytes pre = off) : itemAt s off = some i := by
  rw [e, ← hb]
  have := itemAt_append_right pre (i :: post) 0
  rw [Nat.add_zero] at this
  rw [this]
  rfl

/-- Beyond its last item a sequence has no item. -/
theorem itemAt_end (l : List Item) : itemAt l (fileBytes l) = none := by
  have := itemAt_append_right l [] 0
  rw [Nat.add_zero, List.append_nil] at this
  rw [this]
  rfl

theorem fileBytes_map_range (f : Nat → Item) (sz : Nat) (hf : ∀ j, (f j).size = sz) (n : Nat) :
    fileBytes ((List.range n).map f) = sz * n := by
  unfold fileBytes
  rw [List.map_map]
  have e : Item.size ∘ f = fun _ => sz := funext hf
  rw [e, List.map_const', List.sum_replicate, List.length_range, smul_eq_mul, Nat.mul_comm]

/-- The header that `headerItems` lays out has the layout `HeaderLayout`,
whatever follows it. -/
theorem headerItems_layout (h : map_header) (P : List Item) :
    HeaderLayout (headerItems h ++ P) h := by
  have b2 : fileBytes ((List.range 6).map (fun i => Item.real (h.CELL i))) = 24 :=
    fileBytes_map_range (fun i => Item.real (h.CELL i)) 4 (fun _ => rfl) 6
  have b4 : fileBytes ((List.range 32).map (fun i => Item.real (h.REST i))) = 128 :=
    fileBytes_map_range (fun i => Item.real (h.REST i)) 4 (fun _ => rfl) 32
  have b5 : fileBytes ((List.range LAB_LEN).map (fun i => Item.byte (h.LAB i))) = 800 := by
    rw [fileBytes_map_range (fun i => Item.byte (h.LAB i)) 1 (fun _ => rfl) LAB_LEN]
    rfl
  unfold headerItems HeaderLayout
  simp only [List.append_assoc]
  have s1 : ∀ (R : List Item) (off : Nat) (i : Item),
      itemAt [Item.word h.NC, Item.word h.NR, Item.word h.NS, Item.word h.MODE,
        Item.word h.NCSTART, Item.word h.NRSTART, Item.word h.NSSTART, Item.word h.NX,
        Item.word h.NY, Item.word h.NZ] off = some i →
      itemAt ([Item.word h.NC, Item.word h.NR, Item.word h.NS, Item.word h.MODE,
        Item.word h.NCSTART, Item.word h.NRSTART, Item.word h.NSSTART, Item.word h.NX,
        Item.word h.NY, Item.word h.NZ] ++ R) off = some i :=
    fun R off i hi => itemAt_here _ R off i hi
  have k1 : ∀ (R : List Item) (off : Nat),
      itemAt ([Item.word h.NC, Item.word h.NR, Item.word h.NS, Item.word h.MODE,
        Item.word h.NCSTART, Item.word h.NRSTART, Item.word h.NSSTART, Item.word h.NX,
        Item.word h.NY, Item.word h.NZ] ++ R) (40 + off) = itemAt R off :=
    fun R off => itemAt_skip _ R 40 off rfl
  have k2 : ∀ (R : List Item) (off : Nat),
      itemAt ((List.range 6).map (fun i => Item.real (h.CELL i)) ++ R) (24 + off) =
        itemAt R off :=
    fun R off => itemAt_skip _ R 24 off b2
  have k3 : ∀ (R : List Item) (off : Nat),
      itemAt ([Item.word h.MAPC, Item.word h.MAPR, Item.word h.MAPS, Item.real h.AMIN,
        Item.real h.AMAX, Item.real h.AMEAN, Item.word h.ISPG, Item.word h.NSY] ++ R)
        (32 + off) = itemAt R off :=
    fun R off => itemAt_skip _ R 32 off rfl
  have k4 : ∀ (R : List Item) (off : Nat),
      itemAt ((List.range 32).map (fun i => Item.real (h.REST i)) ++ R) (128 + off) =
        itemAt R off :=
    fun R off => itemAt_skip _ R 128 off b4
  have k5 : ∀ (R : List Item) (off : Nat),
      itemAt ((List.range LAB_LEN).map (fun i => Item.byte (h.LAB i)) ++ R) (800 + off) =
        itemAt R off :=
    fun R off => itemAt_skip _ R 800 off b5
  have s3 : ∀ (R : List Item) (off : Nat) (i : Item),
      itemAt [Item.word h.MAPC, Item.word h.MAPR, Item.word h.MAPS, Item.real h.AMIN,
        Item.real h.AMAX, Item.real h.AMEAN, Item.word h.ISPG, Item.word h.NSY] off = some i →
      itemAt ([Item.word h.NC, Item.word h.NR, Item.word h.NS, Item.word h.MODE,
        Item.word h.NCSTART, Item.word h.NRSTART, Item.word h.NSSTART, Item.word h.NX,
        Item.word h.NY, Item.word h.NZ] ++
        ((List.range 6).map (fun i => Item.real (h.CELL i)) ++
          ([Item.word h.MAPC, Item.word h.MAPR, Item.word h.MAPS, Item.real h.AMIN,
            Item.real h.AMAX, Item.real h.AMEAN, Item.word h.ISPG, Item.word h.NSY] ++ R)))
        (40 + (24 + off)) = some i := by
    intro R off i hi
    rw [k1, k2]
    exact itemAt_here _ R off i hi
  refine ⟨s1 _ 0 _ rfl, s1 _ 4 _ rfl, s1 _ 8 _ rfl, s1 _ 12 _ rfl, s1 _ 16 _ rfl,
    s1 _ 20 _ rfl, s1 _ 24 _ rfl, s1 _ 28 _ rfl, s1 _ 32 _ rfl, s1 _ 36 _ rfl, ?_,
    s3 _ 0 _ rfl, s3 _ 4 _ rfl, s3 _ 8 _ rfl, s3 _ 12 _ rfl, s3 _ 16 _ rfl, s3 _ 20 _ rfl,
    s3 _ 24 _ rfl, s3 _ 28 _ rfl, ?_, ?_, ?_⟩
  · intro i hi
    rw [k1]
    exact itemAt_here _ _ _ _ (itemAt_map_range (fun i => Item.real (h.CELL i)) 4 (by decide)
      (fun _ => rfl) 6 i hi)
  · intro i hi
    have e : 96 + 4 * i = 40 + (24 + (32 + 4 * i)) := by omega
    rw [e, k1, k2, k3]
    exact itemAt_here _ _ _ _ (itemAt_map_range (fun i => Item.real (h.REST i)) 4 (by decide)
      (fun _ => rfl) 32 i hi)
  · intro i hi
    have e : 224 + i = 40 + (24 + (32 + (128 + 1 * i))) := by omega
    rw [e, k1, k2, k3, k4]
    exact itemAt_here _ _ _ _ (itemAt_map_range (fun i => Item.byte (h.LAB i)) 1 (by decide)
      (fun _ => rfl) LAB_LEN i hi)
  · intro i hi
    have e : 1024 + i = 40 + (24 + (32 + (128 + (800 + 1 * i)))) := by omega
    rw [e, k1, k2, k3, k4, k5]
    exact itemAt_here _ _ _ _ (itemAt_map_range (fun i => Item.byte (h.SYM i)) 1 (by decide)
      (fun _ => rfl) h.NSY.toNat i hi)


/-! ## Reading a header back -/

theorem freadWord_at (s : List Item) (o : Int) (pos : Nat) (v : Int)
    (h : itemAt s pos = some (Item.word v)) : freadWord s o pos = some (v, pos + 4) := by
  unfold freadWord
  rw [h]

theorem freadReal_at (s : List Item) (o : ℚ) (pos : Nat) (v : ℚ)
    (h : itemAt s pos = some (Item.real v)) : freadReal s o pos = some (v, pos + 4) := by
  unfold freadReal
  rw [h]

/-- A `fread` of `n` floats that finds them all in the file. -/
theorem freadReals_at (s : List Item) (g : Nat → ℚ) (n k : Nat) (a : Nat → ℚ) (pos : Nat)
    (h : ∀ j, j < n → itemAt s (pos + 4 * j) = some (Item.real (g (k + j)))) :
    freadReals s n k a pos =
      some (fun i => if k ≤ i ∧ i < k + n then g i else a i, pos + 4 * n) := by
  induction n generalizing k a pos with
  | zero =>
    unfold freadReals
    congr 2
    funext i
    rw [if_neg (by omega)]
  | succ n ih =>
    have h0 := h 0 (by omega)
    rw [Nat.mul_zero, Nat.add_zero, Nat.add_zero] at h0
    unfold freadReals
    rw [h0]
    simp only
    rw [ih (k + 1) (Function.update a k (g k)) (pos + 4) (fun j hj => by
      have := h (j + 1) (by omega)
      have e1 : pos + 4 + 4 * j = pos + 4 * (j + 1) := by omega
      have e2 : k + 1 + j = k + (j + 1) := by omega
      rw [e1, e2]
      exact this)]
    congr 2
    · funext i
      by_cases hi : i = k
      · subst hi
        rw [if_neg (by omega), Function.update_same, if_pos (by omega)]
      · rw [Function.update_noteq hi]
        by_cases h1 : k + 1 ≤ i ∧ i < k + 1 + n
        · rw [if_pos h1, if_pos (by omega)]
        · rw [if_neg h1, if_neg (by omega)]
    · omega

/-- A `fread` of `n` bytes that finds them all in the file. -/
theorem freadBytes_at (s : List Item) (g : Nat → Int) (n k : Nat) (a : Nat → Int) (pos : Nat)
    (h : ∀ j, j < n → itemAt s (pos + j) = some (Item.byte (g (k + j)))) :
    freadBytes s n k a pos =
      some (fun i => if k ≤ i ∧ i < k + n then g i else a i, pos + n) := by
  induction n generalizing k a pos with
  | zero =>
    unfold freadBytes
    congr 2
    funext i
    rw [if_neg (by omega)]
  | succ n ih =>
    have h0 := h 0 (by omega)
    rw [Nat.add_zero, Nat.add_zero] at h0
    unfold freadBytes
    rw [h0]
    simp only
    rw [ih (k + 1) (Function.update a k (g k)) (pos + 1) (fun j hj => by
      have := h (j + 1) (by omega)
      have e1 : pos + 1 + j = pos + (j + 1) := by omega
      have e2 : k + 1 + j = k + (j + 1) := by omega
      rw [e1, e2]
      exact this)]
    congr 2
    · funext i
      by_cases hi : i = k
      · subst hi
        rw [if_neg (by omega), Function.update_same, if_pos (by omega)]
      · rw [Function.update_noteq hi]
        by_cases h1 : k + 1 ≤ i ∧ i < k + 1 + n
        · rw [if_pos h1, if_pos (by omega)]
        · rw [if_neg h1, if_neg (by omega)]
    · omega

/-- The `fread` calls of the header part, on a file that has the layout
`HeaderLayout` for the header `h`, read every field of `h` at its offset and
leave the file position at `1024 + NSY`. -/
theorem freadHeader_of_layout (old h : map_header) (s : List Item) (hl : HeaderLayout s h) :
    freadHeader old s = some (readHeader old h, 1024 + h.NSY.toNat) := by
  obtain ⟨h1, h2, h3, h4, h5, h6, h7, h8, h9, h10, h11, h12, h13, h14, h15, h16, h17, h18,
    h19, h20, h21, h22⟩ := hl
  have e1 : ∀ o, freadWord s o 0 = some (h.NC, 4) := fun o => freadWord_at s o 0 _ h1
  have e2 : ∀ o, freadWord s o 4 = some (h.NR, 8) := fun o => freadWord_at s o 4 _ h2
  have e3 : ∀ o, freadWord s o 8 = some (h.NS, 12) := fun o => freadWord_at s o 8 _ h3
  have e4 : ∀ o, freadWord s o 12 = some (h.MODE, 16) := fun o => freadWord_at s o 12 _ h4
  have e5 : ∀ o, freadWord s o 16 = some (h.NCSTART, 20) := fun o => freadWord_at s o 16 _ h5
  have e6 : ∀ o, freadWord s o 20 = some (h.NRSTART, 24) := fun o => freadWord_at s o 20 _ h6
  have e7 : ∀ o, freadWord s o 24 = some (h.NSSTART, 28) := fun o => freadWord_at s o 24 _ h7
  have e8 : ∀ o, freadWord s o 28 = some (h.NX, 32) := fun o => freadWord_at s o 28 _ h8
  have e9 : ∀ o, freadWord s o 32 = some (h.NY, 36) := fun o => freadWord_at s o 32 _ h9
  have e10 : ∀ o, freadWord s o 36 = some (h.NZ, 40) := fun o => freadWord_at s o 36 _ h10
  have e11 : ∀ o, freadReals s 6 0 o 40 =
      some (fun i => if i < 6 then h.CELL i else o i, 64) := by
    intro o
    rw [freadReals_at s h.CELL 6 0 o 40 (fun j hj => by rw [Nat.zero_add]; exact h11 j hj)]
    congr 2
    funext i
    simp
  have e12 : ∀ o, freadWord s o 64 = some (h.MAPC, 68) := fun o => freadWord_at s o 64 _ h12
  have e13 : ∀ o, freadWord s o 68 = some (h.MAPR, 72) := fun o => freadWord_at s o 68 _ h13
  have e14 : ∀ o, freadWord s o 72 = some (h.MAPS, 76) := fun o => freadWord_at s o 72 _ h14
  have e15 : ∀ o, freadReal s o 76 = some (h.AMIN, 80) := fun o => freadReal_at s o 76 _ h15
  have e16 : ∀ o, freadReal s o 80 = some (h.AMAX, 84) := fun o => freadReal_at s o 80 _ h16
  have e17 : ∀ o, freadReal s o 84 = some (h.AMEAN, 88) := fun o => freadReal_at s o 84 _ h17
  have e18 : ∀ o, freadWord s o 88 = some (h.ISPG, 92) := fun o => freadWord_at s o 88 _ h18
  have e19 : ∀ o, freadWord s o 92 = some (h.NSY, 96) := fun o => freadWord_at s o 92 _ h19
  have e20 : ∀ o, freadReals s 32 0 o 96 =
      some (fun i => if i < 32 then h.REST i else o i, 224) := by
    intro o
    rw [freadReals_at s h.REST 32 0 o 96 (fun j hj => by rw [Nat.zero_add]; exact h20 j hj)]
    congr 2
    funext i
    simp
  have e21 : ∀ o, freadBytes s LAB_LEN 0 o 224 =
      some (fun i => if i < LAB_LEN then h.LAB i else o i, 1024) := by
    intro o
    rw [freadBytes_at s h.LAB LAB_LEN 0 o 224 (fun j hj => by
      rw [Nat.zero_add]; exact h21 j hj)]
    congr 2
    funext i
    simp
  have e22 : ∀ o, freadBytes s h.NSY.toNat 0 o 1024 =
      some (fun (i : Nat) => if (i : Int) < h.NSY then h.SYM i else o i,
        1024 + h.NSY.toNat) := by
    intro o
    rw [freadBytes_at s h.SYM h.NSY.toNat 0 o 1024 (fun j hj => by
      rw [Nat.zero_add]; exact h22 j hj)]
    congr 2
    funext i
    have : (0 ≤ i ∧ i < 0 + h.NSY.toNat) ↔ (i : Int) < h.NSY := by omega
    simp only [this]
  unfold freadHeader
  simp only [Option.some_bind, Option.map_some', e1, e2, e3, e4, e5, e6, e7, e8, e9, e10, e11,
    e12, e13, e14, e15, e16, e17, e18, e19, e20, e21, e22]
  rfl


/-! ## Reading a payload back -/

/-- The successive `fread` calls of one `float` from the end of `pre` on find
the values that follow `pre`. -/
theorem freadVoxels_at (pre : List Item) (d : List ℚ) (fuel : Nat) (hf : d.length ≤ fuel) :
    freadVoxels (pre ++ d.map Item.real) fuel (fileBytes pre) = some d := by
  induction d generalizing pre fuel with
  | nil =>
    rw [List.map_nil, List.append_nil]
    cases fuel with
    | zero => rfl
    | succ f =>
      unfold freadVoxels
      rw [itemAt_end]
  | cons v d ih =>
    cases fuel with
    | zero => simp at hf
    | succ f =>
      have e0 : itemAt (pre ++ (v :: d).map Item.real) (fileBytes pre) = some (Item.real v) :=
        itemAt_of_split _ pre (d.map Item.real) _ _ rfl rfl
      unfold freadVoxels
      rw [e0]
      simp only
      have e1 : pre ++ (v :: d).map Item.real = (pre ++ [Item.real v]) ++ d.map Item.real := by
        simp
      have e2 : fileBytes pre + 4 = fileBytes (pre ++ [Item.real v]) := by
        rw [fileBytes_append]
        rfl
      rw [e1, e2, ih (pre ++ [Item.real v]) f (by simpa using hf)]
      rfl

/-- The successive `fread` calls of one byte from the end of `pre` on find the
values that follow `pre`. -/
theorem freadMask_at (pre : List Item) (d : List Int) (fuel : Nat) (hf : d.length ≤ fuel) :
    freadMask (pre ++ d.map Item.byte) fuel (fileBytes pre) = some d := by
  induction d generalizing pre fuel with
  | nil =>
    rw [List.map_nil, List.append_nil]
    cases fuel with
    | zero => rfl
    | succ f =>
      unfold freadMask
      rw [itemAt_end]
  | cons v d ih =>
    cases fuel with
    | zero => simp at hf
    | succ f =>
      have e0 : itemAt (pre ++ (v :: d).map Item.byte) (fileBytes pre) = some (Item.byte v) :=
        itemAt_of_split _ pre (d.map Item.byte) _ _ rfl rfl
      unfold freadMask
      rw [e0]
      simp only
      have e1 : pre ++ (v :: d).map Item.byte = (pre ++ [Item.byte v]) ++ d.map Item.byte := by
        simp
      have e2 : fileBytes pre + 1 = fileBytes (pre ++ [Item.byte v]) := by
        rw [fileBytes_append]
        rfl
      rw [e1, e2, ih (pre ++ [Item.byte v]) f (by simpa using hf)]
      rfl

theorem headerItems_bytes_nat (h : map_header) :
    fileBytes (headerItems h) = 1024 + h.NSY.toNat := by
  unfold fileBytes
  rw [headerItems_sizes]
  simp only [List.sum_append, List.sum_replicate, smul_eq_mul]
  omega

/-- Reading a header that was read with the same old content changes
nothing. -/
theorem readHeader_idem (old h : map_header) :
    readHeader old (readHeader old h) = readHeader old h := by
  unfold readHeader
  simp only [map_header.mk.injEq, true_and]
  refine ⟨?_, ?_, ?_, ?_⟩ <;> funext i <;> split_ifs <;> rfl

/-- What `ReadMap` finds in a file made of the items of a header and of one
`float` per value: that header, read field by field, and those values. -/
theorem ReadMap_parse_items (old : map_header) (f : MapFile) :
    ReadMap.parse old f.items = some { hdr := readHeader old f.hdr, data := f.data } := by
  unfold ReadMap.parse MapFile.items
  rw [freadHeader_of_layout old f.hdr _ (headerItems_layout f.hdr _)]
  simp only [Option.some_bind]
  rw [← headerItems_bytes_nat, freadVoxels_at _ _ _ (by simp)]
  rfl

/-- What `ReadMsk` finds in a file made of the items of a header and of one
byte per value. -/
theorem ReadMsk_parse_items (old : map_header) (f : MskFile) :
    ReadMsk.parse old f.items = some { hdr := readHeader old f.hdr, data := f.data } := by
  unfold ReadMsk.parse MskFile.items
  rw [freadHeader_of_layout old f.hdr _ (headerItems_layout f.hdr _)]
  simp only [Option.some_bind]
  rw [← headerItems_bytes_nat, freadMask_at _ _ _ (by simp)]
  rfl

/-- `ReadMap` on the items of a map file is `ReadMap` on the file. -/
theorem ReadMap_raw_items (cv : ℚ → ℚ → ℚ → ℚ → ℚ → ℚ → ℚ) (st : State) (f : MapFile)
    (map1 mem : Int) :
    ReadMap.raw cv st (some f.items) map1 mem = some (ReadMap cv st (some f) map1 mem) := by
  unfold ReadMap.raw
  simp only
  rw [ReadMap_parse_items, Option.map_some']
  congr 1
  unfold ReadMap
  simp only [readHeader_idem]

/-- `ReadMsk` on the items of a mask file is `ReadMsk` on the file. -/
theorem ReadMsk_raw_items (st : State) (f : MskFile) (msk1 mem ch0 : Int) :
    ReadMsk.raw st (some f.items) msk1 mem ch0 = some (ReadMsk st (some f) msk1 mem ch0) := by
  unfold ReadMsk.raw
  simp only
  rw [ReadMsk_parse_items, Option.map_some']
  congr 1
  unfold ReadMsk
  simp only [readHeader_idem]

/-- C24. File layout: for the map file `fm` that `WriteMap` writes and the
mask file `fk` that `MaskOut` writes, with `NSY >= 0` in their headers and an
`int` and a `float` of 4 bytes. The header is `1024 + NSY` bytes long: 56 items
of 4 bytes, then the 800 bytes of the label, then `NSY` bytes; its fields are
the items at the offsets of `HeaderLayout`, in the order `NC, NR, NS, MODE,
NCSTART, NRSTART, NSSTART, NX, NY, NZ, CELL[0..5], MAPC, MAPR, MAPS, AMIN,
AMAX, AMEAN, ISPG, NSY, REST[0..31], LAB, SYM`. The voxel of the coordinate `c`
is the 4-byte item at the byte offset `1024 + NSY + 4 * LOC`, with
`LOC = (x-1) + (y-1) * X_LIM + (z-1) * X_LIM * Y_LIM`; in the mask file it is
the byte at the offset `1024 + NSY + LOC`. The `fread` calls of `ReadMap` and
`ReadMsk`, which start at the file position 0 and advance by the width of
each item read, find every header field that was written, stand at the
position `1024 + NSY` after the header, and find the payload values from
there on in the order written: each item is read at the offset at which it
was written, and the functions run on the file as on its parsed content. -/
theorem file_layout (st : State) (hwf : st.WF) (map1 msk1 : Int) (fm : MapFile) (fk : MskFile)
    (hm : (WriteMap st true map1).2 = some fm) (hk : (MaskOut st true msk1).2 = some fk)
    (n0 : 0 ≤ fm.hdr.NSY) (n1 : 0 ≤ fk.hdr.NSY) :
    ((fileBytes (headerItems fm.hdr) : Int) = 1024 + fm.hdr.NSY ∧
      (headerItems fm.hdr).map Item.size =
        List.replicate 56 4 ++ List.replicate 800 1 ++ List.replicate fm.hdr.NSY.toNat 1 ∧
      HeaderLayout fm.items fm.hdr ∧
      (∀ c ∈ st.grid, itemAt fm.items (1024 + fm.hdr.NSY + 4 * st.LOC c).toNat =
        some (Item.real (st.voxel map1 c)))) ∧
    ((fileBytes (headerItems fk.hdr) : Int) = 1024 + fk.hdr.NSY ∧
      (headerItems fk.hdr).map Item.size =
        List.replicate 56 4 ++ List.replicate 800 1 ++ List.replicate fk.hdr.NSY.toNat 1 ∧
      HeaderLayout fk.items fk.hdr ∧
      (∀ c ∈ st.grid, itemAt fk.items (1024 + fk.hdr.NSY + st.LOC c).toNat =
        some (Item.byte (st.mvoxel msk1 c)))) ∧
    ((∀ old, freadHeader old fm.items =
        some (readHeader old fm.hdr, (1024 + fm.hdr.NSY).toNat)) ∧
      (∀ old, ReadMap.parse old fm.items =
        some { hdr := readHeader old fm.hdr, data := fm.data }) ∧
      (∀ cv st1 t mem, ReadMap.raw cv st1 (some fm.items) t mem =
        some (ReadMap cv st1 (some fm) t mem))) ∧
    ((∀ old, freadHeader old fk.items =
        some (readHeader old fk.hdr, (1024 + fk.hdr.NSY).toNat)) ∧
      (∀ old, ReadMsk.parse old fk.items =
        some { hdr := readHeader old fk.hdr, data := fk.data }) ∧
      (∀ st1 t mem ch0, ReadMsk.raw st1 (some fk.items) t mem ch0 =
        some (ReadMsk st1 (some fk) t mem ch0))) := by
  have em : fm.data = st.grid.map (fun c => st.MAP (st.LOC c + map1 * st.XYZ_LIM)) := by
    unfold WriteMap at hm
    simp only [if_true, Option.some.injEq] at hm
    rw [← hm]
  have ek : fk.data = st.grid.map (fun c => st.MSK (st.LOC c + msk1 * st.XYZ_LIM)) := by
    unfold MaskOut at hk
    simp only [if_true, Option.some.injEq] at hk
    rw [← hk]
    simp only
    rw [MaskOut_data st msk1 st.grid ([], 0, 0), List.nil_append]
  have t0 : (1024 + fm.hdr.NSY).toNat = 1024 + fm.hdr.NSY.toNat := by omega
  have t1 : (1024 + fk.hdr.NSY).toNat = 1024 + fk.hdr.NSY.toNat := by omega
  refine ⟨⟨headerItems_bytes _ n0, headerItems_sizes _, headerItems_layout _ _, ?_⟩,
    ⟨headerItems_bytes _ n1, headerItems_sizes _, headerItems_layout _ _, ?_⟩,
    ⟨fun old => ?_, fun old => ReadMap_parse_items old fm,
      fun cv st1 t mem => ReadMap_raw_items cv st1 fm t mem⟩,
    ⟨fun old => ?_, fun old => ReadMsk_parse_items old fk,
      fun st1 t mem ch0 => ReadMsk_raw_items st1 fk t mem ch0⟩⟩
  · intro c hc
    obtain ⟨l1, l2, e, hl⟩ := payload_split st hwf
      (fun c => Item.real (st.MAP (st.LOC c + map1 * st.XYZ_LIM))) c hc
    have hL : 0 ≤ st.LOC c := by rw [← hl]; exact Int.natCast_nonneg _
    apply itemAt_of_split _ (headerItems fm.hdr ++ l1) l2
    · unfold MapFile.items
      rw [em, List.map_map, List.append_assoc]
      exact congrArg _ e
    · have b : fileBytes l1 = 4 * l1.length := by
        have hs : ∀ i ∈ l1, Item.size i = 4 := by
          intro i hi
          have : i ∈ st.grid.map
              (fun c => Item.real (st.MAP (st.LOC c + map1 * st.XYZ_LIM))) := by
            rw [e]
            exact List.mem_append_left _ hi
          obtain ⟨d, _, rfl⟩ := List.mem_map.1 this
          rfl
        unfold fileBytes
        rw [List.map_congr_left hs, List.map_const', List.sum_replicate, smul_eq_mul, mul_comm]
      rw [fileBytes_append, headerItems_bytes_nat, b]
      omega
  · intro c hc
    obtain ⟨l1, l2, e, hl⟩ := payload_split st hwf
      (fun c => Item.byte (st.MSK (st.LOC c + msk1 * st.XYZ_LIM))) c hc
    have hL : 0 ≤ st.LOC c := by rw [← hl]; exact Int.natCast_nonneg _
    apply itemAt_of_split _ (headerItems fk.hdr ++ l1) l2
    · unfold MskFile.items
      rw [ek, List.map_map, List.append_assoc]
      exact congrArg _ e
    · have b : fileBytes l1 = l1.length := by
        have hs : ∀ i ∈ l1, Item.size i = 1 := by
          intro i hi
          have : i ∈ st.grid.map
              (fun c => Item.byte (st.MSK (st.LOC c + msk1 * st.XYZ_LIM))) := by
            rw [e]
            exact List.mem_append_left _ hi
          obtain ⟨d, _, rfl⟩ := List.mem_map.1 this
          rfl
        unfold fileBytes
        rw [List.map_congr_left hs, List.map_const', List.sum_replicate, smul_eq_mul, mul_one]
      rw [fileBytes_append, headerItems_bytes_nat, b]
      omega
  · rw [t0]
    exact freadHeader_of_layout old fm.hdr _ (headerItems_layout fm.hdr _)
  · rw [t1]
    exact freadHeader_of_layout old fk.hdr _ (headerItems_layout fk.hdr _)

theorem file_layout_witness :
    exMasked.WF ∧ (WriteMap exMasked true 1).2 = some exMapOut ∧
      (MaskOut exMasked true 0).2 = some exMskOut ∧
      (0 : Int) ≤ exMapOut.hdr.NSY ∧ (0 : Int) ≤ exMskOut.hdr.NSY ∧
      HeaderLayout exMapOut.items exMapOut.hdr ∧
      (∀ c ∈ exMasked.grid,
        itemAt exMapOut.items (1024 + exMapOut.hdr.NSY + 4 * exMasked.LOC c).toNat =
          some (Item.real (exMasked.voxel 1 c))) ∧
      (∀ c ∈ exMasked.grid,
        itemAt exMskOut.items (1024 + exMskOut.hdr.NSY + exMasked.LOC c).toNat =
          some (Item.byte (exMasked.mvoxel 0 c))) ∧
      (∀ old, ReadMap.parse old exMapOut.items =
        some { hdr := readHeader old exMapOut.hdr, data := exMapOut.data }) ∧
      (∀ old, ReadMsk.parse old exMskOut.items =
        some { hdr := readHeader old exMskOut.hdr, data := exMskOut.data }) :=
  ⟨⟨rfl, rfl⟩, rfl, rfl, by decide, by decide,
    (file_layout exMasked ⟨rfl, rfl⟩ 1 0 exMapOut exMskOut rfl rfl (by decide)
      (by decide)).1.2.2.1,
    (file_layout exMasked ⟨rfl, rfl⟩ 1 0 exMapOut exMskOut rfl rfl (by decide)
      (by decide)).1.2.2.2,
    (file_layout exMasked ⟨rfl, rfl⟩ 1 0 exMapOut exMskOut rfl rfl (by decide)
      (by decide)).2.1.2.2.2,
    (file_layout exMasked ⟨rfl, rfl⟩ 1 0 exMapOut exMskOut rfl rfl (by decide)
      (by decide)).2.2.1.2.1,
    (file_layout exMasked ⟨rfl, rfl⟩ 1 0 exMapOut exMskOut rfl rfl (by decide)
      (by decide)).2.2.2.2.1⟩


/-! ## The weights of Smear -/

theorem flatMap_single (L : List Int) :
    (L.flatMap fun a => [(a : ℚ)]) = L.map (fun (a : Int) => (a : ℚ)) := by
  induction L with
  | nil => rfl
  | cons a L ih => rw [List.flatMap_cons, ih, List.map_cons, List.singleton_append]

theorem foldl_add (L : List ℚ) (s : ℚ) : L.foldl (fun X x2 => X + x2) s = s + L.sum := by
  induction L generalizing s with
  | nil => simp
  | cons a L ih =>
    rw [List.foldl_cons, ih, List.sum_cons]
    ring

/-- Twice the sum of `a - k` for `k = 0 .. n - 1` is `n * (2 * a - n + 1)`. -/
theorem sum_range_affine (a : ℚ) (n : Nat) :
    ((List.range n).map (fun (k : Nat) => a - (k : ℚ))).sum * 2 = n * (2 * a - n + 1) := by
  induction n with
  | zero => simp
  | succ n ih =>
    rw [List.range_succ, List.map_append, List.sum_append, add_mul, ih]
    simp only [List.map_cons, List.map_nil, List.sum_cons, List.sum_nil]
    push_cast
    ring

theorem toNat_cast_rat (N : Int) (hN : 1 ≤ N) : (((N - 1).toNat : Nat) : ℚ) = (N : ℚ) - 1 := by
  have : (((N - 1).toNat : Nat) : Int) = N - 1 := Int.toNat_of_nonneg (by omega)
  have h := congrArg (fun (z : Int) => (z : ℚ)) this
  simp only at h
  push_cast at h
  exact h

theorem sum_range_succ_cast (n : Nat) :
    ((List.range n).map (fun (k : Nat) => (1 : ℚ) + (k : ℚ))).sum * 2 = n * (n + 1) := by
  induction n with
  | zero => simp
  | succ n ih =>
    rw [List.range_succ, List.map_append, List.sum_append, add_mul, ih]
    simp only [List.map_cons, List.map_nil, List.sum_cons, List.sum_nil]
    push_cast
    ring

/-- The values `x2` for `1 <= x2 < N` sum to `N * (N - 1) / 2`. -/
theorem sum_intRange_one (N : Int) (hN : 1 ≤ N) :
    ((intRange 1 N).map (fun (x2 : Int) => (x2 : ℚ))).sum * 2 = (N : ℚ) * (N - 1) := by
  unfold intRange
  rw [List.map_map]
  have e : ((fun (x2 : Int) => (x2 : ℚ)) ∘ fun (k : Nat) => (1 : Int) + (k : Int)) =
      fun (k : Nat) => (1 : ℚ) + (k : ℚ) := by
    funext k
    simp only [Function.comp]
    push_cast
    ring
  rw [e, sum_range_succ_cast, toNat_cast_rat N hN]
  ring

theorem Smear_norm_sq (N : Int) (hN : 1 ≤ N) : Smear.norm N = (N : ℚ) * N := by
  have e : Smear.norm N =
      (List.foldl (fun X x2 => X + x2) (0 : ℚ)
        ((intRange 1 N).flatMap fun a => [(a : ℚ)])) * 2 + (N : ℚ) := rfl
  rw [e, flatMap_single, foldl_add, zero_add, sum_intRange_one N hN]
  ring


theorem Smear_mod_eq (N d : Int) (hN : 1 ≤ N) (h0 : 0 ≤ d) (h1 : d < N) :
    Smear.mod N d = ((N - d : Int) : ℚ) / ((N : ℚ) * N) := by
  unfold Smear.mod
  rw [if_pos ⟨h0, h1⟩, Smear_norm_sq N hN]

/-- The numerators `N - d` for `1 <= d < N` sum to `N * (N - 1) / 2`. -/
theorem sum_intRange_weights (N : Int) (hN : 1 ≤ N) :
    ((intRange 1 N).map (fun (d : Int) => ((N - d : Int) : ℚ))).sum * 2 = (N : ℚ) * (N - 1) := by
  unfold intRange
  rw [List.map_map]
  have e : ((fun (d : Int) => ((N - d : Int) : ℚ)) ∘ fun (k : Nat) => (1 : Int) + (k : Int)) =
      fun (k : Nat) => ((N : ℚ) - 1) - (k : ℚ) := by
    funext k
    simp only [Function.comp]
    push_cast
    ring
  rw [e, sum_range_affine, toNat_cast_rat N hN]
  ring

/-- In arithmetic without rounding, for every radius `N >= 1` the
normalising constant that `Smear` computes is `N * N`, each weight is
`mod[d] = (N - d) / (N * N)` for `0 <= d < N`, and
`mod[0] + 2 * (mod[1] + ... + mod[N - 1])`, the sum of the weights over the
offsets `-(N - 1) .. N - 1`, is 1. -/
theorem Smear_kernel_exact (N : Int) (hN : 1 ≤ N) :
    Smear.norm N = (N : ℚ) * N ∧
      (∀ d : Int, 0 ≤ d → d < N → Smear.mod N d = ((N - d : Int) : ℚ) / ((N : ℚ) * N)) ∧
      Smear.mod N 0 + 2 * ((intRange 1 N).map (fun d => Smear.mod N d)).sum = 1 := by
  refine ⟨Smear_norm_sq N hN, fun d h0 h1 => Smear_mod_eq N d hN h0 h1, ?_⟩
  have hm : (intRange 1 N).map (fun d => Smear.mod N d) =
      (intRange 1 N).map (fun (d : Int) => ((N - d : Int) : ℚ) * ((N : ℚ) * N)⁻¹) := by
    apply List.map_congr_left
    intro d hd
    obtain ⟨a, b⟩ := (mem_intRange 1 N d).1 hd
    rw [Smear_mod_eq N d hN (by omega) b, div_eq_mul_inv]
  have hs := sum_intRange_weights N hN
  have hN0 : (N : ℚ) ≠ 0 := by
    have : N ≠ 0 := by omega
    exact_mod_cast this
  rw [hm, List.sum_map_mul_right, Smear_mod_eq N 0 hN (by omega) (by omega)]
  have h2 : ((intRange 1 N).map (fun (d : Int) => ((N - d : Int) : ℚ))).sum =
      (N : ℚ) * (N - 1) / 2 := by
    rw [← hs]
    ring
  rw [h2]
  push_cast
  field_simp
  ring

/-! ## Scale rescales the whole map -/

/-- C37. `Scale` rescales the whole map: for every zone (0/1 mask for Inside
and Outside), `Scale(map1, map2, zone, msk1)` returns the factor
`mean(map2, zone) / mean(map1, zone)` and multiplies every voxel of `map1` by
it, the voxels that the zone does not select included; the voxels of the
other slots are kept. -/
theorem Scale_rescales_whole_map (st : State) (hwf : st.WF) (map1 map2 : Int) (zone : Zone)
    (msk1 : Int) (hz : st.ZoneOK zone msk1) :
    (Scale st map1 map2 zone msk1).1 = st.mean map2 zone msk1 / st.mean map1 zone msk1 ∧
      (∀ c ∈ st.grid, (Scale st map1 map2 zone msk1).2.voxel map1 c =
        st.voxel map1 c * (st.mean map2 zone msk1 / st.mean map1 zone msk1)) ∧
      (∀ c ∈ st.grid, ¬ st.Selected zone msk1 c →
        (Scale st map1 map2 zone msk1).2.voxel map1 c =
          st.voxel map1 c * (st.mean map2 zone msk1 / st.mean map1 zone msk1)) ∧
      (∀ s, s ≠ map1 → ∀ c ∈ st.grid, (Scale st map1 map2 zone msk1).2.voxel s c =
        st.voxel s c) := by
  have hf : (Scale st map1 map2 zone msk1).1 =
      st.mean map2 zone msk1 / st.mean map1 zone msk1 :=
    Scale_factor st map1 map2 zone msk1 hz
  have hv : ∀ c ∈ st.grid, (Scale st map1 map2 zone msk1).2.voxel map1 c =
      st.voxel map1 c * (st.mean map2 zone msk1 / st.mean map1 zone msk1) := by
    intro c hc
    rw [Scale_voxel st hwf map1 map2 zone msk1 c hc, hf]
  exact ⟨hf, hv, fun c hc _ => hv c hc,
    fun s hs c hc => Scale_voxel_other st hwf map1 map2 zone msk1 s hs c hc⟩

theorem Scale_rescales_whole_map_witness :
    exA.WF ∧ exA.ZoneOK Zone.Inside 0 ∧
      ((Scale exA 0 1 Zone.Inside 0).1 =
        exA.mean 1 Zone.Inside 0 / exA.mean 0 Zone.Inside 0 ∧
      (∀ c ∈ exA.grid, (Scale exA 0 1 Zone.Inside 0).2.voxel 0 c =
        exA.voxel 0 c * (exA.mean 1 Zone.Inside 0 / exA.mean 0 Zone.Inside 0)) ∧
      (∀ c ∈ exA.grid, ¬ exA.Selected Zone.Inside 0 c →
        (Scale exA 0 1 Zone.Inside 0).2.voxel 0 c =
          exA.voxel 0 c * (exA.mean 1 Zone.Inside 0 / exA.mean 0 Zone.Inside 0)) ∧
      (∀ s, s ≠ 0 → ∀ c ∈ exA.grid, (Scale exA 0 1 Zone.Inside 0).2.voxel s c =
        exA.voxel s c)) :=
  ⟨exA_WF, exA_ZoneOK, Scale_rescales_whole_map exA exA_WF 0 1 Zone.Inside 0 exA_ZoneOK⟩

/-! ## The rhombohedral branch of C2C_z -/

/-- The last branch of `C2C_z`, taken for every type other than 0 and 1, does
not read `x1`. -/
theorem C2C_z_last_branch (sin cos sqrt : ℚ → ℚ) (type : Int) (x1 y1 z1 A B C a b c : ℚ)
    (h0 : type ≠ 0) (h1 : type ≠ 1) :
    C2C_z sin cos sqrt type x1 y1 z1 A B C a b c =
      (z1 * (C2C.P cos sqrt a - C2C.Q cos sqrt a) +
        y1 * (C2C.P cos sqrt a - C2C.Q cos sqrt a) +
        z1 * (C2C.P cos sqrt a + 2 * C2C.Q cos sqrt a)) * (A / 3) := by
  unfold C2C_z
  simp only [if_neg h0, if_neg h1]
  ring

unseal Rat.mul Rat.inv Rat.add Rat.sub in
/-- C40. The rhombohedral branch of `C2C_z` does not read `x1`. For the type 2
(as for every type other than 0 and 1) `C2C_z` returns
`(z1 * (P - Q) + y1 * (P - Q) + z1 * (P + 2 * Q)) * (A / 3)` whatever `x1` is.
With `cos a = 8/9` (so `P = 3/5`, `Q = 3`) and `A = 3`, `C2C_z` at `(1, 0, 0)`
is 0, while `C2C_x` at `(0, 0, 1)`, its counterpart under the exchange of `x`
and `z`, is `-12/5`. -/
theorem C2C_z_ignores_x1 (sin cos sqrt : ℚ → ℚ) (x1 y1 z1 A B C a b c : ℚ) :
    C2C_z sin cos sqrt 2 x1 y1 z1 A B C a b c =
        (z1 * (C2C.P cos sqrt a - C2C.Q cos sqrt a) +
          y1 * (C2C.P cos sqrt a - C2C.Q cos sqrt a) +
          z1 * (C2C.P cos sqrt a + 2 * C2C.Q cos sqrt a)) * (A / 3) ∧
      C2C_z (fun _ => 1) (fun _ => 8 / 9) exSqrt 2 1 0 0 3 3 3 1 1 1 = 0 ∧
      C2C_x (fun _ => 1) (fun _ => 8 / 9) exSqrt 2 0 0 1 3 3 3 1 1 1 = -12 / 5 :=
  ⟨C2C_z_last_branch sin cos sqrt 2 x1 y1 z1 A B C a b c (by decide) (by decide),
    by decide, by decide⟩

/-! ## Shape never shrinks the mask -/

/-- One iteration of the loop of `Shape` leaves the mask store as it is or
writes 1 into one cell. -/
theorem Shape_voxel_writes_one (st : State) (msk2 msk3 map1 : Int) (MinDif : ℚ) (N2 : Int)
    (m : Int → Int) (c : Int × Int × Int) :
    Shape.voxel st msk2 msk3 map1 MinDif N2 m c = m ∨
      ∃ i, Shape.voxel st msk2 msk3 map1 MinDif N2 m c = Function.update m i 1 := by
  unfold Shape.voxel
  simp only
  split_ifs
  · exact Or.inl rfl
  · exact Or.inr ⟨_, rfl⟩
  · exact Or.inl rfl

/-- After any number of iterations of the loop of `Shape` a cell of the mask
store holds its former value or 1. -/
theorem Shape_fold_grow (st : State) (msk2 msk3 map1 : Int) (MinDif : ℚ) (N2 : Int)
    (L : List (Int × Int × Int)) (m : Int → Int) (i : Int) :
    (L.foldl (Shape.voxel st msk2 msk3 map1 MinDif N2) m) i = m i ∨
      (L.foldl (Shape.voxel st msk2 msk3 map1 MinDif N2) m) i = 1 := by
  induction L generalizing m with
  | nil => exact Or.inl rfl
  | cons e L ih =>
    rw [List.foldl_cons]
    rcases ih (Shape.voxel st msk2 msk3 map1 MinDif N2 m e) with h | h
    · rcases Shape_voxel_writes_one st msk2 msk3 map1 MinDif N2 m e with q | ⟨j, q⟩
      · rw [h, q]
        exact Or.inl rfl
      · by_cases e2 : i = j
        · right
          rw [h, q, e2, Function.update_same]
        · left
          rw [h, q, Function.update_noteq e2]
    · exact Or.inr h

/-- One cycle of `Shape` on a state whose masks `msk2` and `msk3` agree on the
grid: afterwards they agree again, and every voxel of `msk2` holds its former
value or 1. -/
theorem Shape_cycle_grow (st : State) (hwf : st.WF) (msk2 msk3 map1 : Int) (MinDif : ℚ)
    (N2 : Int) (hinv : ∀ c ∈ st.grid, st.mvoxel msk3 c = st.mvoxel msk2 c)
    (c : Int × Int × Int) (hc : c ∈ st.grid) :
    ((Shape.cycle st msk2 msk3 map1 MinDif N2).mvoxel msk2 c = st.mvoxel msk2 c ∨
        (Shape.cycle st msk2 msk3 map1 MinDif N2).mvoxel msk2 c = 1) ∧
      (Shape.cycle st msk2 msk3 map1 MinDif N2).mvoxel msk3 c =
        (Shape.cycle st msk2 msk3 map1 MinDif N2).mvoxel msk2 c := by
  let r := (boxLoop 3 (st.X_LIM - 2) 3 (st.Y_LIM - 2) 3 (st.Z_LIM - 2)).foldl
    (Shape.voxel st msk2 msk3 map1 MinDif N2) st.MSK
  let s1 : State := { st with MSK := r }
  have hs : Shape.cycle st msk2 msk3 map1 MinDif N2 = MskCopy s1 msk3 msk2 := rfl
  have hwf1 : s1.WF := hwf
  have hc1 : c ∈ s1.grid := hc
  have a2 : (MskCopy s1 msk3 msk2).mvoxel msk2 c = s1.mvoxel msk3 c :=
    MskCopy_mvoxel s1 hwf1 msk3 msk2 c hc1
  have a3 : (MskCopy s1 msk3 msk2).mvoxel msk3 c = s1.mvoxel msk3 c := by
    by_cases e : msk3 = msk2
    · rw [e] at a2 ⊢
      exact a2
    · exact MskCopy_mvoxel_other s1 hwf1 msk3 msk2 msk3 c hc1 e
  have g : s1.mvoxel msk3 c = st.mvoxel msk2 c ∨ s1.mvoxel msk3 c = 1 := by
    have q := Shape_fold_grow st msk2 msk3 map1 MinDif N2
      (boxLoop 3 (st.X_LIM - 2) 3 (st.Y_LIM - 2) 3 (st.Z_LIM - 2)) st.MSK
      (st.LOC c + msk3 * st.XYZ_LIM)
    rw [← hinv c hc]
    exact q
  rw [hs, a2, a3]
  exact ⟨g, rfl⟩

/-- The state after `n` cycles of `Shape`, started after the two mask copies:
it is well formed on the same grid, its masks `msk2` and `msk3` agree, and
every voxel of `msk2` holds its seed value or 1. -/
theorem Shape_iter_grow (st : State) (hwf : st.WF) (msk1 msk2 msk3 map1 : Int) (MinDif : ℚ)
    (N2 : Int) (n : Nat) :
    ((fun s => Shape.cycle s msk2 msk3 map1 MinDif N2)^[n]
        (MskCopy (MskCopy st msk1 msk2) msk1 msk3)).WF ∧
      ((fun s => Shape.cycle s msk2 msk3 map1 MinDif N2)^[n]
        (MskCopy (MskCopy st msk1 msk2) msk1 msk3)).grid = st.grid ∧
      ∀ c ∈ st.grid,
        ((fun s => Shape.cycle s msk2 msk3 map1 MinDif N2)^[n]
            (MskCopy (MskCopy st msk1 msk2) msk1 msk3)).mvoxel msk3 c =
          ((fun s => Shape.cycle s msk2 msk3 map1 MinDif N2)^[n]
            (MskCopy (MskCopy st msk1 msk2) msk1 msk3)).mvoxel msk2 c ∧
        (((fun s => Shape.cycle s msk2 msk3 map1 MinDif N2)^[n]
            (MskCopy (MskCopy st msk1 msk2) msk1 msk3)).mvoxel msk2 c = st.mvoxel msk1 c ∨
          ((fun s => Shape.cycle s msk2 msk3 map1 MinDif N2)^[n]
            (MskCopy (MskCopy st msk1 msk2) msk1 msk3)).mvoxel msk2 c = 1) := by
  induction n with
  | zero =>
    refine ⟨hwf, rfl, fun c hc => ?_⟩
    obtain ⟨h2, h3⟩ := Shape_start st hwf msk1 msk2 msk3 c hc
    exact ⟨h3.trans h2.symm, Or.inl h2⟩
  | succ n ih =>
    obtain ⟨w, g, h⟩ := ih
    rw [Function.iterate_succ_apply']
    refine ⟨w, g, fun c hc => ?_⟩
    have hc1 := hc
    rw [← g] at hc1
    obtain ⟨k1, k2⟩ := Shape_cycle_grow _ w msk2 msk3 map1 MinDif N2
      (fun d hd => (h d (g ▸ hd)).1) c hc1
    refine ⟨k2, ?_⟩
    rcases k1 with k | k
    · rw [k]
      exact (h c hc).2
    · exact Or.inr k

/-- C38. `Shape` never shrinks the mask (well-formed grid). `Shape` is its two
mask copies followed by `(N1 + 1).toNat` cycles; every voxel set (non-zero) in
the seed mask `msk1` is set in the output mask `msk2`; the mask `msk2` after
each cycle contains the mask before it; and one iteration of the loop over the
voxels leaves the mask store as it is or writes the value 1 into one cell. -/
theorem Shape_never_shrinks (st : State) (hwf : st.WF) (msk1 msk2 msk3 map1 : Int)
    (MinDif : ℚ) (N1 N2 : Int) :
    Shape st msk1 msk2 msk3 map1 MinDif N1 N2 =
        (fun s => Shape.cycle s msk2 msk3 map1 MinDif N2)^[(N1 + 1).toNat]
          (MskCopy (MskCopy st msk1 msk2) msk1 msk3) ∧
      (∀ c ∈ st.grid, st.mvoxel msk1 c ≠ 0 →
        (Shape st msk1 msk2 msk3 map1 MinDif N1 N2).mvoxel msk2 c ≠ 0) ∧
      (∀ (n : Nat), ∀ c ∈ st.grid,
        ((fun s => Shape.cycle s msk2 msk3 map1 MinDif N2)^[n]
          (MskCopy (MskCopy st msk1 msk2) msk1 msk3)).mvoxel msk2 c ≠ 0 →
        ((fun s => Shape.cycle s msk2 msk3 map1 MinDif N2)^[n + 1]
          (MskCopy (MskCopy st msk1 msk2) msk1 msk3)).mvoxel msk2 c ≠ 0) ∧
      (∀ (s : State) (m : Int → Int) (c : Int × Int × Int),
        Shape.voxel s msk2 msk3 map1 MinDif N2 m c = m ∨
          ∃ i, Shape.voxel s msk2 msk3 map1 MinDif N2 m c = Function.update m i 1) := by
  have e : Shape st msk1 msk2 msk3 map1 MinDif N1 N2 =
      (fun s => Shape.cycle s msk2 msk3 map1 MinDif N2)^[(N1 + 1).toNat]
        (MskCopy (MskCopy st msk1 msk2) msk1 msk3) := by
    unfold Shape
    simp only
    rw [foldl_const_iterate, closedRange, intRange_length, sub_zero]
  refine ⟨e, ?_, ?_, fun s m c => Shape_voxel_writes_one s msk2 msk3 map1 MinDif N2 m c⟩
  · intro c hc h0
    rw [e]
    rcases ((Shape_iter_grow st hwf msk1 msk2 msk3 map1 MinDif N2 (N1 + 1).toNat).2.2 c
      hc).2 with k | k
    · rw [k]
      exact h0
    · rw [k]
      exact one_ne_zero
  · intro n c hc h0
    obtain ⟨w, g, h⟩ := Shape_iter_grow st hwf msk1 msk2 msk3 map1 MinDif N2 n
    have hc1 := hc
    rw [← g] at hc1
    rw [Function.iterate_succ_apply']
    rcases (Shape_cycle_grow _ w msk2 msk3 map1 MinDif N2
      (fun d hd => (h d (g ▸ hd)).1) c hc1).1 with k | k
    · rw [k]
      exact h0
    · rw [k]
      exact one_ne_zero

theorem Shape_never_shrinks_witness :
    exShape.WF ∧
      (Shape exShape 0 1 2 0 0 1 1 =
        (fun s => Shape.cycle s 1 2 0 0 1)^[((1 : Int) + 1).toNat]
          (MskCopy (MskCopy exShape 0 1) 0 2) ∧
      ∀ c ∈ exShape.grid, exShape.mvoxel 0 c ≠ 0 →
        (Shape exShape 0 1 2 0 0 1 1).mvoxel 1 c ≠ 0) :=
  ⟨⟨rfl, rfl⟩, (Shape_never_shrinks exShape ⟨rfl, rfl⟩ 0 1 2 0 0 1 1).1,
    (Shape_never_shrinks exShape ⟨rfl, rfl⟩ 0 1 2 0 0 1 1).2.1⟩


/-! ## The growth rule of Shape -/

/-- The block loop of `Shape` either keeps `low` and `LOC3`, when no voxel
outside the mask lies below the starting `low`, or ends with `low` and `LOC3`
those of a voxel outside the mask of least value, which lies below the
starting `low`. -/
theorem scan_min {C : Type} (mk : C → Int) (val : C → ℚ) (loc : C → Int) (L : List C)
    (acc : Int × ℚ × Int) :
    ((L.foldl (fun (acc : Int × ℚ × Int) d =>
        if acc.2.1 > val d ∧ mk d = 0 then (acc.1 + mk d, val d, loc d)
        else (acc.1 + mk d, acc.2.1, acc.2.2)) acc).2 = acc.2 ∧
        ∀ d ∈ L, mk d = 0 → acc.2.1 ≤ val d) ∨
      ∃ u ∈ L, mk u = 0 ∧ val u < acc.2.1 ∧
        (L.foldl (fun (acc : Int × ℚ × Int) d =>
          if acc.2.1 > val d ∧ mk d = 0 then (acc.1 + mk d, val d, loc d)
          else (acc.1 + mk d, acc.2.1, acc.2.2)) acc).2 = (val u, loc u) ∧
        ∀ d ∈ L, mk d = 0 → val u ≤ val d := by
  induction L generalizing acc with
  | nil => exact Or.inl ⟨rfl, fun d hd => absurd hd (List.not_mem_nil d)⟩
  | cons a L ih =>
    rw [List.foldl_cons]
    by_cases hc : acc.2.1 > val a ∧ mk a = 0
    · rw [if_pos hc]
      right
      rcases ih (acc.1 + mk a, val a, loc a) with ⟨h1, h2⟩ | ⟨u, hu, hm, hl, hr, hmin⟩
      · refine ⟨a, List.mem_cons_self _ _, hc.2, hc.1, h1, ?_⟩
        intro d hd hd0
        rcases List.mem_cons.1 hd with rfl | hdL
        · exact le_refl _
        · exact h2 d hdL hd0
      · refine ⟨u, List.mem_cons_of_mem _ hu, hm, lt_trans hl hc.1, hr, ?_⟩
        intro d hd hd0
        rcases List.mem_cons.1 hd with rfl | hdL
        · exact le_of_lt hl
        · exact hmin d hdL hd0
    · rw [if_neg hc]
      rcases ih (acc.1 + mk a, acc.2.1, acc.2.2) with ⟨h1, h2⟩ | ⟨u, hu, hm, hl, hr, hmin⟩
      · left
        refine ⟨h1, ?_⟩
        intro d hd hd0
        rcases List.mem_cons.1 hd with rfl | hdL
        · exact not_lt.1 (fun q => hc ⟨q, hd0⟩)
        · exact h2 d hdL hd0
      · right
        refine ⟨u, List.mem_cons_of_mem _ hu, hm, hl, hr, ?_⟩
        intro d hd hd0
        rcases List.mem_cons.1 hd with rfl | hdL
        · exact le_trans (le_of_lt hl) (not_lt.1 (fun q => hc ⟨q, hd0⟩))
        · exact hmin d hdL hd0

/-- The sum of values that are 0 or 1 is the number of those that are not 0. -/
theorem sum_01_count {C : Type} (f : C → Int) (L : List C)
    (h : ∀ d ∈ L, f d = 0 ∨ f d = 1) :
    (L.map f).sum = ((L.filter (fun d => f d ≠ 0)).length : Int) := by
  induction L with
  | nil => rfl
  | cons a L ih =>
    have ih2 := ih (fun d hd => h d (List.mem_cons_of_mem _ hd))
    rw [List.map_cons, List.sum_cons, ih2]
    rcases h a (List.mem_cons_self _ _) with q | q
    · rw [List.filter_cons_of_neg (by simp [q]), q, zero_add]
    · rw [List.filter_cons_of_pos (by simp [q]), q, List.length_cons]
      push_cast
      ring

/-- The block around an interior voxel lies in the grid. -/
theorem Shape_block_grid (st : State) (c : Int × Int × Int) (hc : c ∈ st.interior)
    (d : Int × Int × Int) (hd : d ∈ Shape.block c) : d ∈ st.grid := by
  unfold State.interior at hc
  unfold Shape.block at hd
  rw [mem_boxLoop] at hc hd
  rw [st.mem_grid]
  omega

/-- The offset of a voxel of the block around an interior voxel is not 0. -/
theorem Shape_block_LOC (st : State) (hwf : st.WF) (c : Int × Int × Int)
    (hc : c ∈ st.interior) (d : Int × Int × Int) (hd : d ∈ Shape.block c) :
    st.LOC d ≠ 0 := by
  unfold State.interior at hc
  unfold Shape.block at hd
  rw [mem_boxLoop] at hc hd
  obtain ⟨hxy, _⟩ := hwf
  unfold State.LOC
  rw [hxy]
  have h1 : 0 ≤ (d.2.1 - 1) * st.X_LIM := mul_nonneg (by omega) (by omega)
  have h2 : 0 ≤ (d.2.2 - 1) * (st.X_LIM * st.Y_LIM) :=
    mul_nonneg (by omega) (mul_nonneg (by omega) (by omega))
  omega

/-- The block loop of `Shape` as a fold over the block. -/
theorem Shape_scan_block (st : State) (m : Int → Int) (msk2 map1 : Int)
    (c : Int × Int × Int) :
    Shape.scan st m msk2 map1 c =
      (Shape.block c).foldl (fun (acc : Int × ℚ × Int) d =>
        if acc.2.1 > st.MAP (st.LOC d + st.XYZ_LIM * map1) ∧ m (st.LOC d + st.XYZ_LIM * msk2) = 0
        then (acc.1 + m (st.LOC d + st.XYZ_LIM * msk2), st.MAP (st.LOC d + st.XYZ_LIM * map1),
          st.LOC d)
        else (acc.1 + m (st.LOC d + st.XYZ_LIM * msk2), acc.2.1, acc.2.2))
        (0, st.MAP (st.LOC c + st.XYZ_LIM * map1), 0) :=
  rfl

/-- The decision of `Shape` at an interior voxel `c`, on the mask store `m`.
Either the store is kept, and then the mask values of the block sum to less
than `N2` or no voxel of the block outside the mask lies below both `cur` and
`cur - MinDif`; or the sum is at least `N2` and 1 is written to the temporary
mask at a voxel of the block outside the mask, of least value among those,
which lies below both `cur` and `cur - MinDif`. -/
theorem Shape_voxel_cases (st : State) (hwf : st.WF) (msk2 msk3 map1 : Int) (MinDif : ℚ)
    (N2 : Int) (m : Int → Int) (c : Int × Int × Int) (hc : c ∈ st.interior) :
    (Shape.voxel st msk2 msk3 map1 MinDif N2 m c = m ∧
        (((Shape.block c).map (fun d => m (st.LOC d + st.XYZ_LIM * msk2))).sum < N2 ∨
          ∀ d ∈ Shape.block c, m (st.LOC d + st.XYZ_LIM * msk2) = 0 →
            ¬ (st.voxel map1 d < st.voxel map1 c ∧
              st.voxel map1 d < st.voxel map1 c - MinDif))) ∨
      (N2 ≤ ((Shape.block c).map (fun d => m (st.LOC d + st.XYZ_LIM * msk2))).sum ∧
        ∃ u ∈ Shape.block c, m (st.LOC u + st.XYZ_LIM * msk2) = 0 ∧
          st.voxel map1 u < st.voxel map1 c ∧ st.voxel map1 u < st.voxel map1 c - MinDif ∧
          (∀ d ∈ Shape.block c, m (st.LOC d + st.XYZ_LIM * msk2) = 0 →
            st.voxel map1 u ≤ st.voxel map1 d) ∧
          Shape.voxel st msk2 msk3 map1 MinDif N2 m c =
            Function.update m (st.LOC u + st.XYZ_LIM * msk3) 1) := by
  have hnum : (Shape.scan st m msk2 map1 c).1 =
      ((Shape.block c).map (fun d => m (st.LOC d + st.XYZ_LIM * msk2))).sum := by
    rw [Shape_scan_block]
    exact (scan_num (fun d => m (st.LOC d + st.XYZ_LIM * msk2))
      (fun d => st.MAP (st.LOC d + st.XYZ_LIM * map1)) (fun d => st.LOC d)
      (Shape.block c) (0, st.MAP (st.LOC c + st.XYZ_LIM * map1), 0)).trans (zero_add _)
  have hmin := scan_min (fun d => m (st.LOC d + st.XYZ_LIM * msk2))
      (fun d => st.MAP (st.LOC d + st.XYZ_LIM * map1)) (fun d => st.LOC d)
      (Shape.block c) (0, st.MAP (st.LOC c + st.XYZ_LIM * map1), 0)
  rw [← Shape_scan_block] at hmin
  simp only [← State.voxel_eq] at hmin
  have hv : Shape.voxel st msk2 msk3 map1 MinDif N2 m c =
      if (Shape.scan st m msk2 map1 c).1 < N2 then m
      else if (Shape.scan st m msk2 map1 c).2.2 ≠ 0 ∧
          (Shape.scan st m msk2 map1 c).2.1 < st.voxel map1 c - MinDif then
        Function.update m ((Shape.scan st m msk2 map1 c).2.2 + st.XYZ_LIM * msk3) 1
      else m := by
    rw [State.voxel_eq]
    rfl
  rw [hv]
  by_cases hN : (Shape.scan st m msk2 map1 c).1 < N2
  · rw [if_pos hN]
    exact Or.inl ⟨rfl, Or.inl (hnum ▸ hN)⟩
  · rw [if_neg hN]
    rcases hmin with ⟨h1, h2⟩ | ⟨u, hu, hm, hl, hr, hmn⟩
    · left
      have e3 : (Shape.scan st m msk2 map1 c).2.2 = 0 := by rw [h1]
      rw [if_neg (fun q => q.1 e3)]
      exact ⟨rfl, Or.inr (fun d hd hd0 q => absurd q.1 (not_lt.2 (h2 d hd hd0)))⟩
    · have e2 : (Shape.scan st m msk2 map1 c).2.1 = st.voxel map1 u := by rw [hr]
      have e3 : (Shape.scan st m msk2 map1 c).2.2 = st.LOC u := by rw [hr]
      rw [e2, e3]
      by_cases hd : st.voxel map1 u < st.voxel map1 c - MinDif
      · right
        rw [if_pos ⟨Shape_block_LOC st hwf c hc u hu, hd⟩]
        exact ⟨hnum ▸ not_lt.1 hN, u, hu, hm, hl, hd, hmn, rfl⟩
      · left
        rw [if_neg (fun q => hd q.2)]
        refine ⟨rfl, Or.inr (fun d hdB hd0 q => hd ?_)⟩
        exact lt_of_le_of_lt (hmn d hdB hd0) q.2


/-- C32. The growth rule of `Shape` at an interior voxel `c` (well-formed
grid, 0/1 mask on the block, any `MinDif`), with `cur` the map value of `c`:
when the block holds fewer than `N2` mask voxels the mask store is left as it
is; when it holds at least `N2`, a voxel is marked if and only if some voxel
of the block outside the mask lies below both `cur` and `cur - MinDif`, and the
voxel marked (set to 1 in the temporary mask) is a voxel of the block outside
the mask of least map value. For `MinDif >= 0` the condition is that the value
lies below `cur - MinDif`. -/
theorem Shape_growth_rule (st : State) (hwf : st.WF) (msk2 msk3 map1 : Int) (MinDif : ℚ)
    (N2 : Int) (m : Int → Int) (c : Int × Int × Int) (hc : c ∈ st.interior)
    (h01 : ∀ d ∈ Shape.block c,
      m (st.LOC d + st.XYZ_LIM * msk2) = 0 ∨ m (st.LOC d + st.XYZ_LIM * msk2) = 1) :
    (Shape.count st m msk2 c < N2 → Shape.voxel st msk2 msk3 map1 MinDif N2 m c = m) ∧
      (N2 ≤ Shape.count st m msk2 c →
        ((∀ d ∈ Shape.block c, m (st.LOC d + st.XYZ_LIM * msk2) = 0 →
            ¬ (st.voxel map1 d < st.voxel map1 c ∧
              st.voxel map1 d < st.voxel map1 c - MinDif)) →
          Shape.voxel st msk2 msk3 map1 MinDif N2 m c = m) ∧
        ((∃ d ∈ Shape.block c, m (st.LOC d + st.XYZ_LIM * msk2) = 0 ∧
            st.voxel map1 d < st.voxel map1 c ∧
              st.voxel map1 d < st.voxel map1 c - MinDif) →
          ∃ u ∈ Shape.block c, m (st.LOC u + st.XYZ_LIM * msk2) = 0 ∧
            (∀ d ∈ Shape.block c, m (st.LOC d + st.XYZ_LIM * msk2) = 0 →
              st.voxel map1 u ≤ st.voxel map1 d) ∧
            st.voxel map1 u < st.voxel map1 c - MinDif ∧
            Shape.voxel st msk2 msk3 map1 MinDif N2 m c =
              Function.update m (st.LOC u + st.XYZ_LIM * msk3) 1)) ∧
      (0 ≤ MinDif → ∀ d, (st.voxel map1 d < st.voxel map1 c ∧
          st.voxel map1 d < st.voxel map1 c - MinDif) ↔
        st.voxel map1 d < st.voxel map1 c - MinDif) := by
  have hcnt : ((Shape.block c).map (fun d => m (st.LOC d + st.XYZ_LIM * msk2))).sum =
      Shape.count st m msk2 c :=
    sum_01_count (fun d => m (st.LOC d + st.XYZ_LIM * msk2)) (Shape.block c) h01
  have hcases := Shape_voxel_cases st hwf msk2 msk3 map1 MinDif N2 m c hc
  rw [hcnt] at hcases
  refine ⟨?_, ?_, ?_⟩
  · intro hlt
    rcases hcases with ⟨e, _⟩ | ⟨hge, _⟩
    · exact e
    · omega
  · intro hge
    refine ⟨?_, ?_⟩
    · intro hnone
      rcases hcases with ⟨e, _⟩ | ⟨_, u, hu, hm, hl, hd, _, _⟩
      · exact e
      · exact absurd ⟨hl, hd⟩ (hnone u hu hm)
    · rintro ⟨d, hd, hd0, hq⟩
      rcases hcases with ⟨_, hlt | hnone⟩ | ⟨_, u, hu, hm, _, hdif, hmn, e⟩
      · omega
      · exact absurd hq (hnone d hd hd0)
      · exact ⟨u, hu, hm, hmn, hdif, e⟩
  · intro h0 d
    constructor
    · exact fun q => q.2
    · intro q
      refine ⟨?_, q⟩
      linarith


set_option maxRecDepth 100000 in
set_option maxHeartbeats 4000000 in
unseal Rat.mul Rat.inv Rat.add Rat.sub in
theorem Shape_growth_rule_witness :
    exShape.WF ∧ ((3, 3, 3) : Int × Int × Int) ∈ exShape.interior ∧
      (∀ d ∈ Shape.block (3, 3, 3),
        exShape.MSK (exShape.LOC d + exShape.XYZ_LIM * 0) = 0 ∨
          exShape.MSK (exShape.LOC d + exShape.XYZ_LIM * 0) = 1) ∧
      (1 ≤ Shape.count exShape exShape.MSK 0 (3, 3, 3) →
        ((∀ d ∈ Shape.block (3, 3, 3), exShape.MSK (exShape.LOC d + exShape.XYZ_LIM * 0) = 0 →
            ¬ (exShape.voxel 0 d < exShape.voxel 0 (3, 3, 3) ∧
              exShape.voxel 0 d < exShape.voxel 0 (3, 3, 3) - 0)) →
          Shape.voxel exShape 0 1 0 0 1 exShape.MSK (3, 3, 3) = exShape.MSK) ∧
        ((∃ d ∈ Shape.block (3, 3, 3), exShape.MSK (exShape.LOC d + exShape.XYZ_LIM * 0) = 0 ∧
            exShape.voxel 0 d < exShape.voxel 0 (3, 3, 3) ∧
              exShape.voxel 0 d < exShape.voxel 0 (3, 3, 3) - 0) →
          ∃ u ∈ Shape.block (3, 3, 3), exShape.MSK (exShape.LOC u + exShape.XYZ_LIM * 0) = 0 ∧
            (∀ d ∈ Shape.block (3, 3, 3),
              exShape.MSK (exShape.LOC d + exShape.XYZ_LIM * 0) = 0 →
                exShape.voxel 0 u ≤ exShape.voxel 0 d) ∧
            exShape.voxel 0 u < exShape.voxel 0 (3, 3, 3) - 0 ∧
            Shape.voxel exShape 0 1 0 0 1 exShape.MSK (3, 3, 3) =
              Function.update exShape.MSK (exShape.LOC u + exShape.XYZ_LIM * 1) 1)) :=
  ⟨⟨rfl, rfl⟩, by decide, by decide,
    (Shape_growth_rule exShape ⟨rfl, rfl⟩ 0 1 0 0 1 exShape.MSK (3, 3, 3) (by decide)
      (by decide)).2.1⟩

set_option maxRecDepth 100000 in
set_option maxHeartbeats 4000000 in
unseal Rat.mul Rat.inv Rat.add Rat.sub in
/-- C32, counterexample. On `exFlat` (map 10 everywhere, mask holding the
centre only) with `MinDif = -1` and `N2 = 1`, the block around the centre
holds one mask voxel and the lowest value outside the mask, 10, lies below
`cur - MinDif = 11`; the block loop returns `LOC3 = 0` and no voxel of the
temporary mask 1 is marked. -/
theorem Shape_negative_MinDif_marks_nothing :
    Shape.count exFlat exFlat.MSK 0 (3, 3, 3) = 1 ∧
      (∀ d ∈ Shape.block (3, 3, 3), exFlat.voxel 0 d = 10) ∧
      (10 : ℚ) < exFlat.voxel 0 (3, 3, 3) - (-1) ∧
      Shape.scan exFlat exFlat.MSK 0 0 (3, 3, 3) = (1, 10, 0) ∧
      ∀ d ∈ exFlat.grid,
        Shape.voxel exFlat 0 1 0 (-1) 1 exFlat.MSK (3, 3, 3)
          (exFlat.LOC d + exFlat.XYZ_LIM * 1) = 0 := by
  decide


/-! ## Which voxels a cycle of Shape adds -/

/-- The loop of a cycle of `Shape` over interior voxels, for distinct working
and temporary masks, started from a store that agrees with the mask store of
the state on the working mask: the working mask stays as it is, and every cell
keeps its value or is the cell, now holding 1, of a voxel outside the working
mask, in the block of a voxel of the loop whose block has mask values summing
to at least `N2`. -/
theorem Shape_fold_trace (st : State) (hwf : st.WF) (msk2 msk3 map1 : Int) (MinDif : ℚ)
    (N2 : Int) (h23 : msk2 ≠ msk3) (L : List (Int × Int × Int))
    (hL : ∀ c ∈ L, c ∈ st.interior) (m : Int → Int)
    (hm : ∀ d ∈ st.grid, m (st.LOC d + st.XYZ_LIM * msk2) =
      st.MSK (st.LOC d + st.XYZ_LIM * msk2)) (i : Int) :
    (L.foldl (Shape.voxel st msk2 msk3 map1 MinDif N2) m) i = m i ∨
      ((L.foldl (Shape.voxel st msk2 msk3 map1 MinDif N2) m) i = 1 ∧
        ∃ c ∈ L, ∃ u ∈ Shape.block c, i = st.LOC u + st.XYZ_LIM * msk3 ∧
          st.MSK (st.LOC u + st.XYZ_LIM * msk2) = 0 ∧
          N2 ≤ ((Shape.block c).map (fun d => st.MSK (st.LOC d + st.XYZ_LIM * msk2))).sum) := by
  induction L generalizing m with
  | nil => exact Or.inl rfl
  | cons e L ih =>
    rw [List.foldl_cons]
    have he : e ∈ st.interior := hL e (List.mem_cons_self _ _)
    have hL2 : ∀ c ∈ L, c ∈ st.interior := fun c hc => hL c (List.mem_cons_of_mem _ hc)
    have wrap : ∀ m2 : Int → Int,
        ((L.foldl (Shape.voxel st msk2 msk3 map1 MinDif N2) m2) i = 1 ∧
          ∃ c ∈ L, ∃ u ∈ Shape.block c, i = st.LOC u + st.XYZ_LIM * msk3 ∧
            st.MSK (st.LOC u + st.XYZ_LIM * msk2) = 0 ∧
            N2 ≤ ((Shape.block c).map
              (fun d => st.MSK (st.LOC d + st.XYZ_LIM * msk2))).sum) →
        ((L.foldl (Shape.voxel st msk2 msk3 map1 MinDif N2) m2) i = 1 ∧
          ∃ c ∈ e :: L, ∃ u ∈ Shape.block c, i = st.LOC u + st.XYZ_LIM * msk3 ∧
            st.MSK (st.LOC u + st.XYZ_LIM * msk2) = 0 ∧
            N2 ≤ ((Shape.block c).map
              (fun d => st.MSK (st.LOC d + st.XYZ_LIM * msk2))).sum) := by
      rintro m2 ⟨h1, c, hc, h2⟩
      exact ⟨h1, c, List.mem_cons_of_mem _ hc, h2⟩
    rcases Shape_voxel_cases st hwf msk2 msk3 map1 MinDif N2 m e he with
      ⟨q, _⟩ | ⟨hge, u, hu, hu0, _, _, _, q⟩
    · rw [q]
      rcases ih hL2 m hm with h | h
      · exact Or.inl h
      · exact Or.inr (wrap m h)
    · have hug : u ∈ st.grid := Shape_block_grid st e he u hu
      have hm2 : ∀ d ∈ st.grid,
          Function.update m (st.LOC u + st.XYZ_LIM * msk3) 1 (st.LOC d + st.XYZ_LIM * msk2) =
            st.MSK (st.LOC d + st.XYZ_LIM * msk2) := by
        intro d hd
        rw [Function.update_noteq, hm d hd]
        intro hc
        exact h23 (st.index_inj2 hwf d u msk2 msk3 hd hug hc).2
      rw [q]
      rcases ih hL2 _ hm2 with h | h
      · by_cases hi : i = st.LOC u + st.XYZ_LIM * msk3
        · right
          rw [hi] at h ⊢
          rw [Function.update_same] at h
          refine ⟨h, e, List.mem_cons_self _ _, u, hu, rfl, ?_, ?_⟩
          · rw [← hm u hug]
            exact hu0
          · have hs : (Shape.block e).map (fun d => st.MSK (st.LOC d + st.XYZ_LIM * msk2)) =
                (Shape.block e).map (fun d => m (st.LOC d + st.XYZ_LIM * msk2)) :=
              List.map_congr_left
                (fun d hd => (hm d (Shape_block_grid st e he d hd)).symm)
            rw [hs]
            exact hge
        · left
          rw [h, Function.update_noteq hi]
      · exact Or.inr (wrap _ h)

/-- C31. What a cycle of `Shape` adds (well-formed grid, distinct working mask
`msk2` and temporary mask `msk3` that agree at the start of the cycle, `msk2`
a 0/1 mask). The cycle examines every interior voxel, in the mask or not: it
is the loop of `Shape.voxel` over all interior voxels followed by the copy of
`msk3` into `msk2`. Every voxel whose value in `msk2` the cycle changes was
outside the mask, is set to 1, and lies in the block of an interior voxel whose
block held at least `N2` mask voxels at the start of the cycle. -/
theorem Shape_cycle_adds (st : State) (hwf : st.WF) (msk2 msk3 map1 : Int) (MinDif : ℚ)
    (N2 : Int) (h23 : msk2 ≠ msk3) (h01 : st.Mask01 msk2)
    (hinv : ∀ c ∈ st.grid, st.mvoxel msk3 c = st.mvoxel msk2 c) :
    (Shape.cycle st msk2 msk3 map1 MinDif N2).MSK =
        (MskCopy { st with MSK := st.interior.foldl (Shape.voxel st msk2 msk3 map1 MinDif N2) st.MSK } msk3 msk2).MSK ∧
      ∀ u ∈ st.grid, (Shape.cycle st msk2 msk3 map1 MinDif N2).mvoxel msk2 u ≠
          st.mvoxel msk2 u →
        st.mvoxel msk2 u = 0 ∧ (Shape.cycle st msk2 msk3 map1 MinDif N2).mvoxel msk2 u = 1 ∧
          ∃ c ∈ st.interior, u ∈ Shape.block c ∧ N2 ≤ Shape.count st st.MSK msk2 c := by
  refine ⟨rfl, ?_⟩
  intro u hu hne
  let r := st.interior.foldl (Shape.voxel st msk2 msk3 map1 MinDif N2) st.MSK
  let s1 : State := { st with MSK := r }
  have hs : Shape.cycle st msk2 msk3 map1 MinDif N2 = MskCopy s1 msk3 msk2 := rfl
  have hwf1 : s1.WF := hwf
  have hu1 : u ∈ s1.grid := hu
  have a2 : (Shape.cycle st msk2 msk3 map1 MinDif N2).mvoxel msk2 u =
      r (st.LOC u + st.XYZ_LIM * msk3) := by
    rw [hs, MskCopy_mvoxel s1 hwf1 msk3 msk2 u hu1, s1.mvoxel_eq]
    rfl
  rw [a2] at hne ⊢
  rcases Shape_fold_trace st hwf msk2 msk3 map1 MinDif N2 h23 st.interior
    (fun c hc => hc) st.MSK (fun _ _ => rfl) (st.LOC u + st.XYZ_LIM * msk3) with h | ⟨h1, c, hc, v, hv, e, hv0, hge⟩
  · exfalso
    apply hne
    exact h.trans ((st.mvoxel_eq msk3 u).symm.trans (hinv u hu))
  · have huv : u = v :=
      (st.index_inj2 hwf u v msk3 msk3 hu (Shape_block_grid st c hc v hv) e).1
    subst huv
    refine ⟨(st.mvoxel_eq msk2 u).trans hv0, h1, c, hc, hv, ?_⟩
    have hcnt := sum_01_count (fun d => st.MSK (st.LOC d + st.XYZ_LIM * msk2)) (Shape.block c)
      (fun d hd => by
        have := h01 d (Shape_block_grid st c hc d hd)
        rw [st.mvoxel_eq] at this
        exact this)
    rw [hcnt] at hge
    exact hge

set_option maxRecDepth 100000 in
set_option maxHeartbeats 4000000 in
unseal Rat.mul Rat.inv Rat.add Rat.sub in
theorem Shape_cycle_adds_witness :
    exFar.WF ∧ (0 : Int) ≠ 1 ∧ exFar.Mask01 0 ∧
      (∀ c ∈ exFar.grid, exFar.mvoxel 1 c = exFar.mvoxel 0 c) ∧
      ∀ u ∈ exFar.grid, (Shape.cycle exFar 0 1 0 0 1).mvoxel 0 u ≠ exFar.mvoxel 0 u →
        exFar.mvoxel 0 u = 0 ∧ (Shape.cycle exFar 0 1 0 0 1).mvoxel 0 u = 1 ∧
          ∃ c ∈ exFar.interior, u ∈ Shape.block c ∧ 1 ≤ Shape.count exFar exFar.MSK 0 c :=
  ⟨⟨rfl, rfl⟩, by decide, by unfold State.Mask01; decide, by decide,
    (Shape_cycle_adds exFar ⟨rfl, rfl⟩ 0 1 0 0 1 (by decide) (by unfold State.Mask01; decide)
      (by decide)).2⟩

set_option maxRecDepth 100000 in
set_option maxHeartbeats 4000000 in
unseal Rat.mul Rat.inv Rat.add Rat.sub in
/-- C31, counterexample. On `exFar` the working mask 0 and the temporary mask
1 hold only the voxel `(2,3,3)`. The only interior voxel, `(3,3,3)`, is not in
the mask; the cycle with `MinDif = 0`, `N2 = 1` examines it and adds the voxel
`(4,3,3)`, which is in the block of no voxel of the mask. `Shape` with seed
mask 0 and `N1 = 0` adds it to its output mask 1 in the same way. -/
theorem Shape_grows_from_unmasked_voxel :
    exFar.interior = [(3, 3, 3)] ∧ exFar.mvoxel 0 (3, 3, 3) = 0 ∧
      (∀ d ∈ exFar.grid, (4, 3, 3) ∈ Shape.block d → exFar.mvoxel 0 d = 0) ∧
      exFar.mvoxel 0 (4, 3, 3) = 0 ∧
      (Shape.cycle exFar 0 1 0 0 1).mvoxel 0 (4, 3, 3) = 1 ∧
      (Shape exFar 0 1 2 0 0 0 1).mvoxel 1 (4, 3, 3) = 1 := by
  decide


/-! ## Rough -/

theorem mem_Rough_loop (c : Int × Int × Int) (N : Int) (p : Int × Int × Int) :
    p ∈ Rough.loop c N ↔
      (c.1 - N ≤ p.1 ∧ p.1 < c.1 + N) ∧ (c.2.1 - N ≤ p.2.1 ∧ p.2.1 < c.2.1 + N) ∧
        (c.2.2 - N ≤ p.2.2 ∧ p.2.2 < c.2.2 + N) := by
  obtain ⟨x, y, z⟩ := p
  simp only [Rough.loop, List.mem_flatMap, List.mem_map, mem_intRange, Prod.mk.injEq]
  constructor
  · rintro ⟨x1, hx, y1, hy, z1, hz, rfl, rfl, rfl⟩
    exact ⟨hx, hy, hz⟩
  · rintro ⟨hx, hy, hz⟩
    exact ⟨x, hx, y, hy, z, hz, rfl, rfl, rfl⟩

/-- The neighbourhood loops of `Rough` visit `(2N)^3` points. -/
theorem Rough_loop_length (c : Int × Int × Int) (N : Int) :
    (Rough.loop c N).length = (2 * N).toNat * ((2 * N).toNat * (2 * N).toNat) := by
  unfold Rough.loop
  rw [length_flatMap_const _ _ ((2 * N).toNat * (2 * N).toNat), intRange_length]
  · congr 2
    omega
  · intro x1 _
    rw [length_flatMap_const _ _ (2 * N).toNat, intRange_length]
    · congr 2
      omega
    · intro y1 _
      rw [List.length_map, intRange_length]
      congr 1
      omega

/-- The neighbourhood loops of `Rough` from any starting buffer, sum and
count: the values of the points that are not skipped are appended to the
buffer in loop order, added to the sum and counted. -/
theorem Rough_collect_fold (sqrt : ℚ → ℚ) (st : State) (m : Int → ℚ) (map1 N : Int)
    (c : Int × Int × Int) (L : List (Int × Int × Int)) (acc : List ℚ × ℚ × Int) :
    L.foldl
        (fun (acc : List ℚ × ℚ × Int) p =>
          if Rough.far sqrt N c p then acc
          else (acc.1 ++ [m (Rough.LOC1 st map1 p)], acc.2.1 + m (Rough.LOC1 st map1 p),
            acc.2.2 + 1)) acc =
      (acc.1 ++ (L.filter (fun p => !Rough.far sqrt N c p)).map
          (fun p => m (Rough.LOC1 st map1 p)),
        acc.2.1 + ((L.filter (fun p => !Rough.far sqrt N c p)).map
          (fun p => m (Rough.LOC1 st map1 p))).sum,
        acc.2.2 + ((L.filter (fun p => !Rough.far sqrt N c p)).length : Int)) := by
  induction L generalizing acc with
  | nil => simp
  | cons a L ih =>
    rw [List.foldl_cons]
    by_cases h : Rough.far sqrt N c a = true
    · rw [if_pos h, ih, List.filter_cons_of_neg (by simp [h])]
    · rw [if_neg h, ih, List.filter_cons_of_pos (by simpa using h)]
      simp only [List.map_cons, List.sum_cons, List.length_cons, List.append_assoc,
        List.singleton_append, Nat.cast_add, Nat.cast_one]
      refine Prod.ext rfl (Prod.ext ?_ ?_)
      · simp only
        ring
      · simp only
        ring

/-- The sample buffer, the sum and the count that the neighbourhood loops of
`Rough` return. -/
theorem Rough_collect_eq (sqrt : ℚ → ℚ) (st : State) (m : Int → ℚ) (map1 N : Int)
    (c : Int × Int × Int) :
    Rough.collect sqrt st m map1 N c =
      (((Rough.loop c N).filter (fun p => !Rough.far sqrt N c p)).map
          (fun p => m (Rough.LOC1 st map1 p)),
        (((Rough.loop c N).filter (fun p => !Rough.far sqrt N c p)).map
          (fun p => m (Rough.LOC1 st map1 p))).sum,
        (((Rough.loop c N).filter (fun p => !Rough.far sqrt N c p)).length : Int)) := by
  unfold Rough.collect
  rw [Rough_collect_fold]
  simp

/-- The centre of a neighbourhood is not skipped when `sqrt 0 = 0` and the
radius is not negative. -/
theorem Rough_far_centre (sqrt : ℚ → ℚ) (hs0 : sqrt 0 = 0) (N : Int) (hN : 0 ≤ N)
    (c : Int × Int × Int) : Rough.far sqrt N c c = false := by
  unfold Rough.far
  simp only [sub_self, mul_zero, add_zero, Int.cast_zero, hs0, gt_iff_lt, decide_eq_false_iff_not,
    not_lt]
  exact_mod_cast hN

/-- C34. The sample buffer of `Rough` (with `sqrt 0 = 0`). A request with
`N > 10` gives the same result as `N = 10`; and for every requested `N >= 1`,
with the radius capped at 10 as `Rough` does, every map store and every voxel,
the count `num` that the neighbourhood loops return is the length of the
sample buffer, is at least 1 and is at most 8000. -/
theorem Rough_sample_bound (sqrt : ℚ → ℚ) (hs0 : sqrt 0 = 0) (st : State) (map1 map2 : Int) :
    (∀ N : Int, 10 < N → Rough sqrt st map1 map2 N = Rough sqrt st map1 map2 10) ∧
      ∀ N : Int, 1 ≤ N → ∀ (m : Int → ℚ) (c : Int × Int × Int),
        (Rough.collect sqrt st m map1 (if N > 10 then 10 else N) c).2.2 =
            ((Rough.collect sqrt st m map1 (if N > 10 then 10 else N) c).1.length : Int) ∧
          1 ≤ (Rough.collect sqrt st m map1 (if N > 10 then 10 else N) c).2.2 ∧
          (Rough.collect sqrt st m map1 (if N > 10 then 10 else N) c).2.2 ≤ 8000 := by
  refine ⟨?_, ?_⟩
  · intro N hN
    unfold Rough
    simp only [gt_iff_lt, if_pos hN, lt_irrefl, if_false]
  · intro N hN m c
    have hcap : 1 ≤ (if N > 10 then 10 else N) ∧ (if N > 10 then 10 else N) ≤ 10 := by
      split_ifs <;> omega
    generalize (if N > 10 then 10 else N) = K at hcap ⊢
    rw [Rough_collect_eq]
    simp only [List.length_map]
    refine ⟨trivial, ?_, ?_⟩
    · have hmem : c ∈ (Rough.loop c K).filter (fun p => !Rough.far sqrt K c p) := by
        rw [List.mem_filter]
        refine ⟨?_, ?_⟩
        · rw [mem_Rough_loop]
          omega
        · rw [Rough_far_centre sqrt hs0 K (by omega) c]
          rfl
      have := List.length_pos_of_mem hmem
      omega
    · have h1 := List.length_filter_le (fun p => !Rough.far sqrt K c p) (Rough.loop c K)
      rw [Rough_loop_length] at h1
      have h2 : (2 * K).toNat ≤ 20 := by omega
      have h3 : (2 * K).toNat * ((2 * K).toNat * (2 * K).toNat) ≤ 20 * (20 * 20) :=
        Nat.mul_le_mul h2 (Nat.mul_le_mul h2 h2)
      omega

unseal Rat.mul Rat.inv Rat.add Rat.sub in
theorem Rough_sample_bound_witness :
    exSqrt 0 = 0 ∧
      ((∀ N : Int, 10 < N → Rough exSqrt exRamp 0 1 N = Rough exSqrt exRamp 0 1 10) ∧
      ∀ N : Int, 1 ≤ N → ∀ (m : Int → ℚ) (c : Int × Int × Int),
        (Rough.collect exSqrt exRamp m 0 (if N > 10 then 10 else N) c).2.2 =
            ((Rough.collect exSqrt exRamp m 0 (if N > 10 then 10 else N) c).1.length : Int) ∧
          1 ≤ (Rough.collect exSqrt exRamp m 0 (if N > 10 then 10 else N) c).2.2 ∧
          (Rough.collect exSqrt exRamp m 0 (if N > 10 then 10 else N) c).2.2 ≤ 8000) :=
  ⟨by decide, Rough_sample_bound exSqrt (by decide) exRamp 0 1⟩

set_option maxRecDepth 100000 in
set_option maxHeartbeats 4000000 in
unseal Rat.mul Rat.inv Rat.add Rat.sub in
/-- C33. The neighbourhood of `Rough` is not symmetric. On `exRamp` (a
`3 * 3 * 3` grid whose voxels hold their coordinate `x`) with `N = 1`, the
loops around `(2,2,2)` collect the points `(1,2,2)`, `(2,1,2)`, `(2,2,1)` and
`(2,2,2)`, with the values `1, 2, 2, 2`: the offset `(-1,0,0)` is sampled and
the offset `(+1,0,0)`, at distance 1 and holding 3, is never visited. -/
theorem Rough_neighbourhood_not_symmetric :
    Rough.collect exRootUp exRamp exRamp.MAP 0 1 (2, 2, 2) = ([1, 2, 2, 2], 7, 4) ∧
      (Rough.loop (2, 2, 2) 1).filter (fun p => !Rough.far exRootUp 1 (2, 2, 2) p) =
        [(1, 2, 2), (2, 1, 2), (2, 2, 1), (2, 2, 2)] ∧
      Rough.far exRootUp 1 (2, 2, 2) (3, 2, 2) = false ∧
      (3, 2, 2) ∉ Rough.loop (2, 2, 2) 1 ∧
      exRamp.voxel 0 (3, 2, 2) = 3 ∧ exRamp.voxel 0 (1, 2, 2) = 1 := by
  decide


/-! ## Roughness of a uniform map -/

/-- The wrap of `Rough` brings a coordinate of the neighbourhood of a grid
voxel back into `1..LIM` when the radius does not exceed `LIM`. -/
theorem Rough_wrap_range (N LIM x p : Int) (hN : N ≤ LIM) (hx1 : 1 ≤ x) (hx2 : x ≤ LIM)
    (hp1 : x - N ≤ p) (hp2 : p < x + N) :
    1 ≤ Rough.wrap p LIM ∧ Rough.wrap p LIM ≤ LIM := by
  unfold Rough.wrap
  split_ifs <;> omega

/-- The index that `Rough` reads for a point of the neighbourhood of a grid
voxel is that of a grid voxel of the source slot, when the radius exceeds no
dimension of the grid. -/
theorem Rough_LOC1_grid (st : State) (map1 N : Int) (hN : N ≤ st.X_LIM ∧ N ≤ st.Y_LIM ∧
    N ≤ st.Z_LIM) (c : Int × Int × Int) (hc : c ∈ st.grid) (p : Int × Int × Int)
    (hp : p ∈ Rough.loop c N) :
    ∃ d ∈ st.grid, Rough.LOC1 st map1 p = st.LOC d + st.XYZ_LIM * map1 := by
  rw [mem_Rough_loop] at hp
  rw [st.mem_grid] at hc
  obtain ⟨⟨a1, a2⟩, ⟨b1, b2⟩, ⟨c1, c2⟩⟩ := hp
  obtain ⟨⟨x1, x2⟩, ⟨y1, y2⟩, ⟨z1, z2⟩⟩ := hc
  refine ⟨(Rough.wrap p.1 st.X_LIM, Rough.wrap p.2.1 st.Y_LIM, Rough.wrap p.2.2 st.Z_LIM),
    ?_, rfl⟩
  rw [st.mem_grid]
  exact ⟨Rough_wrap_range N st.X_LIM c.1 p.1 hN.1 x1 x2 a1 a2,
    Rough_wrap_range N st.Y_LIM c.2.1 p.2.1 hN.2.1 y1 y2 b1 b2,
    Rough_wrap_range N st.Z_LIM c.2.2 p.2.2 hN.2.2 z1 z2 c1 c2⟩

/-- The sum of a list all of whose elements are `k`. -/
theorem sum_const_list (L : List ℚ) (k : ℚ) (h : ∀ v ∈ L, v = k) :
    L.sum = (L.length : ℚ) * k := by
  induction L with
  | nil => simp
  | cons a L ih =>
    rw [List.sum_cons, ih (fun v hv => h v (List.mem_cons_of_mem _ hv)),
      h a (List.mem_cons_self _ _), List.length_cons]
    push_cast
    ring

/-- The sum of squared deviations from `k` of a list all of whose elements
are `k` is 0. -/
theorem sqdev_const_list (L : List ℚ) (k : ℚ) (h : ∀ v ∈ L, v = k) :
    L.foldl (fun (rms : ℚ) v => rms + (v - k) ^ 2) 0 = 0 := by
  induction L with
  | nil => rfl
  | cons a L ih =>
    rw [List.foldl_cons, h a (List.mem_cons_self _ _)]
    simp only [sub_self, ne_eq, OfNat.ofNat_ne_zero, not_false_eq_true, zero_pow, add_zero]
    exact ih (fun v hv => h v (List.mem_cons_of_mem _ hv))

/-- One iteration of the loop of `Rough` writes 0 at its voxel when the source
slot of the store holds one value in every voxel and the radius exceeds no
dimension of the grid. -/
theorem Rough_voxel_uniform (sqrt : ℚ → ℚ) (hs0 : sqrt 0 = 0) (st : State)
    (map1 map2 N : Int) (hN : N ≤ st.X_LIM ∧ N ≤ st.Y_LIM ∧ N ≤ st.Z_LIM) (k : ℚ)
    (m : Int → ℚ) (hm : ∀ d ∈ st.grid, m (st.LOC d + st.XYZ_LIM * map1) = k)
    (c : Int × Int × Int) (hc : c ∈ st.grid) :
    Rough.voxel sqrt st map1 map2 N m c =
      Function.update m (st.LOC c + st.XYZ_LIM * map2) 0 := by
  have hval : ∀ v ∈ ((Rough.loop c N).filter (fun p => !Rough.far sqrt N c p)).map
      (fun p => m (Rough.LOC1 st map1 p)), v = k := by
    intro v hv
    obtain ⟨p, hp, rfl⟩ := List.mem_map.1 hv
    obtain ⟨d, hd, e⟩ := Rough_LOC1_grid st map1 N hN c hc p (List.mem_filter.1 hp).1
    rw [e]
    exact hm d hd
  have hv : Rough.voxel sqrt st map1 map2 N m c =
      Function.update m (st.LOC c + st.XYZ_LIM * map2)
        (sqrt ((Rough.collect sqrt st m map1 N c).1.foldl
          (fun (rms : ℚ) v => rms + (v - (Rough.collect sqrt st m map1 N c).2.1 /
            ((Rough.collect sqrt st m map1 N c).2.2 : ℚ)) ^ 2) 0)) :=
    rfl
  rw [hv, Rough_collect_eq]
  simp only
  by_cases hl : ((Rough.loop c N).filter (fun p => !Rough.far sqrt N c p)).length = 0
  · rw [List.length_eq_zero] at hl
    rw [hl]
    simp only [List.map_nil, List.foldl_nil, hs0]
  · rw [sum_const_list _ k hval, List.length_map]
    have hne : ((((Rough.loop c N).filter (fun p => !Rough.far sqrt N c p)).length : Int) : ℚ)
        ≠ 0 := by
      exact_mod_cast hl
    have havg : ((((Rough.loop c N).filter (fun p => !Rough.far sqrt N c p)).length : Nat) : ℚ)
        * k / ((((Rough.loop c N).filter (fun p => !Rough.far sqrt N c p)).length : Int) : ℚ)
        = k := by
      push_cast at hne ⊢
      field_simp
    rw [havg, sqdev_const_list _ k hval, hs0]

/-- The loop of `Rough` over voxels of the grid, on a store whose source slot
holds one value in every voxel: the source slot stays as it is, and the
destination holds 0 at every voxel of the loop and wherever it held 0. -/
theorem Rough_fold_uniform (sqrt : ℚ → ℚ) (hs0 : sqrt 0 = 0) (st : State) (hwf : st.WF)
    (map1 map2 N : Int) (h12 : map1 ≠ map2)
    (hN : N ≤ st.X_LIM ∧ N ≤ st.Y_LIM ∧ N ≤ st.Z_LIM) (k : ℚ)
    (L : List (Int × Int × Int)) (hL : ∀ c ∈ L, c ∈ st.grid) (m : Int → ℚ)
    (hm : ∀ d ∈ st.grid, m (st.LOC d + st.XYZ_LIM * map1) = k) :
    (∀ d ∈ st.grid,
        (L.foldl (Rough.voxel sqrt st map1 map2 N) m) (st.LOC d + st.XYZ_LIM * map1) = k) ∧
      ∀ d ∈ st.grid, (d ∈ L ∨ m (st.LOC d + st.XYZ_LIM * map2) = 0) →
        (L.foldl (Rough.voxel sqrt st map1 map2 N) m) (st.LOC d + st.XYZ_LIM * map2) = 0 := by
  induction L generalizing m with
  | nil =>
    refine ⟨hm, ?_⟩
    intro d _ h
    rcases h with h | h
    · cases h
    · exact h
  | cons e L ih =>
    rw [List.foldl_cons]
    have he : e ∈ st.grid := hL e (List.mem_cons_self _ _)
    rw [Rough_voxel_uniform sqrt hs0 st map1 map2 N hN k m hm e he]
    have hm2 : ∀ d ∈ st.grid,
        Function.update m (st.LOC e + st.XYZ_LIM * map2) 0 (st.LOC d + st.XYZ_LIM * map1) =
          k := by
      intro d hd
      rw [Function.update_noteq, hm d hd]
      intro q
      exact h12 (st.index_inj2 hwf d e map1 map2 hd he q).2
    obtain ⟨i1, i2⟩ := ih (fun c hc => hL c (List.mem_cons_of_mem _ hc)) _ hm2
    refine ⟨i1, ?_⟩
    intro d hd h
    apply i2 d hd
    by_cases q : st.LOC d + st.XYZ_LIM * map2 = st.LOC e + st.XYZ_LIM * map2
    · right
      rw [q, Function.update_same]
    · rw [Function.update_noteq q]
      rcases h with h | h
      · rcases List.mem_cons.1 h with rfl | hdL
        · exact absurd rfl q
        · exact Or.inl hdL
      · exact Or.inr h

/-- In arithmetic without rounding (well-formed grid, `sqrt 0 = 0`): for
distinct source and destination slots and every radius `N` whose capped value
(10 for `N > 10`) exceeds no dimension of the grid, if every voxel of the
source holds one constant then `Rough` writes 0 to every voxel of the
destination and leaves the source as it is. -/
theorem Rough_uniform_exact (sqrt : ℚ → ℚ) (hs0 : sqrt 0 = 0) (st : State) (hwf : st.WF)
    (map1 map2 N : Int) (h12 : map1 ≠ map2)
    (hN : (if N > 10 then 10 else N) ≤ st.X_LIM ∧ (if N > 10 then 10 else N) ≤ st.Y_LIM ∧
      (if N > 10 then 10 else N) ≤ st.Z_LIM) (k : ℚ)
    (hsrc : ∀ d ∈ st.grid, st.voxel map1 d = k) :
    ∀ d ∈ st.grid, (Rough sqrt st map1 map2 N).voxel map2 d = 0 ∧
      (Rough sqrt st map1 map2 N).voxel map1 d = k := by
  intro d hd
  have hm : ∀ d ∈ st.grid, st.MAP (st.LOC d + st.XYZ_LIM * map1) = k := by
    intro d hd
    rw [← st.voxel_eq]
    exact hsrc d hd
  obtain ⟨i1, i2⟩ := Rough_fold_uniform sqrt hs0 st hwf map1 map2
    (if N > 10 then 10 else N) h12 hN k st.grid (fun c hc => hc) st.MAP hm
  have e2 : (Rough sqrt st map1 map2 N).voxel map2 d =
      (st.grid.foldl (Rough.voxel sqrt st map1 map2 (if N > 10 then 10 else N)) st.MAP)
        (st.LOC d + st.XYZ_LIM * map2) := by
    rw [State.voxel_eq]
    rfl
  have e1 : (Rough sqrt st map1 map2 N).voxel map1 d =
      (st.grid.foldl (Rough.voxel sqrt st map1 map2 (if N > 10 then 10 else N)) st.MAP)
        (st.LOC d + st.XYZ_LIM * map1) := by
    rw [State.voxel_eq]
    rfl
  rw [e1, e2]
  exact ⟨i2 d hd (Or.inl hd), i1 d hd⟩


/-! ## Smear writes outside its destination and scratch -/

/-- A loop of growing steps is a growing step. -/
theorem foldl_grows {α : Type} (step : (Int → ℚ) → α → (Int → ℚ)) (L : List α)
    (h : ∀ a ∈ L, Grows (fun m => step m a)) : Grows (fun m => L.foldl step m) := by
  induction L with
  | nil => exact fun m hm => ⟨hm, fun _ => le_refl _⟩
  | cons a L ih =>
    intro m hm
    obtain ⟨n1, g1⟩ := h a (List.mem_cons_self _ _) m hm
    obtain ⟨n2, g2⟩ := ih (fun b hb => h b (List.mem_cons_of_mem _ hb)) (step m a) n1
    exact ⟨n2, fun i => le_trans (g1 i) (g2 i)⟩

/-- Adding an amount that is not negative to one cell is a growing step. -/
theorem update_add_grows (j : Int) (w : ℚ) (hw : 0 ≤ w) (m : Int → ℚ) (hm : NonnegStore m) :
    NonnegStore (Function.update m j (m j + w)) ∧
      ∀ i, m i ≤ Function.update m j (m j + w) i := by
  refine ⟨fun i => ?_, fun i => ?_⟩
  · by_cases e : i = j
    · rw [e, Function.update_same]
      exact add_nonneg (hm j) hw
    · rw [Function.update_noteq e]
      exact hm i
  · by_cases e : i = j
    · rw [e, Function.update_same]
      exact le_add_of_nonneg_right hw
    · rw [Function.update_noteq e]

/-- The weights of `Smear` are not negative. -/
theorem Smear_mod_nonneg (N : Int) (hN : 1 ≤ N) (d : Int) : 0 ≤ Smear.mod N d := by
  unfold Smear.mod
  split_ifs with h
  · rw [Smear_norm_sq N hN]
    apply div_nonneg
    · exact_mod_cast (by omega : (0 : Int) ≤ N - d)
    · exact mul_nonneg (by exact_mod_cast (by omega : (0 : Int) ≤ N))
        (by exact_mod_cast (by omega : (0 : Int) ≤ N))
  · exact le_refl _

/-- A pass of `Smear` is a loop, over the voxels, of loops that add to one
cell the product of a cell and a weight: a growing step. -/
theorem pass_grows {α : Type} (N : Int) (hN : 1 ≤ N) (L : List (Int × Int × Int))
    (src : Int × Int × Int → Int) (nb : Int × Int × Int → List α)
    (dst : Int × Int × Int → α → Int) (dist : Int × Int × Int → α → Int) :
    Grows (fun m => L.foldl (fun (m : Int → ℚ) c =>
      (nb c).foldl (fun (m2 : Int → ℚ) a =>
        Function.update m2 (dst c a) (m2 (dst c a) + m (src c) * Smear.mod N (dist c a))) m)
      m) := by
  apply foldl_grows
  intro c _ m hm
  exact foldl_grows (fun (m2 : Int → ℚ) a =>
      Function.update m2 (dst c a) (m2 (dst c a) + m (src c) * Smear.mod N (dist c a)))
    (nb c) (fun a _ m2 hm2 => update_add_grows (dst c a) _
      (mul_nonneg (hm (src c)) (Smear_mod_nonneg N hN _)) m2 hm2) m hm

theorem Smear_passX_grows (st : State) (map2 map3 N : Int) (hN : 1 ≤ N)
    (h : NonnegStore st.MAP) :
    NonnegStore (Smear.passX st map2 map3 N).MAP ∧
      ∀ i, st.MAP i ≤ (Smear.passX st map2 map3 N).MAP i :=
  pass_grows N hN st.grid
    (fun c => (c.1 - 1) + (c.2.1 - 1) * st.X_LIM + (c.2.2 - 1) * st.XY_LIM + st.XYZ_LIM * map2)
    (fun c => intRange (c.1 - N + 1) (c.1 + N))
    (fun c x3a => (Smear.wrap x3a st.X_LIM - 1) + (c.2.1 - 1) * st.X_LIM +
      (c.2.2 - 1) * st.XY_LIM + st.XYZ_LIM * map3)
    (fun c x3a => ((c.1 - x3a).natAbs : Int)) st.MAP h

theorem Smear_passY_grows (st : State) (map2 map3 N : Int) (hN : 1 ≤ N)
    (h : NonnegStore st.MAP) :
    NonnegStore (Smear.passY st map2 map3 N).MAP ∧
      ∀ i, st.MAP i ≤ (Smear.passY st map2 map3 N).MAP i :=
  pass_grows N hN st.grid
    (fun c => (c.1 - 1) + (c.2.1 - 1) * st.X_LIM + (c.2.2 - 1) * st.XY_LIM + st.XYZ_LIM * map2)
    (fun c => intRange (c.2.1 - N + 1) (c.2.1 + N))
    (fun c y3a => (c.1 - 1) + (Smear.wrap y3a st.Y_LIM - 1) * st.X_LIM +
      (c.2.2 - 1) * st.XY_LIM + st.XYZ_LIM * map3)
    (fun c y3a => ((c.2.1 - y3a).natAbs : Int)) st.MAP h

theorem Smear_passZ_grows (st : State) (map2 map3 N : Int) (hN : 1 ≤ N)
    (h : NonnegStore st.MAP) :
    NonnegStore (Smear.passZ st map2 map3 N).MAP ∧
      ∀ i, st.MAP i ≤ (Smear.passZ st map2 map3 N).MAP i :=
  pass_grows N hN st.grid
    (fun c => (c.1 - 1) + (c.2.1 - 1) * st.X_LIM + (c.2.2 - 1) * st.XY_LIM + st.XYZ_LIM * map2)
    (fun c => intRange (c.2.2 - N + 1) (c.2.2 + N))
    (fun c z3a => (c.1 - 1) + (c.2.1 - 1) * st.X_LIM +
      (Smear.wrap z3a st.Z_LIM - 1) * st.XY_LIM + st.XYZ_LIM * map3)
    (fun c z3a => ((c.2.2 - z3a).natAbs : Int)) st.MAP h

/-- The call `MapMod(map1, map2, 2, 0, +1)` is a growing step. -/
theorem MapMod_grows (st : State) (map1 map2 : Int) (h : NonnegStore st.MAP) :
    NonnegStore (MapMod st map1 map2 Zone.Total 0 1).MAP ∧
      ∀ i, st.MAP i ≤ (MapMod st map1 map2 Zone.Total 0 1).MAP i := by
  refine foldl_grows (fun (m : Int → ℚ) c =>
      if st.skip Zone.Total 0 c then m
      else Function.update m (st.LOC c + st.XYZ_LIM * map1)
        (m (st.LOC c + st.XYZ_LIM * map1) + 1 * m (st.LOC c + st.XYZ_LIM * map2)))
    st.grid ?_ st.MAP h
  intro c _ m hm
  simp only
  split_ifs
  · exact ⟨hm, fun _ => le_refl _⟩
  · exact update_add_grows _ _ (mul_nonneg zero_le_one (hm _)) m hm

/-- The call `Zero` leaves no negative cell in a store that had none. -/
theorem Zero_nonneg (st : State) (hwf : st.WF) (map1 : Int) (zone : Zone) (msk1 : Int)
    (h : NonnegStore st.MAP) : NonnegStore (Zero st map1 zone msk1).2.MAP := by
  rw [(Zero_fold st hwf map1 zone msk1).2]
  generalize st.MAP = m at h
  induction st.grid generalizing m with
  | nil => exact h
  | cons a L ih =>
    rw [List.foldl_cons]
    apply ih
    unfold updStep
    split_ifs
    · exact h
    · intro i
      by_cases e : i = st.LOC a + st.XYZ_LIM * map1
      · rw [e, Function.update_same]
      · rw [Function.update_noteq e]
        exact h i


theorem Zero_SameGrid (st : State) (map1 : Int) (zone : Zone) (msk1 : Int) :
    (Zero st map1 zone msk1).2.SameGrid st :=
  ⟨rfl, rfl, rfl, rfl, rfl, rfl⟩

theorem MapMod_SameGrid (st : State) (map1 map2 : Int) (zone : Zone) (msk1 : Int) (value : ℚ) :
    (MapMod st map1 map2 zone msk1 value).SameGrid st :=
  ⟨rfl, rfl, rfl, rfl, rfl, rfl⟩

theorem Smear_passX_SameGrid (st : State) (map2 map3 N : Int) :
    (Smear.passX st map2 map3 N).SameGrid st :=
  ⟨rfl, rfl, rfl, rfl, rfl, rfl⟩

theorem Smear_passY_SameGrid (st : State) (map2 map3 N : Int) :
    (Smear.passY st map2 map3 N).SameGrid st :=
  ⟨rfl, rfl, rfl, rfl, rfl, rfl⟩

theorem Smear_passZ_SameGrid (st : State) (map2 map3 N : Int) :
    (Smear.passZ st map2 map3 N).SameGrid st :=
  ⟨rfl, rfl, rfl, rfl, rfl, rfl⟩

/-- The calls `Zero(map2, 2, 0)`, `MapMod(map2, map3, 2, 0, +1)` and
`Zero(map3, 2, 0)` that follow a pass of `Smear`: they leave no negative cell
and do not lower a cell outside the slots `map2` and `map3`. -/
theorem Smear_reset_ge (st : State) (hwf : st.WF) (map2 map3 : Int) (s : State)
    (hs : s.SameGrid st) (ns : NonnegStore s.MAP) (j : Int)
    (hj : ∀ c ∈ st.grid, st.LOC c + st.XYZ_LIM * map2 ≠ j ∧ st.LOC c + st.XYZ_LIM * map3 ≠ j) :
    (Zero (MapMod (Zero s map2 Zone.Total 0).2 map2 map3 Zone.Total 0 1) map3
        Zone.Total 0).2.SameGrid st ∧
      NonnegStore (Zero (MapMod (Zero s map2 Zone.Total 0).2 map2 map3 Zone.Total 0 1) map3
        Zone.Total 0).2.MAP ∧
      s.MAP j ≤ (Zero (MapMod (Zero s map2 Zone.Total 0).2 map2 map3 Zone.Total 0 1) map3
        Zone.Total 0).2.MAP j := by
  have ws : s.WF := hs.WF hwf
  have hjs : ∀ c ∈ s.grid,
      s.LOC c + s.XYZ_LIM * map2 ≠ j ∧ s.LOC c + s.XYZ_LIM * map3 ≠ j := by
    intro c hc
    rw [hs.grid] at hc
    rw [hs.LOC c, hs.2.2.2.2.1]
    exact hj c hc
  have m1 := Zero_nonneg s ws map2 Zone.Total 0 ns
  have e1 := Zero_frame s ws map2 Zone.Total 0 j (fun c hc => (hjs c hc).1)
  have v1 : (Zero s map2 Zone.Total 0).2.WF := ws
  obtain ⟨m2, g2⟩ := MapMod_grows (Zero s map2 Zone.Total 0).2 map2 map3 m1
  have v2 : (MapMod (Zero s map2 Zone.Total 0).2 map2 map3 Zone.Total 0 1).WF := ws
  have m3 := Zero_nonneg _ v2 map3 Zone.Total 0 m2
  have e3 := Zero_frame _ v2 map3 Zone.Total 0 j (fun c hc => (hjs c hc).2)
  refine ⟨?_, m3, ?_⟩
  · exact ((Zero_SameGrid _ map3 Zone.Total 0).trans
      ((MapMod_SameGrid _ map2 map3 Zone.Total 0 1).trans
        (Zero_SameGrid s map2 Zone.Total 0))).trans hs
  · rw [e3, ← e1]
    exact g2 j

/-- A cell outside the destination and the scratch slot is not lowered by the
steps of `Smear` that follow the X pass (well-formed grid, no negative cell,
`N >= 1`). -/
theorem Smear_cell_ge (st : State) (hwf : st.WF) (map1 map2 map3 N : Int) (hN : 1 ≤ N)
    (h : NonnegStore st.MAP) (j : Int)
    (hj : ∀ c ∈ st.grid, st.LOC c + st.XYZ_LIM * map2 ≠ j ∧ st.LOC c + st.XYZ_LIM * map3 ≠ j) :
    (Smear.passX (Zero (MapMod (Zero st map2 Zone.Total 0).2 map2 map1 Zone.Total 0 1) map3
        Zone.Total 0).2 map2 map3 N).MAP j ≤ (Smear st map1 map2 map3 N).MAP j := by
  have n1 := Zero_nonneg st hwf map2 Zone.Total 0 h
  have s1 := Zero_SameGrid st map2 Zone.Total 0
  have n2 := (MapMod_grows (Zero st map2 Zone.Total 0).2 map2 map1 n1).1
  have s2 := (MapMod_SameGrid (Zero st map2 Zone.Total 0).2 map2 map1 Zone.Total 0 1).trans s1
  have n3 := Zero_nonneg _ (s2.WF hwf) map3 Zone.Total 0 n2
  have s3 := (Zero_SameGrid (MapMod (Zero st map2 Zone.Total 0).2 map2 map1 Zone.Total 0 1)
    map3 Zone.Total 0).trans s2
  obtain ⟨n4, _⟩ := Smear_passX_grows _ map2 map3 N hN n3
  have s4 := (Smear_passX_SameGrid _ map2 map3 N).trans s3
  obtain ⟨s5, n5, g5⟩ := Smear_reset_ge st hwf map2 map3 _ s4 n4 j hj
  obtain ⟨n6, g6⟩ := Smear_passY_grows _ map2 map3 N hN n5
  have s6 := (Smear_passY_SameGrid _ map2 map3 N).trans s5
  obtain ⟨s7, n7, g7⟩ := Smear_reset_ge st hwf map2 map3 _ s6 n6 j hj
  obtain ⟨n8, g8⟩ := Smear_passZ_grows _ map2 map3 N hN n7
  have s8 := (Smear_passZ_SameGrid _ map2 map3 N).trans s7
  obtain ⟨_, _, g9⟩ := Smear_reset_ge st hwf map2 map3 _ s8 n8 j hj
  exact le_trans g5 (le_trans (g6 j) (le_trans g7 (le_trans (g8 j) g9)))

set_option maxRecDepth 100000 in
set_option maxHeartbeats 4000000 in
unseal Rat.mul Rat.inv Rat.add Rat.sub in
/-- C36. `Smear` changes its source. On the `2 * 2 * 2` grid `exUniform`,
whose map slot 0 holds 1 in every voxel, `Smear(0, 2, 1, 2)` (source 0,
destination 2, scratch 1, `N = 2`) writes in its X pass the neighbour
coordinate 0 of the voxel `(1,1,1)`, which the wrap keeps, one cell before the
scratch slot: the voxel `(2,2,2)` of the source slot holds 5/4 after the X
pass and at least 5/4 when `Smear` returns. -/
theorem Smear_changes_source :
    (∀ c ∈ exUniform.grid, exUniform.voxel 0 c = 1) ∧
      Smear.wrap (1 + -1) 2 = 0 ∧
      (Smear.passX (Zero (MapMod (Zero exUniform 2 Zone.Total 0).2 2 0 Zone.Total 0 1) 1
        Zone.Total 0).2 2 1 2).voxel 0 (2, 2, 2) = 5 / 4 ∧
      5 / 4 ≤ (Smear exUniform 0 2 1 2).voxel 0 (2, 2, 2) := by
  have hx : (Smear.passX (Zero (MapMod (Zero exUniform 2 Zone.Total 0).2 2 0 Zone.Total 0 1) 1
      Zone.Total 0).2 2 1 2).voxel 0 (2, 2, 2) = 5 / 4 := by
    decide
  have hn : NonnegStore exUniform.MAP := by
    intro i
    show (0 : ℚ) ≤ if 0 ≤ i ∧ i < 8 then 1 else 0
    split_ifs
    · exact zero_le_one
    · exact le_refl _
  have hj : ∀ c ∈ exUniform.grid, exUniform.LOC c + exUniform.XYZ_LIM * 2 ≠ 7 ∧
      exUniform.LOC c + exUniform.XYZ_LIM * 1 ≠ 7 := by
    decide
  have hge := Smear_cell_ge exUniform ⟨rfl, rfl⟩ 0 2 1 2 (by decide) hn 7 hj
  refine ⟨by decide, by decide, hx, ?_⟩
  have e1 : (Smear exUniform 0 2 1 2).voxel 0 (2, 2, 2) = (Smear exUniform 0 2 1 2).MAP 7 := rfl
  have e2 : (Smear.passX (Zero (MapMod (Zero exUniform 2 Zone.Total 0).2 2 0 Zone.Total 0 1) 1
      Zone.Total 0).2 2 1 2).voxel 0 (2, 2, 2) =
      (Smear.passX (Zero (MapMod (Zero exUniform 2 Zone.Total 0).2 2 0 Zone.Total 0 1) 1
        Zone.Total 0).2 2 1 2).MAP 7 := rfl
  rw [e1]
  rw [e2] at hx
  rw [← hx]
  exact hge


/-! ## C11: the statistics in binary32 -/

theorem parms_foldF {C : Type} (r32 : ℚ → ℚ) (L : List C) (skip : C → Bool) (val : C → ℚ)
    (v : ℚ) (hv : ∀ c ∈ L, skip c = false → val c = v) (p0 : Parms) (j : Nat)
    (ht : p0.tot = (j : ℚ) * v) (hn : p0.num = (j : Int))
    (h32 : ∀ k : Nat, k ≤ j + (L.filter (fun c => !skip c)).length →
      r32 ((k : ℚ) * v) = (k : ℚ) * v) :
    (L.foldl (fun p c => if skip c then p else p.stepF r32 (val c)) p0).num =
        ((j + (L.filter (fun c => !skip c)).length : Nat) : Int) ∧
      (L.foldl (fun p c => if skip c then p else p.stepF r32 (val c)) p0).tot =
        ((j + (L.filter (fun c => !skip c)).length : Nat) : ℚ) * v := by
  induction L generalizing p0 j with
  | nil => simpa using ⟨hn, ht⟩
  | cons a L ih =>
    rw [List.foldl_cons]
    cases hs : skip a with
    | true =>
      simp only [if_true, List.filter_cons, hs, Bool.not_true, Bool.false_eq_true, if_false]
      refine ih (fun c hc => hv c (List.mem_cons_of_mem a hc)) p0 j ht hn ?_
      intro k hk
      apply h32
      simpa [List.filter_cons, hs] using hk
    | false =>
      simp only [Bool.false_eq_true, if_false, List.filter_cons, hs, Bool.not_false, if_true,
        List.length_cons]
      have e : j + ((L.filter (fun c => !skip c)).length + 1) =
          (j + 1) + (L.filter (fun c => !skip c)).length := by omega
      rw [e]
      refine ih (fun c hc => hv c (List.mem_cons_of_mem a hc)) (p0.stepF r32 (val a)) (j + 1)
        ?_ ?_ ?_
      · simp only [Parms.stepF]
        rw [ht, hv a (List.mem_cons_self a L) hs]
        have := h32 (j + 1) (by simp [List.filter_cons, hs])
        push_cast at this ⊢
        rw [← this]
        congr 1
        ring
      · simp only [Parms.stepF]
        rw [hn]
        push_cast
        ring
      · intro k hk
        apply h32
        simp only [List.filter_cons, hs, Bool.not_false, if_true, List.length_cons]
        omega

/-- The loop of `FindParms` with rounding on a selection that holds one
constant `v` whose multiples up to the count are not rounded. -/
theorem FindParms_loopF_const (r32 : ℚ → ℚ) (st : State) (map1 : Int) (zone : Zone)
    (msk1 : Int) (hz : st.ZoneOK zone msk1) (v : ℚ)
    (hv : ∀ c ∈ st.grid, st.Selected zone msk1 c → st.voxel map1 c = v)
    (h32 : ∀ k : Nat, k ≤ st.selectedCount zone msk1 → r32 ((k : ℚ) * v) = (k : ℚ) * v) :
    (FindParms.loopF r32 st map1 zone msk1).num = (st.selectedCount zone msk1 : Int) ∧
      (FindParms.loopF r32 st map1 zone msk1).tot = (st.selectedCount zone msk1 : ℚ) * v := by
  have h := parms_foldF r32 st.grid (st.skip zone msk1)
    (fun c => st.MAP (st.LOC c + map1 * st.XYZ_LIM)) v
    (fun c hc hs => hv c hc ((st.skip_eq_false_iff zone msk1 c hz hc).1 hs))
    { max := -1000, min := 1000, tot := 0, num := 0 } 0 (by simp) (by simp)
    (by
      rw [filter_selected st zone msk1 hz, Nat.zero_add]
      exact h32)
  rw [filter_selected st zone msk1 hz, Nat.zero_add] at h
  exact h

theorem FindParmsF_records (r32 r64 : ℚ → ℚ) (st : State) (map1 : Int) (zone : Zone)
    (msk1 : Int) :
    (FindParmsF r32 r64 st map1 zone msk1).2.map_num map1 zone.code =
        (FindParms.loopF r32 st map1 zone msk1).num ∧
      (FindParmsF r32 r64 st map1 zone msk1).2.map_avg map1 zone.code =
        r32 (r64 ((FindParms.loopF r32 st map1 zone msk1).tot /
          r64 (((FindParms.loopF r32 st map1 zone msk1).num : ℚ) * 1))) ∧
      (FindParmsF r32 r64 st map1 zone msk1).1 =
        (FindParmsF r32 r64 st map1 zone msk1).2.map_avg map1 zone.code := by
  unfold FindParmsF
  simp only [set2]
  split_ifs <;> simp

theorem FindParmsF_SameGrid (r32 r64 : ℚ → ℚ) (st : State) (map1 : Int) (zone : Zone)
    (msk1 : Int) :
    (FindParmsF r32 r64 st map1 zone msk1).2.SameGrid st ∧
      (FindParmsF r32 r64 st map1 zone msk1).2.MAP = st.MAP := by
  unfold FindParmsF State.SameGrid
  simp only
  split_ifs <;> exact ⟨⟨rfl, rfl, rfl, rfl, rfl, rfl⟩, rfl⟩

theorem FindRMSF_records (r32 sqrt : ℚ → ℚ) (st : State) (map1 : Int) (zone : Zone)
    (msk1 : Int) :
    (FindRMSF r32 sqrt st map1 zone msk1).2.map_var map1 zone.code =
        r32 (FindRMS.loopF r32 st map1 zone msk1 / r32 (st.map_num map1 zone.code : ℚ)) ∧
      (FindRMSF r32 sqrt st map1 zone msk1).1 =
        sqrt ((FindRMSF r32 sqrt st map1 zone msk1).2.map_var map1 zone.code) ∧
      (FindRMSF r32 sqrt st map1 zone msk1).2.map_rms map1 zone.code =
        (FindRMSF r32 sqrt st map1 zone msk1).1 := by
  unfold FindRMSF
  simp only [set2]
  split_ifs <;> simp

theorem sqdev_foldF {C : Type} (r32 : ℚ → ℚ) (h0 : r32 0 = 0) (L : List C) (skip : C → Bool)
    (val : C → ℚ) (v : ℚ) (hv : ∀ c ∈ L, skip c = false → val c = v) :
    L.foldl (fun (sum : ℚ) c =>
      if skip c then sum else r32 (sum + r32 (r32 (val c - v) * r32 (val c - v)))) 0 = 0 := by
  induction L with
  | nil => rfl
  | cons a L ih =>
    rw [List.foldl_cons]
    cases hs : skip a with
    | true =>
      simp only [if_true]
      exact ih (fun c hc => hv c (List.mem_cons_of_mem a hc))
    | false =>
      simp only [Bool.false_eq_true, if_false]
      rw [hv a (List.mem_cons_self a L) hs, sub_self, h0, mul_zero, h0, add_zero, h0]
      exact ih (fun c hc => hv c (List.mem_cons_of_mem a hc))

/-- The loop of `FindRMS` with rounding on a selection that holds the constant
of the cell `map_avg[map1][zone]`. -/
theorem FindRMS_loopF_const (r32 : ℚ → ℚ) (h0 : r32 0 = 0) (st : State) (map1 : Int)
    (zone : Zone) (msk1 : Int) (hz : st.ZoneOK zone msk1)
    (hv : ∀ c ∈ st.grid, st.Selected zone msk1 c →
      st.voxel map1 c = st.map_avg map1 zone.code) :
    FindRMS.loopF r32 st map1 zone msk1 = 0 :=
  sqdev_foldF r32 h0 st.grid (st.skip zone msk1)
    (fun c => st.MAP (st.LOC c + map1 * st.XYZ_LIM)) (st.map_avg map1 zone.code)
    (fun c hc hs => hv c hc ((st.skip_eq_false_iff zone msk1 c hz hc).1 hs))

/-- With rounding, `FindParms` and `FindRMS` on a zone that selects `N >= 1`
voxels, all holding the constant `v`, when the multiples `k * v` for
`k <= N` are not rounded: the mean is `v`, the variance 0 and the rms 0. -/
theorem FindRMSF_const (r32 r64 sqrt : ℚ → ℚ) (st : State) (map1 : Int) (zone : Zone)
    (msk1 : Int) (hz : st.ZoneOK zone msk1) (hsel : 0 < st.selectedCount zone msk1)
    (hsqrt : sqrt 0 = 0) (v : ℚ)
    (hv : ∀ c ∈ st.grid, st.Selected zone msk1 c → st.voxel map1 c = v)
    (h32 : ∀ k : Nat, k ≤ st.selectedCount zone msk1 → r32 ((k : ℚ) * v) = (k : ℚ) * v)
    (h64 : r64 v = v)
    (h64N : r64 (st.selectedCount zone msk1 : ℚ) = (st.selectedCount zone msk1 : ℚ)) :
    (FindParmsF r32 r64 st map1 zone msk1).1 = v ∧
      (FindRMSF r32 sqrt (FindParmsF r32 r64 st map1 zone msk1).2 map1 zone msk1).2.map_var
        map1 zone.code = 0 ∧
      (FindRMSF r32 sqrt (FindParmsF r32 r64 st map1 zone msk1).2 map1 zone msk1).1 = 0 := by
  obtain ⟨g, hm⟩ := FindParmsF_SameGrid r32 r64 st map1 zone msk1
  obtain ⟨r1, r2, r3⟩ := FindParmsF_records r32 r64 st map1 zone msk1
  obtain ⟨l1, l2⟩ := FindParms_loopF_const r32 st map1 zone msk1 hz v hv h32
  obtain ⟨f1, f2, _⟩ :=
    FindRMSF_records r32 sqrt (FindParmsF r32 r64 st map1 zone msk1).2 map1 zone msk1
  have hN : (st.selectedCount zone msk1 : ℚ) ≠ 0 := by
    have : st.selectedCount zone msk1 ≠ 0 := by omega
    exact_mod_cast this
  have h0 : r32 0 = 0 := by simpa using h32 0 (Nat.zero_le _)
  have h1 : r32 v = v := by simpa using h32 1 hsel
  have havg : (FindParmsF r32 r64 st map1 zone msk1).2.map_avg map1 zone.code = v := by
    rw [r2, l1, l2]
    simp only [Int.cast_natCast, mul_one]
    rw [h64N, mul_div_cancel_left₀ v hN, h64, h1]
  have hsum : FindRMS.loopF r32 (FindParmsF r32 r64 st map1 zone msk1).2 map1 zone msk1 = 0 := by
    apply FindRMS_loopF_const r32 h0 _ map1 zone msk1 (g.ZoneOK zone msk1 hz)
    intro c hc hs
    rw [havg, g.voxel hm map1 c]
    rw [g.grid] at hc
    exact hv c hc ((g.Selected zone msk1 c).1 hs)
  have hvar : (FindRMSF r32 sqrt (FindParmsF r32 r64 st map1 zone msk1).2 map1 zone msk1).2.map_var
      map1 zone.code = 0 := by
    rw [f1, hsum, zero_div, h0]
  exact ⟨r3.trans havg, hvar, by rw [f2, hvar, hsqrt]⟩

set_option maxRecDepth 100000 in
set_option maxHeartbeats 4000000 in
unseal Rat.mul Rat.inv Rat.add Rat.sub in
/-- C11 as stated fails. Every voxel of `exSix` holds the `float` nearest to
0.3; in binary32 the six additions of `FindParms` round, the mean it records
is `10066329 / 2^25`, one unit in the last place below the voxel value, and
`FindRMS` records the variance `2^-50` and returns the rms `2^-25`, not 0. -/
theorem FindRMS_constant_not_zero :
    (∀ c ∈ exSix.grid, exSix.voxel 0 c = exTenths) ∧ binary32 exTenths = exTenths ∧
      (FindParmsF binary32 binary64 exSix 0 Zone.Total 0).1 = 10066329 / 33554432 ∧
      (FindRMSF binary32 sqrt32 (FindParmsF binary32 binary64 exSix 0 Zone.Total 0).2 0
        Zone.Total 0).2.map_var 0 Zone.Total.code = 1 / 2 ^ 50 ∧
      (FindRMSF binary32 sqrt32 (FindParmsF binary32 binary64 exSix 0 Zone.Total 0).2 0
        Zone.Total 0).1 = 1 / 2 ^ 25 := by
  decide

/-- C11, amended. `FindRMS` run after `FindParms` for the same slot and zone,
when the zone selects `N >= 1` voxels (0/1 mask for Inside and Outside). In
arithmetic without rounding the variance recorded is `(1/N)` times the sum over
the selected voxels of `(v - mean) ^ 2`, with `mean` the sum of the selected
voxels divided by `N`, and the value returned is `sqrt` of the variance and
is recorded as the rms. With the rounding of the program (`r32`, `r64`), when
every selected voxel holds one constant `v` whose multiples `k * v` for
`k <= N` are not rounded, `N` and `v` not being rounded in `double`, the mean
is `v`, the variance is 0 and, `sqrt 0` being 0, the rms is 0. -/
theorem FindRMS_after_FindParms (r32 r64 sqrt : ℚ → ℚ) (st : State) (map1 : Int)
    (zone : Zone) (msk1 : Int) (hz : st.ZoneOK zone msk1)
    (hsel : 0 < st.selectedCount zone msk1) (hsqrt : sqrt 0 = 0) :
    (FindRMS sqrt (FindParms st map1 zone msk1).2 map1 zone msk1).2.map_var map1 zone.code =
        (1 / (st.selectedCount zone msk1 : ℚ)) *
          st.selectedSqDev map1 zone msk1
            (st.selectedSum map1 zone msk1 / (st.selectedCount zone msk1 : ℚ)) ∧
      (FindRMS sqrt (FindParms st map1 zone msk1).2 map1 zone msk1).1 =
        sqrt ((FindRMS sqrt (FindParms st map1 zone msk1).2 map1 zone msk1).2.map_var
          map1 zone.code) ∧
      (FindRMS sqrt (FindParms st map1 zone msk1).2 map1 zone msk1).2.map_rms map1 zone.code =
        (FindRMS sqrt (FindParms st map1 zone msk1).2 map1 zone msk1).1 ∧
      (∀ v, (∀ c ∈ st.grid, st.Selected zone msk1 c → st.voxel map1 c = v) →
        (∀ k : Nat, k ≤ st.selectedCount zone msk1 → r32 ((k : ℚ) * v) = (k : ℚ) * v) →
        r64 v = v →
        r64 (st.selectedCount zone msk1 : ℚ) = (st.selectedCount zone msk1 : ℚ) →
        (FindParmsF r32 r64 st map1 zone msk1).1 = v ∧
          (FindRMSF r32 sqrt (FindParmsF r32 r64 st map1 zone msk1).2 map1 zone
            msk1).2.map_var map1 zone.code = 0 ∧
          (FindRMSF r32 sqrt (FindParmsF r32 r64 st map1 zone msk1).2 map1 zone msk1).1 = 0 ∧
          (FindRMSF r32 sqrt (FindParmsF r32 r64 st map1 zone msk1).2 map1 zone
            msk1).2.map_rms map1 zone.code = 0) := by
  obtain ⟨e1, e2, e3⟩ := FindRMS_variance_exact sqrt st map1 zone msk1 hz hsel
  refine ⟨e1, e2, e3, ?_⟩
  intro v hv h32 h64 h64N
  obtain ⟨c1, c2, c3⟩ :=
    FindRMSF_const r32 r64 sqrt st map1 zone msk1 hz hsel hsqrt v hv h32 h64 h64N
  exact ⟨c1, c2, c3,
    ((FindRMSF_records r32 sqrt (FindParmsF r32 r64 st map1 zone msk1).2 map1 zone
      msk1).2.2).trans c3⟩

set_option maxRecDepth 100000 in
set_option maxHeartbeats 4000000 in
unseal Rat.mul Rat.inv Rat.add Rat.sub in
theorem FindRMS_after_FindParms_witness :
    exOnes.ZoneOK Zone.Total 0 ∧ 0 < exOnes.selectedCount Zone.Total 0 ∧ sqrt32 0 = 0 ∧
    (∀ c ∈ exOnes.grid, exOnes.Selected Zone.Total 0 c → exOnes.voxel 0 c = 1) ∧
    (∀ k : Nat, k ≤ exOnes.selectedCount Zone.Total 0 →
      binary32 ((k : ℚ) * 1) = (k : ℚ) * 1) ∧
    binary64 1 = 1 ∧
    binary64 (exOnes.selectedCount Zone.Total 0 : ℚ) = (exOnes.selectedCount Zone.Total 0 : ℚ) ∧
    (FindRMS sqrt32 (FindParms exOnes 0 Zone.Total 0).2 0 Zone.Total 0).2.map_var 0
        Zone.Total.code =
      (1 / (exOnes.selectedCount Zone.Total 0 : ℚ)) *
        exOnes.selectedSqDev 0 Zone.Total 0
          (exOnes.selectedSum 0 Zone.Total 0 / (exOnes.selectedCount Zone.Total 0 : ℚ)) ∧
    (FindParmsF binary32 binary64 exOnes 0 Zone.Total 0).1 = 1 ∧
    (FindRMSF binary32 sqrt32 (FindParmsF binary32 binary64 exOnes 0 Zone.Total 0).2 0
      Zone.Total 0).2.map_var 0 Zone.Total.code = 0 ∧
    (FindRMSF binary32 sqrt32 (FindParmsF binary32 binary64 exOnes 0 Zone.Total 0).2 0
      Zone.Total 0).1 = 0 :=
  have hc : ∀ c ∈ exOnes.grid, exOnes.Selected Zone.Total 0 c → exOnes.voxel 0 c = 1 :=
    fun _ _ _ => rfl
  have h32 : ∀ k : Nat, k ≤ exOnes.selectedCount Zone.Total 0 →
      binary32 ((k : ℚ) * 1) = (k : ℚ) * 1 := by decide
  have h64N : binary64 (exOnes.selectedCount Zone.Total 0 : ℚ) =
      (exOnes.selectedCount Zone.Total 0 : ℚ) := by decide
  ⟨zoneOK_Total exOnes 0, by decide, by decide, hc, h32, by decide, h64N,
    (FindRMS_after_FindParms binary32 binary64 sqrt32 exOnes 0 Zone.Total 0
      (zoneOK_Total exOnes 0) (by decide) (by decide)).1,
    ((FindRMS_after_FindParms binary32 binary64 sqrt32 exOnes 0 Zone.Total 0
      (zoneOK_Total exOnes 0) (by decide) (by decide)).2.2.2 1 hc h32 (by decide) h64N).1,
    ((FindRMS_after_FindParms binary32 binary64 sqrt32 exOnes 0 Zone.Total 0
      (zoneOK_Total exOnes 0) (by decide) (by decide)).2.2.2 1 hc h32 (by decide) h64N).2.1,
    ((FindRMS_after_FindParms binary32 binary64 sqrt32 exOnes 0 Zone.Total 0
      (zoneOK_Total exOnes 0) (by decide) (by decide)).2.2.2 1 hc h32 (by decide) h64N).2.2.1⟩


/-! ## C35: the weight table of Smear in binary32 -/

set_option maxRecDepth 1000000 in
set_option maxHeartbeats 40000000 in
unseal Rat.mul Rat.inv Rat.add Rat.sub in
/-- The table of `Smear` in binary32 for the radii `1 .. 20` that it can hold:
the normalising constant is `N * N`, the weight of distance `d` is the
`float` nearest to `(N - d) / (N * N)`, and the weights of the offsets
`-(N - 1) .. N - 1` sum to 1 within `2^-25`. -/
theorem Smear_table_binary32 :
    ∀ N ∈ intRange 1 21,
      Smear.normF binary32 N = (N : ℚ) * N ∧
        (∀ d ∈ intRange 0 N,
          Smear.modF binary32 N d = binary32 (((N - d : Int) : ℚ) / ((N : ℚ) * N))) ∧
        1 - 1 / 2 ^ 25 ≤ Smear.modF binary32 N 0 +
          2 * ((intRange 1 N).map (fun d => Smear.modF binary32 N d)).sum ∧
        Smear.modF binary32 N 0 +
          2 * ((intRange 1 N).map (fun d => Smear.modF binary32 N d)).sum ≤ 1 + 1 / 2 ^ 25 := by
  decide

/-- C35, amended. The kernel of `Smear` for a radius `1 <= N <= 20`, the
table `mod` having 20 entries. In arithmetic without rounding the normalising
constant is `N * N`, each weight is `mod[d] = (N - d) / (N * N)` for
`0 <= d < N`, and `mod[0] + 2 * (mod[1] + ... + mod[N - 1])`, the sum of the
weights over the offsets `-(N - 1) .. N - 1`, is 1. In binary32 the
normalising constant is `N * N` as well, each weight is the `float` nearest to
`(N - d) / (N * N)`, and the sum of the weights is 1 within `2^-25`. -/
theorem Smear_kernel_unit_sum (N : Int) (hN : 1 ≤ N) (h20 : N ≤ 20) :
    (Smear.norm N = (N : ℚ) * N ∧
      (∀ d : Int, 0 ≤ d → d < N → Smear.mod N d = ((N - d : Int) : ℚ) / ((N : ℚ) * N)) ∧
      Smear.mod N 0 + 2 * ((intRange 1 N).map (fun d => Smear.mod N d)).sum = 1) ∧
    (Smear.normF binary32 N = (N : ℚ) * N ∧
      (∀ d : Int, 0 ≤ d → d < N →
        Smear.modF binary32 N d = binary32 (((N - d : Int) : ℚ) / ((N : ℚ) * N))) ∧
      1 - 1 / 2 ^ 25 ≤ Smear.modF binary32 N 0 +
        2 * ((intRange 1 N).map (fun d => Smear.modF binary32 N d)).sum ∧
      Smear.modF binary32 N 0 +
        2 * ((intRange 1 N).map (fun d => Smear.modF binary32 N d)).sum ≤ 1 + 1 / 2 ^ 25) := by
  obtain ⟨b1, b2, b3, b4⟩ := Smear_table_binary32 N ((mem_intRange 1 21 N).2 ⟨hN, by omega⟩)
  exact ⟨Smear_kernel_exact N hN,
    b1, fun d h0 h1 => b2 d ((mem_intRange 0 N d).2 ⟨h0, h1⟩), b3, b4⟩

theorem Smear_kernel_unit_sum_witness :
    (1 : Int) ≤ 3 ∧ (3 : Int) ≤ 20 ∧
    ((Smear.norm 3 = (3 : ℚ) * 3 ∧
      (∀ d : Int, 0 ≤ d → d < 3 →
        Smear.mod 3 d = ((3 - d : Int) : ℚ) / (((3 : Int) : ℚ) * ((3 : Int) : ℚ))) ∧
      Smear.mod 3 0 + 2 * ((intRange 1 3).map (fun d => Smear.mod 3 d)).sum = 1) ∧
    (Smear.normF binary32 3 = (3 : ℚ) * 3 ∧
      (∀ d : Int, 0 ≤ d → d < 3 →
        Smear.modF binary32 3 d =
          binary32 (((3 - d : Int) : ℚ) / (((3 : Int) : ℚ) * ((3 : Int) : ℚ)))) ∧
      1 - 1 / 2 ^ 25 ≤ Smear.modF binary32 3 0 +
        2 * ((intRange 1 3).map (fun d => Smear.modF binary32 3 d)).sum ∧
      Smear.modF binary32 3 0 +
        2 * ((intRange 1 3).map (fun d => Smear.modF binary32 3 d)).sum ≤ 1 + 1 / 2 ^ 25)) :=
  ⟨by decide, by decide, Smear_kernel_unit_sum 3 (by decide) (by decide)⟩

set_option maxRecDepth 100000 in
unseal Rat.mul Rat.inv Rat.add Rat.sub in
/-- C35 as stated fails. For `N = 3` the table of `Smear` holds in binary32
`mod[0] = 11184811 / 2^25`, which is not `3 / 9`, and
`mod[0] + 2 * (mod[1] + mod[2])` is `1 + 2^-26` in exact arithmetic, not 1. -/
theorem Smear_kernel_sum_not_one :
    Smear.normF binary32 3 = 9 ∧
      Smear.modF binary32 3 0 = 11184811 / 33554432 ∧
      Smear.modF binary32 3 0 ≠ ((3 - 0 : Int) : ℚ) / (((3 : Int) : ℚ) * ((3 : Int) : ℚ)) ∧
      Smear.modF binary32 3 0 +
        2 * ((intRange 1 3).map (fun d => Smear.modF binary32 3 d)).sum = 1 + 1 / 2 ^ 26 ∧
      Smear.modF binary32 3 0 +
        2 * ((intRange 1 3).map (fun d => Smear.modF binary32 3 d)).sum ≠ 1 := by
  decide


/-! ## C39: Rough on a uniform map in binary32 -/

theorem Rough_collectF_fold (r32 sqrtd : ℚ → ℚ) (st : State) (m : Int → ℚ) (map1 N : Int)
    (c : Int × Int × Int) (k : ℚ) (L : List (Int × Int × Int))
    (hk : ∀ p ∈ L, m (Rough.LOC1 st map1 p) = k) (j : Nat)
    (h32 : ∀ i : Nat, i ≤ j + L.length → r32 ((i : ℚ) * k) = (i : ℚ) * k) :
    ∃ n : Nat, n ≤ j + L.length ∧ (j = 0 → n = 0 → L.filter (fun p => !Rough.far sqrtd N c p) = []) ∧
      L.foldl
        (fun (acc : List ℚ × ℚ × Int) p =>
          if Rough.far sqrtd N c p then acc
          else (acc.1 ++ [m (Rough.LOC1 st map1 p)], r32 (acc.2.1 + m (Rough.LOC1 st map1 p)),
            acc.2.2 + 1)) (List.replicate j k, (j : ℚ) * k, (j : Int)) =
      (List.replicate n k, (n : ℚ) * k, (n : Int)) := by
  induction L generalizing j with
  | nil => exact ⟨j, by simp, fun _ _ => rfl, rfl⟩
  | cons a L ih =>
    rw [List.foldl_cons]
    by_cases h : Rough.far sqrtd N c a = true
    · rw [if_pos h]
      obtain ⟨n, h1, h2, h3⟩ := ih (fun p hp => hk p (List.mem_cons_of_mem a hp)) j
        (fun i hi => h32 i (by simp only [List.length_cons]; omega))
      refine ⟨n, by simp only [List.length_cons]; omega, ?_, h3⟩
      intro j0 n0
      rw [List.filter_cons_of_neg (by simp [h])]
      exact h2 j0 n0
    · rw [if_neg h]
      have e : (List.replicate j k ++ [m (Rough.LOC1 st map1 a)],
          r32 ((j : ℚ) * k + m (Rough.LOC1 st map1 a)), (j : Int) + 1) =
          (List.replicate (j + 1) k, ((j + 1 : Nat) : ℚ) * k, ((j + 1 : Nat) : Int)) := by
        rw [hk a (List.mem_cons_self a L), List.replicate_succ']
        have := h32 (j + 1) (by simp only [List.length_cons]; omega)
        refine Prod.ext rfl (Prod.ext ?_ ?_)
        · simp only
          rw [← this]
          congr 1
          push_cast
          ring
        · simp only
          push_cast
          ring
      simp only
      rw [e]
      obtain ⟨n, h1, h2, h3⟩ := ih (fun p hp => hk p (List.mem_cons_of_mem a hp)) (j + 1)
        (fun i hi => h32 i (by simp only [List.length_cons]; omega))
      refine ⟨n, by simp only [List.length_cons]; omega, ?_, h3⟩
      intro _ n0
      exfalso
      subst n0
      have hl := congrArg (fun (r : List ℚ × ℚ × Int) => r.2.2) h3
      simp only at hl
      have hmono : ∀ (L : List (Int × Int × Int)) (acc : List ℚ × ℚ × Int),
          acc.2.2 ≤ (L.foldl
            (fun (acc : List ℚ × ℚ × Int) p =>
              if Rough.far sqrtd N c p then acc
              else (acc.1 ++ [m (Rough.LOC1 st map1 p)],
                r32 (acc.2.1 + m (Rough.LOC1 st map1 p)), acc.2.2 + 1)) acc).2.2 := by
        intro L
        induction L with
        | nil => intro acc; exact le_refl _
        | cons b L ihL =>
          intro acc
          rw [List.foldl_cons]
          by_cases hb : Rough.far sqrtd N c b = true
          · rw [if_pos hb]
            exact ihL acc
          · rw [if_neg hb]
            exact le_trans (by simp) (ihL _)
      have := hmono L (List.replicate (j + 1) k, ((j + 1 : Nat) : ℚ) * k, ((j + 1 : Nat) : Int))
      rw [hl] at this
      simp only [Nat.cast_add, Nat.cast_one, Nat.cast_zero] at this
      omega

/-- The sum `rms` of `Rough` with rounding is 0 at a voxel of the grid when
the source slot of the store holds one value `k` in every voxel, the radius
exceeds no dimension of the grid, and neither the counts `i` nor the
multiples `i * k` are rounded for `i` up to the number of points of the
neighbourhood loops. -/
theorem Rough_sumF_uniform (r32 r64 sqrtd : ℚ → ℚ) (st : State) (map1 N : Int)
    (hN : N ≤ st.X_LIM ∧ N ≤ st.Y_LIM ∧ N ≤ st.Z_LIM) (k : ℚ)
    (h32 : ∀ i : Nat, i ≤ (2 * N).toNat * ((2 * N).toNat * (2 * N).toNat) →
      r32 ((i : ℚ) * k) = (i : ℚ) * k ∧ r32 (i : ℚ) = (i : ℚ))
    (h64 : r64 0 = 0)
    (m : Int → ℚ) (hm : ∀ d ∈ st.grid, m (st.LOC d + st.XYZ_LIM * map1) = k)
    (c : Int × Int × Int) (hc : c ∈ st.grid) :
    Rough.sumF r32 r64 sqrtd st m map1 N c = 0 := by
  have hk : ∀ p ∈ Rough.loop c N, m (Rough.LOC1 st map1 p) = k := by
    intro p hp
    obtain ⟨d, hd, e⟩ := Rough_LOC1_grid st map1 N hN c hc p hp
    rw [e]
    exact hm d hd
  obtain ⟨n, h1, h2, h3⟩ := Rough_collectF_fold r32 sqrtd st m map1 N c k (Rough.loop c N) hk 0
    (fun i hi => (h32 i (by rw [Rough_loop_length] at hi; omega)).1)
  have h0 : r32 0 = 0 := by simpa using (h32 0 (Nat.zero_le _)).2
  have hc0 : Rough.collectF r32 sqrtd st m map1 N c = (List.replicate n k, (n : ℚ) * k, (n : Int)) := by
    unfold Rough.collectF
    simpa using h3
  unfold Rough.sumF
  rw [hc0]
  simp only
  have hfold : ∀ (a : ℚ) (j : Nat), r32 (k - a) = 0 →
      (List.replicate j k).foldl (fun (rms : ℚ) v => r32 (r64 (rms + r64 (r32 (v - a) ^ 2)))) 0
        = 0 := by
    intro a j ha
    induction j with
    | zero => rfl
    | succ j ih =>
      rw [List.replicate_succ, List.foldl_cons, ha]
      simp only [ne_eq, OfNat.ofNat_ne_zero, not_false_eq_true, zero_pow, h64, add_zero, h0]
      exact ih
  by_cases hn : n = 0
  · subst hn
    rfl
  · apply hfold
    have hnq : (n : ℚ) ≠ 0 := by exact_mod_cast hn
    have hn1 : 1 ≤ (2 * N).toNat * ((2 * N).toNat * (2 * N).toNat) := by
      rw [Rough_loop_length] at h1
      omega
    have h1k : r32 k = k := by simpa using (h32 1 hn1).1
    rw [Int.cast_natCast, (h32 n (by rw [Rough_loop_length] at h1; omega)).2,
      mul_div_cancel_left₀ k hnq, h1k, sub_self, h0]

/-- The loop of `Rough` with rounding over voxels of the grid, on a store
whose source slot holds one value in every voxel: the source slot stays as it
is, and the destination holds 0 at every voxel of the loop and wherever it
held 0. -/
theorem Rough_foldF_uniform (r32 r64 sqrtd sqrt : ℚ → ℚ) (hs0 : sqrt 0 = 0) (st : State)
    (hwf : st.WF) (map1 map2 N : Int) (h12 : map1 ≠ map2)
    (hN : N ≤ st.X_LIM ∧ N ≤ st.Y_LIM ∧ N ≤ st.Z_LIM) (k : ℚ)
    (h32 : ∀ i : Nat, i ≤ (2 * N).toNat * ((2 * N).toNat * (2 * N).toNat) →
      r32 ((i : ℚ) * k) = (i : ℚ) * k ∧ r32 (i : ℚ) = (i : ℚ))
    (h64 : r64 0 = 0)
    (L : List (Int × Int × Int)) (hL : ∀ c ∈ L, c ∈ st.grid) (m : Int → ℚ)
    (hm : ∀ d ∈ st.grid, m (st.LOC d + st.XYZ_LIM * map1) = k) :
    (∀ d ∈ st.grid,
        (L.foldl (Rough.voxelF r32 r64 sqrtd sqrt st map1 map2 N) m)
          (st.LOC d + st.XYZ_LIM * map1) = k) ∧
      ∀ d ∈ st.grid, (d ∈ L ∨ m (st.LOC d + st.XYZ_LIM * map2) = 0) →
        (L.foldl (Rough.voxelF r32 r64 sqrtd sqrt st map1 map2 N) m)
          (st.LOC d + st.XYZ_LIM * map2) = 0 := by
  induction L generalizing m with
  | nil =>
    refine ⟨hm, ?_⟩
    intro d _ h
    rcases h with h | h
    · cases h
    · exact h
  | cons e L ih =>
    rw [List.foldl_cons]
    have he : e ∈ st.grid := hL e (List.mem_cons_self _ _)
    have hv : Rough.voxelF r32 r64 sqrtd sqrt st map1 map2 N m e =
        Function.update m (st.LOC e + st.XYZ_LIM * map2) 0 := by
      have hv0 : Rough.voxelF r32 r64 sqrtd sqrt st map1 map2 N m e =
          Function.update m (st.LOC e + st.XYZ_LIM * map2)
            (sqrt (Rough.sumF r32 r64 sqrtd st m map1 N e)) := rfl
      rw [hv0, Rough_sumF_uniform r32 r64 sqrtd st map1 N hN k h32 h64 m hm e he, hs0]
    rw [hv]
    have hm2 : ∀ d ∈ st.grid,
        Function.update m (st.LOC e + st.XYZ_LIM * map2) 0 (st.LOC d + st.XYZ_LIM * map1) =
          k := by
      intro d hd
      rw [Function.update_noteq, hm d hd]
      intro q
      exact h12 (st.index_inj2 hwf d e map1 map2 hd he q).2
    obtain ⟨i1, i2⟩ := ih (fun c hc => hL c (List.mem_cons_of_mem _ hc)) _ hm2
    refine ⟨i1, ?_⟩
    intro d hd h
    apply i2 d hd
    by_cases q : st.LOC d + st.XYZ_LIM * map2 = st.LOC e + st.XYZ_LIM * map2
    · right
      rw [q, Function.update_same]
    · rw [Function.update_noteq q]
      rcases h with h | h
      · rcases List.mem_cons.1 h with rfl | hdL
        · exact absurd rfl q
        · exact Or.inl hdL
      · exact Or.inr h

/-- C39, amended. Roughness of a uniform map (well-formed grid, `sqrt 0 = 0`),
for distinct source and destination slots and every radius `N` whose capped
value `K` (10 for `N > 10`) exceeds no dimension of the grid, when every voxel
of the source holds one constant `k`. In arithmetic without rounding `Rough`
writes 0 to every voxel of the destination and leaves the source as it is.
With the rounding of the program (`r32`, `r64`, with `r64 0 = 0`) it does so
when neither the counts `i` nor the multiples `i * k` are rounded for `i` up
to `(2 * K) ^ 3`, the number of points of a neighbourhood. -/
theorem Rough_uniform_zero (r32 r64 sqrtd sqrt : ℚ → ℚ) (hs0 : sqrt 0 = 0) (st : State)
    (hwf : st.WF) (map1 map2 N : Int) (h12 : map1 ≠ map2)
    (hN : (if N > 10 then 10 else N) ≤ st.X_LIM ∧ (if N > 10 then 10 else N) ≤ st.Y_LIM ∧
      (if N > 10 then 10 else N) ≤ st.Z_LIM) (k : ℚ)
    (hsrc : ∀ d ∈ st.grid, st.voxel map1 d = k) :
    (∀ d ∈ st.grid, (Rough sqrt st map1 map2 N).voxel map2 d = 0 ∧
      (Rough sqrt st map1 map2 N).voxel map1 d = k) ∧
    ((∀ i : Nat, i ≤ (2 * (if N > 10 then 10 else N)).toNat *
        ((2 * (if N > 10 then 10 else N)).toNat * (2 * (if N > 10 then 10 else N)).toNat) →
        r32 ((i : ℚ) * k) = (i : ℚ) * k ∧ r32 (i : ℚ) = (i : ℚ)) →
      r64 0 = 0 →
      ∀ d ∈ st.grid, (RoughF r32 r64 sqrtd sqrt st map1 map2 N).voxel map2 d = 0 ∧
        (RoughF r32 r64 sqrtd sqrt st map1 map2 N).voxel map1 d = k) := by
  refine ⟨Rough_uniform_exact sqrt hs0 st hwf map1 map2 N h12 hN k hsrc, ?_⟩
  intro h32 h64 d hd
  have hm : ∀ d ∈ st.grid, st.MAP (st.LOC d + st.XYZ_LIM * map1) = k := by
    intro d hd
    rw [← st.voxel_eq]
    exact hsrc d hd
  obtain ⟨i1, i2⟩ := Rough_foldF_uniform r32 r64 sqrtd sqrt hs0 st hwf map1 map2
    (if N > 10 then 10 else N) h12 hN k h32 h64 st.grid (fun c hc => hc) st.MAP hm
  have e2 : (RoughF r32 r64 sqrtd sqrt st map1 map2 N).voxel map2 d =
      (st.grid.foldl (Rough.voxelF r32 r64 sqrtd sqrt st map1 map2
        (if N > 10 then 10 else N)) st.MAP) (st.LOC d + st.XYZ_LIM * map2) := by
    rw [State.voxel_eq]
    rfl
  have e1 : (RoughF r32 r64 sqrtd sqrt st map1 map2 N).voxel map1 d =
      (st.grid.foldl (Rough.voxelF r32 r64 sqrtd sqrt st map1 map2
        (if N > 10 then 10 else N)) st.MAP) (st.LOC d + st.XYZ_LIM * map1) := by
    rw [State.voxel_eq]
    rfl
  rw [e1, e2]
  exact ⟨i2 d hd (Or.inl hd), i1 d hd⟩

set_option maxRecDepth 1000000 in
set_option maxHeartbeats 40000000 in
unseal Rat.mul Rat.inv Rat.add Rat.sub in
theorem Rough_uniform_zero_witness :
    sqrt32 0 = 0 ∧ exCube.WF ∧ (0 : Int) ≠ 1 ∧
      (∀ d ∈ exCube.grid, exCube.voxel 0 d = 1) ∧
      (∀ i : Nat, i ≤ 216 →
        binary32 ((i : ℚ) * 1) = (i : ℚ) * 1 ∧ binary32 (i : ℚ) = (i : ℚ)) ∧
      binary64 0 = 0 ∧
      (∀ d ∈ exCube.grid, (Rough sqrt32 exCube 0 1 3).voxel 1 d = 0 ∧
        (Rough sqrt32 exCube 0 1 3).voxel 0 d = 1) ∧
      (∀ d ∈ exCube.grid,
        (RoughF binary32 binary64 sqrt64to32 sqrt32 exCube 0 1 3).voxel 1 d = 0 ∧
          (RoughF binary32 binary64 sqrt64to32 sqrt32 exCube 0 1 3).voxel 0 d = 1) :=
  have h32 : ∀ i : Nat, i ≤ 216 →
      binary32 ((i : ℚ) * 1) = (i : ℚ) * 1 ∧ binary32 (i : ℚ) = (i : ℚ) := by decide
  ⟨by decide, ⟨rfl, rfl⟩, by decide, by decide, h32, by decide,
    (Rough_uniform_zero binary32 binary64 sqrt64to32 sqrt32 (by decide) exCube ⟨rfl, rfl⟩ 0 1 3
      (by decide) (by decide) 1 (by decide)).1,
    (Rough_uniform_zero binary32 binary64 sqrt64to32 sqrt32 (by decide) exCube ⟨rfl, rfl⟩ 0 1 3
      (by decide) (by decide) 1 (by decide)).2 h32 (by decide)⟩

set_option maxRecDepth 1000000 in
set_option maxHeartbeats 40000000 in
unseal Rat.mul Rat.inv Rat.add Rat.sub in
/-- C39 as stated fails, in two ways. On `exDot` (a `1 * 1 * 1` grid, map slot
0 holding 5, map slot 1 holding 1) the source slot 1 is uniform, but with
`N = 2` the points two steps away wrap to coordinate 0 and are read from slot
0: `Rough` writes 7, the stand-in root of `216/5`, to the destination slot 2.
On `exEight` (a `2 * 2 * 2` grid whose slot 0 holds the `float` nearest to 0.3
in every voxel) with `N = 2`, which exceeds no dimension, the additions of the
neighbourhood loops round in binary32, the mean differs from the voxel value
and `Rough` writes `8614931 / 2^44` to the voxel `(1,1,1)` of the destination
slot 1, not 0. -/
theorem Rough_uniform_not_zero :
    ((∀ d ∈ exDot.grid, exDot.voxel 1 d = 1) ∧
      Rough.LOC1 exDot 1 (-1, 1, 1) = 0 ∧
      Rough.far exRootUp 2 (1, 1, 1) (-1, 1, 1) = false ∧
      (Rough exRootUp exDot 1 2 2).voxel 2 (1, 1, 1) = 7) ∧
    ((∀ d ∈ exEight.grid, exEight.voxel 0 d = exTenths) ∧ binary32 exTenths = exTenths ∧
      (RoughF binary32 binary64 sqrt64to32 sqrt32 exEight 0 1 2).voxel 1 (1, 1, 1) =
        8614931 / 2 ^ 44) := by
  decide


/-! ## C29: the coordinate round trip in binary32 -/

set_option maxRecDepth 1000000 in
set_option maxHeartbeats 40000000 in
unseal Rat.mul Rat.inv Rat.add Rat.sub in
/-- C29 as stated fails in binary32. With cell edges 5, the three angles a
quarter turn (`sin` returning 1 and `cos` about `-4.37e-8` there) and
`Y_CELL = 7`, the fractional coordinate `(0, y, 0)` with `y` the `float`
nearest to `3 / 7` has `y * Y_CELL = 3` in binary32; `C2C_y` gives
`4493897 / 2^21` and `C2C_z` gives 0, and `C2C_Y` on that triple has
`3 - 2^-22` before the conversion to `int` and returns 2. -/
theorem C2C_roundtrip_binary32 :
    binary32 (3 / 7) = 14380471 / 2 ^ 25 ∧
      binary32 (14380471 / 2 ^ 25 * ((exSeven.Y_CELL : Int) : ℚ)) = 3 ∧
      C2C_yF binary32 exSinF exCosF sqrt32 1 0 (14380471 / 2 ^ 25) 0 5 5 5
        exQuarter exQuarter exQuarter = 4493897 / 2 ^ 21 ∧
      C2C_zF binary32 exSinF exCosF sqrt32 1 0 (14380471 / 2 ^ 25) 0 5 5 5
        exQuarter exQuarter exQuarter = 0 ∧
      C2C_Y.valueF binary32 exSinF exCosF sqrt32 exSeven 1
        (C2C_xF binary32 exSinF exCosF sqrt32 1 0 (14380471 / 2 ^ 25) 0 5 5 5
          exQuarter exQuarter exQuarter)
        (C2C_yF binary32 exSinF exCosF sqrt32 1 0 (14380471 / 2 ^ 25) 0 5 5 5
          exQuarter exQuarter exQuarter)
        (C2C_zF binary32 exSinF exCosF sqrt32 1 0 (14380471 / 2 ^ 25) 0 5 5 5
          exQuarter exQuarter exQuarter)
        5 5 5 exQuarter exQuarter exQuarter = 3 - 1 / 2 ^ 22 ∧
      C2C_YF binary32 exSinF exCosF sqrt32 exSeven 1
        (C2C_xF binary32 exSinF exCosF sqrt32 1 0 (14380471 / 2 ^ 25) 0 5 5 5
          exQuarter exQuarter exQuarter)
        (C2C_yF binary32 exSinF exCosF sqrt32 1 0 (14380471 / 2 ^ 25) 0 5 5 5
          exQuarter exQuarter exQuarter)
        (C2C_zF binary32 exSinF exCosF sqrt32 1 0 (14380471 / 2 ^ 25) 0 5 5 5
          exQuarter exQuarter exQuarter)
        5 5 5 exQuarter exQuarter exQuarter = 2 := by
  decide


/-! ## C1: the round trip within a session -/

set_option maxRecDepth 1000000 in
set_option maxHeartbeats 40000000 in
unseal Rat.mul Rat.inv Rat.add Rat.sub in
/-- C1 fails in the program. In `exRef` (a `2 * 1 * 1` grid, slot 0 holding
`1, 2`) `WriteMap` of slot 0 returns 0 after passing the 1032 bytes of
`exWritten` to `fwrite`, which is less than a buffer of the C library (4096
bytes): the stream is not closed, so the file holds nothing while the program
runs. The non-reference `ReadMap` of that file into slot 1 finds no header
field, compares the grid counts with the counts 0 that `MAP_H[1]` holds,
returns 2 and loads no voxel. On the same items once they are all in the
file, `ReadMap` returns 0 and slot 1 holds `1, 2`. -/
theorem WriteMap_ReadMap_in_session :
    WriteMap exRef true 0 = (0, some exWritten) ∧
      fileBytes exWritten.items = 1032 ∧
      (onDisk 4096 exWritten.items).length = 0 ∧
      (ReadMap.raw exCellVolume exRef (some (onDisk 4096 exWritten.items)) 1 0).map
        (fun r => r.1) = some 2 ∧
      (ReadMap.raw exCellVolume exRef (some (onDisk 4096 exWritten.items)) 1 0).map
        (fun r => (r.2.voxel 1 (1, 1, 1), r.2.voxel 1 (2, 1, 1))) = some (0, 0) ∧
      (exRef.voxel 0 (1, 1, 1), exRef.voxel 0 (2, 1, 1)) = (1, 2) ∧
      (ReadMap.raw exCellVolume exRef (some exWritten.items) 1 0).map (fun r => r.1) =
        some 0 ∧
      (ReadMap.raw exCellVolume exRef (some exWritten.items) 1 0).map
        (fun r => (r.2.voxel 1 (1, 1, 1), r.2.voxel 1 (2, 1, 1))) = some (1, 2) := by
  refine ⟨rfl, by decide, by decide, by decide, by decide, by decide, ?_, ?_⟩
  · rw [ReadMap_raw_items, Option.map_some']
    decide
  · rw [ReadMap_raw_items, Option.map_some']
    decide


end RsRf
